import Mathlib

/-!
# EM400 (MERA-400 emulator): CPU core, event list, MULTIX channel

A shallow embedding of `src/cpu/cpu.c`, of the handlers of
`src/cpu/instructions.c`, of `src/utils/elst.c` and of `src/io/mx/mx.c`, as
far as the properties below are about them.

* C globals (`r`, `ic`, `ir`, `ac`, `ar`, `mc`, `p`, `q`, ...) are the fields
  of `Cpu`; every C function is a Lean function on `Cpu`.
* `uint16_t` objects are `Nat`s kept below `2^16` by an explicit `% 65536`
  at every place where the C code can wrap.
* Declarations of headers that are not part of the sources (constants,
  decoder macros, the opcode table, the debugger hook, handlers of other
  units) are the fields of `Env`.
-/

namespace Em400

/-! ## Memory (`include/memory.h`) -/

/-- Physical memory: `mem_map[nb][ab]` points to a segment
`mem_segment[module][segment]` (or to nothing), and a segment holds
4096 words. A pointer to a segment is the pair `(module, segment)`. -/
structure Mem where
  mem_map : Nat → Nat → Option (Nat × Nat)
  mem_segment : Nat → Nat → Nat → Nat

/-- The storage cell behind the address `addr` of block `nb`:
module, segment and offset inside the segment. -/
def mem_ptr (m : Mem) (nb addr : Nat) : Option (Nat × Nat × Nat) :=
  match m.mem_map nb (addr >>> 12) with
  | none => none
  | some (mp, sg) => some (mp, sg, addr &&& 0xFFF)

/-- The word held by a storage cell. -/
def mem_get (m : Mem) (c : Nat × Nat × Nat) : Nat :=
  m.mem_segment c.1 c.2.1 c.2.2

/-- The memory after a 16-bit store into a storage cell: the word of the
cell is replaced, every other cell keeps its content, the map is kept. -/
def mem_set (m : Mem) (c : Nat × Nat × Nat) (data : Nat) : Mem :=
  { m with
    mem_segment := fun mp sg low =>
      if (mp, sg, low) = c then data % 65536 else m.mem_segment mp sg low }

/-- Modelled from the spec: `mem_read_1` (unit `mem/mem.c`) is not in the
sources. Section 4.1: `hi = addr >> 12`, `low = addr & 0xFFF`, the word lives
at `segment[low]` where `segment = map[block][hi]`; unmapped is a fault. -/
def mem_read_1 (m : Mem) (nb addr : Nat) : Option Nat :=
  match mem_ptr m nb addr with
  | none => none
  | some c => some (mem_get m c)

/-- Modelled from the spec: `mem_write_1` (unit `mem/mem.c`) is not in the
sources. Same translation as `mem_read_1`; `none` is the fault. -/
def mem_write_1 (m : Mem) (nb addr data : Nat) : Option Mem :=
  match mem_ptr m nb addr with
  | none => none
  | some c => some (mem_set m c data)

/-! ## CPU state (globals of `cpu.c`) -/

/-- The globals of `cpu.c`, the interrupt controller registers the CPU loop
looks at, and the memory. -/
structure Cpu where
  cpu_state : Int
  r : Nat → Nat
  ic : Nat
  kb : Nat
  ir : Nat
  ac : Nat
  ar : Nat
  rALARM : Bool
  mc : Nat
  rm : Nat
  nb : Nat
  p : Bool
  q : Bool
  bs : Bool
  zc17 : Bool
  cpu_mod_present : Bool
  cpu_mod_active : Bool
  cpu_user_io_illegal : Bool
  awp_enabled : Bool
  nomem_stop : Bool
  ips_counter : Nat
  rz : Nat → Bool
  xmask : Nat → Bool
  mem : Mem

/-- Handlers of `instructions.c`: the values a `fun` pointer of the opcode
table can take. -/
inductive Fn where
  | op_lw | op_tw | op_ls | op_ri | op_rw | op_pw | op_rj | op_is
  | op_bb | op_bm | op_bs | op_bc | op_bn | op_ou | op_in
  | op_37_ad | op_37_sd | op_37_mw | op_37_dw
  | op_37_af | op_37_sf | op_37_mf | op_37_df
  | op_aw | op_ac | op_sw | op_cw | op_or | op_om | op_nr | op_nm
  | op_er | op_em | op_xr | op_xm | op_cl | op_lb | op_rb | op_cb
  | op_awt | op_trb | op_irb | op_drb | op_cwt | op_lwt | op_lws | op_rws
  | op_70_jump | op_70_jvs
  | op_71_blc | op_71_exl | op_71_brc | op_71_nrf
  | op_72_ric | op_72_zlb | op_72_sxu | op_72_nga
  | op_72_slz | op_72_sly | op_72_slx | op_72_svz | op_72_svy | op_72_svx
  | op_72_sry | op_72_srx | op_72_srz | op_72_ngl | op_72_rpc | op_72_shc
  | op_72_rky | op_72_zrb | op_72_sxl | op_72_ngc | op_72_lpc
  | op_73_hlt | op_73_mcl | op_73_softint | op_73_giu | op_73_gil
  | op_73_lip | op_73_cron
  | op_74_jump | op_74_lj
  | op_75_ld | op_75_lf | op_75_la | op_75_ll
  | op_75_td | op_75_tf | op_75_ta | op_75_tl
  | op_76_rd | op_76_rf | op_76_ra | op_76_rl
  | op_76_pd | op_76_pf | op_76_pa | op_76_pl
  | op_77_mb | op_77_im | op_77_ki | op_77_fi | op_77_sp | op_77_md
  | op_77_rz | op_77_ib
  deriving DecidableEq, Repr

/-- An entry of the opcode table `cpu_op_tab` (`struct iset_opcode`). -/
structure iset_opcode where
  flags : Nat
  fun_ : Fn
  time : Int
  jmp_nef_mask : Nat
  jmp_nef_result : Nat

/-- Declarations the CPU core takes from headers and units that are not part
of the sources: constants, instruction-word macros, the opcode table built by
`iset_build`, the register write macro, the interrupt unit's mask expansion
and `int_serve`, the debugger hook, and the handlers not embedded here.
`io_dispatch dir n a s` is the call `io_dispatch(dir, n, r+a)` of the I/O
unit made in the state `s`: its result and the globals it leaves.
`io_reset s` is what the call `io_reset()` leaves of the two things the I/O
units share with the CPU, the pending interrupts and the memory;
`mem_reset` is the effect of `mem_reset()` on the memory. `bin_is_end`,
`bin_is_valid` and `bin2word` are the helpers of the binary loader (unit
`utils/utils.c`), the last one on the array `bdata`. -/
structure Env where
  cpu_op_tab : Nat → iset_opcode
  OP_FL_ARG_NORM : Nat
  OP_FL_ARG_SHORT : Nat
  OP_FL_ARG_BYTE : Nat
  OP_FL_ILLEGAL : Nat
  OP_FL_USR_ILLEGAL : Nat
  IR_A : Nat → Nat
  IR_B : Nat → Nat
  IR_C : Nat → Nat
  IR_D : Nat → Nat
  IR_T : Nat → Int
  IR_b : Nat → Nat
  IR_t : Nat → Nat
  TIME_MEM_ARG : Int
  TIME_PREMOD : Int
  TIME_BMOD : Int
  TIME_DMOD : Int
  TIME_SHIFT : Int
  TIME_NOANS_IF : Int
  TIME_P : Int
  TIME_INT_SERVE : Int
  INT_NO_MEM : Nat
  INT_ILLEGAL_INSTRUCTION : Nat
  STACK_POINTER : Nat
  ECTL_STATE_ANY : Int
  ECTL_STATE_RUN : Int
  ECTL_STATE_STOP : Int
  ECTL_STATE_WAIT : Int
  ECTL_STATE_CYCLE : Int
  ECTL_STATE_OFF : Int
  REG_RESTRICT_WRITE : Nat → Nat → (Nat → Nat) → (Nat → Nat)
  int_rm2xmask : Nat → Nat → Bool
  int_serve : Cpu → Cpu
  ectl_brk_check : Cpu → Bool
  ext : Fn → Cpu → Cpu
  IO_OU : Int
  IO_IN : Int
  io_dispatch : Int → Nat → Nat → Cpu → Int × Cpu
  IO_OK : Int
  ECTL_STATE_CLM : Int
  ECTL_STATE_CLO : Int
  ECTL_STATE_BIN : Int
  io_reset : Cpu → (Nat → Bool) × Mem
  mem_reset : Mem → Mem
  bin_is_end : Nat → Bool
  bin_is_valid : Nat → Bool
  bin2word : (Nat → Nat) → Nat

/-! ## Interrupt controller interface -/

/-- Modelled from the spec: `int_set` (unit `cpu/interrupts.c`) is not in the
sources. Section 4.2, `set(n)`: the source `x` joins the pending set. -/
def int_set (x : Nat) (s : Cpu) : Cpu :=
  { s with rz := fun n => if n = x then true else s.rz n }

/-- Modelled from the spec: `int_clear_all` is not in the sources.
Section 4.2, `clear_all()`: no source is pending any more. -/
def int_clear_all (s : Cpu) : Cpu :=
  { s with rz := fun _ => false }

/-- Modelled from the spec: `int_update_mask` is not in the sources.
Section 3: the 10-bit software mask is expanded over the 32 sources. -/
def int_update_mask (E : Env) (new_rm : Nat) (s : Cpu) : Cpu :=
  { s with xmask := E.int_rm2xmask new_rm }

/-- Modelled from the spec: the word `rp` of the interrupt unit, as a truth
value. Section 3: `(pending & mask_expanded) != 0` over the 32 sources. -/
def rp (s : Cpu) : Bool :=
  (List.range 32).any (fun n => s.rz n && s.xmask n)

/-- Modelled from the spec: the macro `SR_READ` is not in the sources.
SR is (RM, Q, BS, NB); the bit positions are those `op_77_mb` and `op_77_im`
decode: RM in bits 6..15, Q bit 5, BS bit 4, NB bits 0..3. -/
def SR_READ (s : Cpu) : Nat :=
  ((s.rm <<< 6) ||| ((if s.q then 1 else 0) <<< 5) |||
    ((if s.bs then 1 else 0) <<< 4) ||| s.nb) % 65536

/-- Modelled from the spec: the macro `SR_WRITE` is not in the sources.
Inverse of `SR_READ`, with the masks of `op_77_mb` and `op_77_im`. -/
def SR_WRITE (x : Nat) (s : Cpu) : Cpu :=
  { s with
    rm := (x >>> 6) &&& 0b1111111111
    q := decide (x &&& 0b100000 ≠ 0)
    bs := decide (x &&& 0b010000 ≠ 0)
    nb := x &&& 0b001111 }

/-! ## `cpu.c` -/

/-- C function `cpu_state_change`: the result and the new state
(the broadcast on the condition variable has no effect on `Cpu`). -/
def cpu_state_change (E : Env) (to_ from_ : Int) (s : Cpu) : Int × Cpu :=
  if from_ = E.ECTL_STATE_ANY ∨ s.cpu_state = from_ then
    (0, { s with cpu_state := to_ })
  else
    (1, s)

/-- C function `cpu_mem_fail`. -/
def cpu_mem_fail (E : Env) (barnb : Bool) (s : Cpu) : Cpu :=
  let s1 := int_set E.INT_NO_MEM s
  if barnb = false then
    let s2 := { s1 with rALARM := true }
    if s2.nomem_stop = true then
      (cpu_state_change E E.ECTL_STATE_STOP E.ECTL_STATE_ANY s2).2
    else s2
  else s1

/-- The block `barnb * nb` of the C code. -/
def barnb_nb (barnb : Bool) (s : Cpu) : Nat :=
  (if barnb then 1 else 0) * s.nb

/-- C function `cpu_mem_read_1`: `none` is `false`, `some w` is `true` with
`*data = w`. The parameter `addr` is a `uint16_t`. -/
def cpu_mem_read_1 (E : Env) (barnb : Bool) (addr : Nat) (s : Cpu) :
    Option Nat × Cpu :=
  match mem_read_1 s.mem (barnb_nb barnb s) (addr % 65536) with
  | none => (none, cpu_mem_fail E barnb s)
  | some w => (some w, s)

/-- C function `cpu_mem_write_1`: the result and the new state. -/
def cpu_mem_write_1 (E : Env) (barnb : Bool) (addr data : Nat) (s : Cpu) :
    Bool × Cpu :=
  match mem_write_1 s.mem (barnb_nb barnb s) (addr % 65536) data with
  | none => (false, cpu_mem_fail E barnb s)
  | some m => (true, { s with mem := m })

/-- C function `cpu_ctx_switch`. The loop `for (i=0; i<4; i++, ar++)` is
unrolled; `ar` is a `uint16_t` and wraps. A failed access returns at once. -/
def cpu_ctx_switch (E : Env) (arg new_ic int_mask : Nat) (s : Cpu) : Cpu :=
  match cpu_mem_read_1 E false E.STACK_POINTER s with
  | (none, s1) => s1
  | (some sp, s1) =>
    let s2 := { s1 with ar := sp }
    let v0 := s2.ic
    let v1 := s2.r 0
    let v2 := SR_READ s2
    let v3 := arg % 65536
    match cpu_mem_write_1 E false s2.ar v0 s2 with
    | (false, t) => t
    | (true, t0) =>
      let s3 := { t0 with ar := (t0.ar + 1) % 65536 }
      match cpu_mem_write_1 E false s3.ar v1 s3 with
      | (false, t) => t
      | (true, t1) =>
        let s4 := { t1 with ar := (t1.ar + 1) % 65536 }
        match cpu_mem_write_1 E false s4.ar v2 s4 with
        | (false, t) => t
        | (true, t2) =>
          let s5 := { t2 with ar := (t2.ar + 1) % 65536 }
          match cpu_mem_write_1 E false s5.ar v3 s5 with
          | (false, t) => t
          | (true, t3) =>
            let s6 := { t3 with ar := (t3.ar + 1) % 65536 }
            match cpu_mem_write_1 E false E.STACK_POINTER s6.ar s6 with
            | (false, t) => t
            | (true, s7) =>
              let s8 := { s7 with r := fun n => if n = 0 then 0 else s7.r n }
              let s9 := { s8 with ic := new_ic % 65536 }
              let s10 := { s9 with q := false }
              let s11 := { s10 with rm := s10.rm &&& (int_mask % 65536) }
              int_update_mask E s11.rm s11

/-- C function `cpu_sp_rewind`. -/
def cpu_sp_rewind (E : Env) (s : Cpu) : Cpu :=
  match cpu_mem_read_1 E false E.STACK_POINTER s with
  | (none, s1) => s1
  | (some sp, s1) =>
    let s2 := { s1 with ar := sp }
    let s3 := { s2 with ar := (s2.ar + 65536 - 4) % 65536 }
    (cpu_mem_write_1 E false E.STACK_POINTER s3.ar s3).2

/-- C function `cpu_ctx_restore`. The loop `for (i=0; i<3; i++, ar++)` is
unrolled: the words go to `ic`, `r[0]` and `sr_tmp`; a failed read returns at
once, before `SR_WRITE`. -/
def cpu_ctx_restore (E : Env) (barnb : Bool) (s : Cpu) : Cpu :=
  match cpu_mem_read_1 E barnb s.ar s with
  | (none, t) => t
  | (some w0, t0) =>
    let s1 := { t0 with ic := w0 }
    let s2 := { s1 with ar := (s1.ar + 1) % 65536 }
    match cpu_mem_read_1 E barnb s2.ar s2 with
    | (none, t) => t
    | (some w1, t1) =>
      let s3 := { t1 with r := fun n => if n = 0 then w1 else t1.r n }
      let s4 := { s3 with ar := (s3.ar + 1) % 65536 }
      match cpu_mem_read_1 E barnb s4.ar s4 with
      | (none, t) => t
      | (some sr_tmp, t2) =>
        let s5 := { t2 with ar := (t2.ar + 1) % 65536 }
        let s6 := SR_WRITE sr_tmp s5
        int_update_mask E s6.rm s6

/-- C function `cpu_mod_off`; `clock_set_int` acts on the clock unit only. -/
def cpu_mod_off (s : Cpu) : Cpu :=
  { s with cpu_mod_active := false }

/-- C function `cpu_do_clear` (the logging calls have no effect on the
globals). -/
def cpu_do_clear (E : Env) (scope : Int) (s : Cpu) : Cpu :=
  let s1 := { s with rz := (E.io_reset s).1, mem := (E.io_reset s).2 }
  let s2 := { s1 with mem := E.mem_reset s1.mem }
  let s3 := cpu_mod_off s2
  let s4 := { s3 with r := fun n => if n = 0 then 0 else s3.r n }
  let s5 := SR_WRITE 0 s4
  let s6 := int_update_mask E s5.rm s5
  let s7 := int_clear_all s6
  if scope = E.ECTL_STATE_CLO then
    { s7 with rALARM := false, mc := 0 }
  else s7

/-- The static locals of `cpu_do_bin`. -/
structure Bin where
  words : Int
  data : Nat
  bdata : Nat → Nat
  cnt : Nat

/-- C function `cpu_do_bin`: the result, the static locals and the globals.
`io` is the outcome of the call `io_dispatch(IO_IN, ic, &data)`: its status
and the content it leaves in `data`. `bdata` is an array of `uint8_t`. -/
def cpu_do_bin (E : Env) (start : Bool) (io : Int × Nat) (b : Bin) (s : Cpu) :
    Bool × Bin × Cpu :=
  if start = true then
    (false, { b with words := 0, cnt := 0 }, s)
  else
    let b1 := { b with data := io.2 }
    if io.1 = E.IO_OK then
      let b2 := { b1 with
        bdata := fun i => if i = b1.cnt then (b1.data &&& 0xff) % 256 else b1.bdata i }
      if b2.cnt = 0 ∧ E.bin_is_end (b2.bdata b2.cnt) = true then
        (true, b2, s)
      else if E.bin_is_valid (b2.bdata b2.cnt) = true then
        let b3 := { b2 with cnt := b2.cnt + 1 }
        if b3.cnt ≥ 3 then
          let b4 := { b3 with cnt := 0 }
          match cpu_mem_write_1 E s.q s.ar (E.bin2word b4.bdata) s with
          | (true, s1) =>
            (false, { b4 with words := b4.words + 1 }, { s1 with ar := (s1.ar + 1) % 65536 })
          | (false, s1) => (false, b4, s1)
        else
          (false, b3, s)
      else
        (false, b2, s)
    else
      (false, b1, s)

/-- The globals `cpu_time_cumulative` and `cpu_timer` of `cpu.c`, and the
absolute times `clock_nanosleep` was called with, latest first. -/
structure Timekeeper where
  cpu_time_cumulative : Int
  tv_sec : Int
  tv_nsec : Int
  sleeps : List (Int × Int)

/-- The loop `while (cpu_timer.tv_nsec >= 1000000000)` of `cpu_timekeeping`,
run for at most `fuel` tests; `none` when the fuel is used up. -/
def timer_carry : Nat → Timekeeper → Option Timekeeper
  | 0, _ => none
  | fuel + 1, k =>
    if k.tv_nsec ≥ 1000000000 then
      timer_carry fuel { k with tv_nsec := k.tv_nsec - 1000000000, tv_sec := k.tv_sec + 1 }
    else some k

/-- C type `int` (32 bits): the value of an arithmetic result, `none` when it
is not representable, which is undefined behaviour for a signed operation or
a conversion from `float`. -/
def c_int (v : Int) : Option Int :=
  if -2147483648 ≤ v ∧ v ≤ 2147483647 then some v else none

/-- A finite value of the C type `float` (IEEE 754 binary32): the integer `m`
times 2 to the power `e`. The values of the type that `float32_round`
returns are the `float` values: `m` of at most 24 bits (or 2^24 itself) and
`e` not below -149. -/
structure float32 where
  m : Int
  e : Int
  deriving DecidableEq, Repr

/-- The number of binary digits of `n`, for `n ≤ fuel`: one more for every
halving that `n` takes to reach 0. -/
def nat_bits : Nat → Nat → Nat
  | 0, _ => 0
  | fuel + 1, n => if n = 0 then 0 else nat_bits fuel (n / 2) + 1

/-- The `float` nearest to the real number `m * 2 ^ e`, rounding to nearest,
ties to even: 24 significant bits, and no bit below 2^-149. A result of
2^128 or more, an infinity in C, stays a finite value here; as the infinity,
it has no `int` value. -/
def float32_round (m e : Int) : float32 :=
  let bits : Int := (nat_bits m.natAbs m.natAbs : Nat)
  let k : Int := if bits - 24 ≤ -149 - e then -149 - e else bits - 24
  if k ≤ 0 then { m := m, e := e }
  else
    let d : Nat := 2 ^ k.toNat
    let q : Nat := m.natAbs / d
    let r : Nat := m.natAbs % d
    let q1 : Nat := if d < 2 * r ∨ (2 * r = d ∧ q % 2 = 1) then q + 1 else q
    { m := m.sign * (q1 : Int), e := e + k }

/-- C conversion of an `int` to `float`. -/
def float32_of_int (n : Int) : float32 :=
  float32_round n 0

/-- C product of two `float` values, evaluated in `float`: the exact product,
rounded once. -/
def float32_mul (a b : float32) : float32 :=
  float32_round (a.m * b.m) (a.e + b.e)

/-- C conversion of a `float` to `int`: the fraction is discarded; `none`
(undefined) when the integral part is not an `int`. -/
def float32_to_int (x : float32) : Option Int :=
  c_int
    (if 0 ≤ x.e then x.m * (2 : Int) ^ x.e.toNat
     else x.m.sign * ((x.m.natAbs / 2 ^ (-x.e).toNat : Nat) : Int))

/-- C function `cpu_timekeeping`, for an `int` `cpu_time` and an `int` in
`cpu_time_cumulative`. `cpu_delay_factor` is the `float` set by `cpu_init`
(`none`: an infinity or a NaN), and `cpu_time *= cpu_delay_factor` converts
`cpu_time` to `float`, multiplies in `float`, and converts the product back
to `int`. The result is `none` where the C code has undefined behaviour (the
negation of `INT_MIN`, a product that is no `int`, an overflow of the `int`
sum `cpu_time_cumulative += cpu_time`) and when the loop on `tv_nsec` does
not end within `fuel` tests. `buzzer_update` acts on the buzzer only, and
`clock_nanosleep` is repeated until it is not interrupted, which is one entry
of `sleeps`. -/
def cpu_timekeeping (cpu_delay_factor : Option float32) (throttle_granularity : Int)
    (fuel : Nat) (cpu_time : Int) (k : Timekeeper) : Option Timekeeper :=
  let skip_sleep := decide (cpu_time < 0)
  match (if cpu_time < 0 then c_int (cpu_time * -1) else some cpu_time) with
  | none => none
  | some t1 =>
    match cpu_delay_factor with
    | none => none
    | some f =>
      match float32_to_int (float32_mul (float32_of_int t1) f) with
      | none => none
      | some t2 =>
        match c_int (k.cpu_time_cumulative + t2) with
        | none => none
        | some c =>
          let k1 := { k with cpu_time_cumulative := c }
          if skip_sleep = false ∧ k1.cpu_time_cumulative ≥ throttle_granularity then
            match timer_carry fuel
                { k1 with tv_nsec := k1.tv_nsec + k1.cpu_time_cumulative } with
            | none => none
            | some k2 =>
              some { k2 with cpu_time_cumulative := 0,
                             sleeps := (k2.tv_sec, k2.tv_nsec) :: k2.sleeps }
          else some k1

/-! ## `instructions.c` -/

/-- Modelled from the spec: `cpu_mem_get` is not in the sources; the handlers
call it with a block number (`nb`, `QNB` or `0`). Section 4.6 (`TW`
Rx=[NB:AC]): the word of that block is read. Section 7 and scenario S4: a
fault of such an access raises NO-MEM, sets RALARM and, under
`stop_on_nomem`, stops the CPU, "since `barnb` is false"; that is
`cpu_mem_fail` with `barnb` false. -/
def cpu_mem_get (E : Env) (block addr : Nat) (s : Cpu) : Option Nat × Cpu :=
  match mem_read_1 s.mem block (addr % 65536) with
  | none => (none, cpu_mem_fail E false s)
  | some w => (some w, s)

/-- Modelled from the spec: `cpu_mem_put` is not in the sources; the handlers
call it with a block number. Section 4.6 (`PW` [NB:AC]=Rx) and section 7,
as for `cpu_mem_get`. -/
def cpu_mem_put (E : Env) (block addr data : Nat) (s : Cpu) : Bool × Cpu :=
  match mem_write_1 s.mem block (addr % 65536) data with
  | none => (false, cpu_mem_fail E false s)
  | some m => (true, { s with mem := m })

/-- C function `op_lw`. -/
def op_lw (E : Env) (s : Cpu) : Cpu :=
  { s with r := E.REG_RESTRICT_WRITE (E.IR_A s.ir) s.ac s.r }

/-- C function `op_tw`. -/
def op_tw (E : Env) (s : Cpu) : Cpu :=
  match cpu_mem_get E s.nb s.ac s with
  | (some data, s1) =>
    { s1 with r := E.REG_RESTRICT_WRITE (E.IR_A s1.ir) data s1.r }
  | (none, s1) => s1

/-- C function `op_pw`. -/
def op_pw (E : Env) (s : Cpu) : Cpu :=
  (cpu_mem_put E s.nb s.ac (s.r (E.IR_A s.ir)) s).2

/-- C function `op_77_md`. -/
def op_77_md (E : Env) (s : Cpu) : Cpu :=
  if s.mc ≥ 3 then
    { int_set E.INT_ILLEGAL_INSTRUCTION s with mc := 0 }
  else
    { s with mc := s.mc + 1 }

/-- C function `op_is`. -/
def op_is (E : Env) (s : Cpu) : Cpu :=
  match cpu_mem_get E s.nb s.ac s with
  | (some data, s1) =>
    if data &&& s1.r (E.IR_A s1.ir) = s1.r (E.IR_A s1.ir) then
      { s1 with p := true }
    else
      (cpu_mem_put E s1.nb s1.ac (data ||| s1.r (E.IR_A s1.ir)) s1).2
  | (none, s1) => s1

/-- C function `op_72_shc`; `falling` is a `uint16_t`. -/
def op_72_shc (E : Env) (s : Cpu) : Cpu :=
  if E.IR_t s.ir = 0 then s
  else
    let falling :=
      ((s.r (E.IR_A s.ir) &&& ((1 <<< E.IR_t s.ir) - 1)) <<< (16 - E.IR_t s.ir)) % 65536
    { s with
      r := E.REG_RESTRICT_WRITE (E.IR_A s.ir)
        ((s.r (E.IR_A s.ir) >>> E.IR_t s.ir) ||| falling) s.r }

/-- Modelled from the spec: the block read of the memory unit (section 4.1,
`read_block`): the words of `len` consecutive addresses of the block, from
`addr` on, stopping at the first fault. -/
def mem_mget (m : Mem) (nb : Nat) : Nat → Nat → List Nat
  | _, 0 => []
  | addr, len + 1 =>
    match mem_read_1 m nb (addr % 65536) with
    | none => []
    | some w => w :: mem_mget m nb (addr + 1) len

/-- Modelled from the spec: `cpu_mem_mget` is not in the sources. Section 4.1
(`read_block` returns the number of words transferred, here the length of the
list) and section 7, as for `cpu_mem_get`: a short transfer is a fault that
goes to `cpu_mem_fail`. -/
def cpu_mem_mget (E : Env) (block addr len : Nat) (s : Cpu) : List Nat × Cpu :=
  if (mem_mget s.mem block addr len).length = len then
    (mem_mget s.mem block addr len, s)
  else
    (mem_mget s.mem block addr len, cpu_mem_fail E false s)

/-- C function `op_77_sp` (the logging calls have no effect on the
globals). -/
def op_77_sp (E : Env) (s : Cpu) : Cpu :=
  let res := cpu_mem_mget E s.nb s.ac 3 s
  if res.1.length ≠ 3 then res.2
  else
    let s1 := { res.2 with ic := res.1.getD 0 0 }
    let s2 := { s1 with r := fun n => if n = 0 then res.1.getD 1 0 else s1.r n }
    let s3 := SR_WRITE (res.1.getD 2 0) s2
    int_update_mask E s3.rm s3

/-- The address `ic + io_result` of `op_ou` and `op_in`, an `int`, as the
`uint16_t` argument of `cpu_mem_get`. -/
def io_vector_addr (ic : Nat) (io_result : Int) : Nat :=
  (((ic : Int) + io_result) % 65536).toNat

/-- The common body of `op_ou` and `op_in`: `dir` is `IO_OU` or `IO_IN`;
`QNB` is `q * nb`. -/
def op_io (E : Env) (dir : Int) (s : Cpu) : Cpu :=
  let res := E.io_dispatch dir s.ac (E.IR_A s.ir) s
  let s1 := res.2
  match cpu_mem_get E (barnb_nb s1.q s1) (io_vector_addr s1.ic res.1) s1 with
  | (some data, s2) => { s2 with ic := data }
  | (none, s2) => s2

/-- C function `op_ou`. -/
def op_ou (E : Env) (s : Cpu) : Cpu :=
  op_io E E.IO_OU s

/-- C function `op_in`. -/
def op_in (E : Env) (s : Cpu) : Cpu :=
  op_io E E.IO_IN s

/-- The call `op->fun()`: the handlers embedded here, every other handler
through `Env.ext`. -/
def op_fun (E : Env) (f : Fn) (s : Cpu) : Cpu :=
  match f with
  | Fn.op_lw => op_lw E s
  | Fn.op_tw => op_tw E s
  | Fn.op_pw => op_pw E s
  | Fn.op_77_md => op_77_md E s
  | Fn.op_ou => op_ou E s
  | Fn.op_in => op_in E s
  | Fn.op_is => op_is E s
  | Fn.op_72_shc => op_72_shc E s
  | Fn.op_77_sp => op_77_sp E s
  | g => E.ext g s

/-! ## `cpu_do_cycle` and `cpu_loop` -/

/-- The way `cpu_do_cycle` ended: its normal `return`, or one of its two
labels. -/
inductive Exit where
  | executed | ineffective | ineffective_memfail
  deriving DecidableEq, Repr

/-- Result of `cpu_do_cycle`: the returned `instruction_time`, the exit taken
and the globals. -/
structure Cycle where
  instruction_time : Int
  exit : Exit
  cpu : Cpu

/-- Label `ineffective` of `cpu_do_cycle`. -/
def cycle_ineffective (E : Env) (t : Int) (s : Cpu) : Cycle :=
  { instruction_time := t + E.TIME_P
    exit := Exit.ineffective
    cpu := { s with p := false, mc := 0 } }

/-- Label `ineffective_memfail` of `cpu_do_cycle`, which falls through to
`ineffective`. -/
def cycle_ineffective_memfail (E : Env) (t : Int) (s : Cpu) : Cycle :=
  { instruction_time := t + E.TIME_NOANS_IF + E.TIME_P
    exit := Exit.ineffective_memfail
    cpu := { s with p := false, mc := 0 } }

/-- The part of `cpu_do_cycle` from "execute instruction" to the normal
`return`. -/
def cycle_execute (E : Env) (op : iset_opcode) (t : Int) (s : Cpu) : Cycle :=
  let s1 := op_fun E op.fun_ s
  let t1 := t + op.time
  let s2 := if op.fun_ ≠ Fn.op_77_md then { s1 with mc := 0 } else s1
  let t2 :=
    if op.fun_ = Fn.op_72_shc then t1 + (E.IR_t s2.ir : Int) * E.TIME_SHIFT
    else if op.fun_ = Fn.op_ou then t1 * -1
    else t1
  { instruction_time := t2, exit := Exit.executed, cpu := s2 }

/-- The block "pre-mod" of `cpu_do_cycle`: the globals. -/
def cycle_premod (s : Cpu) : Cpu :=
  if s.mc ≠ 0 then
    { s with zc17 := decide (s.ac + s.ar > 0xffff), ac := (s.ac + s.ar) % 65536 }
  else
    { s with zc17 := false }

/-- The block "pre-mod" of `cpu_do_cycle`: `instruction_time`. -/
def cycle_premod_time (E : Env) (t : Int) (s : Cpu) : Int :=
  if s.mc ≠ 0 then t + E.TIME_PREMOD else t

/-- The block "B-mod" of `cpu_do_cycle`: the globals. -/
def cycle_bmod (E : Env) (op : iset_opcode) (s : Cpu) : Cpu :=
  if op.flags &&& E.OP_FL_ARG_NORM ≠ 0 ∧ E.IR_B s.ir ≠ 0 then
    { s with zc17 := decide (s.ac + s.r (E.IR_B s.ir) > 0xffff),
             ac := (s.ac + s.r (E.IR_B s.ir)) % 65536 }
  else s

/-- The block "B-mod" of `cpu_do_cycle`: `instruction_time`. -/
def cycle_bmod_time (E : Env) (op : iset_opcode) (t : Int) (s : Cpu) : Int :=
  if op.flags &&& E.OP_FL_ARG_NORM ≠ 0 ∧ E.IR_B s.ir ≠ 0 then t + E.TIME_BMOD else t

/-- The part of `cpu_do_cycle` from `ar = ac` on: D-mod, then the
execution. -/
def cycle_dmod (E : Env) (op : iset_opcode) (t : Int) (s : Cpu) : Cycle :=
  let s3 := { s with ar := s.ac }
  if op.flags &&& E.OP_FL_ARG_NORM ≠ 0 ∧ E.IR_D s3.ir ≠ 0 then
    match cpu_mem_read_1 E s3.q s3.ac s3 with
    | (none, s4) => cycle_ineffective_memfail E t s4
    | (some w, s4) =>
      let s5 := { s4 with ac := w }
      let s6 := { s5 with ar := s5.ac }
      cycle_execute E op (t + E.TIME_DMOD) s6
  else
    cycle_execute E op t s3

/-- The part of `cpu_do_cycle` from "pre-mod" on: pre-mod, B-mod, the
synchronisation of AR, D-mod, and the execution. -/
def cycle_modify (E : Env) (op : iset_opcode) (t : Int) (s : Cpu) : Cycle :=
  cycle_dmod E op
    (cycle_bmod_time E op (cycle_premod_time E t s) (cycle_premod s))
    (cycle_bmod E op (cycle_premod s))

/-- The part of `cpu_do_cycle` from "get the argument" on. -/
def cycle_argument (E : Env) (op : iset_opcode) (s : Cpu) : Cycle :=
  if op.flags &&& E.OP_FL_ARG_NORM ≠ 0 then
    if E.IR_C s.ir ≠ 0 then
      cycle_modify E op 0 { s with ac := s.r (E.IR_C s.ir) }
    else
      match cpu_mem_read_1 E s.q s.ic s with
      | (none, s1) => cycle_ineffective_memfail E 0 s1
      | (some w, s1) =>
        let s2 := { s1 with ac := w }
        let s3 := { s2 with ic := (s2.ic + 1) % 65536 }
        cycle_modify E op (0 + E.TIME_MEM_ARG) s3
  else if op.flags &&& E.OP_FL_ARG_SHORT ≠ 0 then
    cycle_modify E op 0 { s with ac := ((E.IR_T s.ir) % 65536).toNat }
  else if op.flags &&& E.OP_FL_ARG_BYTE ≠ 0 then
    cycle_modify E op 0 { s with ac := (E.IR_b s.ir) % 65536 }
  else
    cycle_modify E op 0 s

/-- The part of `cpu_do_cycle` after a successful fetch: `op` is
`cpu_op_tab[ir]`; effectiveness, legalness, then the argument. -/
def cycle_decoded (E : Env) (op : iset_opcode) (s : Cpu) : Cycle :=
  -- check instruction effectiveness
  if s.p = true ∨ (s.r 0 &&& op.jmp_nef_mask) ≠ op.jmp_nef_result then
    if op.flags &&& E.OP_FL_ARG_NORM ≠ 0 ∧ E.IR_C s.ir = 0 then
      cycle_ineffective E 0 { s with ic := (s.ic + 1) % 65536 }
    else
      cycle_ineffective E 0 s
  -- check instruction legalness
  else if op.flags &&& E.OP_FL_ILLEGAL ≠ 0 then
    cycle_ineffective E 0 (int_set E.INT_ILLEGAL_INSTRUCTION s)
  else if s.q = true ∧ op.flags &&& E.OP_FL_USR_ILLEGAL ≠ 0 then
    cycle_ineffective E 0 (int_set E.INT_ILLEGAL_INSTRUCTION s)
  else if op.fun_ = Fn.op_77_md ∧ s.mc = 3 then
    cycle_ineffective E 0 (int_set E.INT_ILLEGAL_INSTRUCTION s)
  else
    cycle_argument E op s

/-- C function `cpu_do_cycle`. The fetch is `cpu_mem_read_1(q, ic++, &ir)`:
`ic` is advanced before the call and stays advanced when the read fails. -/
def cpu_do_cycle (E : Env) (s : Cpu) : Cycle :=
  let s1 := { s with ips_counter := s.ips_counter + 1 }
  let s2 := { s1 with ic := (s1.ic + 1) % 65536 }
  match cpu_mem_read_1 E s2.q s1.ic s2 with
  | (none, s3) => cycle_ineffective_memfail E 0 s3
  | (some w, s3) =>
    let s4 := { s3 with ir := w }
    cycle_decoded E (E.cpu_op_tab s4.ir) s4

/-- What one pass of the `while` loop of `cpu_loop` called. -/
inductive Call where
  | int_serve | cpu_do_cycle
  deriving DecidableEq, Repr

/-- Result of one pass of `cpu_loop` through the arm `ECTL_STATE_RUN`:
the calls made, `cpu_time`, and the globals. -/
structure Tick where
  calls : List Call
  cpu_time : Int
  cpu : Cpu

/-- The arm `case ECTL_STATE_RUN` of `cpu_loop` (also the target of the
fall-through from `case ECTL_STATE_CYCLE`). -/
def cpu_loop_run (E : Env) (s : Cpu) : Tick :=
  if rp s = true ∧ s.p = false ∧ s.mc = 0 then
    { calls := [Call.int_serve], cpu_time := E.TIME_INT_SERVE, cpu := E.int_serve s }
  else
    let c := cpu_do_cycle E s
    let s1 :=
      if E.ectl_brk_check c.cpu = true then
        (cpu_state_change E E.ECTL_STATE_STOP E.ECTL_STATE_RUN c.cpu).2
      else c.cpu
    { calls := [Call.cpu_do_cycle], cpu_time := c.instruction_time, cpu := s1 }

/-- One pass of the `while` loop of `cpu_loop` for the states CYCLE and RUN;
`none` stands for the other arms of the `switch`, which are not part of this
function. -/
def cpu_loop_tick (E : Env) (s : Cpu) : Option Tick :=
  if s.cpu_state = E.ECTL_STATE_CYCLE then
    some (cpu_loop_run E (cpu_state_change E E.ECTL_STATE_STOP E.ECTL_STATE_CYCLE s).2)
  else if s.cpu_state = E.ECTL_STATE_RUN then
    some (cpu_loop_run E s)
  else
    none

/-- The arms `case ECTL_STATE_CLM` and `case ECTL_STATE_CLO` of `cpu_loop`
(`buzzer_stop` acts on the buzzer only); `none` stands for the other arms. -/
def cpu_loop_clear (E : Env) (s : Cpu) : Option Cpu :=
  if s.cpu_state = E.ECTL_STATE_CLM then
    some (cpu_state_change E E.ECTL_STATE_RUN E.ECTL_STATE_CLM
      (cpu_do_clear E E.ECTL_STATE_CLM s)).2
  else if s.cpu_state = E.ECTL_STATE_CLO then
    some (cpu_state_change E E.ECTL_STATE_STOP E.ECTL_STATE_CLO
      (cpu_do_clear E E.ECTL_STATE_CLO s)).2
  else
    none

/-- The arm `case ECTL_STATE_BIN` of `cpu_loop`, for the outcome `io` of the
byte request. -/
def cpu_loop_bin (E : Env) (io : Int × Nat) (b : Bin) (s : Cpu) : Bin × Cpu :=
  let res := cpu_do_bin E false io b s
  if res.1 = true then
    (res.2.1, (cpu_state_change E E.ECTL_STATE_STOP E.ECTL_STATE_BIN res.2.2).2)
  else
    (res.2.1, res.2.2)

/-- Passes of `cpu_loop` in state BIN, one for each outcome of `ios` in
order, for as long as the state is BIN. -/
def cpu_bin_run (E : Env) : List (Int × Nat) → Bin → Cpu → Bin × Cpu
  | [], b, s => (b, s)
  | io :: ios, b, s =>
    if s.cpu_state = E.ECTL_STATE_BIN then
      cpu_bin_run E ios (cpu_loop_bin E io b s).1 (cpu_loop_bin E io b s).2
    else (b, s)

/-- The globals after a successful fetch of the word `w`. -/
def fetched (s : Cpu) (w : Nat) : Cpu :=
  { s with ips_counter := s.ips_counter + 1, ic := (s.ic + 1) % 65536, ir := w }

/-- The globals when the handler of a 2-word instruction `w` with argument
word `a` is entered, with no modification pending. -/
def entered (s : Cpu) (w a : Nat) : Cpu :=
  { s with
    ips_counter := s.ips_counter + 1
    ir := w
    ic := (s.ic + 2) % 65536
    ac := a
    ar := a
    zc17 := false }

/-- The normal argument of the opcode `w` in its closed form: `base`, plus the
previous AR when MC != 0, plus `r[IR_B]` when `IR_B != 0`, in 16 bits. -/
def norm_arg (E : Env) (s : Cpu) (w base : Nat) : Nat :=
  (base + (if s.mc ≠ 0 then s.ar else 0) +
    (if E.IR_B w ≠ 0 then s.r (E.IR_B w) else 0)) % 65536

/-- The opcode word `w` decodes, for a CPU whose user-mode flag is `q`, to a
legal instruction with handler `f` and register field `ra`, in the 2-word form
with a normal argument (`IR_C == 0`), no B- or D-modification, and no
effectiveness condition. -/
def long_instr (E : Env) (q : Bool) (w : Nat) (f : Fn) (ra : Nat) : Prop :=
  (E.cpu_op_tab w).fun_ = f ∧
  (E.cpu_op_tab w).flags &&& E.OP_FL_ARG_NORM ≠ 0 ∧
  (E.cpu_op_tab w).flags &&& E.OP_FL_ILLEGAL = 0 ∧
  ¬ (q = true ∧ (E.cpu_op_tab w).flags &&& E.OP_FL_USR_ILLEGAL ≠ 0) ∧
  (E.cpu_op_tab w).jmp_nef_mask = 0 ∧
  (E.cpu_op_tab w).jmp_nef_result = 0 ∧
  E.IR_A w = ra ∧ E.IR_B w = 0 ∧ E.IR_C w = 0 ∧ E.IR_D w = 0

instance (E : Env) (q : Bool) (w : Nat) (f : Fn) (ra : Nat) :
    Decidable (long_instr E q w f ra) := by
  unfold long_instr
  infer_instance

/-- The globals after `n` consecutive calls of `cpu_do_cycle`. -/
def cpu_run (E : Env) : Nat → Cpu → Cpu
  | 0, s => s
  | n + 1, s => cpu_run E n (cpu_do_cycle E s).cpu

/-! ## A concrete machine for evaluation

An instance of `Env` with the MERA-400 instruction word layout (opcode in the
six high bits, then D, A, B, C), a small opcode table, and a machine whose
block 0 has one segment mapped at its first page. -/

/-- An opcode table with LW (020), TW (021), PW (025) and MD (077, A=5), all
with a normal argument; every other word is flagged illegal. -/
def mera400_op_tab (w : Nat) : iset_opcode :=
  if w >>> 10 = 0o20 then
    { flags := 1, fun_ := Fn.op_lw, time := 100, jmp_nef_mask := 0, jmp_nef_result := 0 }
  else if w >>> 10 = 0o21 then
    { flags := 1, fun_ := Fn.op_tw, time := 100, jmp_nef_mask := 0, jmp_nef_result := 0 }
  else if w >>> 10 = 0o25 then
    { flags := 1, fun_ := Fn.op_pw, time := 100, jmp_nef_mask := 0, jmp_nef_result := 0 }
  else if w >>> 10 = 0o77 ∧ (w >>> 6) &&& 7 = 5 then
    { flags := 1, fun_ := Fn.op_77_md, time := 100, jmp_nef_mask := 0, jmp_nef_result := 0 }
  else
    { flags := 8, fun_ := Fn.op_73_giu, time := 100, jmp_nef_mask := 0, jmp_nef_result := 0 }

/-- A concrete environment: MERA-400 field layout, unrestricted register
writes, no debugger breakpoint, handlers of other units doing nothing. -/
def mera400 : Env where
  cpu_op_tab := mera400_op_tab
  OP_FL_ARG_NORM := 1
  OP_FL_ARG_SHORT := 2
  OP_FL_ARG_BYTE := 4
  OP_FL_ILLEGAL := 8
  OP_FL_USR_ILLEGAL := 16
  IR_A := fun w => (w >>> 6) &&& 7
  IR_B := fun w => (w >>> 3) &&& 7
  IR_C := fun w => w &&& 7
  IR_D := fun w => (w >>> 9) &&& 1
  IR_T := fun w => if (w >>> 9) &&& 1 = 1 then -((w &&& 63 : Nat) : Int) else ((w &&& 63 : Nat) : Int)
  IR_b := fun w => w &&& 255
  IR_t := fun w => (w &&& 7) ||| (((w >>> 9) &&& 1) <<< 3)
  TIME_MEM_ARG := 10
  TIME_PREMOD := 10
  TIME_BMOD := 10
  TIME_DMOD := 10
  TIME_SHIFT := 10
  TIME_NOANS_IF := 10
  TIME_P := 10
  TIME_INT_SERVE := 10
  INT_NO_MEM := 2
  INT_ILLEGAL_INSTRUCTION := 6
  STACK_POINTER := 97
  ECTL_STATE_ANY := -1
  ECTL_STATE_RUN := 0
  ECTL_STATE_STOP := 1
  ECTL_STATE_WAIT := 2
  ECTL_STATE_CYCLE := 32
  ECTL_STATE_OFF := 16
  REG_RESTRICT_WRITE := fun x y r n => if n = x then y else r n
  int_rm2xmask := fun m n => m.testBit (n % 10)
  int_serve := fun s => s
  ectl_brk_check := fun _ => false
  ext := fun _ s => s
  IO_OU := 0
  IO_IN := 1
  io_dispatch := fun _ n _ s => (((n % 4 : Nat) : Int), s)
  IO_OK := 0
  ECTL_STATE_CLM := 4
  ECTL_STATE_CLO := 8
  ECTL_STATE_BIN := 64
  io_reset := fun s => (s.rz, s.mem)
  mem_reset := fun m => m
  bin_is_end := fun b => decide (b &&& 0b11000000 = 0b11000000)
  bin_is_valid := fun b => decide (b &&& 0b10000000 = 0b10000000)
  bin2word := fun bd =>
    ((bd 0 &&& 0b1111) <<< 12) ||| ((bd 1 &&& 0b111111) <<< 6) ||| (bd 2 &&& 0b111111)

/-- A memory with one segment, mapped at page 0 of block 0 and holding the
words of `prog` from offset 0 on. -/
def mem_of (prog : List Nat) : Mem where
  mem_map := fun nb ab => if nb = 0 ∧ ab = 0 then some (0, 0) else none
  mem_segment := fun mp sg low => if mp = 0 ∧ sg = 0 then prog.getD low 0 else 0

/-- A machine in state RUN with cleared registers, `prog` at [0:0]. -/
def cpu_of (prog : List Nat) : Cpu where
  cpu_state := 0
  r := fun _ => 0
  ic := 0
  kb := 0
  ir := 0
  ac := 0
  ar := 0
  rALARM := false
  mc := 0
  rm := 0
  nb := 0
  p := false
  q := false
  bs := false
  zc17 := false
  cpu_mod_present := false
  cpu_mod_active := false
  cpu_user_io_illegal := false
  awp_enabled := false
  nomem_stop := true
  ips_counter := 0
  rz := fun _ => false
  xmask := fun _ => false
  mem := mem_of prog

/-- A machine for the context switch: the stack-pointer word [0:97] holds
200, IC = 5, R0 = 7, RM = 3, Q set, NB = 1; the rest of page 0 is zero. -/
def cpu_stack : Cpu :=
  { cpu_of (List.replicate 97 0 ++ [200]) with
    ic := 5
    r := fun n => if n = 0 then 7 else 0
    rm := 3
    q := true
    nb := 1 }

/-- The machine of scenario S1: NB = 1, page 0 of block 1 mapped to a fresh
segment, and the program `LW R1, 0xABCD; PW R1, 0x0010; TW R2, 0x0010` at
[0:0], in page 0 of block 0. -/
def cpu_s1 : Cpu :=
  { cpu_of [] with
    nb := 1
    mem :=
      { mem_map := fun nb ab =>
          if nb = 0 ∧ ab = 0 then some (0, 0)
          else if nb = 1 ∧ ab = 0 then some (0, 1)
          else none
        mem_segment := fun mp sg low =>
          if mp = 0 ∧ sg = 0 then
            [0x4040, 0xABCD, 0x5440, 0x0010, 0x4480, 0x0010].getD low 0
          else 0 } }

/-! ## Priority event list (`utils/elst.c`)

The array `data` is a function from indices to items; a `void *` payload is
an `Option α` with `none` for `NULL`, so that a non-null pointer to an object
is `some` of that object. `unsigned` counters stay far below `2^32` (they are
bounded by `capacity + 2`, and `capacity` is an `int`), so they are plain
`Nat`s, except for `count--`, which wraps as in C. -/

/-- C `struct elst_item`. -/
structure elst_item (α : Type) where
  p : Nat
  n : Nat
  prio : Int
  ptr : Option α

/-- C `struct elst` without the mutex and the condition variable; the
destructor is an argument of the functions that call it. -/
structure elst (α : Type) where
  capacity : Nat
  count : Nat
  hwm : Nat
  data : Nat → elst_item α

/-- Index of the sentinel of the used ring. -/
def ELST_USED : Nat := 0

/-- Index of the sentinel of the free ring. -/
def ELST_FREE : Nat := 1

/-- Number of reserved items (the two sentinels). -/
def ELST_RESVD_ITEMS : Nat := 2

/-- The assignment `d[i].p = v`. -/
def elst_set_p {α : Type} (d : Nat → elst_item α) (i v : Nat) : Nat → elst_item α :=
  fun j => if j = i then { d j with p := v } else d j

/-- The assignment `d[i].n = v`. -/
def elst_set_n {α : Type} (d : Nat → elst_item α) (i v : Nat) : Nat → elst_item α :=
  fun j => if j = i then { d j with n := v } else d j

/-- The assignment `d[i].ptr = v`. -/
def elst_set_ptr {α : Type} (d : Nat → elst_item α) (i : Nat) (v : Option α) :
    Nat → elst_item α :=
  fun j => if j = i then { d j with ptr := v } else d j

/-- The assignment `d[i].prio = v`. -/
def elst_set_prio {α : Type} (d : Nat → elst_item α) (i : Nat) (v : Int) :
    Nat → elst_item α :=
  fun j => if j = i then { d j with prio := v } else d j

/-- C function `elst_create` when its allocations succeed; `raw` is the
content of the freshly allocated array. -/
def elst_create {α : Type} (capacity : Nat) (raw : Nat → elst_item α) : elst α :=
  { capacity := capacity
    count := 0
    hwm := ELST_RESVD_ITEMS
    data :=
      elst_set_ptr (elst_set_n (elst_set_p
        (elst_set_ptr (elst_set_n (elst_set_p raw ELST_USED ELST_USED) ELST_USED ELST_USED)
          ELST_USED none)
        ELST_FREE ELST_FREE) ELST_FREE ELST_FREE) ELST_FREE none }

/-- C function `__unlink`. -/
def elst_unlink {α : Type} (d : Nat → elst_item α) (i : Nat) : Nat → elst_item α :=
  let p := (d i).p
  let n := (d i).n
  elst_set_p (elst_set_n d p n) n p

/-- C function `__link`. -/
def elst_link {α : Type} (d : Nat → elst_item α) (i p n : Nat) : Nat → elst_item α :=
  elst_set_p (elst_set_n (elst_set_n (elst_set_p d i p) i n) p i) n i

/-- C function `__get_free`: the result and the list. -/
def elst_get_free {α : Type} (l : elst α) : Int × elst α :=
  if l.count ≥ l.capacity then (-2, l)
  else
    let ifree := (l.data ELST_FREE).n
    if ifree = ELST_FREE then
      ((l.hwm : Int), { l with hwm := l.hwm + 1 })
    else
      ((ifree : Int), { l with data := elst_unlink l.data ifree })

/-- C function `__put`: the result and the list. -/
def elst_put {α : Type} (l : elst α) (ptr : Option α) (prio : Int) (p n : Nat) :
    Int × elst α :=
  let g := elst_get_free l
  if g.1 < 0 then (g.1, g.2)
  else
    let ifree := g.1.toNat
    let d1 := elst_set_ptr g.2.data ifree ptr
    let d2 := elst_set_prio d1 ifree prio
    let d3 := elst_link d2 ifree p n
    (((g.2.count + 1 : Nat) : Int), { g.2 with data := d3, count := g.2.count + 1 })

/-- C function `elst_nlock_append`. -/
def elst_nlock_append {α : Type} (l : elst α) (ptr : Option α) : Int × elst α :=
  elst_put l ptr 0 (l.data ELST_USED).p ELST_USED

/-- C function `elst_nlock_prepend`. -/
def elst_nlock_prepend {α : Type} (l : elst α) (ptr : Option α) : Int × elst α :=
  elst_put l ptr 0 ELST_USED (l.data ELST_USED).n

/-- The `while` loop of `elst_nlock_insert` from the state `(p, n)`, run for
at most `fuel` tests of its condition; `none` when the fuel is used up. -/
def elst_scan {α : Type} (d : Nat → elst_item α) (prio : Int) :
    Nat → Nat → Nat → Option (Nat × Nat)
  | 0, _, _ => none
  | fuel + 1, p, n =>
    if n ≠ ELST_USED ∧ (d n).prio ≥ prio then elst_scan d prio fuel n (d n).n
    else some (p, n)

/-- C function `elst_nlock_insert` with a bound on the loop: `none` when the
loop does not end within `fuel` tests. -/
def elst_nlock_insert {α : Type} (fuel : Nat) (l : elst α) (ptr : Option α) (prio : Int) :
    Option (Int × elst α) :=
  match elst_scan l.data prio fuel ELST_USED (l.data ELST_USED).n with
  | none => none
  | some (p, n) => some (elst_put l ptr prio p n)

/-- C function `elst_nlock_pop`: the returned pointer and the list. -/
def elst_nlock_pop {α : Type} (l : elst α) : Option α × elst α :=
  let first := (l.data ELST_USED).n
  if first ≠ ELST_USED then
    let d1 := elst_unlink l.data first
    let d2 := elst_link d1 first (d1 ELST_FREE).p ELST_FREE
    ((d2 first).ptr,
      { l with data := d2, count := (l.count + 4294967295) % 4294967296 })
  else
    ((l.data first).ptr, l)

/-- C function `elst_nlock_clear` with a bound on the loop: the arguments of
the calls of the destructor, in call order, and the list; `none` when the
loop does not end within `fuel` pops. -/
def elst_nlock_clear {α : Type} : Nat → elst α → Option (List α × elst α)
  | 0, _ => none
  | fuel + 1, l =>
    match elst_nlock_pop l with
    | (none, l1) => some ([], l1)
    | (some x, l1) =>
      match elst_nlock_clear fuel l1 with
      | none => none
      | some r => some (x :: r.1, r.2)

/-- Two neighbours of a ring: `b` is the successor of `a` and `a` the
predecessor of `b`. -/
def elst_adj {α : Type} (d : Nat → elst_item α) (a b : Nat) : Prop :=
  (d a).n = b ∧ (d b).p = a

/-- The nodes `is`, in order, are the ring of the sentinel `s`: following
`n` from `s` goes through `is` and back to `s`, and `p` goes the other way. -/
def elst_ring {α : Type} (d : Nat → elst_item α) (s : Nat) (is : List Nat) : Prop :=
  List.Chain' (elst_adj d) (s :: (is ++ [s]))

/-- Structural invariant of a list: `us` is the used ring from head to tail
and `fs` the free ring; the two rings are disjoint and made of the
`hwm - 2` allocated items; `count` is the length of the used ring. -/
def elst_wf {α : Type} (l : elst α) (us fs : List Nat) : Prop :=
  elst_ring l.data ELST_USED us ∧
  elst_ring l.data ELST_FREE fs ∧
  (us ++ fs).Nodup ∧
  (∀ i, i ∈ us ++ fs → 2 ≤ i ∧ i < l.hwm) ∧
  us.length + fs.length + 2 = l.hwm ∧
  l.count = us.length ∧
  l.hwm ≤ l.capacity + 2 ∧
  l.capacity < 2147483648 ∧
  (l.data ELST_USED).ptr = none

/-- The elements of a list, head first: priority and payload of the nodes
`us`. -/
def elst_items {α : Type} (l : elst α) (us : List Nat) : List (Int × Option α) :=
  us.map (fun i => ((l.data i).prio, (l.data i).ptr))

instance elst_adj_decidable {α : Type} (d : Nat → elst_item α) (a b : Nat) :
    Decidable (elst_adj d a b) :=
  inferInstanceAs (Decidable ((d a).n = b ∧ (d b).p = a))

/-- Deciding the neighbour relation along a list of nodes. -/
def elst_chain_decidable {α : Type} (d : Nat → elst_item α) :
    (l : List Nat) → Decidable (List.Chain' (elst_adj d) l)
  | [] => isTrue List.chain'_nil
  | [a] => isTrue (List.chain'_singleton a)
  | a :: b :: t =>
    match elst_adj_decidable d a b, elst_chain_decidable d (b :: t) with
    | isTrue h1, isTrue h2 => isTrue (List.chain'_cons.mpr ⟨h1, h2⟩)
    | isFalse h1, _ => isFalse (fun h => h1 (List.chain'_cons.mp h).1)
    | isTrue _, isFalse h2 => isFalse (fun h => h2 (List.chain'_cons.mp h).2)

instance elst_ring_decidable {α : Type} (d : Nat → elst_item α) (s : Nat) (is : List Nat) :
    Decidable (elst_ring d s is) :=
  elst_chain_decidable d (s :: (is ++ [s]))

instance elst_wf_decidable {α : Type} [DecidableEq α] (l : elst α) (us fs : List Nat) :
    Decidable (elst_wf l us fs) :=
  inferInstanceAs (Decidable (
    elst_ring l.data ELST_USED us ∧
    elst_ring l.data ELST_FREE fs ∧
    (us ++ fs).Nodup ∧
    (∀ i, i ∈ us ++ fs → 2 ≤ i ∧ i < l.hwm) ∧
    us.length + fs.length + 2 = l.hwm ∧
    l.count = us.length ∧
    l.hwm ≤ l.capacity + 2 ∧
    l.capacity < 2147483648 ∧
    (l.data ELST_USED).ptr = none))

/-- A run of `elst_nlock_insert` calls, one for each (priority, payload) of
`xs` in order, each with the loop bound `fuel`; the return codes are dropped. -/
def elst_insert_all {α : Type} (fuel : Nat) : elst α → List (Int × Option α) → Option (elst α)
  | l, [] => some l
  | l, it :: xs =>
    match elst_nlock_insert fuel l it.2 it.1 with
    | none => none
    | some r => elst_insert_all fuel r.2 xs

/-- The pointers returned by `k` successive calls of `elst_nlock_pop`, in call
order, and the list they leave. -/
def elst_pop_n {α : Type} : Nat → elst α → List (Option α) × elst α
  | 0, l => ([], l)
  | k + 1, l =>
    ((elst_nlock_pop l).1 :: (elst_pop_n k (elst_nlock_pop l).2).1,
      (elst_pop_n k (elst_nlock_pop l).2).2)

/-- An array content for evaluation: every item zero, every pointer `NULL`. -/
def elst_raw0 : Nat → elst_item Nat :=
  fun _ => { p := 0, n := 0, prio := 0, ptr := none }

/-- The position rule of `insert` on the sequence of elements (priority and
payload, head first), as the specification words it: the new element stands
right before the first element of lower priority. It is compared with
`elst_nlock_insert`. -/
def spec_insert {α : Type} (its : List (Int × Option α)) (prio : Int) (x : Option α) :
    List (Int × Option α) :=
  its.takeWhile (fun it => decide (it.1 ≥ prio)) ++
    (prio, x) :: its.dropWhile (fun it => decide (it.1 ≥ prio))

/-- One call of the list interface. -/
inductive elst_op (α : Type) where
  | append (x : Option α)
  | prepend (x : Option α)
  | insert (x : Option α) (prio : Int)
  | pop

/-- The list after one call of the interface (`none` when the loop of
insert does not end within `fuel` tests). -/
def elst_apply {α : Type} (fuel : Nat) (l : elst α) : elst_op α → Option (elst α)
  | elst_op.append x => some (elst_nlock_append l x).2
  | elst_op.prepend x => some (elst_nlock_prepend l x).2
  | elst_op.insert x prio =>
    match elst_nlock_insert fuel l x prio with
    | none => none
    | some r => some r.2
  | elst_op.pop => some (elst_nlock_pop l).2

/-- The list after a sequence of calls of the interface. -/
def elst_run {α : Type} (fuel : Nat) : elst α → List (elst_op α) → Option (elst α)
  | l, [] => some l
  | l, op :: ops =>
    match elst_apply fuel l op with
    | none => none
    | some k => elst_run fuel k ops

/-- The list after appending the non-null pointers `xs` in order. -/
def elst_append_all {α : Type} : elst α → List α → elst α
  | l, [] => l
  | l, x :: xs => elst_append_all (elst_nlock_append l (some x)).2 xs

/-- The opcode table of `mera400_op_tab` with OU added (opcode 035, a
normal argument). -/
def mera400_ou_op_tab (w : Nat) : iset_opcode :=
  if w >>> 10 = 0o35 then
    { flags := 1, fun_ := Fn.op_ou, time := 100, jmp_nef_mask := 0, jmp_nef_result := 0 }
  else mera400_op_tab w

/-- The environment `mera400` with OU in its opcode table. -/
def mera400_ou : Env :=
  { mera400 with cpu_op_tab := mera400_ou_op_tab }

/-- The array `bdata` of `cpu_do_bin` after the low bytes of `x0`, `x1`, `x2`
were stored at the positions 0, 1, 2. -/
def bin_triplet (bdata : Nat → Nat) (x0 x1 x2 : Nat) : Nat → Nat :=
  fun i =>
    if i = 2 then (x2 &&& 0xff) % 256
    else if i = 1 then (x1 &&& 0xff) % 256
    else if i = 0 then (x0 &&& 0xff) % 256
    else bdata i

/-! ## MULTIX channel (`io/mx/mx.c`)

The channel is a value of `Mx`; the rest of the machine, as far as the channel
touches it (the memory and the interrupt unit of the CPU), is a value of a
type `W` that the functions pass along. The interrupt queue holds pointers
to `uint16_t` objects, here the numbers themselves; the event queue holds
pointers to events. The mutexes have no content in a sequential run. Calls
of `malloc` whose result the code does not test are taken to succeed; the
one the code tests has its outcome as an argument. -/

/-- First value of `enum mx_condition`. -/
def MX5_UNINITIALIZED : Nat := 0

/-- Second value of `enum mx_condition`. -/
def MX5_INITIALIZED : Nat := 1

/-- Third value of `enum mx_condition`. -/
def MX5_CONFIGURED : Nat := 2

/-- Fourth value of `enum mx_condition`. -/
def MX5_QUIT : Nat := 3

/-- Modelled from the spec: `MX_LINE_CNT` (header `io/mx/mx.h`) is not in the
sources. Section 3: a multiplexer channel holds 32 physical lines and 32
logical-line slots. -/
def MX_LINE_CNT : Nat := 32

/-- The member `d` of C `union mx_event` (header `io/mx/event.h`), with the
fields `mx_event` fills. -/
structure mx_event_d where
  type : Int
  cmd : Nat
  log_n : Nat
  arg : Nat
  deriving DecidableEq, Repr

/-- The fields of C `struct mx_line` (header `io/mx/line.h`) that the embedded
functions read or write. `proto` is the pointer to the descriptor of a
protocol, given by the number of the protocol. The queue `devq`, the thread
and `joinable` belong to the protocol worker of the line and are left
out. -/
structure mx_line where
  dir : Nat
  used : Nat
  type : Nat
  log_n : Int
  status : Nat
  proto : Option Nat

/-- The members of C `struct mx_proto` that `mx.c` uses: `phy_types` is the
array up to and including its end mark -1; `init` gets the line and the three
words that follow the first word of the descriptor and gives its result and
the line; `destroy` gives the line it leaves. -/
structure mx_proto where
  dir : Nat
  phy_types : List Int
  init : mx_line → (Nat → Nat) → Nat × mx_line
  destroy : mx_line → mx_line

/-- C `struct mx`: state, channel number, latched interrupt specification,
interrupt queue, event queue, physical lines and the table of logical lines;
a pointer to a physical line is its index. -/
structure Mx where
  state : Nat
  chnum : Nat
  intspec : Nat
  intq : elst Nat
  eventq : elst mx_event_d
  plines : Nat → mx_line
  llines : Nat → Option Nat

/-- Declarations that `mx.c` takes from headers and units that are not part
of the sources: the constants of `io/io.h`, `io/mx/event.h`, `io/mx/cmds.h`,
`io/mx/irq.h` and `io/mx/line.h`, the interrupt of a command sent to a line
that is not there, the table of protocols, and the three doors to the rest of
the machine. `io_mem_mget w nb addr len` is the list of the words that
`io_mem_mget(nb, addr, data, len)` transfers (its result is their number);
`io_mem_mput w nb addr data` is the number of words `io_mem_mput` transfers
and the machine it leaves; `io_int_set chnum w` is the machine after
`io_int_set(chnum)`. -/
structure MxEnv (W : Type) where
  IO_OK : Int
  IO_EN : Int
  MX_EV_QUIT : Int
  MX_EV_RESET : Int
  MX_EV_INT_PUSH : Int
  MX_EV_CMD : Int
  MX_CMD_CHAN : Nat
  MX_CHAN_CMD_INTSPEC : Nat
  MX_CHAN_CMD_EXISTS : Nat
  MX_CHAN_CMD_RESET : Nat
  MX_IRQ_INIEA : Nat
  MX_IRQ_INKON : Nat
  MX_IRQ_IUKON : Nat
  MX_IRQ_INKOT : Nat
  MX_IRQ_ISTRE : Nat
  MX_IRQ_INPAO : Nat
  mx_irq_noline : Nat → Nat
  MX_PHY_CNT : Nat
  MX_PHY_USART_SYNC : Nat
  MX_PHY_USART_ASYNC : Nat
  MX_PHY_8255 : Nat
  MX_PHY_MTAPE : Nat
  MX_DIR_NONE : Nat
  MX_DIR_INPUT : Nat
  MX_DIR_OUTPUT : Nat
  MX_DIR_HALF_DUPLEX : Nat
  MX_DIR_FULL_DUPLEX : Nat
  MX_SC_E_OK : Nat
  MX_SC_E_CONFSET : Nat
  MX_SC_E_NUMLINES : Nat
  MX_SC_E_DEVTYPE : Nat
  MX_SC_E_DIR : Nat
  MX_SC_E_PHY_INCOMPLETE : Nat
  MX_SC_E_PROTO_MISSING : Nat
  MX_SC_E_PHY_UNUSED : Nat
  MX_SC_E_DIR_MISMATCH : Nat
  MX_SC_E_PHY_USED : Nat
  MX_SC_E_NOMEM : Nat
  MX_SC_E_PROTO_MISMATCH : Nat
  MX_LSTATE_NONE : Nat
  mx_proto_get : Nat → Option mx_proto
  io_mem_mget : W → Nat → Nat → Nat → List Nat
  io_mem_mput : W → Nat → Nat → List Nat → Nat × W
  io_int_set : Nat → W → W

/-- The array `data` after `ws` was stored at its start. -/
def mx_data_store (data : Nat → Nat) (ws : List Nat) : Nat → Nat :=
  fun i => ws.getD i (data i)

/-- C function `mx_mem_mget`: the result and the array `data`, which has
`size` elements; `none` when the transfer writes past the end of the
array, which C leaves undefined. -/
def mx_mem_mget {W : Type} (E : MxEnv W) (m : Mx) (w : W) (nb addr : Nat) (size : Nat)
    (data : Nat → Nat) (len : Nat) : Option (Int × (Nat → Nat)) :=
  if m.state ≠ MX5_UNINITIALIZED then
    if (E.io_mem_mget w nb addr len).length > size then none
    else if (E.io_mem_mget w nb addr len).length ≠ len then
      some (-1, mx_data_store data (E.io_mem_mget w nb addr len))
    else some (0, mx_data_store data (E.io_mem_mget w nb addr len))
  else some (0, data)

/-- C function `mx_mem_mput` for the `len` words `data`: the result and the
machine. -/
def mx_mem_mput {W : Type} (E : MxEnv W) (m : Mx) (w : W) (nb addr : Nat) (data : List Nat) :
    Int × W :=
  if m.state ≠ MX5_UNINITIALIZED then
    if (E.io_mem_mput w nb addr data).1 ≠ data.length then (-1, (E.io_mem_mput w nb addr data).2)
    else (0, (E.io_mem_mput w nb addr data).2)
  else (0, w)

/-- C function `mx_int_set`. -/
def mx_int_set {W : Type} (E : MxEnv W) (m : Mx) (w : W) : W :=
  if m.state ≠ MX5_UNINITIALIZED then E.io_int_set m.chnum w else w

/-- C function `mx_int_push`. -/
def mx_int_push {W : Type} (E : MxEnv W) (m : Mx) (w : W) : Mx × W :=
  if m.intspec = E.MX_IRQ_INIEA then
    match elst_nlock_pop m.intq with
    | (some i, q) => ({ m with intq := q, intspec := i }, mx_int_set E m w)
    | (none, q) => ({ m with intq := q }, w)
  else (m, w)

/-- C function `mx_int_enqueue`: the result, the channel and the machine. The
specification is a `uint16_t`; an `int` line comes as a natural number (of a
negative one only the low 16 bits count). -/
def mx_int_enqueue {W : Type} (E : MxEnv W) (intr line : Nat) (m : Mx) (w : W) :
    Int × Mx × W :=
  ((elst_nlock_append m.intq (some (((intr <<< 8) ||| line) % 65536))).1,
    mx_int_push E
      { m with intq := (elst_nlock_append m.intq (some (((intr <<< 8) ||| line) % 65536))).2 } w)

/-- C function `mx_int_get_spec`: the specification and the channel. -/
def mx_int_get_spec {W : Type} (E : MxEnv W) (m : Mx) : Nat × Mx :=
  (m.intspec, { m with intspec := E.MX_IRQ_INIEA % 65536 })

/-- C function `mx_cmd_requeue`. -/
def mx_cmd_requeue {W : Type} (E : MxEnv W) (m : Mx) (w : W) : Mx × W :=
  if m.intspec ≠ E.MX_IRQ_INIEA then
    mx_int_push E
      { m with
        intq := (elst_nlock_prepend m.intq (some m.intspec)).2
        intspec := E.MX_IRQ_INIEA % 65536 } w
  else mx_int_push E m w

/-- C function `mx_event`: the result and the channel. `malloc_ok` tells
whether `malloc` gives an event; the loop of `elst_insert` is bounded by
`fuel` (`none` when that does not suffice). -/
def mx_event {W : Type} (E : MxEnv W) (fuel : Nat) (malloc_ok : Bool) (type : Int)
    (cmd log_n r_arg : Nat) (m : Mx) : Option (Int × Mx) :=
  if m.state = MX5_QUIT then some (E.IO_EN, m)
  else if malloc_ok = false then some (E.IO_EN, m)
  else
    match elst_nlock_insert fuel m.eventq
        (some { type := type, cmd := cmd, log_n := log_n, arg := r_arg }) type with
    | none => none
    | some r =>
      if r.1 < 0 then some (E.IO_EN, { m with eventq := r.2 })
      else some (E.IO_OK, { m with eventq := r.2 })

/-- C function `mx_reset`. -/
def mx_reset {W : Type} (E : MxEnv W) (fuel : Nat) (malloc_ok : Bool) (m : Mx) : Option Mx :=
  if m.state = MX5_QUIT then some m
  else
    match mx_event E fuel malloc_ok E.MX_EV_RESET 0 0 0 { m with state := MX5_UNINITIALIZED } with
    | none => none
    | some r => some r.2

/-- The constant `cmd` of `mx_cmd`. -/
def mx_cmd_cmd (dir n_arg : Nat) : Nat :=
  ((n_arg &&& 0b1110000000000000) >>> 13) ||| ((dir &&& 1) <<< 3)

/-- The constant `chan_cmd` of `mx_cmd`. -/
def mx_cmd_chan_cmd (n_arg : Nat) : Nat :=
  (n_arg &&& 0b0001100000000000) >>> 11

/-- The constant `log_n` of `mx_cmd`. -/
def mx_cmd_log_n (n_arg : Nat) : Nat :=
  (n_arg &&& 0b0001111111100000) >>> 5

/-- C function `mx_cmd`: the result, the word `*r_arg` and the channel. -/
def mx_cmd {W : Type} (E : MxEnv W) (fuel : Nat) (malloc_ok : Bool) (dir n_arg r_arg : Nat)
    (m : Mx) : Option (Int × Nat × Mx) :=
  if mx_cmd_cmd dir n_arg = E.MX_CMD_CHAN ∧ mx_cmd_chan_cmd n_arg = E.MX_CHAN_CMD_INTSPEC then
    match mx_event E fuel malloc_ok E.MX_EV_INT_PUSH 0 0 0 (mx_int_get_spec E m).2 with
    | none => none
    | some r => some (E.IO_OK, (mx_int_get_spec E m).1, r.2)
  else if mx_cmd_cmd dir n_arg = E.MX_CMD_CHAN ∧
      mx_cmd_chan_cmd n_arg = E.MX_CHAN_CMD_EXISTS then
    some (E.IO_OK, r_arg, m)
  else if mx_cmd_cmd dir n_arg = E.MX_CMD_CHAN ∧
      mx_cmd_chan_cmd n_arg = E.MX_CHAN_CMD_RESET then
    match mx_reset E fuel malloc_ok m with
    | none => none
    | some m1 => some (E.IO_OK, r_arg, m1)
  else if m.state = MX5_UNINITIALIZED then some (E.IO_EN, r_arg, m)
  else
    match mx_event E fuel malloc_ok E.MX_EV_CMD (mx_cmd_cmd dir n_arg) (mx_cmd_log_n n_arg)
        r_arg m with
    | none => none
    | some r => some (r.1, r_arg, r.2)
/-! ## A concrete channel for evaluation -/

/-- Modelled from the spec: the block write of the memory unit (section 4.1,
`write_block`): the words go to consecutive addresses of the block, from
`addr` on, stopping at the first fault; the result is the number of words
stored and the memory. -/
def mem_mput (m : Mem) (nb : Nat) : Nat → List Nat → Nat × Mem
  | _, [] => (0, m)
  | addr, x :: xs =>
    match mem_write_1 m nb (addr % 65536) x with
    | none => (0, m)
    | some m1 => ((mem_mput m1 nb (addr + 1) xs).1 + 1, (mem_mput m1 nb (addr + 1) xs).2)

/-- The machine as a channel sees it in the evaluations: the memory, and the
channel numbers `io_int_set` was called with, the latest first. -/
structure Bus where
  mem : Mem
  ints : List Nat

/-- The protocol descriptor `mx_drv_tape` of `io/mx/proto_tape.c`, over the
constants `dir_none`, `phy_mtape` and `ok`. -/
def mx_drv_tape (dir_none phy_mtape ok : Nat) : mx_proto where
  dir := dir_none
  phy_types := [(phy_mtape : Int), -1]
  init := fun pline _ => (ok, pline)
  destroy := fun pline => pline

/-- A channel environment: constants that are pairwise distinct within each
enumeration, the tape protocol as protocol 7, and memory transfers that stop
at the first fault. -/
def multix : MxEnv Bus where
  IO_OK := 0
  IO_EN := 1
  MX_EV_QUIT := 4
  MX_EV_RESET := 3
  MX_EV_INT_PUSH := 2
  MX_EV_CMD := 1
  MX_CMD_CHAN := 8
  MX_CHAN_CMD_INTSPEC := 1
  MX_CHAN_CMD_EXISTS := 2
  MX_CHAN_CMD_RESET := 0
  MX_IRQ_INIEA := 0
  MX_IRQ_INKON := 4
  MX_IRQ_IUKON := 5
  MX_IRQ_INKOT := 6
  MX_IRQ_ISTRE := 7
  MX_IRQ_INPAO := 36
  mx_irq_noline := fun cmd => 9 + 3 * cmd
  MX_PHY_CNT := 6
  MX_PHY_USART_SYNC := 2
  MX_PHY_USART_ASYNC := 0
  MX_PHY_8255 := 1
  MX_PHY_MTAPE := 4
  MX_DIR_NONE := 0
  MX_DIR_INPUT := 2
  MX_DIR_OUTPUT := 4
  MX_DIR_HALF_DUPLEX := 6
  MX_DIR_FULL_DUPLEX := 7
  MX_SC_E_OK := 255
  MX_SC_E_CONFSET := 0
  MX_SC_E_NUMLINES := 1
  MX_SC_E_DEVTYPE := 2
  MX_SC_E_DIR := 3
  MX_SC_E_PHY_INCOMPLETE := 4
  MX_SC_E_PROTO_MISSING := 5
  MX_SC_E_PHY_UNUSED := 6
  MX_SC_E_DIR_MISMATCH := 7
  MX_SC_E_PHY_USED := 8
  MX_SC_E_NOMEM := 9
  MX_SC_E_PROTO_MISMATCH := 10
  MX_LSTATE_NONE := 0
  mx_proto_get := fun n => if n = 7 then some (mx_drv_tape 0 4 255) else none
  io_mem_mget := fun w nb addr len => mem_mget w.mem nb addr len
  io_mem_mput := fun w nb addr data =>
    ((mem_mput w.mem nb addr data).1, { w with mem := (mem_mput w.mem nb addr data).2 })
  io_int_set := fun chnum w => { w with ints := chnum :: w.ints }

/-- Content of a freshly allocated array of list items. -/
def elst_raw_ev : Nat → elst_item mx_event_d :=
  fun _ => { p := 0, n := 0, prio := 0, ptr := none }

/-- The channel that `mx_create` returns for the channel number `num` when
every allocation succeeds and no device is configured: `calloc` zeroes the
structure and the queues are created with 1024 places. -/
def mx_fresh (num : Nat) : Mx where
  state := MX5_UNINITIALIZED
  chnum := num
  intspec := 0
  intq := elst_create 1024 elst_raw0
  eventq := elst_create 1024 elst_raw_ev
  plines := fun _ => { dir := 0, used := 0, type := 0, log_n := 0, status := 0, proto := none }
  llines := fun _ => none

/-- A machine with the memory of `cpu_of prog` and no call of `io_int_set`
so far. -/
def bus_of (prog : List Nat) : Bus where
  mem := (cpu_of prog).mem
  ints := []

/-- The interrupt queue `q` is a well-formed list that holds the pointers to
the specifications `vals`, head first. -/
def mx_intq_holds (q : elst Nat) (vals : List Nat) : Prop :=
  ∃ us fs, elst_wf q us fs ∧ elst_items q us = vals.map (fun v => ((0 : Int), some v))

/-- The specification 0x0500, 1024 times. -/
def mx_full_specs : List Nat := List.replicate 1024 0x0500

/-- A channel whose latch holds 0x0200 and whose interrupt queue is full: it
holds the 1024 specifications `mx_full_specs`. -/
def mx_full : Mx :=
  { mx_fresh 0 with
    state := MX5_INITIALIZED
    intspec := 0x0200
    intq := elst_append_all (elst_create 1024 elst_raw0) mx_full_specs }

/-- One use of the interrupt system of a channel: `mx_int_enqueue(intr, line)`,
or a read of the specification by the CPU (`mx_int_get_spec`, channel command
INTSPEC) followed by the `mx_int_push` with which the worker serves the
INT_PUSH event that the command sends. -/
inductive mx_int_op where
  | enqueue (intr line : Nat)
  | intspec

/-- A sequential run of uses of the interrupt system: the specifications the
CPU read, in order, the results of the calls of `mx_int_enqueue`, in order,
the channel and the machine. -/
def mx_int_run {W : Type} (E : MxEnv W) : List mx_int_op → Mx → W → List Nat × List Int × Mx × W
  | [], m, w => ([], [], m, w)
  | mx_int_op.enqueue intr line :: ops, m, w =>
    ((mx_int_run E ops (mx_int_enqueue E intr line m w).2.1
        (mx_int_enqueue E intr line m w).2.2).1,
      (mx_int_enqueue E intr line m w).1 ::
        (mx_int_run E ops (mx_int_enqueue E intr line m w).2.1
          (mx_int_enqueue E intr line m w).2.2).2.1,
      (mx_int_run E ops (mx_int_enqueue E intr line m w).2.1
        (mx_int_enqueue E intr line m w).2.2).2.2)
  | mx_int_op.intspec :: ops, m, w =>
    ((mx_int_get_spec E m).1 ::
        (mx_int_run E ops (mx_int_push E (mx_int_get_spec E m).2 w).1
          (mx_int_push E (mx_int_get_spec E m).2 w).2).1,
      (mx_int_run E ops (mx_int_push E (mx_int_get_spec E m).2 w).1
        (mx_int_push E (mx_int_get_spec E m).2 w).2).2)

/-- The specifications that the enqueues of a run pass to the queue, in
order. -/
def mx_int_specs : List mx_int_op → List Nat
  | [] => []
  | mx_int_op.enqueue intr line :: ops => ((intr <<< 8) ||| line) % 65536 :: mx_int_specs ops
  | mx_int_op.intspec :: ops => mx_int_specs ops

/-- The latch as a list: empty when it holds the value `none`. -/
def mx_latch (none_ : Nat) (m : Mx) : List Nat :=
  if m.intspec = none_ then [] else [m.intspec]

/-- A configured channel, number 2: the physical lines 0..3 are tape lines,
line 0 is in use by the tape protocol as logical line 0 and has the status
0x12345. -/
def mx_one_line : Mx :=
  { mx_fresh 2 with
    state := MX5_CONFIGURED
    plines := fun i =>
      if i = 0 then { dir := 0, used := 1, type := 4, log_n := 0, status := 0x12345, proto := some 7 }
      else if i < 4 then { dir := 0, used := 0, type := 4, log_n := 0, status := 0, proto := none }
      else { dir := 0, used := 0, type := 0, log_n := 0, status := 0, proto := none }
    llines := fun i => if i = 0 then some 0 else none }

/-! ## `mx_cmd_setcfg` -/

/-- The variable `dir` of `mx_line_conf_phy`. -/
def mx_phy_dir (data : Nat) : Nat := (data &&& 0b1110000000000000) >>> 13

/-- The variable `used` of `mx_line_conf_phy`. -/
def mx_phy_used (data : Nat) : Nat := (data &&& 0b0001000000000000) >>> 12

/-- The variable `type` of `mx_line_conf_phy`. -/
def mx_phy_type (data : Nat) : Nat := (data &&& 0b0000111100000000) >>> 8

/-- The checks of `mx_line_conf_phy`: the error code with which the function
returns before its assignments, `none` when it reaches them. -/
def mx_line_conf_phy_check {W : Type} (E : MxEnv W) (data : Nat) : Option Nat :=
  if mx_phy_type data ≥ E.MX_PHY_CNT then some E.MX_SC_E_DEVTYPE
  else if mx_phy_type data = E.MX_PHY_USART_SYNC ∨ mx_phy_type data = E.MX_PHY_USART_ASYNC then
    if mx_phy_dir data ≠ E.MX_DIR_OUTPUT ∧ mx_phy_dir data ≠ E.MX_DIR_INPUT ∧
        mx_phy_dir data ≠ E.MX_DIR_HALF_DUPLEX ∧ mx_phy_dir data ≠ E.MX_DIR_FULL_DUPLEX then
      if mx_phy_used data ≠ 0 then some E.MX_SC_E_DIR
      else if mx_phy_dir data ≠ E.MX_DIR_NONE then some E.MX_SC_E_DIR
      else none
    else none
  else if mx_phy_type data = E.MX_PHY_8255 then
    if mx_phy_dir data ≠ E.MX_DIR_OUTPUT ∧ mx_phy_dir data ≠ E.MX_DIR_INPUT then
      some E.MX_SC_E_DIR
    else none
  else if mx_phy_dir data ≠ E.MX_DIR_NONE then some E.MX_SC_E_DIR
  else none

/-- The three assignments at the end of `mx_line_conf_phy`. -/
def mx_line_set_phy (phy_n data : Nat) (m : Mx) : Mx :=
  { m with
    plines := fun j =>
      if j = phy_n then
        { m.plines phy_n with
          dir := mx_phy_dir data, used := mx_phy_used data, type := mx_phy_type data }
      else m.plines j }

/-- C function `mx_line_conf_phy`: the result and the channel. -/
def mx_line_conf_phy {W : Type} (E : MxEnv W) (phy_n data : Nat) (m : Mx) : Nat × Mx :=
  match mx_line_conf_phy_check E data with
  | some e => (e, m)
  | none => (E.MX_SC_E_OK, mx_line_set_phy phy_n data m)

/-- The loop over `phy_types` of `mx_line_conf_log`: whether the type is found
before the end mark -1. -/
def mx_phy_types_has : List Int → Int → Bool
  | [], _ => false
  | t :: ts, type => if t = type then true else if t = -1 then false else mx_phy_types_has ts type

/-- C function `mx_line_conf_log`: the result and the channel. `data` is the
descriptor of the logical line (four words), `thread_ok` tells whether
`pthread_create` starts the thread of the line. -/
def mx_line_conf_log {W : Type} (E : MxEnv W) (thread_ok : Bool) (phy_n log_n : Nat)
    (data : Nat → Nat) (m : Mx) : Nat × Mx :=
  if (m.plines phy_n).used = 0 then (E.MX_SC_E_PHY_UNUSED, m)
  else if (List.range MX_LINE_CNT).any (fun i => decide (m.llines i = some phy_n)) then
    (E.MX_SC_E_PHY_USED, m)
  else
    match E.mx_proto_get ((data 0 &&& 0b1111111100000000) >>> 8) with
    | none => (E.MX_SC_E_PROTO_MISSING, m)
    | some proto =>
      if proto.dir &&& (m.plines phy_n).dir ≠ proto.dir then (E.MX_SC_E_DIR_MISMATCH, m)
      else if mx_phy_types_has proto.phy_types ((m.plines phy_n).type : Int) = false then
        (E.MX_SC_E_PROTO_MISMATCH, m)
      else if (proto.init (m.plines phy_n) (fun k => data (k + 1))).1 ≠ E.MX_SC_E_OK then
        ((proto.init (m.plines phy_n) (fun k => data (k + 1))).1,
          { m with
            plines := fun j =>
              if j = phy_n then (proto.init (m.plines phy_n) (fun k => data (k + 1))).2
              else m.plines j })
      else
        (if thread_ok then E.MX_SC_E_OK else E.MX_SC_E_NOMEM,
          { m with
            plines := fun j =>
              if j = phy_n then
                { (proto.init (m.plines phy_n) (fun k => data (k + 1))).2 with
                  log_n := (log_n : Int)
                  proto := some ((data 0 &&& 0b1111111100000000) >>> 8) }
              else m.plines j
            llines := fun j => if j = log_n then some phy_n else m.llines j })

/-- One round of the second loop of `mx_lines_deinit`. -/
def mx_lines_deinit_log {W : Type} (E : MxEnv W) (m : Mx) (i : Nat) : Mx :=
  match m.llines i with
  | some k =>
    { m with
      plines := fun j =>
        if j = k then { m.plines k with log_n := -1, status := E.MX_LSTATE_NONE }
        else m.plines j
      llines := fun j => if j = i then none else m.llines j }
  | none => { m with llines := fun j => if j = i then none else m.llines j }

/-- The line that one round of the third loop of `mx_lines_deinit` leaves. -/
def mx_line_deinit_phy {W : Type} (E : MxEnv W) (pline : mx_line) : mx_line :=
  match pline.proto with
  | some n =>
    match E.mx_proto_get n with
    | some proto => { proto.destroy { pline with dir := 0, type := 0, used := 0 } with proto := none }
    | none => { pline with dir := 0, type := 0, used := 0, proto := none }
  | none => { pline with dir := 0, type := 0, used := 0 }

/-- One round of the third loop of `mx_lines_deinit`. -/
def mx_lines_deinit_phy {W : Type} (E : MxEnv W) (m : Mx) (i : Nat) : Mx :=
  { m with plines := fun j => if j = i then mx_line_deinit_phy E (m.plines i) else m.plines j }

/-- C function `mx_lines_deinit`. Its first loop sends QUIT events to the
protocol workers and the second one joins them; of these only the reset of
the lines is part of the channel as embedded here. -/
def mx_lines_deinit {W : Type} (E : MxEnv W) (m : Mx) : Mx :=
  (List.range MX_LINE_CNT).foldl (mx_lines_deinit_phy E)
    ((List.range MX_LINE_CNT).foldl (mx_lines_deinit_log E) m)

/-- The value that the macro `CFGERR(err, line)` of `mx_cmd_setcfg` stores in
the `uint16_t` `ret_err`. -/
def mx_cfgerr (err line : Nat) : Nat := ((err <<< 8) ||| line) % 65536

/-- The inner loop of the configuration of the physical lines in
`mx_cmd_setcfg`, for the descriptor word `d`, with `j` rounds to go from the
line `cur_line`: `ret_err` and the channel when it goes to `fail`, `cur_line`
and the channel when it ends. -/
def mx_setcfg_phy_lines {W : Type} (E : MxEnv W) (d : Nat) :
    Nat → Nat → Mx → Except (Nat × Mx) (Nat × Mx)
  | 0, cur_line, m => Except.ok (cur_line, m)
  | j + 1, cur_line, m =>
    if cur_line ≥ MX_LINE_CNT then Except.error (mx_cfgerr E.MX_SC_E_NUMLINES 0, m)
    else if (mx_line_conf_phy E cur_line d m).1 ≠ E.MX_SC_E_OK then
      Except.error
        (mx_cfgerr (mx_line_conf_phy E cur_line d m).1 cur_line, (mx_line_conf_phy E cur_line d m).2)
    else mx_setcfg_phy_lines E d j (cur_line + 1) (mx_line_conf_phy E cur_line d m).2

/-- The loop that configures the physical lines in `mx_cmd_setcfg`, with `n`
descriptors to go from the descriptor `i` and the line `cur_line`. -/
def mx_setcfg_phy {W : Type} (E : MxEnv W) (data : Nat → Nat) :
    Nat → Nat → Nat → Mx → Except (Nat × Mx) (Nat × Mx)
  | 0, _, cur_line, m => Except.ok (cur_line, m)
  | n + 1, i, cur_line, m =>
    match mx_setcfg_phy_lines E (data i) ((data i &&& 0b11111) + 1) cur_line m with
    | Except.error e => Except.error e
    | Except.ok r => mx_setcfg_phy E data n (i + 1) r.1 r.2

/-- The loop that checks the completeness of the physical lines in
`mx_cmd_setcfg`, with `g` groups to go from the line `i` and
`tape_formatters` tape groups seen: `ret_err` when it goes to `fail`. -/
def mx_setcfg_groups {W : Type} (E : MxEnv W) (m : Mx) : Nat → Nat → Nat → Option Nat
  | 0, _, _ => none
  | g + 1, i, tape_formatters =>
    if (m.plines i).type = E.MX_PHY_MTAPE ∧ tape_formatters + 1 > 1 then
      some (mx_cfgerr E.MX_SC_E_PHY_INCOMPLETE i)
    else if (m.plines (i + 1)).type ≠ (m.plines i).type then
      some (mx_cfgerr E.MX_SC_E_PHY_INCOMPLETE (i + 1))
    else if (m.plines (i + 2)).type ≠ (m.plines i).type then
      some (mx_cfgerr E.MX_SC_E_PHY_INCOMPLETE (i + 2))
    else if (m.plines (i + 3)).type ≠ (m.plines i).type then
      some (mx_cfgerr E.MX_SC_E_PHY_INCOMPLETE (i + 3))
    else
      mx_setcfg_groups E m g (i + 4)
        (if (m.plines i).type = E.MX_PHY_MTAPE then tape_formatters + 1 else tape_formatters)

/-- The loop that configures the logical lines in `mx_cmd_setcfg`, with `n`
lines to go from the line `i`: `ret_err` and the channel when it goes to
`fail`, the channel when it ends. `threads i` tells whether the thread of the
logical line `i` can be started. -/
def mx_setcfg_log {W : Type} (E : MxEnv W) (threads : Nat → Bool) (data : Nat → Nat)
    (phy_desc_count : Nat) : Nat → Nat → Mx → Except (Nat × Mx) Mx
  | 0, _, m => Except.ok m
  | n + 1, i, m =>
    if (mx_line_conf_log E (threads i) (data (phy_desc_count + i * 4) &&& 0b11111) i
        (fun k => data (phy_desc_count + i * 4 + k)) m).1 ≠ E.MX_SC_E_OK then
      Except.error
        (mx_cfgerr
          (mx_line_conf_log E (threads i) (data (phy_desc_count + i * 4) &&& 0b11111) i
            (fun k => data (phy_desc_count + i * 4 + k)) m).1 i,
          (mx_line_conf_log E (threads i) (data (phy_desc_count + i * 4) &&& 0b11111) i
            (fun k => data (phy_desc_count + i * 4 + k)) m).2)
    else
      mx_setcfg_log E threads data phy_desc_count n (i + 1)
        (mx_line_conf_log E (threads i) (data (phy_desc_count + i * 4) &&& 0b11111) i
          (fun k => data (phy_desc_count + i * 4 + k)) m).2

/-- The part of `mx_cmd_setcfg` from the configuration of the physical lines
to the label `fail`: `ret_int`, `ret_err` and the channel. -/
def mx_setcfg_configure {W : Type} (E : MxEnv W) (threads : Nat → Bool) (data : Nat → Nat)
    (phy_desc_count log_count : Nat) (m : Mx) : Nat × Nat × Mx :=
  match mx_setcfg_phy E data phy_desc_count 0 0 m with
  | Except.error e => (E.MX_IRQ_INKON, e.1, e.2)
  | Except.ok r =>
    match mx_setcfg_groups E r.2 (MX_LINE_CNT / 4) 0 0 with
    | some e => (E.MX_IRQ_INKON, e, r.2)
    | none =>
      match mx_setcfg_log E threads data phy_desc_count log_count 0 r.2 with
      | Except.error e => (E.MX_IRQ_INKON, e.1, e.2)
      | Except.ok m2 => (E.MX_IRQ_IUKON, 0, { m2 with state := MX5_CONFIGURED })

/-- The variable `phy_desc_count` of `mx_cmd_setcfg`, from the header. -/
def mx_phy_desc_count (header : Nat) : Nat := (header &&& 0b1111111100000000) >>> 8

/-- The variable `log_count` of `mx_cmd_setcfg`, from the header. -/
def mx_log_count (header : Nat) : Nat := header &&& 0b0000000011111111

/-- The part of `mx_cmd_setcfg` before the label `fail`: `ret_int`, `ret_err`
and the channel at the label; `none` when a transfer writes past the end of
the local array `data`. `data0` is the content of that array at entry. -/
def mx_cmd_setcfg_body {W : Type} (E : MxEnv W) (threads : Nat → Bool) (data0 : Nat → Nat)
    (addr : Nat) (m : Mx) (w : W) : Option (Nat × Nat × Mx) :=
  if m.state = MX5_CONFIGURED then some (E.MX_IRQ_INKON, mx_cfgerr E.MX_SC_E_CONFSET 0, m)
  else
    match mx_mem_mget E m w 0 addr (MX_LINE_CNT + 4 * MX_LINE_CNT) data0 1 with
    | none => none
    | some r1 =>
      if r1.1 ≠ 0 then some (E.MX_IRQ_INKOT, 0, m)
      else
        match mx_mem_mget E m w 0 ((addr + 2) % 65536) (MX_LINE_CNT + 4 * MX_LINE_CNT) r1.2
            (mx_phy_desc_count (r1.2 0) + 4 * mx_log_count (r1.2 0)) with
        | none => none
        | some r2 =>
          if r2.1 ≠ 0 then some (E.MX_IRQ_INKOT, 0, m)
          else if mx_phy_desc_count (r1.2 0) ≤ 0 ∨ mx_phy_desc_count (r1.2 0) > MX_LINE_CNT ∨
              mx_log_count (r1.2 0) ≤ 0 ∨ mx_log_count (r1.2 0) > MX_LINE_CNT then
            some (E.MX_IRQ_INKON, mx_cfgerr E.MX_SC_E_NUMLINES 0, m)
          else
            some (mx_setcfg_configure E threads r2.2 (mx_phy_desc_count (r1.2 0))
              (mx_log_count (r1.2 0)) m)

/-- C function `mx_cmd_setcfg`: the result, the channel and the machine. -/
def mx_cmd_setcfg {W : Type} (E : MxEnv W) (threads : Nat → Bool) (data0 : Nat → Nat)
    (addr : Nat) (m : Mx) (w : W) : Option (Int × Mx × W) :=
  match mx_cmd_setcfg_body E threads data0 addr m w with
  | none => none
  | some b =>
    if b.1 = E.MX_IRQ_INKON then
      if (mx_mem_mput E (if b.2.1 ≠ E.MX_SC_E_CONFSET then mx_lines_deinit E b.2.2 else b.2.2) w 0
          ((addr + 1) % 65536) [b.2.1]).1 ≠ 0 then
        some (0, (mx_int_enqueue E E.MX_IRQ_INKOT 0
          (if b.2.1 ≠ E.MX_SC_E_CONFSET then mx_lines_deinit E b.2.2 else b.2.2)
          (mx_mem_mput E (if b.2.1 ≠ E.MX_SC_E_CONFSET then mx_lines_deinit E b.2.2 else b.2.2)
            w 0 ((addr + 1) % 65536) [b.2.1]).2).2)
      else
        some (0, (mx_int_enqueue E E.MX_IRQ_INKON 0
          (if b.2.1 ≠ E.MX_SC_E_CONFSET then mx_lines_deinit E b.2.2 else b.2.2)
          (mx_mem_mput E (if b.2.1 ≠ E.MX_SC_E_CONFSET then mx_lines_deinit E b.2.2 else b.2.2)
            w 0 ((addr + 1) % 65536) [b.2.1]).2).2)
    else some (0, (mx_int_enqueue E b.1 0 b.2.2 w).2)

/-- Two channels agree in everything but their lines: state, number, latch
and the two queues. -/
def mx_same_core (a b : Mx) : Prop :=
  a.state = b.state ∧ a.chnum = b.chnum ∧ a.intspec = b.intspec ∧ a.intq = b.intq ∧
    a.eventq = b.eventq

/-- The header of the configuration: the word `data[0]` of `mx_cmd_setcfg`
after the read of one word at `addr`. -/
def mx_setcfg_header {W : Type} (E : MxEnv W) (data0 : Nat → Nat) (addr : Nat) (w : W) : Nat :=
  mx_data_store data0 (E.io_mem_mget w 0 addr 1) 0

/-- The words that the read of the line descriptions in `mx_cmd_setcfg`
transfers: `read_size` words are asked for at `addr + 2`. -/
def mx_setcfg_descr {W : Type} (E : MxEnv W) (data0 : Nat → Nat) (addr : Nat) (w : W) :
    List Nat :=
  E.io_mem_mget w 0 ((addr + 2) % 65536)
    (mx_phy_desc_count (mx_setcfg_header E data0 addr w) +
      4 * mx_log_count (mx_setcfg_header E data0 addr w))

/-- The array `data` of `mx_cmd_setcfg` after its two reads. -/
def mx_setcfg_data {W : Type} (E : MxEnv W) (data0 : Nat → Nat) (addr : Nat) (w : W) :
    Nat → Nat :=
  mx_data_store (mx_data_store data0 (E.io_mem_mget w 0 addr 1)) (mx_setcfg_descr E data0 addr w)

/-- The whole configuration validates: the header and all the announced
description words are transferred, both counts are in 1..`MX_LINE_CNT`, and
the loops over the physical lines, over the groups of four and over the
logical lines all end without an error. -/
def mx_setcfg_valid {W : Type} (E : MxEnv W) (threads : Nat → Bool) (data0 : Nat → Nat)
    (addr : Nat) (m : Mx) (w : W) : Prop :=
  (E.io_mem_mget w 0 addr 1).length = 1 ∧
  (mx_setcfg_descr E data0 addr w).length =
    mx_phy_desc_count (mx_setcfg_header E data0 addr w) +
      4 * mx_log_count (mx_setcfg_header E data0 addr w) ∧
  (1 ≤ mx_phy_desc_count (mx_setcfg_header E data0 addr w) ∧
    mx_phy_desc_count (mx_setcfg_header E data0 addr w) ≤ MX_LINE_CNT ∧
    1 ≤ mx_log_count (mx_setcfg_header E data0 addr w) ∧
    mx_log_count (mx_setcfg_header E data0 addr w) ≤ MX_LINE_CNT) ∧
  ∃ r m2,
    mx_setcfg_phy E (mx_setcfg_data E data0 addr w)
      (mx_phy_desc_count (mx_setcfg_header E data0 addr w)) 0 0 m = Except.ok r ∧
    mx_setcfg_groups E r.2 (MX_LINE_CNT / 4) 0 0 = none ∧
    mx_setcfg_log E threads (mx_setcfg_data E data0 addr w)
      (mx_phy_desc_count (mx_setcfg_header E data0 addr w))
      (mx_log_count (mx_setcfg_header E data0 addr w)) 0 r.2 = Except.ok m2

/-- A machine whose memory holds a configuration at [0:16]: the header
0x0101 (one physical description, one logical line), the return field, the
physical description 0x1403 (four tape lines, in use, no direction) and the
logical line 0 on the physical line 0 with protocol 7. -/
def bus_cfg : Bus :=
  bus_of (List.replicate 16 0 ++ [0x0101, 0, 0x1403, 0x0700, 0, 0, 0])

/-- The number of groups, among the `g` groups of four lines from the line
`i` on, whose first line has the tape type. -/
def mx_tape_groups {W : Type} (E : MxEnv W) (m : Mx) : Nat → Nat → Nat
  | _, 0 => 0
  | i, g + 1 =>
    (if (m.plines i).type = E.MX_PHY_MTAPE then 1 else 0) + mx_tape_groups E m (i + 4) g

/-- A machine whose memory holds at [0:16] the header 0x2120: 33 physical
descriptions and 32 logical lines. -/
def bus_big : Bus :=
  bus_of (List.replicate 16 0 ++ [0x2120])

/-- A machine whose memory holds at [0:16] the header 0x0129: one physical
description and 41 logical lines. -/
def bus_logs : Bus :=
  bus_of (List.replicate 16 0 ++ [0x0129])

/-- C29, spec side: the argument time of the instruction word `ir` with the
opcode `op`: the time of the fetch of the argument word, which a normal
argument with the field C zero takes. -/
def spec_argument_time (E : Env) (op : iset_opcode) (ir : Nat) : Int :=
  if op.flags &&& E.OP_FL_ARG_NORM ≠ 0 ∧ E.IR_C ir = 0 then E.TIME_MEM_ARG else 0

/-- C29, spec side: the modification time of the instruction word `ir` with
the opcode `op`, entered with the modification counter `mc`: the times of the
pre-modification (MC not zero), of the B-modification and of the
D-modification (normal argument with the field B, D not zero). -/
def spec_modification_time (E : Env) (op : iset_opcode) (mc ir : Nat) : Int :=
  (if mc ≠ 0 then E.TIME_PREMOD else 0) +
  (if op.flags &&& E.OP_FL_ARG_NORM ≠ 0 ∧ E.IR_B ir ≠ 0 then E.TIME_BMOD else 0) +
  (if op.flags &&& E.OP_FL_ARG_NORM ≠ 0 ∧ E.IR_D ir ≠ 0 then E.TIME_DMOD else 0)

/-- The `float` 1.0. -/
def float32_one : float32 := { m := 1, e := 0 }

/-- The `float` 0.5, which is `1.0f / cpu_speed_factor` for the speed factor
2.0. -/
def float32_half : float32 := { m := 1, e := -1 }

/-- The time keeping state after `clock_gettime` gave the time 0 and the
accumulator was cleared: no sleep so far. -/
def timekeeper_start : Timekeeper :=
  { cpu_time_cumulative := 0, tv_sec := 0, tv_nsec := 0, sleeps := [] }

/-! ## Properties -/

/-- C7: `cpu_state_change(to, from)` returns 0 and sets the CPU state to `to`
if and only if `from == ECTL_STATE_ANY` or the current state equals `from`
(on success nothing else changes); otherwise it returns 1 and leaves the
whole state unchanged. -/
theorem cpu_state_change_iff (E : Env) (to_ from_ : Int) (s : Cpu) :
    (((cpu_state_change E to_ from_ s).1 = 0 ∧
        (cpu_state_change E to_ from_ s).2 = { s with cpu_state := to_ }) ↔
      (from_ = E.ECTL_STATE_ANY ∨ s.cpu_state = from_)) ∧
    (¬ (from_ = E.ECTL_STATE_ANY ∨ s.cpu_state = from_) →
      (cpu_state_change E to_ from_ s).1 = 1 ∧
        (cpu_state_change E to_ from_ s).2 = s) := by
  unfold cpu_state_change
  by_cases h : from_ = E.ECTL_STATE_ANY ∨ s.cpu_state = from_
  · simp [h]
  · simp [h]

/-- Witness of C7: STOP requested from ANY on a running machine succeeds, and
WAIT requested from STOP on a running machine is refused. -/
theorem cpu_state_change_iff_witness :
    ((cpu_state_change mera400 1 (-1) (cpu_of [])).1 = 0 ∧
      (cpu_state_change mera400 1 (-1) (cpu_of [])).2 =
        { cpu_of [] with cpu_state := 1 }) ∧
    ((cpu_state_change mera400 2 1 (cpu_of [])).1 = 1 ∧
      (cpu_state_change mera400 2 1 (cpu_of [])).2 = cpu_of []) :=
  ⟨(cpu_state_change_iff mera400 1 (-1) (cpu_of [])).1.mpr (Or.inl rfl),
   (cpu_state_change_iff mera400 2 1 (cpu_of [])).2 (by decide)⟩

/-! ### Memory access of the CPU -/

theorem cpu_mem_fail_true (E : Env) (s : Cpu) :
    cpu_mem_fail E true s = int_set E.INT_NO_MEM s := by
  simp [cpu_mem_fail]

theorem cpu_mem_fail_false (E : Env) (s : Cpu) :
    cpu_mem_fail E false s =
      { int_set E.INT_NO_MEM s with
        rALARM := true
        cpu_state := if s.nomem_stop = true then E.ECTL_STATE_STOP else s.cpu_state } := by
  unfold cpu_mem_fail cpu_state_change int_set
  cases h : s.nomem_stop <;> simp [h]

theorem cpu_mem_fail_rz (E : Env) (b : Bool) (s : Cpu) :
    (cpu_mem_fail E b s).rz = fun n => if n = E.INT_NO_MEM then true else s.rz n := by
  cases b
  · rw [cpu_mem_fail_false]; rfl
  · rw [cpu_mem_fail_true]; rfl

theorem cpu_mem_read_1_ok (E : Env) (b : Bool) (a w : Nat) (s : Cpu)
    (h : mem_read_1 s.mem (barnb_nb b s) (a % 65536) = some w) :
    cpu_mem_read_1 E b a s = (some w, s) := by
  simp [cpu_mem_read_1, h]

theorem cpu_mem_read_1_fail (E : Env) (b : Bool) (a : Nat) (s : Cpu)
    (h : mem_read_1 s.mem (barnb_nb b s) (a % 65536) = none) :
    cpu_mem_read_1 E b a s = (none, cpu_mem_fail E b s) := by
  simp [cpu_mem_read_1, h]

theorem cpu_mem_write_1_ok (E : Env) (b : Bool) (a d : Nat) (m : Mem) (s : Cpu)
    (h : mem_write_1 s.mem (barnb_nb b s) (a % 65536) d = some m) :
    cpu_mem_write_1 E b a d s = (true, { s with mem := m }) := by
  simp [cpu_mem_write_1, h]

theorem cpu_mem_write_1_fail (E : Env) (b : Bool) (a d : Nat) (s : Cpu)
    (h : mem_write_1 s.mem (barnb_nb b s) (a % 65536) d = none) :
    cpu_mem_write_1 E b a d s = (false, cpu_mem_fail E b s) := by
  simp [cpu_mem_write_1, h]

/-- C5: when the underlying memory access fails, `cpu_mem_read_1` and
`cpu_mem_write_1` return false and NO-MEM is pending afterwards (no other
source is touched); with `barnb` false RALARM is set and the CPU state is
STOP when `stop_on_nomem` is configured (whatever the state was) and is
unchanged otherwise; with `barnb` true RALARM and the CPU state are unchanged.
When the access succeeds they return true and pending interrupts, RALARM and
the CPU state are unchanged (a read changes nothing, a write only memory). -/
theorem cpu_mem_access_policy (E : Env) (barnb : Bool) (addr data : Nat) (s : Cpu) :
    (mem_read_1 s.mem (barnb_nb barnb s) (addr % 65536) = none →
      (cpu_mem_read_1 E barnb addr s).1 = none ∧
      (cpu_mem_read_1 E barnb addr s).2.rz E.INT_NO_MEM = true ∧
      (∀ n, n ≠ E.INT_NO_MEM → (cpu_mem_read_1 E barnb addr s).2.rz n = s.rz n) ∧
      (barnb = false →
        (cpu_mem_read_1 E barnb addr s).2.rALARM = true ∧
        (s.nomem_stop = true →
          (cpu_mem_read_1 E barnb addr s).2.cpu_state = E.ECTL_STATE_STOP) ∧
        (s.nomem_stop = false →
          (cpu_mem_read_1 E barnb addr s).2.cpu_state = s.cpu_state)) ∧
      (barnb = true →
        (cpu_mem_read_1 E barnb addr s).2.rALARM = s.rALARM ∧
        (cpu_mem_read_1 E barnb addr s).2.cpu_state = s.cpu_state)) ∧
    (mem_write_1 s.mem (barnb_nb barnb s) (addr % 65536) data = none →
      (cpu_mem_write_1 E barnb addr data s).1 = false ∧
      (cpu_mem_write_1 E barnb addr data s).2.rz E.INT_NO_MEM = true ∧
      (∀ n, n ≠ E.INT_NO_MEM → (cpu_mem_write_1 E barnb addr data s).2.rz n = s.rz n) ∧
      (barnb = false →
        (cpu_mem_write_1 E barnb addr data s).2.rALARM = true ∧
        (s.nomem_stop = true →
          (cpu_mem_write_1 E barnb addr data s).2.cpu_state = E.ECTL_STATE_STOP) ∧
        (s.nomem_stop = false →
          (cpu_mem_write_1 E barnb addr data s).2.cpu_state = s.cpu_state)) ∧
      (barnb = true →
        (cpu_mem_write_1 E barnb addr data s).2.rALARM = s.rALARM ∧
        (cpu_mem_write_1 E barnb addr data s).2.cpu_state = s.cpu_state)) ∧
    (∀ w, mem_read_1 s.mem (barnb_nb barnb s) (addr % 65536) = some w →
      cpu_mem_read_1 E barnb addr s = (some w, s)) ∧
    (∀ m, mem_write_1 s.mem (barnb_nb barnb s) (addr % 65536) data = some m →
      (cpu_mem_write_1 E barnb addr data s).1 = true ∧
      (cpu_mem_write_1 E barnb addr data s).2 = { s with mem := m } ∧
      (cpu_mem_write_1 E barnb addr data s).2.rz = s.rz ∧
      (cpu_mem_write_1 E barnb addr data s).2.rALARM = s.rALARM ∧
      (cpu_mem_write_1 E barnb addr data s).2.cpu_state = s.cpu_state) := by
  refine ⟨fun h => ?_, fun h => ?_, fun w h => cpu_mem_read_1_ok E barnb addr w s h,
    fun m h => ?_⟩
  · rw [cpu_mem_read_1_fail E barnb addr s h]
    refine ⟨rfl, by simp [cpu_mem_fail_rz], fun n hn => by simp [cpu_mem_fail_rz, hn],
      fun hb => ?_, fun hb => ?_⟩
    · subst hb
      rw [cpu_mem_fail_false]
      exact ⟨rfl, fun h1 => by simp [h1, int_set], fun h1 => by simp [h1, int_set]⟩
    · subst hb
      simp [cpu_mem_fail_true, int_set]
  · rw [cpu_mem_write_1_fail E barnb addr data s h]
    refine ⟨rfl, by simp [cpu_mem_fail_rz], fun n hn => by simp [cpu_mem_fail_rz, hn],
      fun hb => ?_, fun hb => ?_⟩
    · subst hb
      rw [cpu_mem_fail_false]
      exact ⟨rfl, fun h1 => by simp [h1, int_set], fun h1 => by simp [h1, int_set]⟩
    · subst hb
      simp [cpu_mem_fail_true, int_set]
  · rw [cpu_mem_write_1_ok E barnb addr data m s h]
    exact ⟨rfl, rfl, rfl, rfl, rfl⟩

/-- Witness of C5: on the machine whose block 0 has only page 0 mapped, a
read of [0:0x1000] fails with `barnb` false; NO-MEM is pending, RALARM is set
and the state is STOP. -/
theorem cpu_mem_access_policy_witness :
    (cpu_mem_read_1 mera400 false 0x1000 (cpu_of [])).1 = none ∧
    (cpu_mem_read_1 mera400 false 0x1000 (cpu_of [])).2.rz 2 = true ∧
    (cpu_mem_read_1 mera400 false 0x1000 (cpu_of [])).2.rALARM = true ∧
    (cpu_mem_read_1 mera400 false 0x1000 (cpu_of [])).2.cpu_state = 1 :=
  have h := (cpu_mem_access_policy mera400 false 0x1000 0 (cpu_of [])).1 (by decide)
  ⟨h.1, h.2.1, (h.2.2.2.1 rfl).1, (h.2.2.2.1 rfl).2.1 rfl⟩

/-! ### The instruction cycle -/

theorem cpu_do_cycle_fetch (E : Env) (s : Cpu) (w : Nat)
    (hf : mem_read_1 s.mem (barnb_nb s.q s) (s.ic % 65536) = some w) :
    cpu_do_cycle E s = cycle_decoded E (E.cpu_op_tab w) (fetched s w) := by
  have h : cpu_mem_read_1 E s.q s.ic
      { s with ips_counter := s.ips_counter + 1, ic := (s.ic + 1) % 65536 } =
      (some w, { s with ips_counter := s.ips_counter + 1, ic := (s.ic + 1) % 65536 }) :=
    cpu_mem_read_1_ok E s.q s.ic w _ hf
  simp only [cpu_do_cycle, h]
  rfl

/-- C1: in a state where P is set, or where the fetched opcode's
`(R0 & jmp_nef_mask) != jmp_nef_result`, and the instruction fetch succeeds
with the word `w`, `cpu_do_cycle` leaves through the label `ineffective`
without running any handler: the globals are the old ones except for the
cycle counter, IR = `w`, IC, P = false and MC = 0. Registers, memory and
pending interrupts are unchanged (whatever the flags of the opcode, illegal
included); IC is old IC + 1, plus 1 more exactly when the opcode has a normal
argument and `IR_C == 0` (in the 16-bit arithmetic of IC). -/
theorem cpu_do_cycle_skip (E : Env) (s : Cpu) (w : Nat)
    (hf : mem_read_1 s.mem (barnb_nb s.q s) (s.ic % 65536) = some w)
    (hs : s.p = true ∨
      (s.r 0 &&& (E.cpu_op_tab w).jmp_nef_mask) ≠ (E.cpu_op_tab w).jmp_nef_result) :
    (cpu_do_cycle E s).exit = Exit.ineffective ∧
    (cpu_do_cycle E s).cpu =
      { s with
        ips_counter := s.ips_counter + 1
        ir := w
        ic := (s.ic + 1 +
          (if (E.cpu_op_tab w).flags &&& E.OP_FL_ARG_NORM ≠ 0 ∧ E.IR_C w = 0
            then 1 else 0)) % 65536
        p := false
        mc := 0 } ∧
    (cpu_do_cycle E s).cpu.r = s.r ∧
    (cpu_do_cycle E s).cpu.mem = s.mem ∧
    (cpu_do_cycle E s).cpu.rz = s.rz ∧
    (cpu_do_cycle E s).cpu.ic =
      (s.ic + 1 +
        (if (E.cpu_op_tab w).flags &&& E.OP_FL_ARG_NORM ≠ 0 ∧ E.IR_C w = 0
          then 1 else 0)) % 65536 ∧
    (cpu_do_cycle E s).cpu.p = false ∧
    (cpu_do_cycle E s).cpu.mc = 0 := by
  have hs1 : (fetched s w).p = true ∨
      ((fetched s w).r 0 &&& (E.cpu_op_tab w).jmp_nef_mask) ≠
        (E.cpu_op_tab w).jmp_nef_result := hs
  have hc : cpu_do_cycle E s =
      cycle_ineffective E 0
        { s with
          ips_counter := s.ips_counter + 1
          ir := w
          ic := (s.ic + 1 +
            (if (E.cpu_op_tab w).flags &&& E.OP_FL_ARG_NORM ≠ 0 ∧ E.IR_C w = 0
              then 1 else 0)) % 65536 } := by
    rw [cpu_do_cycle_fetch E s w hf]
    unfold cycle_decoded
    rw [if_pos hs1]
    by_cases hn : (E.cpu_op_tab w).flags &&& E.OP_FL_ARG_NORM ≠ 0 ∧ E.IR_C w = 0
    · have hn1 : (E.cpu_op_tab w).flags &&& E.OP_FL_ARG_NORM ≠ 0 ∧
          E.IR_C (fetched s w).ir = 0 := hn
      rw [if_pos hn1, if_pos hn]
      simp only [fetched, Nat.add_mod_mod, Nat.mod_add_mod]
    · have hn1 : ¬ ((E.cpu_op_tab w).flags &&& E.OP_FL_ARG_NORM ≠ 0 ∧
          E.IR_C (fetched s w).ir = 0) := hn
      rw [if_neg hn1, if_neg hn]
      rfl
  rw [hc]
  exact ⟨rfl, rfl, rfl, rfl, rfl, rfl, rfl, rfl⟩

/-- Witness of C1: P is set and the next instruction is the 2-word
`LW R2, 0x1234`: it is skipped, IC ends at 2 and R2 is still 0. -/
theorem cpu_do_cycle_skip_witness :
    (cpu_do_cycle mera400 { cpu_of [0x4080, 0x1234] with p := true }).cpu.ic = 2 ∧
    (cpu_do_cycle mera400 { cpu_of [0x4080, 0x1234] with p := true }).cpu.r 2 = 0 ∧
    (cpu_do_cycle mera400 { cpu_of [0x4080, 0x1234] with p := true }).cpu.p = false :=
  have h := cpu_do_cycle_skip mera400 { cpu_of [0x4080, 0x1234] with p := true } 0x4080
    (by decide) (Or.inl rfl)
  ⟨h.2.2.2.2.2.1.trans (by decide), congrFun h.2.2.1 2, h.2.2.2.2.2.2.1⟩

/-- C4: for an effective (not skipped) opcode `w` that is flagged illegal, or
flagged user-illegal while Q is set, `cpu_do_cycle` raises the ILLEGAL
interrupt and leaves through the label `ineffective` without running any
handler: the globals are the old ones except for the cycle counter, IR = `w`,
the pending ILLEGAL interrupt, IC = old IC + 1 (16-bit; the long argument of
a 2-word form is not skipped), P = false and MC = 0. -/
theorem cpu_do_cycle_illegal (E : Env) (s : Cpu) (w : Nat)
    (hf : mem_read_1 s.mem (barnb_nb s.q s) (s.ic % 65536) = some w)
    (hp : s.p = false)
    (hnef : (s.r 0 &&& (E.cpu_op_tab w).jmp_nef_mask) = (E.cpu_op_tab w).jmp_nef_result)
    (hill : (E.cpu_op_tab w).flags &&& E.OP_FL_ILLEGAL ≠ 0 ∨
      (s.q = true ∧ (E.cpu_op_tab w).flags &&& E.OP_FL_USR_ILLEGAL ≠ 0)) :
    (cpu_do_cycle E s).exit = Exit.ineffective ∧
    (cpu_do_cycle E s).cpu =
      { s with
        ips_counter := s.ips_counter + 1
        ir := w
        ic := (s.ic + 1) % 65536
        rz := fun n => if n = E.INT_ILLEGAL_INSTRUCTION then true else s.rz n
        p := false
        mc := 0 } ∧
    (cpu_do_cycle E s).cpu.rz E.INT_ILLEGAL_INSTRUCTION = true ∧
    (cpu_do_cycle E s).cpu.ic = (s.ic + 1) % 65536 ∧
    (cpu_do_cycle E s).cpu.p = false ∧
    (cpu_do_cycle E s).cpu.mc = 0 := by
  have hs1 : ¬ ((fetched s w).p = true ∨
      ((fetched s w).r 0 &&& (E.cpu_op_tab w).jmp_nef_mask) ≠
        (E.cpu_op_tab w).jmp_nef_result) := by
    simp [fetched, hp, hnef]
  have hc : cpu_do_cycle E s =
      cycle_ineffective E 0 (int_set E.INT_ILLEGAL_INSTRUCTION (fetched s w)) := by
    rw [cpu_do_cycle_fetch E s w hf]
    unfold cycle_decoded
    rw [if_neg hs1]
    by_cases h1 : (E.cpu_op_tab w).flags &&& E.OP_FL_ILLEGAL ≠ 0
    · rw [if_pos h1]
    · rw [if_neg h1]
      have h2 : (fetched s w).q = true ∧
          (E.cpu_op_tab w).flags &&& E.OP_FL_USR_ILLEGAL ≠ 0 := by
        rcases hill with h | h
        · exact absurd h h1
        · exact h
      rw [if_pos h2]
  rw [hc]
  refine ⟨rfl, rfl, ?_, rfl, rfl, rfl⟩
  simp [cycle_ineffective, int_set]

/-- Witness of C4: the word 0 is flagged illegal in the table of `mera400`;
the cycle leaves ILLEGAL (source 6) pending and IC at 1. -/
theorem cpu_do_cycle_illegal_witness :
    (cpu_do_cycle mera400 (cpu_of [0, 0x1234])).cpu.rz 6 = true ∧
    (cpu_do_cycle mera400 (cpu_of [0, 0x1234])).cpu.ic = 1 ∧
    (cpu_do_cycle mera400 (cpu_of [0, 0x1234])).cpu.mc = 0 :=
  have h := cpu_do_cycle_illegal mera400 (cpu_of [0, 0x1234]) 0
    (by decide) rfl (by decide) (Or.inl (by decide))
  ⟨h.2.2.1, h.2.2.2.1.trans (by decide), h.2.2.2.2.2⟩

/-! ### The RUN arm of the loop -/

/-- C2: in state RUN (the `case` labels of the `switch` being distinct), one
pass of `cpu_loop` is the RUN arm; it calls `int_serve` and no instruction
cycle exactly when `rp` is non-zero, P is false and MC == 0; otherwise it
calls `cpu_do_cycle` exactly once (then the breakpoint check). Hence with P
set or MC != 0, in particular after a cycle that set P or executed MD, the
next pass runs an instruction cycle and serves no interrupt. -/
theorem cpu_loop_run_serve_iff (E : Env) (s : Cpu)
    (hrun : s.cpu_state = E.ECTL_STATE_RUN)
    (hne : E.ECTL_STATE_RUN ≠ E.ECTL_STATE_CYCLE) :
    cpu_loop_tick E s = some (cpu_loop_run E s) ∧
    ((cpu_loop_run E s).calls = [Call.int_serve] ↔
      (rp s = true ∧ s.p = false ∧ s.mc = 0)) ∧
    ((rp s = true ∧ s.p = false ∧ s.mc = 0) →
      (cpu_loop_run E s).cpu = E.int_serve s ∧
      (cpu_loop_run E s).cpu_time = E.TIME_INT_SERVE) ∧
    (¬ (rp s = true ∧ s.p = false ∧ s.mc = 0) →
      (cpu_loop_run E s).calls = [Call.cpu_do_cycle] ∧
      (cpu_loop_run E s).cpu_time = (cpu_do_cycle E s).instruction_time ∧
      (cpu_loop_run E s).cpu =
        (if E.ectl_brk_check (cpu_do_cycle E s).cpu = true then
          (cpu_state_change E E.ECTL_STATE_STOP E.ECTL_STATE_RUN (cpu_do_cycle E s).cpu).2
        else (cpu_do_cycle E s).cpu)) ∧
    ((s.p = true ∨ s.mc ≠ 0) → (cpu_loop_run E s).calls = [Call.cpu_do_cycle]) ∧
    (((cpu_loop_run E s).cpu.p = true ∨ (cpu_loop_run E s).cpu.mc ≠ 0) →
      (cpu_loop_run E (cpu_loop_run E s).cpu).calls = [Call.cpu_do_cycle]) := by
  have key : ∀ t : Cpu, (t.p = true ∨ t.mc ≠ 0) →
      (cpu_loop_run E t).calls = [Call.cpu_do_cycle] := by
    intro t ht
    have hn : ¬ (rp t = true ∧ t.p = false ∧ t.mc = 0) := by
      rintro ⟨-, h1, h2⟩
      rcases ht with h | h
      · rw [h1] at h; exact Bool.false_ne_true h
      · exact h h2
    simp only [cpu_loop_run, if_neg hn]
  refine ⟨?_, ?_, ?_, ?_, key s, key _⟩
  · unfold cpu_loop_tick
    rw [if_neg (by rw [hrun]; exact hne), if_pos hrun]
  · by_cases h : rp s = true ∧ s.p = false ∧ s.mc = 0
    · have e : (cpu_loop_run E s).calls = [Call.int_serve] := by
        simp only [cpu_loop_run, if_pos h]
      exact ⟨fun _ => h, fun _ => e⟩
    · have e : (cpu_loop_run E s).calls = [Call.cpu_do_cycle] := by
        simp only [cpu_loop_run, if_neg h]
      refine ⟨fun h1 => ?_, fun h1 => absurd h1 h⟩
      rw [e] at h1
      exact absurd h1 (by decide)
  · intro h
    simp only [cpu_loop_run, if_pos h, and_self]
  · intro h
    simp only [cpu_loop_run, if_neg h]
    exact ⟨trivial, trivial, trivial⟩

/-- Witness of C2: on a running machine with source 3 pending and unmasked,
P clear and MC == 0, the pass serves the interrupt; with P set it runs a
cycle instead. -/
theorem cpu_loop_run_serve_iff_witness :
    (cpu_loop_run mera400
      { cpu_of [0x4080, 0x1234] with rz := fun n => decide (n = 3),
                                     xmask := fun _ => true }).calls = [Call.int_serve] ∧
    (cpu_loop_run mera400
      { cpu_of [0x4080, 0x1234] with rz := fun n => decide (n = 3),
                                     xmask := fun _ => true,
                                     p := true }).calls = [Call.cpu_do_cycle] :=
  ⟨(cpu_loop_run_serve_iff mera400
      { cpu_of [0x4080, 0x1234] with rz := fun n => decide (n = 3),
                                     xmask := fun _ => true } rfl (by decide)).2.1.mpr
      (by decide),
   (cpu_loop_run_serve_iff mera400
      { cpu_of [0x4080, 0x1234] with rz := fun n => decide (n = 3),
                                     xmask := fun _ => true,
                                     p := true } rfl (by decide)).2.2.2.2.1 (Or.inl rfl)⟩

/-! ### The MD chain -/

theorem cpu_mem_read_1_cases (E : Env) (b : Bool) (a : Nat) (s : Cpu) :
    (∃ w, cpu_mem_read_1 E b a s = (some w, s)) ∨
      cpu_mem_read_1 E b a s = (none, cpu_mem_fail E b s) := by
  unfold cpu_mem_read_1
  cases mem_read_1 s.mem (barnb_nb b s) (a % 65536) with
  | none => exact Or.inr rfl
  | some w => exact Or.inl ⟨w, rfl⟩

theorem cycle_premod_frame (s : Cpu) :
    ∃ z a, cycle_premod s = { s with zc17 := z, ac := a } := by
  unfold cycle_premod
  split
  · exact ⟨_, _, rfl⟩
  · exact ⟨false, s.ac, rfl⟩

theorem cycle_bmod_frame (E : Env) (op : iset_opcode) (s : Cpu) :
    ∃ z a, cycle_bmod E op s = { s with zc17 := z, ac := a } := by
  unfold cycle_bmod
  split
  · exact ⟨_, _, rfl⟩
  · exact ⟨s.zc17, s.ac, rfl⟩

/-- A cycle that reaches the handler went through `cycle_execute`, entered
with the MC and P the argument preparation started from. -/
theorem cycle_modify_executed (E : Env) (op : iset_opcode) (t : Int) (s : Cpu)
    (hex : (cycle_modify E op t s).exit = Exit.executed) :
    ∃ t1 s1, cycle_modify E op t s = cycle_execute E op t1 s1 ∧
      s1.mc = s.mc ∧ s1.p = s.p := by
  obtain ⟨z1, a1, h1⟩ := cycle_premod_frame s
  obtain ⟨z2, a2, h2⟩ := cycle_bmod_frame E op (cycle_premod s)
  unfold cycle_modify at hex ⊢
  rw [h2, h1] at hex ⊢
  unfold cycle_dmod at hex ⊢
  simp only at hex ⊢
  split at hex
  · rename_i hd
    rw [if_pos hd]
    rcases cpu_mem_read_1_cases E s.q a2
      { s with zc17 := z2, ac := a2, ar := a2 } with ⟨w, hw⟩ | hw
    · rw [hw]
      exact ⟨_, _, rfl, rfl, rfl⟩
    · rw [hw] at hex
      simp [cycle_ineffective_memfail] at hex
  · rename_i hd
    rw [if_neg hd]
    exact ⟨_, _, rfl, rfl, rfl⟩

theorem cycle_argument_executed (E : Env) (op : iset_opcode) (s : Cpu)
    (hex : (cycle_argument E op s).exit = Exit.executed) :
    ∃ t1 s1, cycle_argument E op s = cycle_execute E op t1 s1 ∧
      s1.mc = s.mc ∧ s1.p = s.p := by
  unfold cycle_argument at hex ⊢
  split at hex
  · rename_i hn
    rw [if_pos hn]
    split at hex
    · rename_i hc
      rw [if_pos hc]
      obtain ⟨t1, s1, e, h1, h2⟩ := cycle_modify_executed E op _ _ hex
      exact ⟨t1, s1, e, h1, h2⟩
    · rename_i hc
      rw [if_neg hc]
      rcases cpu_mem_read_1_cases E s.q s.ic s with ⟨w, hw⟩ | hw
      · rw [hw] at hex ⊢
        obtain ⟨t1, s1, e, h1, h2⟩ := cycle_modify_executed E op _ _ hex
        exact ⟨t1, s1, e, h1, h2⟩
      · rw [hw] at hex
        simp [cycle_ineffective_memfail] at hex
  · rename_i hn
    rw [if_neg hn]
    split at hex
    · rename_i hsh
      rw [if_pos hsh]
      obtain ⟨t1, s1, e, h1, h2⟩ := cycle_modify_executed E op _ _ hex
      exact ⟨t1, s1, e, h1, h2⟩
    · rename_i hsh
      rw [if_neg hsh]
      split at hex
      · rename_i hb
        rw [if_pos hb]
        obtain ⟨t1, s1, e, h1, h2⟩ := cycle_modify_executed E op _ _ hex
        exact ⟨t1, s1, e, h1, h2⟩
      · rename_i hb
        rw [if_neg hb]
        exact cycle_modify_executed E op _ _ hex

theorem cycle_decoded_executed (E : Env) (op : iset_opcode) (s : Cpu)
    (hex : (cycle_decoded E op s).exit = Exit.executed) :
    s.p = false ∧ ∃ t1 s1, cycle_decoded E op s = cycle_execute E op t1 s1 ∧
      s1.mc = s.mc ∧ s1.p = s.p := by
  unfold cycle_decoded at hex ⊢
  split at hex
  · exfalso
    split at hex <;> simp [cycle_ineffective] at hex
  · rename_i h1
    rw [if_neg h1]
    have hp : s.p = false := by
      cases hq : s.p
      · rfl
      · exact absurd (Or.inl hq) h1
    refine ⟨hp, ?_⟩
    split at hex
    · simp [cycle_ineffective] at hex
    · rename_i h2
      rw [if_neg h2]
      split at hex
      · simp [cycle_ineffective] at hex
      · rename_i h3
        rw [if_neg h3]
        split at hex
        · simp [cycle_ineffective] at hex
        · rename_i h4
          rw [if_neg h4]
          exact cycle_argument_executed E op s hex

theorem cycle_execute_md (E : Env) (op : iset_opcode) (t : Int) (s : Cpu)
    (hmd : op.fun_ = Fn.op_77_md) (hlt : s.mc < 3) :
    (cycle_execute E op t s).cpu.mc = s.mc + 1 ∧ (cycle_execute E op t s).cpu.p = s.p := by
  have h3 : ¬ s.mc ≥ 3 := by omega
  simp [cycle_execute, hmd, op_fun, op_77_md, h3]

/-- An executed MD cycle with MC below 3 increments MC and leaves P clear. -/
theorem cpu_do_cycle_md (E : Env) (s : Cpu) (w : Nat)
    (hf : mem_read_1 s.mem (barnb_nb s.q s) (s.ic % 65536) = some w)
    (hmd : (E.cpu_op_tab w).fun_ = Fn.op_77_md) (hlt : s.mc < 3)
    (hex : (cpu_do_cycle E s).exit = Exit.executed) :
    (cpu_do_cycle E s).cpu.mc = s.mc + 1 ∧ (cpu_do_cycle E s).cpu.p = false := by
  rw [cpu_do_cycle_fetch E s w hf] at hex ⊢
  obtain ⟨hp, t1, s1, e, h1, h2⟩ := cycle_decoded_executed E _ _ hex
  rw [e]
  have hm := cycle_execute_md E (E.cpu_op_tab w) t1 s1 hmd (by rw [h1]; exact hlt)
  rw [h1, h2] at hm
  exact ⟨hm.1, hm.2.trans hp⟩

/-- A fetched MD that is not skipped while MC == 3 raises ILLEGAL and leaves
through `ineffective`. -/
theorem cpu_do_cycle_md4 (E : Env) (s : Cpu) (w : Nat)
    (hf : mem_read_1 s.mem (barnb_nb s.q s) (s.ic % 65536) = some w)
    (hmd : (E.cpu_op_tab w).fun_ = Fn.op_77_md) (hmc : s.mc = 3)
    (hp : s.p = false)
    (hnef : (s.r 0 &&& (E.cpu_op_tab w).jmp_nef_mask) = (E.cpu_op_tab w).jmp_nef_result) :
    cpu_do_cycle E s =
      cycle_ineffective E 0 (int_set E.INT_ILLEGAL_INSTRUCTION (fetched s w)) := by
  have hs1 : ¬ ((fetched s w).p = true ∨
      ((fetched s w).r 0 &&& (E.cpu_op_tab w).jmp_nef_mask) ≠
        (E.cpu_op_tab w).jmp_nef_result) := by
    simp [fetched, hp, hnef]
  have h4 : (E.cpu_op_tab w).fun_ = Fn.op_77_md ∧ (fetched s w).mc = 3 := ⟨hmd, hmc⟩
  rw [cpu_do_cycle_fetch E s w hf]
  unfold cycle_decoded
  rw [if_neg hs1, if_pos h4]
  split
  · rfl
  · split <;> rfl

/-- C3: starting from MC == 0, three consecutive effective MD cycles (each
fetches an MD opcode and reaches its handler, so P is clear) leave MC == 1,
2 and 3; a fourth consecutive MD that is not skipped raises the ILLEGAL
interrupt and leaves through the label `ineffective` without running the MD
handler: the globals are those before the fourth cycle except for the cycle
counter, IR, IC + 1, the pending ILLEGAL interrupt, P = false and MC = 0. -/
theorem md_chain_fourth_illegal (E : Env) (s : Cpu) (w0 w1 w2 w3 : Nat)
    (hmc : s.mc = 0)
    (hf0 : mem_read_1 s.mem (barnb_nb s.q s) (s.ic % 65536) = some w0)
    (hmd0 : (E.cpu_op_tab w0).fun_ = Fn.op_77_md)
    (hex0 : (cpu_do_cycle E s).exit = Exit.executed)
    (hf1 : mem_read_1 (cpu_run E 1 s).mem (barnb_nb (cpu_run E 1 s).q (cpu_run E 1 s))
      ((cpu_run E 1 s).ic % 65536) = some w1)
    (hmd1 : (E.cpu_op_tab w1).fun_ = Fn.op_77_md)
    (hex1 : (cpu_do_cycle E (cpu_run E 1 s)).exit = Exit.executed)
    (hf2 : mem_read_1 (cpu_run E 2 s).mem (barnb_nb (cpu_run E 2 s).q (cpu_run E 2 s))
      ((cpu_run E 2 s).ic % 65536) = some w2)
    (hmd2 : (E.cpu_op_tab w2).fun_ = Fn.op_77_md)
    (hex2 : (cpu_do_cycle E (cpu_run E 2 s)).exit = Exit.executed)
    (hf3 : mem_read_1 (cpu_run E 3 s).mem (barnb_nb (cpu_run E 3 s).q (cpu_run E 3 s))
      ((cpu_run E 3 s).ic % 65536) = some w3)
    (hmd3 : (E.cpu_op_tab w3).fun_ = Fn.op_77_md)
    (hnef3 : ((cpu_run E 3 s).r 0 &&& (E.cpu_op_tab w3).jmp_nef_mask) =
      (E.cpu_op_tab w3).jmp_nef_result) :
    (cpu_run E 1 s).mc = 1 ∧ (cpu_run E 2 s).mc = 2 ∧ (cpu_run E 3 s).mc = 3 ∧
    (cpu_do_cycle E (cpu_run E 3 s)).exit = Exit.ineffective ∧
    (cpu_do_cycle E (cpu_run E 3 s)).cpu =
      { cpu_run E 3 s with
        ips_counter := (cpu_run E 3 s).ips_counter + 1
        ir := w3
        ic := ((cpu_run E 3 s).ic + 1) % 65536
        rz := fun n =>
          if n = E.INT_ILLEGAL_INSTRUCTION then true else (cpu_run E 3 s).rz n
        p := false
        mc := 0 } ∧
    (cpu_run E 4 s).rz E.INT_ILLEGAL_INSTRUCTION = true ∧
    (cpu_run E 4 s).mc = 0 := by
  have e1 : cpu_run E 1 s = (cpu_do_cycle E s).cpu := rfl
  have e2 : cpu_run E 2 s = (cpu_do_cycle E (cpu_run E 1 s)).cpu := rfl
  have e3 : cpu_run E 3 s = (cpu_do_cycle E (cpu_run E 2 s)).cpu := rfl
  have e4 : cpu_run E 4 s = (cpu_do_cycle E (cpu_run E 3 s)).cpu := rfl
  have a1 := cpu_do_cycle_md E s w0 hf0 hmd0 (by omega) hex0
  rw [← e1, hmc] at a1
  have a2 := cpu_do_cycle_md E _ w1 hf1 hmd1 (by omega) hex1
  rw [← e2, a1.1] at a2
  have a3 := cpu_do_cycle_md E _ w2 hf2 hmd2 (by omega) hex2
  rw [← e3, a2.1] at a3
  have a4 := cpu_do_cycle_md4 E _ w3 hf3 hmd3 a3.1 a3.2 hnef3
  refine ⟨a1.1, a2.1, a3.1, ?_, ?_, ?_, ?_⟩
  · rw [a4]; rfl
  · rw [a4]; rfl
  · rw [e4, a4]; simp [cycle_ineffective, int_set]
  · rw [e4, a4]; rfl

/-- Witness of C3: the program `MD 0; MD 0; MD 0; MD 0` (2-word forms) at
[0:0]. After the fourth cycle ILLEGAL (source 6) is pending and MC == 0. -/
theorem md_chain_fourth_illegal_witness :
    (cpu_run mera400 3 (cpu_of [0xFD40, 0, 0xFD40, 0, 0xFD40, 0, 0xFD40, 0])).mc = 3 ∧
    (cpu_run mera400 4 (cpu_of [0xFD40, 0, 0xFD40, 0, 0xFD40, 0, 0xFD40, 0])).rz 6 = true ∧
    (cpu_run mera400 4 (cpu_of [0xFD40, 0, 0xFD40, 0, 0xFD40, 0, 0xFD40, 0])).mc = 0 :=
  have h := md_chain_fourth_illegal mera400
    (cpu_of [0xFD40, 0, 0xFD40, 0, 0xFD40, 0, 0xFD40, 0]) 0xFD40 0xFD40 0xFD40 0xFD40
    rfl (by decide) (by decide) (by decide) (by decide) (by decide) (by decide)
    (by decide) (by decide) (by decide) (by decide) (by decide) (by decide)
  ⟨h.2.2.1, h.2.2.2.2.2.1, h.2.2.2.2.2.2⟩

/-! ### Memory cells -/

theorem mem_ptr_mem_set (m : Mem) (c : Nat × Nat × Nat) (d nb a : Nat) :
    mem_ptr (mem_set m c d) nb a = mem_ptr m nb a := rfl

theorem mem_get_mem_set (m : Mem) (c c1 : Nat × Nat × Nat) (d : Nat) :
    mem_get (mem_set m c d) c1 = if c1 = c then d % 65536 else mem_get m c1 := rfl

theorem mem_get_mem_set_same (m : Mem) (c : Nat × Nat × Nat) (d : Nat) :
    mem_get (mem_set m c d) c = d % 65536 := by
  rw [mem_get_mem_set, if_pos rfl]

theorem mem_get_mem_set_other (m : Mem) (c c1 : Nat × Nat × Nat) (d : Nat) (h : c1 ≠ c) :
    mem_get (mem_set m c d) c1 = mem_get m c1 := by
  rw [mem_get_mem_set, if_neg h]

theorem mem_ptr_low (m : Mem) (nb a : Nat) (c : Nat × Nat × Nat)
    (h : mem_ptr m nb a = some c) : c.2.2 = a % 4096 := by
  unfold mem_ptr at h
  split at h
  · exact absurd h (by simp)
  · rw [← Option.some.inj h]
    exact Nat.and_pow_two_sub_one_eq_mod a 12

theorem mem_read_1_of_ptr (m : Mem) (nb a : Nat) (c : Nat × Nat × Nat)
    (h : mem_ptr m nb a = some c) : mem_read_1 m nb a = some (mem_get m c) := by
  simp [mem_read_1, h]

theorem mem_ptr_of_read (m : Mem) (nb a w : Nat) (h : mem_read_1 m nb a = some w) :
    ∃ c, mem_ptr m nb a = some c ∧ mem_get m c = w := by
  unfold mem_read_1 at h
  split at h
  · exact absurd h (by simp)
  · rename_i c hc
    exact ⟨c, hc, Option.some.inj h⟩

theorem mem_ptr_of_ne_none (m : Mem) (nb a : Nat) (h : mem_ptr m nb a ≠ none) :
    ∃ c, mem_ptr m nb a = some c :=
  Option.ne_none_iff_exists'.mp h

theorem barnb_nb_false (s : Cpu) : barnb_nb false s = 0 := by
  simp [barnb_nb]

theorem barnb_nb_true (s : Cpu) : barnb_nb true s = s.nb := by
  simp [barnb_nb]

theorem cpu_mem_read_1_block0 (E : Env) (a : Nat) (s : Cpu) (c : Nat × Nat × Nat)
    (h : mem_ptr s.mem 0 (a % 65536) = some c) :
    cpu_mem_read_1 E false a s = (some (mem_get s.mem c), s) := by
  simp [cpu_mem_read_1, barnb_nb_false, mem_read_1, h]

theorem cpu_mem_write_1_block0 (E : Env) (a d : Nat) (s : Cpu) (c : Nat × Nat × Nat)
    (h : mem_ptr s.mem 0 (a % 65536) = some c) :
    cpu_mem_write_1 E false a d s = (true, { s with mem := mem_set s.mem c d }) := by
  simp [cpu_mem_write_1, barnb_nb_false, mem_write_1, h]

/-! ### Context switch -/

/-- Closed form of `cpu_ctx_switch` when the stack pointer cell `csp` holds
`sp` and the four frame addresses have the cells `c0 .. c3`. -/
theorem cpu_ctx_switch_ok (E : Env) (arg new_ic int_mask : Nat) (s : Cpu)
    (csp c0 c1 c2 c3 : Nat × Nat × Nat) (sp : Nat)
    (hsp : mem_ptr s.mem 0 (E.STACK_POINTER % 65536) = some csp)
    (hv : mem_get s.mem csp = sp)
    (h0 : mem_ptr s.mem 0 (sp % 65536) = some c0)
    (h1 : mem_ptr s.mem 0 ((sp + 1) % 65536) = some c1)
    (h2 : mem_ptr s.mem 0 ((sp + 2) % 65536) = some c2)
    (h3 : mem_ptr s.mem 0 ((sp + 3) % 65536) = some c3) :
    cpu_ctx_switch E arg new_ic int_mask s =
      { s with
        r := fun n => if n = 0 then 0 else s.r n
        ic := new_ic % 65536
        ar := (sp + 4) % 65536
        rm := s.rm &&& (int_mask % 65536)
        q := false
        xmask := E.int_rm2xmask (s.rm &&& (int_mask % 65536))
        mem := mem_set (mem_set (mem_set (mem_set (mem_set s.mem c0 s.ic) c1 (s.r 0)) c2
          (SR_READ s)) c3 (arg % 65536)) csp ((sp + 4) % 65536) } := by
  unfold cpu_ctx_switch
  rw [cpu_mem_read_1_block0 E _ s csp hsp]
  simp only [hv]
  rw [cpu_mem_write_1_block0 E _ _ _ c0]
  simp only []
  rw [cpu_mem_write_1_block0 E _ _ _ c1]
  simp only []
  rw [cpu_mem_write_1_block0 E _ _ _ c2]
  simp only []
  rw [cpu_mem_write_1_block0 E _ _ _ c3]
  simp only []
  rw [cpu_mem_write_1_block0 E _ _ _ csp]
  · simp only [Nat.mod_add_mod, Nat.add_assoc, Nat.reduceAdd]
    rfl
  · exact hsp
  · show mem_ptr s.mem 0 _ = _
    rw [← h3]; congr 1; omega
  · show mem_ptr s.mem 0 _ = _
    rw [← h2]; congr 1; omega
  · show mem_ptr s.mem 0 _ = _
    rw [← h1]; congr 1; omega
  · exact h0

/-- C8: when the stack-pointer word [0:STACK_POINTER] is readable, with
content `sp`, and the four frame addresses `sp .. sp+3` (mod 2^16) are mapped
in block 0, then after `cpu_ctx_switch(arg, new_ic, int_mask)` the words at
`sp`, `sp+1`, `sp+2`, `sp+3` are old IC, old R0, old SR and `arg` (for each
frame word whose storage cell is not the cell of the stack-pointer word, which
is written last), the stack-pointer word holds `sp+4` (mod 2^16), and
IC == new_ic, R0 == 0, Q == false, RM == old RM & int_mask. IC, R0 and the
three parameters are `uint16_t` values. -/
theorem cpu_ctx_switch_frame (E : Env) (arg new_ic int_mask : Nat) (s : Cpu) (sp : Nat)
    (hsp : mem_read_1 s.mem 0 (E.STACK_POINTER % 65536) = some sp)
    (hmap : ∀ i, i < 4 → mem_ptr s.mem 0 ((sp + i) % 65536) ≠ none)
    (hic : s.ic < 65536) (hr0 : s.r 0 < 65536)
    (harg : arg < 65536) (hnic : new_ic < 65536) (hmask : int_mask < 65536) :
    (mem_ptr s.mem 0 ((sp + 0) % 65536) ≠ mem_ptr s.mem 0 (E.STACK_POINTER % 65536) →
      mem_read_1 (cpu_ctx_switch E arg new_ic int_mask s).mem 0 ((sp + 0) % 65536) =
        some s.ic) ∧
    (mem_ptr s.mem 0 ((sp + 1) % 65536) ≠ mem_ptr s.mem 0 (E.STACK_POINTER % 65536) →
      mem_read_1 (cpu_ctx_switch E arg new_ic int_mask s).mem 0 ((sp + 1) % 65536) =
        some (s.r 0)) ∧
    (mem_ptr s.mem 0 ((sp + 2) % 65536) ≠ mem_ptr s.mem 0 (E.STACK_POINTER % 65536) →
      mem_read_1 (cpu_ctx_switch E arg new_ic int_mask s).mem 0 ((sp + 2) % 65536) =
        some (SR_READ s)) ∧
    (mem_ptr s.mem 0 ((sp + 3) % 65536) ≠ mem_ptr s.mem 0 (E.STACK_POINTER % 65536) →
      mem_read_1 (cpu_ctx_switch E arg new_ic int_mask s).mem 0 ((sp + 3) % 65536) =
        some arg) ∧
    mem_read_1 (cpu_ctx_switch E arg new_ic int_mask s).mem 0 (E.STACK_POINTER % 65536) =
      some ((sp + 4) % 65536) ∧
    (cpu_ctx_switch E arg new_ic int_mask s).ic = new_ic ∧
    (cpu_ctx_switch E arg new_ic int_mask s).r 0 = 0 ∧
    (cpu_ctx_switch E arg new_ic int_mask s).q = false ∧
    (cpu_ctx_switch E arg new_ic int_mask s).rm = s.rm &&& int_mask := by
  obtain ⟨csp, hcsp, hv⟩ := mem_ptr_of_read _ _ _ _ hsp
  obtain ⟨c0, h0⟩ := mem_ptr_of_ne_none _ _ _ (hmap 0 (by omega))
  obtain ⟨c1, h1⟩ := mem_ptr_of_ne_none _ _ _ (hmap 1 (by omega))
  obtain ⟨c2, h2⟩ := mem_ptr_of_ne_none _ _ _ (hmap 2 (by omega))
  obtain ⟨c3, h3⟩ := mem_ptr_of_ne_none _ _ _ (hmap 3 (by omega))
  have l0 := mem_ptr_low _ _ _ _ h0
  have l1 := mem_ptr_low _ _ _ _ h1
  have l2 := mem_ptr_low _ _ _ _ h2
  have l3 := mem_ptr_low _ _ _ _ h3
  have n01 : c0 ≠ c1 := fun e => by rw [e] at l0; omega
  have n02 : c0 ≠ c2 := fun e => by rw [e] at l0; omega
  have n03 : c0 ≠ c3 := fun e => by rw [e] at l0; omega
  have n12 : c1 ≠ c2 := fun e => by rw [e] at l1; omega
  have n13 : c1 ≠ c3 := fun e => by rw [e] at l1; omega
  have n23 : c2 ≠ c3 := fun e => by rw [e] at l2; omega
  have hsr : SR_READ s < 65536 := Nat.mod_lt _ (by decide)
  rw [cpu_ctx_switch_ok E arg new_ic int_mask s csp c0 c1 c2 c3 sp hcsp hv
    (by simpa using h0) h1 h2 h3]
  refine ⟨fun hne => ?_, fun hne => ?_, fun hne => ?_, fun hne => ?_, ?_, ?_, ?_, ?_, ?_⟩
  · have hc : c0 ≠ csp := fun e => hne (by rw [h0, hcsp, e])
    rw [mem_read_1_of_ptr _ _ _ c0]
    · simp only
      rw [mem_get_mem_set_other _ _ _ _ hc, mem_get_mem_set_other _ _ _ _ n03,
        mem_get_mem_set_other _ _ _ _ n02, mem_get_mem_set_other _ _ _ _ n01,
        mem_get_mem_set_same, Nat.mod_eq_of_lt hic]
    · exact h0
  · have hc : c1 ≠ csp := fun e => hne (by rw [h1, hcsp, e])
    rw [mem_read_1_of_ptr _ _ _ c1]
    · simp only
      rw [mem_get_mem_set_other _ _ _ _ hc, mem_get_mem_set_other _ _ _ _ n13,
        mem_get_mem_set_other _ _ _ _ n12, mem_get_mem_set_same, Nat.mod_eq_of_lt hr0]
    · exact h1
  · have hc : c2 ≠ csp := fun e => hne (by rw [h2, hcsp, e])
    rw [mem_read_1_of_ptr _ _ _ c2]
    · simp only
      rw [mem_get_mem_set_other _ _ _ _ hc, mem_get_mem_set_other _ _ _ _ n23,
        mem_get_mem_set_same, Nat.mod_eq_of_lt hsr]
    · exact h2
  · have hc : c3 ≠ csp := fun e => hne (by rw [h3, hcsp, e])
    rw [mem_read_1_of_ptr _ _ _ c3]
    · simp only
      rw [mem_get_mem_set_other _ _ _ _ hc, mem_get_mem_set_same, Nat.mod_mod,
        Nat.mod_eq_of_lt harg]
    · exact h3
  · rw [mem_read_1_of_ptr _ _ _ csp]
    · simp only
      rw [mem_get_mem_set_same, Nat.mod_mod]
    · exact hcsp
  · exact Nat.mod_eq_of_lt hnic
  · rfl
  · rfl
  · simp only [Nat.mod_eq_of_lt hmask]

/-- Witness of C8: on `cpu_stack` the frame {5, 7, SR, 9} is stored at
[0:200..203], the stack pointer becomes 204 and IC is the new IC. -/
theorem cpu_ctx_switch_frame_witness :
    mem_read_1 (cpu_ctx_switch mera400 9 0x100 0xffff cpu_stack).mem 0 200 = some 5 ∧
    mem_read_1 (cpu_ctx_switch mera400 9 0x100 0xffff cpu_stack).mem 0 203 = some 9 ∧
    mem_read_1 (cpu_ctx_switch mera400 9 0x100 0xffff cpu_stack).mem 0 97 = some 204 ∧
    (cpu_ctx_switch mera400 9 0x100 0xffff cpu_stack).ic = 0x100 :=
  have h := cpu_ctx_switch_frame mera400 9 0x100 0xffff cpu_stack 200
    (by decide) (by decide) (by decide) (by decide) (by decide) (by decide) (by decide)
  ⟨h.1 (by decide), h.2.2.2.1 (by decide), h.2.2.2.2.1, h.2.2.2.2.2.1⟩

/-! ### Status register -/

theorem and_two_pow_ne_zero (x i : Nat) : x &&& 2 ^ i ≠ 0 ↔ x / 2 ^ i % 2 = 1 := by
  rw [Nat.and_two_pow, Nat.testBit_to_div_mod]
  by_cases h : x / 2 ^ i % 2 = 1
  · simp [h]
  · simp [h]

theorem sr_pack (rm nb qb bb : Nat) (hq : qb < 2) (hb : bb < 2) (hnb : nb < 16) :
    rm <<< 6 ||| qb <<< 5 ||| bb <<< 4 ||| nb = rm * 64 + qb * 32 + bb * 16 + nb := by
  have e1 : rm <<< 6 ||| qb <<< 5 = 2 ^ 6 * rm + 2 ^ 5 * qb := by
    rw [Nat.shiftLeft_eq, Nat.shiftLeft_eq, Nat.mul_comm rm, Nat.mul_comm qb]
    exact (Nat.mul_add_lt_is_or (by omega) rm).symm
  have e2 : (2 ^ 6 * rm + 2 ^ 5 * qb) ||| bb <<< 4 = 2 ^ 5 * (2 * rm + qb) + 2 ^ 4 * bb := by
    rw [Nat.shiftLeft_eq, Nat.mul_comm bb,
      show 2 ^ 6 * rm + 2 ^ 5 * qb = 2 ^ 5 * (2 * rm + qb) by omega]
    exact (Nat.mul_add_lt_is_or (by omega) (2 * rm + qb)).symm
  have e3 : (2 ^ 5 * (2 * rm + qb) + 2 ^ 4 * bb) ||| nb =
      2 ^ 4 * (2 * (2 * rm + qb) + bb) + nb := by
    rw [show 2 ^ 5 * (2 * rm + qb) + 2 ^ 4 * bb = 2 ^ 4 * (2 * (2 * rm + qb) + bb) by omega]
    exact (Nat.mul_add_lt_is_or (by omega) (2 * (2 * rm + qb) + bb)).symm
  rw [e1, e2, e3]
  omega

theorem sr_unpack (rm nb qb bb : Nat) (hrm : rm < 1024) (hq : qb < 2) (hb : bb < 2)
    (hnb : nb < 16) :
    ((rm * 64 + qb * 32 + bb * 16 + nb) >>> 6) &&& 0b1111111111 = rm ∧
    ((rm * 64 + qb * 32 + bb * 16 + nb) &&& 0b100000 ≠ 0 ↔ qb = 1) ∧
    ((rm * 64 + qb * 32 + bb * 16 + nb) &&& 0b010000 ≠ 0 ↔ bb = 1) ∧
    (rm * 64 + qb * 32 + bb * 16 + nb) &&& 0b001111 = nb := by
  refine ⟨?_, ?_, ?_, ?_⟩
  · show (_ >>> 6) &&& (2 ^ 10 - 1) = rm
    rw [Nat.and_pow_two_sub_one_eq_mod, Nat.shiftRight_eq_div_pow]
    omega
  · show _ &&& 2 ^ 5 ≠ 0 ↔ _
    rw [and_two_pow_ne_zero]
    omega
  · show _ &&& 2 ^ 4 ≠ 0 ↔ _
    rw [and_two_pow_ne_zero]
    omega
  · show _ &&& (2 ^ 4 - 1) = nb
    rw [Nat.and_pow_two_sub_one_eq_mod]
    omega

/-- The macro `SR_WRITE` undoes `SR_READ` when RM has 10 bits and NB 4. -/
theorem SR_WRITE_SR_READ (s t : Cpu) (hrm : s.rm < 1024) (hnb : s.nb < 16) :
    (SR_WRITE (SR_READ s) t).rm = s.rm ∧ (SR_WRITE (SR_READ s) t).q = s.q ∧
    (SR_WRITE (SR_READ s) t).bs = s.bs ∧ (SR_WRITE (SR_READ s) t).nb = s.nb := by
  have hq : (if s.q = true then 1 else 0) < 2 := by split <;> omega
  have hb : (if s.bs = true then 1 else 0) < 2 := by split <;> omega
  have hx : SR_READ s = s.rm * 64 + (if s.q = true then 1 else 0) * 32 +
      (if s.bs = true then 1 else 0) * 16 + s.nb := by
    unfold SR_READ
    rw [sr_pack _ _ _ _ hq hb hnb]
    apply Nat.mod_eq_of_lt
    omega
  obtain ⟨u1, u2, u3, u4⟩ := sr_unpack s.rm s.nb _ _ hrm hq hb hnb
  rw [← hx] at u1 u2 u3 u4
  refine ⟨u1, ?_, ?_, u4⟩
  · show decide (SR_READ s &&& 0b100000 ≠ 0) = s.q
    cases hqq : s.q
    · rw [hqq] at u2
      simpa using u2
    · rw [hqq] at u2
      simpa using u2
  · show decide (SR_READ s &&& 0b010000 ≠ 0) = s.bs
    cases hbb : s.bs
    · rw [hbb] at u3
      simpa using u3
    · rw [hbb] at u3
      simpa using u3

/-! ### Context restore -/

theorem cpu_mem_read_1_ptr (E : Env) (b : Bool) (a : Nat) (s : Cpu) (c : Nat × Nat × Nat)
    (h : mem_ptr s.mem (barnb_nb b s) (a % 65536) = some c) :
    cpu_mem_read_1 E b a s = (some (mem_get s.mem c), s) := by
  simp [cpu_mem_read_1, mem_read_1, h]

/-- Closed form of `cpu_sp_rewind` when the stack pointer word is mapped. -/
theorem cpu_sp_rewind_ok (E : Env) (s : Cpu) (csp : Nat × Nat × Nat)
    (hsp : mem_ptr s.mem 0 (E.STACK_POINTER % 65536) = some csp) :
    cpu_sp_rewind E s =
      { s with
        ar := (mem_get s.mem csp + 65536 - 4) % 65536
        mem := mem_set s.mem csp ((mem_get s.mem csp + 65536 - 4) % 65536) } := by
  unfold cpu_sp_rewind
  rw [cpu_mem_read_1_block0 E _ s csp hsp]
  simp only []
  rw [cpu_mem_write_1_block0 E _ _ _ csp]
  exact hsp

/-- Closed form of `cpu_ctx_restore` when the three context words at AR,
AR+1, AR+2 are mapped, with cells `c0`, `c1`, `c2`. -/
theorem cpu_ctx_restore_ok (E : Env) (b : Bool) (s : Cpu) (c0 c1 c2 : Nat × Nat × Nat)
    (h0 : mem_ptr s.mem (barnb_nb b s) (s.ar % 65536) = some c0)
    (h1 : mem_ptr s.mem (barnb_nb b s) ((s.ar + 1) % 65536) = some c1)
    (h2 : mem_ptr s.mem (barnb_nb b s) ((s.ar + 2) % 65536) = some c2) :
    cpu_ctx_restore E b s =
      int_update_mask E (SR_WRITE (mem_get s.mem c2) s).rm
        (SR_WRITE (mem_get s.mem c2)
          { s with
            ic := mem_get s.mem c0
            r := fun n => if n = 0 then mem_get s.mem c1 else s.r n
            ar := (s.ar + 3) % 65536 }) := by
  unfold cpu_ctx_restore
  rw [cpu_mem_read_1_ptr E b _ s c0 h0]
  simp only []
  rw [cpu_mem_read_1_ptr E b _ _ c1]
  simp only []
  rw [cpu_mem_read_1_ptr E b _ _ c2]
  · simp only [Nat.mod_add_mod, Nat.add_assoc, Nat.reduceAdd]
    rfl
  · show mem_ptr s.mem (barnb_nb b s) _ = _
    rw [← h2]; congr 1; omega
  · show mem_ptr s.mem (barnb_nb b s) _ = _
    rw [← h1]; congr 1; omega

/-- Counterexample to C9 as stated: on `cpu_stack`, whose stack area is
mapped (the switch succeeds and installs the new IC), `cpu_ctx_switch`
directly followed by `cpu_ctx_restore` does not restore IC: the restore reads
at AR, which the switch left at `sp + 4`, above the frame. The same happens
with `barnb` true when NB is 0. -/
theorem cpu_ctx_switch_restore_counterexample :
    cpu_stack.ic = 5 ∧
    (cpu_ctx_switch mera400 9 0x100 0xffff cpu_stack).ic = 0x100 ∧
    (cpu_ctx_switch mera400 9 0x100 0xffff cpu_stack).ar = 204 ∧
    (cpu_ctx_restore mera400 false
      (cpu_ctx_switch mera400 9 0x100 0xffff cpu_stack)).ic = 0 ∧
    (cpu_ctx_restore mera400 true
      (cpu_ctx_switch mera400 9 0x100 0xffff { cpu_stack with nb := 0 })).ic = 0 := by
  refine ⟨rfl, ?_, ?_, ?_, ?_⟩ <;> decide

/-- C9, amended: when the stack-pointer word [0:STACK_POINTER] is readable,
with content `sp`, the four frame addresses `sp .. sp+3` are mapped in block 0
and the cells of the first three are not the cell of the stack-pointer word,
then `cpu_ctx_switch(a, new_ic, mask)` followed by `cpu_sp_rewind()` and
`cpu_ctx_restore(false)` restores IC, R0 and SR (RM, Q, BS, NB) to the values
they had before the switch. IC and R0 are `uint16_t` values, RM has 10 bits
and NB 4. -/
theorem cpu_ctx_switch_rewind_restore (E : Env) (arg new_ic int_mask : Nat) (s : Cpu)
    (sp : Nat)
    (hsp : mem_read_1 s.mem 0 (E.STACK_POINTER % 65536) = some sp)
    (hmap : ∀ i, i < 4 → mem_ptr s.mem 0 ((sp + i) % 65536) ≠ none)
    (hcell : ∀ i, i < 3 →
      mem_ptr s.mem 0 ((sp + i) % 65536) ≠ mem_ptr s.mem 0 (E.STACK_POINTER % 65536))
    (hic : s.ic < 65536) (hr0 : s.r 0 < 65536) (hrm : s.rm < 1024) (hnb : s.nb < 16) :
    (cpu_ctx_restore E false
      (cpu_sp_rewind E (cpu_ctx_switch E arg new_ic int_mask s))).ic = s.ic ∧
    (cpu_ctx_restore E false
      (cpu_sp_rewind E (cpu_ctx_switch E arg new_ic int_mask s))).r 0 = s.r 0 ∧
    SR_READ (cpu_ctx_restore E false
      (cpu_sp_rewind E (cpu_ctx_switch E arg new_ic int_mask s))) = SR_READ s ∧
    (cpu_ctx_restore E false
      (cpu_sp_rewind E (cpu_ctx_switch E arg new_ic int_mask s))).rm = s.rm ∧
    (cpu_ctx_restore E false
      (cpu_sp_rewind E (cpu_ctx_switch E arg new_ic int_mask s))).q = s.q ∧
    (cpu_ctx_restore E false
      (cpu_sp_rewind E (cpu_ctx_switch E arg new_ic int_mask s))).bs = s.bs ∧
    (cpu_ctx_restore E false
      (cpu_sp_rewind E (cpu_ctx_switch E arg new_ic int_mask s))).nb = s.nb := by
  obtain ⟨csp, hcsp, hv⟩ := mem_ptr_of_read _ _ _ _ hsp
  obtain ⟨c0, h0⟩ := mem_ptr_of_ne_none _ _ _ (hmap 0 (by omega))
  obtain ⟨c1, h1⟩ := mem_ptr_of_ne_none _ _ _ (hmap 1 (by omega))
  obtain ⟨c2, h2⟩ := mem_ptr_of_ne_none _ _ _ (hmap 2 (by omega))
  obtain ⟨c3, h3⟩ := mem_ptr_of_ne_none _ _ _ (hmap 3 (by omega))
  have l0 := mem_ptr_low _ _ _ _ h0
  have l1 := mem_ptr_low _ _ _ _ h1
  have l2 := mem_ptr_low _ _ _ _ h2
  have l3 := mem_ptr_low _ _ _ _ h3
  have n01 : c0 ≠ c1 := fun e => by rw [e] at l0; omega
  have n02 : c0 ≠ c2 := fun e => by rw [e] at l0; omega
  have n03 : c0 ≠ c3 := fun e => by rw [e] at l0; omega
  have n12 : c1 ≠ c2 := fun e => by rw [e] at l1; omega
  have n13 : c1 ≠ c3 := fun e => by rw [e] at l1; omega
  have n23 : c2 ≠ c3 := fun e => by rw [e] at l2; omega
  have k0 : c0 ≠ csp := fun e => hcell 0 (by omega) (by rw [h0, hcsp, e])
  have k1 : c1 ≠ csp := fun e => hcell 1 (by omega) (by rw [h1, hcsp, e])
  have k2 : c2 ≠ csp := fun e => hcell 2 (by omega) (by rw [h2, hcsp, e])
  have hsr : SR_READ s < 65536 := Nat.mod_lt _ (by decide)
  rw [cpu_ctx_switch_ok E arg new_ic int_mask s csp c0 c1 c2 c3 sp hcsp hv
    (by simpa using h0) h1 h2 h3]
  rw [cpu_sp_rewind_ok E _ csp]
  · simp only [mem_get_mem_set_same, Nat.mod_mod]
    have har : ((sp + 4) % 65536 + 65536 - 4) % 65536 = sp % 65536 := by omega
    rw [har]
    rw [cpu_ctx_restore_ok E false _ c0 c1 c2]
    · simp only [mem_get_mem_set_other _ _ _ _ k0, mem_get_mem_set_other _ _ _ _ k1,
        mem_get_mem_set_other _ _ _ _ k2, mem_get_mem_set_other _ _ _ _ n03,
        mem_get_mem_set_other _ _ _ _ n13, mem_get_mem_set_other _ _ _ _ n23,
        mem_get_mem_set_other _ _ _ _ n02, mem_get_mem_set_other _ _ _ _ n12,
        mem_get_mem_set_other _ _ _ _ n01, mem_get_mem_set_same,
        Nat.mod_eq_of_lt hic, Nat.mod_eq_of_lt hr0, Nat.mod_eq_of_lt hsr]
      obtain ⟨u1, u2, u3, u4⟩ := SR_WRITE_SR_READ s s hrm hnb
      refine ⟨rfl, rfl, ?_, u1, u2, u3, u4⟩
      show SR_READ (SR_WRITE (SR_READ s) s) = SR_READ s
      unfold SR_READ at u1 u2 u3 u4 ⊢
      rw [u1, u2, u3, u4]
    · simp only [barnb_nb_false]
      exact (congrArg (mem_ptr s.mem 0) (by omega)).trans h0
    · simp only [barnb_nb_false]
      exact (congrArg (mem_ptr s.mem 0) (by omega)).trans h1
    · simp only [barnb_nb_false]
      exact (congrArg (mem_ptr s.mem 0) (by omega)).trans h2
  · exact hcsp

/-- Witness of C9 (amended): on `cpu_stack`, switch, rewind and restore give
back IC = 5, R0 = 7, RM = 3, Q set and NB = 1. -/
theorem cpu_ctx_switch_rewind_restore_witness :
    (cpu_ctx_restore mera400 false
      (cpu_sp_rewind mera400 (cpu_ctx_switch mera400 9 0x100 0xffff cpu_stack))).ic = 5 ∧
    (cpu_ctx_restore mera400 false
      (cpu_sp_rewind mera400 (cpu_ctx_switch mera400 9 0x100 0xffff cpu_stack))).r 0 = 7 ∧
    (cpu_ctx_restore mera400 false
      (cpu_sp_rewind mera400 (cpu_ctx_switch mera400 9 0x100 0xffff cpu_stack))).nb = 1 :=
  have h := cpu_ctx_switch_rewind_restore mera400 9 0x100 0xffff cpu_stack 200
    (by decide) (by decide) (by decide) (by decide) (by decide) (by decide) (by decide)
  ⟨h.1, h.2.1, h.2.2.2.2.2.2⟩

/-! ### Two-word instructions -/

/-- A cycle on a plain 2-word instruction, with P clear and MC == 0, fetches
the opcode and the argument and enters the handler with AC = AR = argument
and IC advanced by 2. -/
theorem cpu_do_cycle_long (E : Env) (s : Cpu) (w a : Nat) (f : Fn) (ra : Nat)
    (hf : mem_read_1 s.mem (barnb_nb s.q s) (s.ic % 65536) = some w)
    (ha : mem_read_1 s.mem (barnb_nb s.q s) ((s.ic + 1) % 65536) = some a)
    (hl : long_instr E s.q w f ra) (hp : s.p = false) (hmc : s.mc = 0) :
    cpu_do_cycle E s =
      cycle_execute E (E.cpu_op_tab w) (0 + E.TIME_MEM_ARG) (entered s w a) := by
  obtain ⟨-, hnorm, hill, husr, hm, hr, -, hB, hC, hD⟩ := hl
  rw [cpu_do_cycle_fetch E s w hf]
  have c1 : ¬ ((fetched s w).p = true ∨
      ((fetched s w).r 0 &&& (E.cpu_op_tab w).jmp_nef_mask) ≠
        (E.cpu_op_tab w).jmp_nef_result) := by
    rw [hm, hr]
    simp [fetched, hp]
  have c2 : ¬ ((E.cpu_op_tab w).flags &&& E.OP_FL_ILLEGAL ≠ 0) := fun h => h hill
  have c3 : ¬ ((fetched s w).q = true ∧
      (E.cpu_op_tab w).flags &&& E.OP_FL_USR_ILLEGAL ≠ 0) := husr
  have c4 : ¬ ((E.cpu_op_tab w).fun_ = Fn.op_77_md ∧ (fetched s w).mc = 3) := by
    rintro ⟨-, h⟩
    have : s.mc = 3 := h
    omega
  unfold cycle_decoded
  rw [if_neg c1, if_neg c2, if_neg c3, if_neg c4]
  unfold cycle_argument
  have c5 : ¬ (E.IR_C (fetched s w).ir ≠ 0) := fun h => h hC
  rw [if_pos hnorm, if_neg c5]
  have c6 : cpu_mem_read_1 E (fetched s w).q (fetched s w).ic (fetched s w) =
      (some a, fetched s w) := by
    apply cpu_mem_read_1_ok
    show mem_read_1 s.mem (barnb_nb s.q s) ((s.ic + 1) % 65536 % 65536) = some a
    rw [Nat.mod_mod]
    exact ha
  rw [c6]
  simp only []
  simp [cycle_modify, cycle_premod, cycle_premod_time, cycle_bmod, cycle_bmod_time,
    cycle_dmod, fetched, entered, hmc, hB, hD]

/-! ### TW on an unmapped word -/

/-- C6 (scenario S4): with P clear, MC == 0 and no mapping for the addressed
word [NB:a] (NB = 2 in the scenario), executing the 2-word `TW Rx, a` leaves
the NO-MEM interrupt pending, RALARM set and every register (R1 in the
scenario) unchanged; when `stop_on_nomem` is true the CPU state is STOP, and
otherwise it is left as it was. The handler is executed (normal exit). -/
theorem tw_nomem_ralarm (E : Env) (s : Cpu) (w a ra : Nat)
    (hf : mem_read_1 s.mem (barnb_nb s.q s) (s.ic % 65536) = some w)
    (ha : mem_read_1 s.mem (barnb_nb s.q s) ((s.ic + 1) % 65536) = some a)
    (hl : long_instr E s.q w Fn.op_tw ra) (hp : s.p = false) (hmc : s.mc = 0)
    (hun : mem_read_1 s.mem s.nb (a % 65536) = none) :
    (cpu_do_cycle E s).exit = Exit.executed ∧
    (cpu_do_cycle E s).cpu.rz E.INT_NO_MEM = true ∧
    (cpu_do_cycle E s).cpu.rALARM = true ∧
    (cpu_do_cycle E s).cpu.r = s.r ∧
    (s.nomem_stop = true → (cpu_do_cycle E s).cpu.cpu_state = E.ECTL_STATE_STOP) ∧
    (s.nomem_stop = false → (cpu_do_cycle E s).cpu.cpu_state = s.cpu_state) := by
  rw [cpu_do_cycle_long E s w a Fn.op_tw ra hf ha hl hp hmc]
  have hfun : (E.cpu_op_tab w).fun_ = Fn.op_tw := hl.1
  have hget : cpu_mem_get E (entered s w a).nb (entered s w a).ac (entered s w a) =
      (none, cpu_mem_fail E false (entered s w a)) := by
    have h1 : mem_read_1 (entered s w a).mem (entered s w a).nb
        ((entered s w a).ac % 65536) = none := hun
    simp only [cpu_mem_get, h1]
  have e : (cycle_execute E (E.cpu_op_tab w) (0 + E.TIME_MEM_ARG) (entered s w a)).cpu =
      { cpu_mem_fail E false (entered s w a) with mc := 0 } := by
    simp only [cycle_execute, hfun, op_fun, op_tw, hget]
    rfl
  refine ⟨rfl, ?_, ?_, ?_, fun h => ?_, fun h => ?_⟩
  · rw [e, cpu_mem_fail_false]
    simp [int_set]
  · rw [e, cpu_mem_fail_false]
  · rw [e, cpu_mem_fail_false]
    rfl
  · rw [e, cpu_mem_fail_false]
    show (if (entered s w a).nomem_stop = true then E.ECTL_STATE_STOP
      else (entered s w a).cpu_state) = E.ECTL_STATE_STOP
    rw [if_pos (show (entered s w a).nomem_stop = true from h)]
  · rw [e, cpu_mem_fail_false]
    show (if (entered s w a).nomem_stop = true then E.ECTL_STATE_STOP
      else (entered s w a).cpu_state) = s.cpu_state
    rw [if_neg (show ¬ (entered s w a).nomem_stop = true from by
      rw [show (entered s w a).nomem_stop = s.nomem_stop from rfl, h]; decide)]
    rfl

/-- Witness of C6, scenario S4 itself: NB = 2, the word [2:0x0100] is not
mapped, `stop_on_nomem` is true and the CPU runs `TW R1, 0x0100` (fetched
from block 0, Q clear): NO-MEM (source 2) is pending, RALARM is set, R1 keeps
its value 0 and the CPU state is STOP (1). -/
theorem tw_nomem_ralarm_witness :
    ({ cpu_of [0x4440, 0x0100] with nb := 2 } : Cpu).nomem_stop = true ∧
    mem_read_1 ({ cpu_of [0x4440, 0x0100] with nb := 2 } : Cpu).mem 2 0x0100 = none ∧
    (cpu_do_cycle mera400 { cpu_of [0x4440, 0x0100] with nb := 2 }).cpu.rz 2 = true ∧
    (cpu_do_cycle mera400 { cpu_of [0x4440, 0x0100] with nb := 2 }).cpu.rALARM = true ∧
    (cpu_do_cycle mera400 { cpu_of [0x4440, 0x0100] with nb := 2 }).cpu.r 1 = 0 ∧
    (cpu_do_cycle mera400 { cpu_of [0x4440, 0x0100] with nb := 2 }).cpu.cpu_state = 1 :=
  have h := tw_nomem_ralarm mera400 { cpu_of [0x4440, 0x0100] with nb := 2 } 0x4440 0x0100 1
    (by decide) (by decide) (by decide) rfl rfl (by decide)
  ⟨rfl, by decide, h.2.1, h.2.2.1, by rw [h.2.2.2.1]; rfl, h.2.2.2.2.1 rfl⟩

/-! ### Store and load through the CPU -/

theorem mem_read_1_mem_set_other (m : Mem) (c : Nat × Nat × Nat) (d nb a : Nat)
    (h : mem_ptr m nb a ≠ some c) :
    mem_read_1 (mem_set m c d) nb a = mem_read_1 m nb a := by
  unfold mem_read_1
  rw [mem_ptr_mem_set]
  cases hc : mem_ptr m nb a with
  | none => rfl
  | some c1 =>
    have hne : c1 ≠ c := fun e => h (by rw [hc, e])
    simp only [mem_get_mem_set_other _ _ _ _ hne]

theorem cycle_execute_lw (E : Env) (op : iset_opcode) (t : Int) (s : Cpu)
    (hfun : op.fun_ = Fn.op_lw) :
    (cycle_execute E op t s).cpu =
      { s with r := E.REG_RESTRICT_WRITE (E.IR_A s.ir) s.ac s.r, mc := 0 } := by
  simp [cycle_execute, hfun, op_fun, op_lw]

theorem cycle_execute_pw (E : Env) (op : iset_opcode) (t : Int) (s : Cpu)
    (c : Nat × Nat × Nat) (hfun : op.fun_ = Fn.op_pw)
    (hc : mem_ptr s.mem s.nb (s.ac % 65536) = some c) :
    (cycle_execute E op t s).cpu =
      { s with mem := mem_set s.mem c (s.r (E.IR_A s.ir)), mc := 0 } := by
  simp [cycle_execute, hfun, op_fun, op_pw, cpu_mem_put, mem_write_1, hc]

theorem cycle_execute_tw (E : Env) (op : iset_opcode) (t : Int) (s : Cpu)
    (c : Nat × Nat × Nat) (hfun : op.fun_ = Fn.op_tw)
    (hc : mem_ptr s.mem s.nb (s.ac % 65536) = some c) :
    (cycle_execute E op t s).cpu =
      { s with r := E.REG_RESTRICT_WRITE (E.IR_A s.ir) (mem_get s.mem c) s.r, mc := 0 } := by
  simp [cycle_execute, hfun, op_fun, op_tw, cpu_mem_get, mem_read_1, hc]

/-- C10: for every 16-bit value `v` and address `a` mapped in block NB whose
cell is none of the six program cells, with P clear and MC == 0, running the
three 2-word instructions `LW R1, v; PW R1, a; TW R2, a` found at
[Q*NB : IC .. IC+5] leaves R2 == v and IC advanced by 6 words (in the 16-bit
arithmetic of IC). The write macro `REG_RESTRICT_WRITE` is assumed to store
into R1 and R2. -/
theorem lw_pw_tw_roundtrip (E : Env) (s : Cpu) (w1 w2 w3 v a : Nat)
    (hR1 : ∀ y r, E.REG_RESTRICT_WRITE 1 y r 1 = y)
    (hR2 : ∀ y r, E.REG_RESTRICT_WRITE 2 y r 2 = y)
    (hp : s.p = false) (hmc : s.mc = 0) (hv : v < 65536) (ha : a < 65536)
    (f0 : mem_read_1 s.mem (barnb_nb s.q s) ((s.ic + 0) % 65536) = some w1)
    (f1 : mem_read_1 s.mem (barnb_nb s.q s) ((s.ic + 1) % 65536) = some v)
    (f2 : mem_read_1 s.mem (barnb_nb s.q s) ((s.ic + 2) % 65536) = some w2)
    (f3 : mem_read_1 s.mem (barnb_nb s.q s) ((s.ic + 3) % 65536) = some a)
    (f4 : mem_read_1 s.mem (barnb_nb s.q s) ((s.ic + 4) % 65536) = some w3)
    (f5 : mem_read_1 s.mem (barnb_nb s.q s) ((s.ic + 5) % 65536) = some a)
    (l1 : long_instr E s.q w1 Fn.op_lw 1)
    (l2 : long_instr E s.q w2 Fn.op_pw 1)
    (l3 : long_instr E s.q w3 Fn.op_tw 2)
    (hmap : mem_ptr s.mem s.nb a ≠ none)
    (hsep : ∀ k, k < 6 →
      mem_ptr s.mem (barnb_nb s.q s) ((s.ic + k) % 65536) ≠ mem_ptr s.mem s.nb a) :
    (cpu_run E 3 s).r 2 = v ∧ (cpu_run E 3 s).ic = (s.ic + 6) % 65536 := by
  obtain ⟨c, hc⟩ := mem_ptr_of_ne_none _ _ _ hmap
  have ha' : a % 65536 = a := Nat.mod_eq_of_lt ha
  -- first cycle: LW R1, v
  have e1 : (cpu_do_cycle E s).cpu =
      { entered s w1 v with
        r := E.REG_RESTRICT_WRITE 1 v s.r, mc := 0 } := by
    rw [cpu_do_cycle_long E s w1 v Fn.op_lw 1 (by simpa using f0) f1 l1 hp hmc,
      cycle_execute_lw E _ _ _ l1.1]
    have : E.IR_A (entered s w1 v).ir = 1 := l1.2.2.2.2.2.2.1
    rw [this]
    rfl
  -- second cycle: PW R1, a
  have e2 : (cpu_do_cycle E (cpu_do_cycle E s).cpu).cpu =
      { entered (cpu_do_cycle E s).cpu w2 a with
        mem := mem_set s.mem c v, mc := 0 } := by
    rw [cpu_do_cycle_long E _ w2 a Fn.op_pw 1 ?_ ?_ ?_ ?_ ?_, cycle_execute_pw E _ _ _ c l2.1 ?_]
    · have h1 : E.IR_A (entered (cpu_do_cycle E s).cpu w2 a).ir = 1 := l2.2.2.2.2.2.2.1
      rw [h1, e1]
      simp only [entered, hR1]
    · rw [e1]
      simp only [entered, ha']
      exact hc
    · rw [e1]
      simp only [entered, barnb_nb, Nat.mod_mod]
      exact f2
    · rw [e1]
      simp only [entered, barnb_nb, Nat.mod_add_mod]
      exact f3
    · rw [e1]
      exact l2
    · rw [e1]
      exact hp
    · rw [e1]
  -- third cycle: TW R2, a
  have s4 : mem_ptr s.mem ((if s.q = true then 1 else 0) * s.nb) ((s.ic + 4) % 65536) ≠
      some c := by
    rw [← hc]; exact hsep 4 (by omega)
  have s5 : mem_ptr s.mem ((if s.q = true then 1 else 0) * s.nb) ((s.ic + 5) % 65536) ≠
      some c := by
    rw [← hc]; exact hsep 5 (by omega)
  have e3 : (cpu_do_cycle E (cpu_do_cycle E (cpu_do_cycle E s).cpu).cpu).cpu =
      { entered (cpu_do_cycle E (cpu_do_cycle E s).cpu).cpu w3 a with
        r := E.REG_RESTRICT_WRITE 2 v (E.REG_RESTRICT_WRITE 1 v s.r), mc := 0 } := by
    rw [cpu_do_cycle_long E _ w3 a Fn.op_tw 2 ?_ ?_ ?_ ?_ ?_, cycle_execute_tw E _ _ _ c l3.1 ?_]
    · have h1 : E.IR_A (entered (cpu_do_cycle E (cpu_do_cycle E s).cpu).cpu w3 a).ir = 2 :=
        l3.2.2.2.2.2.2.1
      rw [h1, e2, e1]
      simp only [entered, mem_get_mem_set_same, Nat.mod_eq_of_lt hv]
    · rw [e2, e1]
      simp only [entered, ha']
      exact hc
    · rw [e2, e1]
      simp only [entered, barnb_nb, Nat.mod_mod, Nat.mod_add_mod, Nat.add_assoc,
        Nat.reduceAdd]
      rw [mem_read_1_mem_set_other _ _ _ _ _ s4]
      exact f4
    · rw [e2, e1]
      simp only [entered, barnb_nb, Nat.mod_mod, Nat.mod_add_mod, Nat.add_assoc,
        Nat.reduceAdd]
      rw [mem_read_1_mem_set_other _ _ _ _ _ s5]
      exact f5
    · rw [e2, e1]
      exact l3
    · rw [e2, e1]
      exact hp
    · rw [e2, e1]
  have hrun : cpu_run E 3 s =
      (cpu_do_cycle E (cpu_do_cycle E (cpu_do_cycle E s).cpu).cpu).cpu := rfl
  rw [hrun, e3]
  refine ⟨hR2 _ _, ?_⟩
  rw [e2, e1]
  simp only [entered]
  omega

/-- Witness of C10: scenario S1. After the three instructions R2 == 0xABCD
and IC == 6. -/
theorem lw_pw_tw_roundtrip_witness :
    (cpu_run mera400 3 cpu_s1).r 2 = 0xABCD ∧ (cpu_run mera400 3 cpu_s1).ic = 6 :=
  lw_pw_tw_roundtrip mera400 cpu_s1 0x4040 0x5440 0x4480 0xABCD 0x0010
    (by intro y r; rfl) (by intro y r; rfl) rfl rfl (by decide) (by decide)
    (by decide) (by decide) (by decide) (by decide) (by decide) (by decide)
    (by decide) (by decide) (by decide) (by decide) (by decide)

/-! ### OU and IN -/

theorem io_vector_addr_status (ic : Nat) (st : Nat) :
    io_vector_addr ic (st : Int) % 65536 = (ic + st) % 65536 := by
  unfold io_vector_addr
  omega

theorem op_io_ic (E : Env) (dir : Int) (s : Cpu) :
    (∀ st w : Nat, st ≤ 3 →
      (E.io_dispatch dir s.ac (E.IR_A s.ir) s).1 = (st : Int) →
      mem_read_1 (E.io_dispatch dir s.ac (E.IR_A s.ir) s).2.mem
        (barnb_nb (E.io_dispatch dir s.ac (E.IR_A s.ir) s).2.q
          (E.io_dispatch dir s.ac (E.IR_A s.ir) s).2)
        (((E.io_dispatch dir s.ac (E.IR_A s.ir) s).2.ic + st) % 65536) = some w →
      (op_io E dir s).ic = w) ∧
    (∀ st : Nat, st ≤ 3 →
      (E.io_dispatch dir s.ac (E.IR_A s.ir) s).1 = (st : Int) →
      mem_read_1 (E.io_dispatch dir s.ac (E.IR_A s.ir) s).2.mem
        (barnb_nb (E.io_dispatch dir s.ac (E.IR_A s.ir) s).2.q
          (E.io_dispatch dir s.ac (E.IR_A s.ir) s).2)
        (((E.io_dispatch dir s.ac (E.IR_A s.ir) s).2.ic + st) % 65536) = none →
      (op_io E dir s).ic = (E.io_dispatch dir s.ac (E.IR_A s.ir) s).2.ic) := by
  constructor
  · intro st w _ hres hrd
    unfold op_io
    simp only [hres, cpu_mem_get, io_vector_addr_status, hrd]
  · intro st _ hres hrd
    unfold op_io
    simp only [hres, cpu_mem_get, io_vector_addr_status, hrd]
    rw [cpu_mem_fail_false]
    rfl

/-- C11: for OU and IN, with `s1` the globals `io_dispatch` leaves and `st`
its status: if `st` is in 0..3 and the word `w` at [Q*NB : IC+st] (address mod
2^16, read in `s1`) is readable, the handler ends with IC == `w`; if that read
faults, the handler leaves IC as it is in `s1`, hence unchanged when
`io_dispatch` does not touch IC. -/
theorem op_ou_in_return_vector (E : Env) (s : Cpu) :
    (∀ st w : Nat, st ≤ 3 →
      (E.io_dispatch E.IO_OU s.ac (E.IR_A s.ir) s).1 = (st : Int) →
      mem_read_1 (E.io_dispatch E.IO_OU s.ac (E.IR_A s.ir) s).2.mem
        (barnb_nb (E.io_dispatch E.IO_OU s.ac (E.IR_A s.ir) s).2.q
          (E.io_dispatch E.IO_OU s.ac (E.IR_A s.ir) s).2)
        (((E.io_dispatch E.IO_OU s.ac (E.IR_A s.ir) s).2.ic + st) % 65536) = some w →
      (op_ou E s).ic = w) ∧
    (∀ st : Nat, st ≤ 3 →
      (E.io_dispatch E.IO_OU s.ac (E.IR_A s.ir) s).1 = (st : Int) →
      mem_read_1 (E.io_dispatch E.IO_OU s.ac (E.IR_A s.ir) s).2.mem
        (barnb_nb (E.io_dispatch E.IO_OU s.ac (E.IR_A s.ir) s).2.q
          (E.io_dispatch E.IO_OU s.ac (E.IR_A s.ir) s).2)
        (((E.io_dispatch E.IO_OU s.ac (E.IR_A s.ir) s).2.ic + st) % 65536) = none →
      (op_ou E s).ic = (E.io_dispatch E.IO_OU s.ac (E.IR_A s.ir) s).2.ic ∧
      ((E.io_dispatch E.IO_OU s.ac (E.IR_A s.ir) s).2.ic = s.ic → (op_ou E s).ic = s.ic)) ∧
    (∀ st w : Nat, st ≤ 3 →
      (E.io_dispatch E.IO_IN s.ac (E.IR_A s.ir) s).1 = (st : Int) →
      mem_read_1 (E.io_dispatch E.IO_IN s.ac (E.IR_A s.ir) s).2.mem
        (barnb_nb (E.io_dispatch E.IO_IN s.ac (E.IR_A s.ir) s).2.q
          (E.io_dispatch E.IO_IN s.ac (E.IR_A s.ir) s).2)
        (((E.io_dispatch E.IO_IN s.ac (E.IR_A s.ir) s).2.ic + st) % 65536) = some w →
      (op_in E s).ic = w) ∧
    (∀ st : Nat, st ≤ 3 →
      (E.io_dispatch E.IO_IN s.ac (E.IR_A s.ir) s).1 = (st : Int) →
      mem_read_1 (E.io_dispatch E.IO_IN s.ac (E.IR_A s.ir) s).2.mem
        (barnb_nb (E.io_dispatch E.IO_IN s.ac (E.IR_A s.ir) s).2.q
          (E.io_dispatch E.IO_IN s.ac (E.IR_A s.ir) s).2)
        (((E.io_dispatch E.IO_IN s.ac (E.IR_A s.ir) s).2.ic + st) % 65536) = none →
      (op_in E s).ic = (E.io_dispatch E.IO_IN s.ac (E.IR_A s.ir) s).2.ic ∧
      ((E.io_dispatch E.IO_IN s.ac (E.IR_A s.ir) s).2.ic = s.ic → (op_in E s).ic = s.ic)) := by
  refine ⟨(op_io_ic E E.IO_OU s).1, fun st h1 h2 h3 => ?_, (op_io_ic E E.IO_IN s).1,
    fun st h1 h2 h3 => ?_⟩
  · have h := (op_io_ic E E.IO_OU s).2 st h1 h2 h3
    exact ⟨h, fun e => h.trans e⟩
  · have h := (op_io_ic E E.IO_IN s).2 st h1 h2 h3
    exact ⟨h, fun e => h.trans e⟩

/-- Witness of C11: with AC = 2 the I/O unit of `mera400` answers status 2;
OU at IC = 1 takes the return vector [0:3] = 0x55, and with the vector in an
unmapped page (IC = 0xfff0) IC stays. -/
theorem op_ou_in_return_vector_witness :
    (op_ou mera400 { cpu_of [0, 0, 0, 0x55] with ac := 2, ic := 1 }).ic = 0x55 ∧
    (op_ou mera400 { cpu_of [0, 0, 0, 0x55] with ac := 2, ic := 0xfff0 }).ic = 0xfff0 :=
  ⟨(op_ou_in_return_vector mera400 { cpu_of [0, 0, 0, 0x55] with ac := 2, ic := 1 }).1
      2 0x55 (by decide) (by decide) (by decide),
   ((op_ou_in_return_vector mera400
      { cpu_of [0, 0, 0, 0x55] with ac := 2, ic := 0xfff0 }).2.1
      2 (by decide) (by decide) (by decide)).1⟩

/-! ### Argument preparation -/

theorem cycle_modify_norm (E : Env) (op : iset_opcode) (t : Int) (s : Cpu) (base : Nat)
    (hnorm : op.flags &&& E.OP_FL_ARG_NORM ≠ 0) (hD : E.IR_D s.ir = 0)
    (hac : s.ac = base) (hb : base < 65536) :
    ∃ t1 z, cycle_modify E op t s =
      cycle_execute E op t1
        { s with ac := norm_arg E s s.ir base, ar := norm_arg E s s.ir base, zc17 := z } := by
  subst hac
  by_cases hm : s.mc = 0 <;> by_cases hB : E.IR_B s.ir = 0
  · refine ⟨cycle_bmod_time E op (cycle_premod_time E t s) (cycle_premod s), false, ?_⟩
    simp [cycle_modify, cycle_premod, cycle_premod_time, cycle_bmod, cycle_bmod_time,
      cycle_dmod, norm_arg, hm, hB, hD, Nat.mod_eq_of_lt hb]
  · refine ⟨cycle_bmod_time E op (cycle_premod_time E t s) (cycle_premod s), decide (s.ac + s.r (E.IR_B s.ir) > 0xffff), ?_⟩
    simp [cycle_modify, cycle_premod, cycle_premod_time, cycle_bmod, cycle_bmod_time,
      cycle_dmod, norm_arg, hm, hB, hD, hnorm]
  · refine ⟨cycle_bmod_time E op (cycle_premod_time E t s) (cycle_premod s), decide (s.ac + s.ar > 0xffff), ?_⟩
    simp [cycle_modify, cycle_premod, cycle_premod_time, cycle_bmod, cycle_bmod_time,
      cycle_dmod, norm_arg, hm, hB, hD]
  · refine ⟨cycle_bmod_time E op (cycle_premod_time E t s) (cycle_premod s), decide ((s.ac + s.ar) % 65536 + s.r (E.IR_B s.ir) > 0xffff), ?_⟩
    simp [cycle_modify, cycle_premod, cycle_premod_time, cycle_bmod, cycle_bmod_time,
      cycle_dmod, norm_arg, hm, hB, hD, hnorm]

/-- C12: for an effective (P clear, effectiveness condition met), legal
instruction `w` with a normal argument and `IR_D == 0`, the handler is entered
(`cycle_execute`) with AC = (base + premod + bmod) mod 2^16 and AR = AC, where
premod is the previous AR if MC != 0 and bmod is `r[IR_B]` if `IR_B != 0`
(`norm_arg`); base is `r[IR_C]` if `IR_C != 0`, with IC just past the opcode,
and otherwise the word `a` following the opcode, with IC advanced past it.
Registers and memory words are `uint16_t` values. -/
theorem cpu_do_cycle_norm_arg (E : Env) (s : Cpu) (w : Nat)
    (hf : mem_read_1 s.mem (barnb_nb s.q s) (s.ic % 65536) = some w)
    (hp : s.p = false)
    (hnef : (s.r 0 &&& (E.cpu_op_tab w).jmp_nef_mask) = (E.cpu_op_tab w).jmp_nef_result)
    (hill : (E.cpu_op_tab w).flags &&& E.OP_FL_ILLEGAL = 0)
    (husr : ¬ (s.q = true ∧ (E.cpu_op_tab w).flags &&& E.OP_FL_USR_ILLEGAL ≠ 0))
    (hmd : ¬ ((E.cpu_op_tab w).fun_ = Fn.op_77_md ∧ s.mc = 3))
    (hnorm : (E.cpu_op_tab w).flags &&& E.OP_FL_ARG_NORM ≠ 0)
    (hD : E.IR_D w = 0)
    (hr : ∀ i, s.r i < 65536) :
    (E.IR_C w ≠ 0 →
      ∃ t z, cpu_do_cycle E s =
        cycle_execute E (E.cpu_op_tab w) t
          { fetched s w with
            ac := norm_arg E s w (s.r (E.IR_C w))
            ar := norm_arg E s w (s.r (E.IR_C w))
            zc17 := z }) ∧
    (E.IR_C w = 0 → ∀ a, a < 65536 →
      mem_read_1 s.mem (barnb_nb s.q s) ((s.ic + 1) % 65536) = some a →
      ∃ t z, cpu_do_cycle E s =
        cycle_execute E (E.cpu_op_tab w) t
          { fetched s w with
            ic := (s.ic + 2) % 65536
            ac := norm_arg E s w a
            ar := norm_arg E s w a
            zc17 := z }) := by
  have c1 : ¬ ((fetched s w).p = true ∨
      ((fetched s w).r 0 &&& (E.cpu_op_tab w).jmp_nef_mask) ≠
        (E.cpu_op_tab w).jmp_nef_result) := by
    simp [fetched, hp, hnef]
  have c2 : ¬ ((E.cpu_op_tab w).flags &&& E.OP_FL_ILLEGAL ≠ 0) := fun h => h hill
  have c3 : ¬ ((fetched s w).q = true ∧
      (E.cpu_op_tab w).flags &&& E.OP_FL_USR_ILLEGAL ≠ 0) := husr
  have c4 : ¬ ((E.cpu_op_tab w).fun_ = Fn.op_77_md ∧ (fetched s w).mc = 3) := hmd
  have hdec : cpu_do_cycle E s = cycle_argument E (E.cpu_op_tab w) (fetched s w) := by
    rw [cpu_do_cycle_fetch E s w hf]
    unfold cycle_decoded
    rw [if_neg c1, if_neg c2, if_neg c3, if_neg c4]
  constructor
  · intro hC
    have hC1 : E.IR_C (fetched s w).ir ≠ 0 := hC
    rw [hdec]
    unfold cycle_argument
    rw [if_pos hnorm, if_pos hC1]
    obtain ⟨t1, z, e⟩ := cycle_modify_norm E (E.cpu_op_tab w) 0
      { fetched s w with ac := (fetched s w).r (E.IR_C (fetched s w).ir) }
      (s.r (E.IR_C w)) hnorm hD rfl (hr _)
    exact ⟨t1, z, e⟩
  · intro hC a ha hrd
    have hC1 : ¬ (E.IR_C (fetched s w).ir ≠ 0) := fun h => h hC
    have c6 : cpu_mem_read_1 E (fetched s w).q (fetched s w).ic (fetched s w) =
        (some a, fetched s w) := by
      apply cpu_mem_read_1_ok
      show mem_read_1 s.mem (barnb_nb s.q s) ((s.ic + 1) % 65536 % 65536) = some a
      rw [Nat.mod_mod]
      exact hrd
    rw [hdec]
    unfold cycle_argument
    rw [if_pos hnorm, if_neg hC1, c6]
    simp only []
    obtain ⟨t1, z, e⟩ := cycle_modify_norm E (E.cpu_op_tab w) (0 + E.TIME_MEM_ARG)
      { fetched s w with ac := a, ic := ((fetched s w).ic + 1) % 65536 }
      a hnorm hD rfl ha
    refine ⟨t1, z, ?_⟩
    rw [e]
    simp only [fetched, Nat.mod_add_mod]
    rfl

/-- Witness of C12: `LW R2, 0x1234` in 2-word form with MC == 0: the handler
gets AC = 0x1234 and R2 ends as 0x1234. -/
theorem cpu_do_cycle_norm_arg_witness :
    ∃ t z, cpu_do_cycle mera400 (cpu_of [0x4080, 0x1234]) =
      cycle_execute mera400 (mera400.cpu_op_tab 0x4080) t
        { fetched (cpu_of [0x4080, 0x1234]) 0x4080 with
          ic := 2
          ac := 0x1234
          ar := 0x1234
          zc17 := z } :=
  (cpu_do_cycle_norm_arg mera400 (cpu_of [0x4080, 0x1234]) 0x4080
    (by decide) rfl (by decide) (by decide) (by decide) (by decide) (by decide)
    (by decide) (fun _ => by show 0 < 65536; decide)).2 (by decide) 0x1234 (by decide)
    (by decide)

/-! ### Rings of the event list -/

theorem elst_adj_frame {α : Type} (d e : Nat → elst_item α) (l : List Nat)
    (h : List.Chain' (elst_adj d) l)
    (hn : ∀ x ∈ l.dropLast, (e x).n = (d x).n)
    (hp : ∀ y ∈ l.tail, (e y).p = (d y).p) :
    List.Chain' (elst_adj e) l := by
  induction l with
  | nil => exact List.chain'_nil
  | cons x t ih =>
    cases t with
    | nil => exact List.chain'_singleton x
    | cons y t =>
      rw [List.chain'_cons] at h ⊢
      refine ⟨⟨?_, ?_⟩, ih h.2 ?_ ?_⟩
      · rw [hn x (by simp)]; exact h.1.1
      · rw [hp y (by simp)]; exact h.1.2
      · intro z hz
        exact hn z (by rw [List.dropLast_cons₂]; exact List.mem_cons_of_mem _ hz)
      · intro z hz
        exact hp z (List.mem_cons_of_mem _ hz)

theorem elst_ring_frame {α : Type} (d e : Nat → elst_item α) (s : Nat) (is : List Nat)
    (h : elst_ring d s is) (hs : e s = d s) (he : ∀ x ∈ is, e x = d x) :
    elst_ring e s is := by
  have hall : ∀ x ∈ s :: (is ++ [s]), e x = d x := by
    intro x hx
    simp only [List.mem_cons, List.mem_append, List.mem_singleton, List.not_mem_nil,
      or_false] at hx
    rcases hx with rfl | hx | rfl
    · exact hs
    · exact he x hx
    · exact hs
  refine elst_adj_frame d e _ h (fun x hx => ?_) (fun y hy => ?_)
  · rw [hall x (List.mem_of_mem_dropLast hx)]
  · rw [hall y (List.mem_of_mem_tail hy)]

theorem elst_ring_head {α : Type} (d : Nat → elst_item α) (s : Nat) (is : List Nat)
    (h : elst_ring d s is) : ∃ post, is ++ [s] = (d s).n :: post := by
  cases is with
  | nil =>
    have h1 : elst_adj d s s := by
      simpa [elst_ring] using h
    exact ⟨[], by rw [h1.1]; rfl⟩
  | cons u t =>
    have h1 : elst_adj d s u := by
      unfold elst_ring at h
      rw [List.cons_append, List.chain'_cons] at h
      exact h.1
    exact ⟨t ++ [s], by rw [h1.1]; rfl⟩

theorem elst_ring_last {α : Type} (d : Nat → elst_item α) (s : Nat) (is : List Nat)
    (h : elst_ring d s is) : ∃ pre, s :: is = pre ++ [(d s).p] := by
  rcases List.eq_nil_or_concat is with rfl | ⟨L, b, rfl⟩
  · have h1 : elst_adj d s s := by
      simpa [elst_ring] using h
    exact ⟨[], by rw [h1.2]; rfl⟩
  · have h1 : elst_adj d b s := by
      unfold elst_ring at h
      have e : s :: (L.concat b ++ [s]) = (s :: L) ++ b :: [s] := by simp
      rw [e] at h
      have h2 := (List.chain'_split.mp h).2
      simpa using h2
    exact ⟨s :: L, by rw [h1.2, List.concat_eq_append]; rfl⟩

theorem elst_ring_empty_iff {α : Type} (d : Nat → elst_item α) (s : Nat) (is : List Nat)
    (h : elst_ring d s is) (hs : s ∉ is) : (d s).n = s ↔ is = [] := by
  cases is with
  | nil =>
    have h1 : elst_adj d s s := by
      simpa [elst_ring] using h
    simp [h1.1]
  | cons u t =>
    have h1 : elst_adj d s u := by
      unfold elst_ring at h
      rw [List.cons_append, List.chain'_cons] at h
      exact h.1
    rw [h1.1]
    simp only [List.mem_cons, not_or] at hs
    simp only [reduceCtorEq, iff_false]
    exact fun e => hs.1 e.symm

theorem elst_set_p_p {α : Type} (d : Nat → elst_item α) (i v j : Nat) :
    (elst_set_p d i v j).p = if j = i then v else (d j).p := by
  unfold elst_set_p; split <;> rfl

theorem elst_set_p_n {α : Type} (d : Nat → elst_item α) (i v j : Nat) :
    (elst_set_p d i v j).n = (d j).n := by
  unfold elst_set_p; split <;> rfl

theorem elst_set_p_prio {α : Type} (d : Nat → elst_item α) (i v j : Nat) :
    (elst_set_p d i v j).prio = (d j).prio := by
  unfold elst_set_p; split <;> rfl

theorem elst_set_p_ptr {α : Type} (d : Nat → elst_item α) (i v j : Nat) :
    (elst_set_p d i v j).ptr = (d j).ptr := by
  unfold elst_set_p; split <;> rfl

theorem elst_set_n_n {α : Type} (d : Nat → elst_item α) (i v j : Nat) :
    (elst_set_n d i v j).n = if j = i then v else (d j).n := by
  unfold elst_set_n; split <;> rfl

theorem elst_set_n_p {α : Type} (d : Nat → elst_item α) (i v j : Nat) :
    (elst_set_n d i v j).p = (d j).p := by
  unfold elst_set_n; split <;> rfl

theorem elst_set_n_prio {α : Type} (d : Nat → elst_item α) (i v j : Nat) :
    (elst_set_n d i v j).prio = (d j).prio := by
  unfold elst_set_n; split <;> rfl

theorem elst_set_n_ptr {α : Type} (d : Nat → elst_item α) (i v j : Nat) :
    (elst_set_n d i v j).ptr = (d j).ptr := by
  unfold elst_set_n; split <;> rfl

theorem elst_set_ptr_ptr {α : Type} (d : Nat → elst_item α) (i : Nat) (v : Option α)
    (j : Nat) : (elst_set_ptr d i v j).ptr = if j = i then v else (d j).ptr := by
  unfold elst_set_ptr; split <;> rfl

theorem elst_set_ptr_p {α : Type} (d : Nat → elst_item α) (i : Nat) (v : Option α)
    (j : Nat) : (elst_set_ptr d i v j).p = (d j).p := by
  unfold elst_set_ptr; split <;> rfl

theorem elst_set_ptr_n {α : Type} (d : Nat → elst_item α) (i : Nat) (v : Option α)
    (j : Nat) : (elst_set_ptr d i v j).n = (d j).n := by
  unfold elst_set_ptr; split <;> rfl

theorem elst_set_ptr_prio {α : Type} (d : Nat → elst_item α) (i : Nat) (v : Option α)
    (j : Nat) : (elst_set_ptr d i v j).prio = (d j).prio := by
  unfold elst_set_ptr; split <;> rfl

theorem elst_set_prio_prio {α : Type} (d : Nat → elst_item α) (i : Nat) (v : Int)
    (j : Nat) : (elst_set_prio d i v j).prio = if j = i then v else (d j).prio := by
  unfold elst_set_prio; split <;> rfl

theorem elst_set_prio_p {α : Type} (d : Nat → elst_item α) (i : Nat) (v : Int)
    (j : Nat) : (elst_set_prio d i v j).p = (d j).p := by
  unfold elst_set_prio; split <;> rfl

theorem elst_set_prio_n {α : Type} (d : Nat → elst_item α) (i : Nat) (v : Int)
    (j : Nat) : (elst_set_prio d i v j).n = (d j).n := by
  unfold elst_set_prio; split <;> rfl

theorem elst_set_prio_ptr {α : Type} (d : Nat → elst_item α) (i : Nat) (v : Int)
    (j : Nat) : (elst_set_prio d i v j).ptr = (d j).ptr := by
  unfold elst_set_prio; split <;> rfl

theorem elst_link_n {α : Type} (d : Nat → elst_item α) (i p n j : Nat) :
    (elst_link d i p n j).n = if j = p then i else if j = i then n else (d j).n := by
  unfold elst_link
  rw [elst_set_p_n, elst_set_n_n, elst_set_n_n, elst_set_p_n]

theorem elst_link_p {α : Type} (d : Nat → elst_item α) (i p n j : Nat) :
    (elst_link d i p n j).p = if j = n then i else if j = i then p else (d j).p := by
  unfold elst_link
  rw [elst_set_p_p, elst_set_n_p, elst_set_n_p, elst_set_p_p]

theorem elst_link_prio {α : Type} (d : Nat → elst_item α) (i p n j : Nat) :
    (elst_link d i p n j).prio = (d j).prio := by
  unfold elst_link
  rw [elst_set_p_prio, elst_set_n_prio, elst_set_n_prio, elst_set_p_prio]

theorem elst_link_ptr {α : Type} (d : Nat → elst_item α) (i p n j : Nat) :
    (elst_link d i p n j).ptr = (d j).ptr := by
  unfold elst_link
  rw [elst_set_p_ptr, elst_set_n_ptr, elst_set_n_ptr, elst_set_p_ptr]

theorem elst_link_other {α : Type} (d : Nat → elst_item α) (i p n j : Nat)
    (h1 : j ≠ i) (h2 : j ≠ p) (h3 : j ≠ n) : elst_link d i p n j = d j := by
  simp only [elst_link, elst_set_p, elst_set_n, if_neg h1, if_neg h2, if_neg h3]

theorem elst_unlink_n {α : Type} (d : Nat → elst_item α) (i j : Nat) :
    (elst_unlink d i j).n = if j = (d i).p then (d i).n else (d j).n := by
  unfold elst_unlink
  rw [elst_set_p_n, elst_set_n_n]

theorem elst_unlink_p {α : Type} (d : Nat → elst_item α) (i j : Nat) :
    (elst_unlink d i j).p = if j = (d i).n then (d i).p else (d j).p := by
  unfold elst_unlink
  rw [elst_set_p_p, elst_set_n_p]

theorem elst_unlink_prio {α : Type} (d : Nat → elst_item α) (i j : Nat) :
    (elst_unlink d i j).prio = (d j).prio := by
  unfold elst_unlink
  rw [elst_set_p_prio, elst_set_n_prio]

theorem elst_unlink_ptr {α : Type} (d : Nat → elst_item α) (i j : Nat) :
    (elst_unlink d i j).ptr = (d j).ptr := by
  unfold elst_unlink
  rw [elst_set_p_ptr, elst_set_n_ptr]

theorem elst_unlink_other {α : Type} (d : Nat → elst_item α) (i j : Nat)
    (h1 : j ≠ (d i).p) (h2 : j ≠ (d i).n) : elst_unlink d i j = d j := by
  simp only [elst_unlink, elst_set_p, elst_set_n, if_neg h1, if_neg h2]

/-- Linking the node `i` between the neighbours `p` and `n` of the ring of
`s`, where `p` ends `s :: a` and `n` starts `b ++ [s]`. -/
theorem elst_link_ring {α : Type} (d : Nat → elst_item α) (s i p n : Nat)
    (a b pre post : List Nat)
    (h : elst_ring d s (a ++ b)) (hnd : (s :: (a ++ b)).Nodup) (hi : i ∉ s :: (a ++ b))
    (hA : s :: a = pre ++ [p]) (hB : b ++ [s] = n :: post) :
    elst_ring (elst_link d i p n) s (a ++ i :: b) := by
  unfold elst_ring at h ⊢
  have e1 : s :: (a ++ b ++ [s]) = pre ++ p :: n :: post := by
    have : s :: (a ++ b ++ [s]) = (s :: a) ++ (b ++ [s]) := by simp
    rw [this, hA, hB]; simp
  have e2 : s :: (a ++ i :: b ++ [s]) = pre ++ p :: i :: n :: post := by
    have : s :: (a ++ i :: b ++ [s]) = (s :: a) ++ i :: (b ++ [s]) := by simp
    rw [this, hA, hB]; simp
  rw [e1, List.chain'_split, List.chain'_cons] at h
  rw [e2, List.chain'_split, List.chain'_cons, List.chain'_cons]
  obtain ⟨hpre, hpn, hpost⟩ := h
  simp only [List.nodup_cons, List.mem_cons, List.mem_append, not_or, List.nodup_append] at hnd hi
  obtain ⟨⟨hsa, hsb⟩, hnda, hndb, hdis⟩ := hnd
  obtain ⟨his, hia, hib⟩ := hi
  -- membership facts
  have hpmem : p ∈ s :: a := by rw [hA]; simp
  have hnmem : n ∈ b ++ [s] := by rw [hB]; simp
  have hpre_sub : ∀ x ∈ pre, x ∈ s :: a := by
    intro x hx; rw [hA]; exact List.mem_append_left _ hx
  have hpost_sub : ∀ x ∈ post, x ∈ b ++ [s] := by
    intro x hx; rw [hB]; exact List.mem_cons_of_mem _ hx
  have hndA : (pre ++ [p]).Nodup := by
    rw [← hA]; exact List.nodup_cons.mpr ⟨hsa, hnda⟩
  have hndB : (n :: post).Nodup := by
    rw [← hB]
    refine List.nodup_append.mpr ⟨hndb, List.nodup_singleton s, ?_⟩
    intro x hx hx2
    rw [List.mem_singleton] at hx2
    subst hx2
    exact hsb hx
  have hppre : p ∉ pre := by
    intro hx
    have := List.disjoint_of_nodup_append hndA hx
    simp at this
  have hnpost : n ∉ post := (List.nodup_cons.mp hndB).1
  have hip : i ≠ p := by
    intro e; subst e
    rcases List.mem_cons.mp hpmem with e | e
    · exact his e
    · exact hia e
  have hin : i ≠ n := by
    intro e; subst e
    rcases List.mem_append.mp hnmem with e | e
    · exact hib e
    · exact his (List.mem_singleton.mp e)
  have hab : ∀ x, x ∈ s :: a → x ∈ b → False := by
    intro x hx hxb
    rcases List.mem_cons.mp hx with e | e
    · subst e; exact hsb hxb
    · exact hdis e hxb
  refine ⟨?_, ⟨?_, ?_⟩, ⟨?_, ?_⟩, ?_⟩
  · refine elst_adj_frame d _ _ hpre (fun x hx => ?_) (fun y hy => ?_)
    · rw [List.dropLast_concat] at hx
      have h1 : x ≠ p := fun e => hppre (e ▸ hx)
      have h2 : x ≠ i := by
        intro e; subst e
        rcases List.mem_cons.mp (hpre_sub x hx) with e | e
        · exact his e
        · exact hia e
      rw [elst_link_n, if_neg h1, if_neg h2]
    · rw [← hA, List.tail_cons] at hy
      have h1 : y ≠ n := by
        intro e; subst e
        rcases List.mem_append.mp hnmem with e | e
        · exact hdis hy e
        · exact hsa (List.mem_singleton.mp e ▸ hy)
      have h2 : y ≠ i := fun e => hia (e ▸ hy)
      rw [elst_link_p, if_neg h1, if_neg h2]
  · rw [elst_link_n, if_pos rfl]
  · rw [elst_link_p, if_neg hin, if_pos rfl]
  · rw [elst_link_n, if_neg hip, if_pos rfl]
  · rw [elst_link_p, if_pos rfl]
  · refine elst_adj_frame d _ _ hpost (fun x hx => ?_) (fun y hy => ?_)
    · rw [← hB, List.dropLast_concat] at hx
      have h1 : x ≠ p := fun e => hab x (e ▸ hpmem) hx
      have h2 : x ≠ i := fun e => hib (e ▸ hx)
      rw [elst_link_n, if_neg h1, if_neg h2]
    · rw [List.tail_cons] at hy
      have h1 : y ≠ n := fun e => hnpost (e ▸ hy)
      have h2 : y ≠ i := by
        intro e; subst e
        rcases List.mem_append.mp (hpost_sub y hy) with e | e
        · exact hib e
        · exact his (List.mem_singleton.mp e)
      rw [elst_link_p, if_neg h1, if_neg h2]

/-- Unlinking the first node of the ring of `s`. -/
theorem elst_unlink_ring {α : Type} (d : Nat → elst_item α) (s i : Nat) (t : List Nat)
    (h : elst_ring d s (i :: t)) (hnd : (s :: i :: t).Nodup) :
    elst_ring (elst_unlink d i) s t := by
  obtain ⟨post, hB⟩ : ∃ post, t ++ [s] = (d i).n :: post := by
    unfold elst_ring at h
    rw [List.cons_append, List.chain'_cons] at h
    cases t with
    | nil =>
      have h2 : elst_adj d i s := by simpa using h.2
      exact ⟨[], by rw [h2.1]; rfl⟩
    | cons u t =>
      have h2 := h.2
      rw [List.cons_append, List.chain'_cons] at h2
      exact ⟨t ++ [s], by rw [h2.1.1]; rfl⟩
  unfold elst_ring at h ⊢
  rw [List.cons_append, List.chain'_cons, hB] at h
  rw [hB, List.chain'_cons]
  obtain ⟨hsi, hrest⟩ := h
  have hip : (d i).p = s := hsi.2
  simp only [List.nodup_cons, List.mem_cons, not_or] at hnd
  obtain ⟨⟨hsi2, hst⟩, hit, hndt⟩ := hnd
  have hndB : ((d i).n :: post).Nodup := by
    rw [← hB]
    refine List.nodup_append.mpr ⟨hndt, List.nodup_singleton s, ?_⟩
    intro x hx hx2
    rw [List.mem_singleton] at hx2
    subst hx2
    exact hst hx
  have hnpost : (d i).n ∉ post := (List.nodup_cons.mp hndB).1
  have hrest2 := (List.chain'_cons'.mp hrest).2
  refine ⟨⟨?_, ?_⟩, ?_⟩
  · rw [elst_unlink_n, hip, if_pos rfl]
  · rw [elst_unlink_p, if_pos rfl, hip]
  · refine elst_adj_frame d _ _ hrest2 (fun x hx => ?_) (fun y hy => ?_)
    · rw [← hB, List.dropLast_concat] at hx
      have h1 : x ≠ (d i).p := by
        rw [hip]; intro e; exact hst (e ▸ hx)
      rw [elst_unlink_n, if_neg h1]
    · rw [List.tail_cons] at hy
      have h1 : y ≠ (d i).n := fun e => hnpost (e ▸ hy)
      rw [elst_unlink_p, if_neg h1]

/-! ### Operations of the event list -/

theorem elst_create_wf {α : Type} (c : Nat) (raw : Nat → elst_item α)
    (hc : c < 2147483648) : elst_wf (elst_create c raw) [] [] := by
  refine ⟨?_, ?_, ?_, ?_, ?_, ?_, ?_, ?_, ?_⟩
  · simp [elst_ring, elst_adj, elst_create, elst_set_ptr, elst_set_n, elst_set_p,
      ELST_USED, ELST_FREE]
  · simp [elst_ring, elst_adj, elst_create, elst_set_ptr, elst_set_n, elst_set_p,
      ELST_USED, ELST_FREE]
  · simp
  · intro i hi; simp at hi
  · rfl
  · rfl
  · simp [elst_create, ELST_RESVD_ITEMS]
  · exact hc
  · simp [elst_create, elst_set_ptr, elst_set_n, elst_set_p, ELST_USED, ELST_FREE]

theorem elst_put_full {α : Type} (l : elst α) (x : Option α) (prio : Int) (p n : Nat)
    (h : l.count ≥ l.capacity) : elst_put l x prio p n = (-2, l) := by
  unfold elst_put elst_get_free
  simp [h]

/-- The result of `__get_free` on a list with room: a node `i` outside both
rings; the used ring is untouched. -/
theorem elst_get_free_ok {α : Type} (l : elst α) (us fs : List Nat)
    (h : elst_wf l us fs) (hc : l.count < l.capacity) :
    ∃ (i : Nat) (fs1 : List Nat), (elst_get_free l).1 = (i : Int) ∧
      elst_ring (elst_get_free l).2.data ELST_USED us ∧
      elst_ring (elst_get_free l).2.data ELST_FREE fs1 ∧
      (us ++ fs1).Nodup ∧ i ∉ us ++ fs1 ∧ 2 ≤ i ∧ i < (elst_get_free l).2.hwm ∧
      (∀ j, j ∈ us ++ fs1 → 2 ≤ j ∧ j < (elst_get_free l).2.hwm) ∧
      us.length + fs1.length + 3 = (elst_get_free l).2.hwm ∧
      (elst_get_free l).2.count = l.count ∧
      (elst_get_free l).2.capacity = l.capacity ∧
      (elst_get_free l).2.hwm ≤ l.capacity + 2 ∧
      (∀ j, ((elst_get_free l).2.data j).prio = (l.data j).prio ∧
        ((elst_get_free l).2.data j).ptr = (l.data j).ptr) := by
  obtain ⟨hu, hf, hnd, hrng, hlen, hcnt, hhwm, hcap, hptr⟩ := h
  have h1f : ELST_FREE ∉ fs := by
    intro hx
    have := (hrng 1 (List.mem_append_right _ hx)).1
    omega
  have h0u : ELST_USED ∉ us := by
    intro hx
    have := (hrng 0 (List.mem_append_left _ hx)).1
    omega
  have hnc : ¬ (l.count ≥ l.capacity) := by omega
  by_cases he : (l.data ELST_FREE).n = ELST_FREE
  · have hfs : fs = [] := (elst_ring_empty_iff l.data ELST_FREE fs hf h1f).mp he
    subst hfs
    have hg : elst_get_free l = ((l.hwm : Int), { l with hwm := l.hwm + 1 }) := by
      simp only [elst_get_free, if_neg hnc, if_pos he]
    refine ⟨l.hwm, [], ?_⟩
    rw [hg]
    simp only [List.append_nil, List.length_nil, Nat.add_zero] at hnd hrng hlen
    refine ⟨rfl, hu, hf, ?_, ?_, ?_, ?_, ?_, ?_, rfl, rfl, ?_, fun j => ⟨rfl, rfl⟩⟩
    · rw [List.append_nil]; exact hnd
    · rw [List.append_nil]
      intro hx
      have := (hrng _ hx).2
      omega
    · omega
    · show l.hwm < l.hwm + 1
      omega
    · intro j hj
      rw [List.append_nil] at hj
      have := hrng j hj
      show 2 ≤ j ∧ j < l.hwm + 1
      omega
    · show us.length + 0 + 3 = l.hwm + 1
      omega
    · show l.hwm + 1 ≤ l.capacity + 2
      omega
  · cases fs with
    | nil =>
      exact absurd ((elst_ring_empty_iff l.data ELST_FREE [] hf h1f).mpr rfl) he
    | cons i t =>
      have hadj : elst_adj l.data ELST_FREE i := by
        unfold elst_ring at hf
        rw [List.cons_append, List.chain'_cons] at hf
        exact hf.1
      have hi : (l.data ELST_FREE).n = i := hadj.1
      have hip : (l.data i).p = ELST_FREE := hadj.2
      have hg : elst_get_free l = ((i : Int), { l with data := elst_unlink l.data i }) := by
        simp only [elst_get_free, if_neg hnc]
        rw [if_neg he, hi]
      refine ⟨i, t, ?_⟩
      rw [hg]
      have hnd2 := hnd
      simp only [List.nodup_append, List.nodup_cons, List.mem_cons] at hnd2
      obtain ⟨hndu, ⟨hit, hndt⟩, hdis⟩ := hnd2
      have hi2 := hrng i (by simp)
      have hndF : (ELST_FREE :: i :: t).Nodup := by
        refine List.nodup_cons.mpr ⟨?_, List.nodup_cons.mpr ⟨hit, hndt⟩⟩
        exact h1f
      have hring := elst_unlink_ring l.data ELST_FREE i t hf hndF
      -- the successor of i is in t or is the sentinel
      obtain ⟨post, hB⟩ : ∃ post, t ++ [ELST_FREE] = (l.data i).n :: post := by
        unfold elst_ring at hf
        rw [List.cons_append, List.chain'_cons] at hf
        cases t with
        | nil =>
          have h2 : elst_adj l.data i ELST_FREE := by simpa using hf.2
          exact ⟨[], by rw [h2.1]; rfl⟩
        | cons u t =>
          have h2 := hf.2
          rw [List.cons_append, List.chain'_cons] at h2
          exact ⟨t ++ [ELST_FREE], by rw [h2.1.1]; rfl⟩
      have hnmem : (l.data i).n ∈ t ++ [ELST_FREE] := by rw [hB]; simp
      refine ⟨rfl, ?_, hring, ?_, ?_, hi2.1, hi2.2, ?_, ?_, rfl, rfl, hhwm, ?_⟩
      · refine elst_ring_frame l.data _ ELST_USED us hu ?_ ?_
        · apply elst_unlink_other
          · rw [hip]; decide
          · intro e
            rcases List.mem_append.mp hnmem with h3 | h3
            · have := (hrng _ (List.mem_append_right _ (List.mem_cons_of_mem _ (e ▸ h3)))).1
              simp [ELST_USED] at this
            · rw [← e] at h3; simp [ELST_USED, ELST_FREE] at h3
        · intro x hx
          apply elst_unlink_other
          · rw [hip]; intro e; subst e
            have := (hrng _ (List.mem_append_left _ hx)).1
            simp [ELST_FREE] at this
          · intro e
            rcases List.mem_append.mp hnmem with h3 | h3
            · exact hdis hx (List.mem_cons_of_mem _ (e ▸ h3))
            · rw [← e] at h3
              have := (hrng _ (List.mem_append_left _ hx)).1
              simp [ELST_FREE] at h3
              omega
      · exact List.nodup_append.mpr ⟨hndu, hndt, fun x hx hx2 => hdis hx (List.mem_cons_of_mem _ hx2)⟩
      · intro hx
        rcases List.mem_append.mp hx with h3 | h3
        · exact hdis h3 (List.mem_cons_self _ _)
        · exact hit h3
      · intro j hj
        apply hrng
        rcases List.mem_append.mp hj with h3 | h3
        · exact List.mem_append_left _ h3
        · exact List.mem_append_right _ (List.mem_cons_of_mem _ h3)
      · simp only [List.length_cons] at hlen
        show us.length + t.length + 3 = l.hwm
        omega
      · intro j
        exact ⟨elst_unlink_prio _ _ _, elst_unlink_ptr _ _ _⟩

theorem elst_set_ptr_other {α : Type} (d : Nat → elst_item α) (i : Nat) (v : Option α)
    (j : Nat) (h : j ≠ i) : elst_set_ptr d i v j = d j := by
  simp only [elst_set_ptr, if_neg h]

theorem elst_set_prio_other {α : Type} (d : Nat → elst_item α) (i : Nat) (v : Int)
    (j : Nat) (h : j ≠ i) : elst_set_prio d i v j = d j := by
  simp only [elst_set_prio, if_neg h]

/-- The effect of `__put` on a list with room: the new node `i` is linked
between `p`, the last node of `s :: a`, and `n`, the first node of
`b ++ [s]`, and the count is returned. -/
theorem elst_put_ok {α : Type} (l : elst α) (us fs : List Nat) (x : Option α) (prio : Int)
    (p n : Nat) (a b pre post : List Nat)
    (h : elst_wf l us fs) (hc : l.count < l.capacity) (hus : us = a ++ b)
    (hA : ELST_USED :: a = pre ++ [p]) (hB : b ++ [ELST_USED] = n :: post) :
    ∃ (i : Nat) (fs1 : List Nat),
      (elst_put l x prio p n).1 = ((l.count + 1 : Nat) : Int) ∧
      elst_wf (elst_put l x prio p n).2 (a ++ i :: b) fs1 ∧
      elst_items (elst_put l x prio p n).2 (a ++ i :: b) =
        elst_items l a ++ (prio, x) :: elst_items l b ∧
      (elst_put l x prio p n).2.capacity = l.capacity ∧
      (elst_put l x prio p n).2.count = l.count + 1 := by
  obtain ⟨i, fs1, hg1, hgu, hgf, hgnd, hgi, hgi2, hgih, hgrng, hglen, hgcnt, hgcap, hghwm,
    hgfld⟩ := elst_get_free_ok l us fs h hc
  obtain ⟨hu, hf, hnd, hrng, hlen, hcnt, hhwm, hcap, hptr⟩ := h
  subst hus
  have hput : elst_put l x prio p n =
      ((((elst_get_free l).2.count + 1 : Nat) : Int),
        { (elst_get_free l).2 with
          data := elst_link (elst_set_prio (elst_set_ptr (elst_get_free l).2.data i x) i prio)
            i p n
          count := (elst_get_free l).2.count + 1 }) := by
    have hnn : ¬ ((i : Int) < 0) := by omega
    simp only [elst_put, hg1, if_neg hnn, Int.toNat_ofNat]
  rw [hput]
  have hpmem : p ∈ ELST_USED :: a := by rw [hA]; simp
  have hnmem : n ∈ b ++ [ELST_USED] := by rw [hB]; simp
  have hp_us : p = ELST_USED ∨ p ∈ a ++ b := by
    rcases List.mem_cons.mp hpmem with e | e
    · exact Or.inl e
    · exact Or.inr (List.mem_append_left _ e)
  have hn_us : n = ELST_USED ∨ n ∈ a ++ b := by
    rcases List.mem_append.mp hnmem with e | e
    · exact Or.inr (List.mem_append_right _ e)
    · exact Or.inl (List.mem_singleton.mp e)
  have h0u : ELST_USED ∉ a ++ b := by
    intro hx
    have := (hrng 0 (List.mem_append_left _ hx)).1
    omega
  have hiu : i ∉ a ++ b := fun hx => hgi (List.mem_append_left _ hx)
  have hif : i ∉ fs1 := fun hx => hgi (List.mem_append_right _ hx)
  have hi0 : i ≠ ELST_USED := by unfold ELST_USED; omega
  have hi1 : i ≠ ELST_FREE := by unfold ELST_FREE; omega
  have hperm : ((a ++ i :: b) ++ fs1).Perm (i :: ((a ++ b) ++ fs1)) := by
    rw [List.append_assoc, List.cons_append, List.append_assoc]
    exact List.perm_middle
  have hd2 : ∀ j, j ≠ i →
      elst_set_prio (elst_set_ptr (elst_get_free l).2.data i x) i prio j =
        (elst_get_free l).2.data j := by
    intro j hj
    rw [elst_set_prio_other _ _ _ _ hj, elst_set_ptr_other _ _ _ _ hj]
  refine ⟨i, fs1, ?_, ⟨?_, ?_, ?_, ?_, ?_, ?_, ?_, ?_, ?_⟩, ?_, hgcap, ?_⟩
  · rw [hgcnt]
  · -- used ring
    apply elst_link_ring _ ELST_USED i p n a b pre post
    · refine elst_ring_frame _ _ ELST_USED (a ++ b) hgu (hd2 _ (Ne.symm hi0)) ?_
      intro y hy
      exact hd2 y (fun e => hiu (e ▸ hy))
    · exact List.nodup_cons.mpr ⟨h0u, (List.nodup_append.mp hnd).1⟩
    · intro hx
      rcases List.mem_cons.mp hx with e | e
      · exact hi0 e
      · exact hiu e
    · exact hA
    · exact hB
  · -- free ring
    have hfree : ∀ y, y = ELST_FREE ∨ y ∈ fs1 →
        elst_link (elst_set_prio (elst_set_ptr (elst_get_free l).2.data i x) i prio) i p n y =
          (elst_get_free l).2.data y := by
      intro y hy
      have hyi : y ≠ i := by
        rcases hy with e | e
        · rw [e]; exact Ne.symm hi1
        · exact fun e2 => hif (e2 ▸ e)
      have hyus : y ≠ ELST_USED ∧ y ∉ a ++ b := by
        rcases hy with e | e
        · subst e
          refine ⟨by decide, ?_⟩
          intro hx
          have := (hrng 1 (List.mem_append_left _ hx)).1
          omega
        · refine ⟨?_, ?_⟩
          · intro e2; subst e2
            have := (hgrng 0 (List.mem_append_right _ e)).1
            omega
          · intro hx
            exact (List.disjoint_of_nodup_append hgnd) hx e
      have hyp : y ≠ p := by
        rcases hp_us with e | e
        · rw [e]; exact hyus.1
        · exact fun e2 => hyus.2 (e2 ▸ e)
      have hyn : y ≠ n := by
        rcases hn_us with e | e
        · rw [e]; exact hyus.1
        · exact fun e2 => hyus.2 (e2 ▸ e)
      rw [elst_link_other _ _ _ _ _ hyi hyp hyn, hd2 y hyi]
    exact elst_ring_frame _ _ ELST_FREE fs1 hgf (hfree _ (Or.inl rfl))
      (fun y hy => hfree y (Or.inr hy))
  · rw [hperm.nodup_iff]
    exact List.nodup_cons.mpr ⟨hgi, hgnd⟩
  · intro j hj
    rw [hperm.mem_iff] at hj
    rcases List.mem_cons.mp hj with e | e
    · rw [e]; exact ⟨hgi2, hgih⟩
    · exact hgrng j e
  · show (a ++ i :: b).length + fs1.length + 2 = (elst_get_free l).2.hwm
    simp only [List.length_append, List.length_cons] at hglen ⊢
    omega
  · show (elst_get_free l).2.count + 1 = (a ++ i :: b).length
    simp only [List.length_append, List.length_cons] at hcnt ⊢
    omega
  · show (elst_get_free l).2.hwm ≤ (elst_get_free l).2.capacity + 2
    omega
  · show (elst_get_free l).2.capacity < 2147483648
    omega
  · show (elst_link (elst_set_prio (elst_set_ptr (elst_get_free l).2.data i x) i prio)
      i p n ELST_USED).ptr = none
    rw [elst_link_ptr, elst_set_prio_ptr, elst_set_ptr_ptr, if_neg (Ne.symm hi0),
      (hgfld _).2]
    exact hptr
  · have hfld : ∀ j, j ∈ a ++ b →
        ((elst_link (elst_set_prio (elst_set_ptr (elst_get_free l).2.data i x) i prio)
            i p n j).prio,
          (elst_link (elst_set_prio (elst_set_ptr (elst_get_free l).2.data i x) i prio)
            i p n j).ptr) = ((l.data j).prio, (l.data j).ptr) := by
      intro j hj
      have hji : j ≠ i := fun e => hiu (e ▸ hj)
      rw [elst_link_prio, elst_link_ptr, hd2 j hji, (hgfld j).1, (hgfld j).2]
    unfold elst_items
    rw [List.map_append, List.map_cons]
    congr 1
    · exact List.map_congr_left (fun j hj => hfld j (List.mem_append_left _ hj))
    · congr 1
      · show ((elst_link (elst_set_prio (elst_set_ptr (elst_get_free l).2.data i x) i prio)
            i p n i).prio,
          (elst_link (elst_set_prio (elst_set_ptr (elst_get_free l).2.data i x) i prio)
            i p n i).ptr) = (prio, x)
        rw [elst_link_prio, elst_link_ptr, elst_set_prio_prio, elst_set_prio_ptr,
          elst_set_ptr_ptr, if_pos rfl, if_pos rfl]
      · exact List.map_congr_left (fun j hj => hfld j (List.mem_append_right _ hj))
  · show (elst_get_free l).2.count + 1 = l.count + 1
    rw [hgcnt]

theorem elst_nlock_pop_nil {α : Type} (l : elst α) (fs : List Nat)
    (h : elst_wf l [] fs) : elst_nlock_pop l = (none, l) := by
  obtain ⟨hu, _, _, _, _, _, _, _, hptr⟩ := h
  have h1 : (l.data ELST_USED).n = ELST_USED :=
    (elst_ring_empty_iff l.data ELST_USED [] hu (by simp)).mpr rfl
  simp [elst_nlock_pop, h1, hptr]

theorem elst_nlock_pop_cons {α : Type} (l : elst α) (i : Nat) (t fs : List Nat)
    (h : elst_wf l (i :: t) fs) :
    (elst_nlock_pop l).1 = (l.data i).ptr ∧
    elst_wf (elst_nlock_pop l).2 t (fs ++ [i]) ∧
    (∀ j, ((elst_nlock_pop l).2.data j).prio = (l.data j).prio ∧
      ((elst_nlock_pop l).2.data j).ptr = (l.data j).ptr) ∧
    (elst_nlock_pop l).2.capacity = l.capacity ∧
    (elst_nlock_pop l).2.count + 1 = l.count := by
  obtain ⟨hu, hf, hnd, hrng, hlen, hcnt, hhwm, hcap, hptr⟩ := h
  have hadj : elst_adj l.data ELST_USED i := by
    unfold elst_ring at hu
    rw [List.cons_append, List.chain'_cons] at hu
    exact hu.1
  have hi := hrng i (by simp)
  have hi0 : i ≠ ELST_USED := by unfold ELST_USED; omega
  have hi1 : i ≠ ELST_FREE := by unfold ELST_FREE; omega
  have hfirst : (l.data ELST_USED).n ≠ ELST_USED := by rw [hadj.1]; exact hi0
  have hpop : elst_nlock_pop l =
      ((elst_link (elst_unlink l.data i) i (elst_unlink l.data i ELST_FREE).p ELST_FREE i).ptr,
        { l with
          data := elst_link (elst_unlink l.data i) i (elst_unlink l.data i ELST_FREE).p
            ELST_FREE
          count := (l.count + 4294967295) % 4294967296 }) := by
    simp only [elst_nlock_pop, hadj.1, if_pos hi0]
  have hnd2 := hnd
  simp only [List.cons_append, List.nodup_cons, List.mem_append, not_or] at hnd2
  obtain ⟨⟨hit, hifs⟩, hndtf⟩ := hnd2
  have h0 : ∀ y, y ∈ (i :: t) ++ fs → y ≠ ELST_USED ∧ y ≠ ELST_FREE := by
    intro y hy
    have := hrng y hy
    unfold ELST_USED ELST_FREE
    omega
  have h0t : ELST_USED ∉ i :: t := fun hx => (h0 _ (List.mem_append_left _ hx)).1 rfl
  have h1f : ELST_FREE ∉ fs := fun hx => (h0 _ (List.mem_append_right _ hx)).2 rfl
  have hndU : (ELST_USED :: i :: t).Nodup :=
    List.nodup_cons.mpr ⟨h0t, (List.nodup_append.mp hnd).1⟩
  have hu1 := elst_unlink_ring l.data ELST_USED i t hu hndU
  -- the successor of i is in t or is the sentinel
  obtain ⟨post, hB⟩ : ∃ post, t ++ [ELST_USED] = (l.data i).n :: post := by
    unfold elst_ring at hu
    rw [List.cons_append, List.chain'_cons] at hu
    cases t with
    | nil =>
      have h2 : elst_adj l.data i ELST_USED := by simpa using hu.2
      exact ⟨[], by rw [h2.1]; rfl⟩
    | cons u t =>
      have h2 := hu.2
      rw [List.cons_append, List.chain'_cons] at h2
      exact ⟨t ++ [ELST_USED], by rw [h2.1.1]; rfl⟩
  have hnmem : (l.data i).n ∈ t ++ [ELST_USED] := by rw [hB]; simp
  have hfree1 : ∀ y, y = ELST_FREE ∨ y ∈ fs → elst_unlink l.data i y = l.data y := by
    intro y hy
    apply elst_unlink_other
    · rw [hadj.2]
      rcases hy with e | e
      · rw [e]; decide
      · exact (h0 y (List.mem_append_right _ e)).1
    · intro e
      rcases List.mem_append.mp hnmem with h3 | h3
      · rcases hy with e2 | e2
        · exact (h0 _ (List.mem_append_left _ (List.mem_cons_of_mem _ h3))).2 (e ▸ e2)
        · exact (List.disjoint_of_nodup_append hndtf) h3 (e ▸ e2)
      · rw [List.mem_singleton] at h3
        rcases hy with e2 | e2
        · rw [← e, e2] at h3; exact absurd h3 (by decide)
        · exact (h0 y (List.mem_append_right _ e2)).1 (e.trans h3)
  have hf1 : elst_ring (elst_unlink l.data i) ELST_FREE fs :=
    elst_ring_frame _ _ ELST_FREE fs hf (hfree1 _ (Or.inl rfl)) (fun y hy => hfree1 y (Or.inr hy))
  obtain ⟨pre, hA⟩ := elst_ring_last _ ELST_FREE fs hf1
  have hpmem : (elst_unlink l.data i ELST_FREE).p ∈ ELST_FREE :: fs := by rw [hA]; simp
  have hperm : (t ++ (fs ++ [i])).Perm (i :: (t ++ fs)) := by
    rw [← List.append_assoc]
    exact List.perm_append_singleton _ _
  generalize elst_nlock_pop l = r at hpop
  obtain ⟨v, k⟩ := r
  rw [Prod.mk.injEq] at hpop
  obtain ⟨hv, hk⟩ := hpop
  have hd : k.data =
      elst_link (elst_unlink l.data i) i (elst_unlink l.data i ELST_FREE).p ELST_FREE := by
    rw [hk]
  have hkc : k.count = (l.count + 4294967295) % 4294967296 := by rw [hk]
  have hkh : k.hwm = l.hwm := by rw [hk]
  have hkcap : k.capacity = l.capacity := by rw [hk]
  clear hk
  show v = (l.data i).ptr ∧ elst_wf k t (fs ++ [i]) ∧
    (∀ j, (k.data j).prio = (l.data j).prio ∧ (k.data j).ptr = (l.data j).ptr) ∧
    k.capacity = l.capacity ∧ k.count + 1 = l.count
  refine ⟨?_, ⟨?_, ?_, ?_, ?_, ?_, ?_, ?_, ?_, ?_⟩, ?_, hkcap, ?_⟩
  · rw [hv, elst_link_ptr, elst_unlink_ptr]
  · -- used ring
    rw [hd]
    refine elst_ring_frame _ _ ELST_USED t hu1 ?_ ?_
    · apply elst_link_other _ _ _ _ _ (Ne.symm hi0)
      · intro e
        rcases List.mem_cons.mp hpmem with h3 | h3
        · rw [← e] at h3; exact absurd h3 (by decide)
        · rw [← e] at h3; exact (h0 _ (List.mem_append_right _ h3)).1 rfl
      · decide
    · intro y hy
      apply elst_link_other
      · exact fun e => hit (e ▸ hy)
      · intro e
        rcases List.mem_cons.mp hpmem with h3 | h3
        · rw [← e] at h3
          exact (h0 y (List.mem_append_left _ (List.mem_cons_of_mem _ hy))).2 h3
        · rw [← e] at h3
          exact (List.disjoint_of_nodup_append hndtf) hy h3
      · exact (h0 y (List.mem_append_left _ (List.mem_cons_of_mem _ hy))).2
  · -- free ring
    rw [hd]
    have := elst_link_ring (elst_unlink l.data i) ELST_FREE i
      (elst_unlink l.data i ELST_FREE).p ELST_FREE fs [] pre []
      (by rw [List.append_nil]; exact hf1)
      (by rw [List.append_nil]; exact List.nodup_cons.mpr ⟨h1f, (List.nodup_append.mp hndtf).2.1⟩)
      (by
        rw [List.append_nil]
        intro hx
        rcases List.mem_cons.mp hx with e | e
        · exact hi1 e
        · exact hifs e)
      hA rfl
    exact this
  · rw [hperm.nodup_iff]
    exact List.nodup_cons.mpr ⟨fun hx => by
      rcases List.mem_append.mp hx with e | e
      · exact hit e
      · exact hifs e, hndtf⟩
  · intro j hj
    rw [hperm.mem_iff] at hj
    rw [hkh]
    exact hrng j hj
  · rw [hkh]
    simp only [List.length_append, List.length_cons, List.length_nil] at hlen ⊢
    omega
  · rw [hkc]
    simp only [List.length_append, List.length_cons] at hlen hcnt
    omega
  · rw [hkh, hkcap]; exact hhwm
  · rw [hkcap]; exact hcap
  · rw [hd, elst_link_ptr, elst_unlink_ptr]
    exact hptr
  · intro j
    rw [hd]
    exact ⟨by rw [elst_link_prio, elst_unlink_prio], by rw [elst_link_ptr, elst_unlink_ptr]⟩
  · rw [hkc]
    simp only [List.length_append, List.length_cons] at hlen hcnt
    omega

theorem elst_items_congr {α : Type} (l k : elst α) (us : List Nat)
    (h : ∀ j, (k.data j).prio = (l.data j).prio ∧ (k.data j).ptr = (l.data j).ptr) :
    elst_items k us = elst_items l us := by
  unfold elst_items
  exact List.map_congr_left (fun j _ => by rw [(h j).1, (h j).2])

/-- The effect of `elst_nlock_append` on a list with room. -/
theorem elst_nlock_append_ok {α : Type} (l : elst α) (us fs : List Nat) (x : Option α)
    (h : elst_wf l us fs) (hc : l.count < l.capacity) :
    ∃ (i : Nat) (fs1 : List Nat),
      (elst_nlock_append l x).1 = ((l.count + 1 : Nat) : Int) ∧
      elst_wf (elst_nlock_append l x).2 (us ++ [i]) fs1 ∧
      elst_items (elst_nlock_append l x).2 (us ++ [i]) = elst_items l us ++ [(0, x)] ∧
      (elst_nlock_append l x).2.capacity = l.capacity ∧
      (elst_nlock_append l x).2.count = l.count + 1 := by
  obtain ⟨pre, hA⟩ := elst_ring_last _ ELST_USED us h.1
  obtain ⟨i, fs1, h1, h2, h3, h4, h5⟩ :=
    elst_put_ok l us fs x 0 (l.data ELST_USED).p ELST_USED us [] pre [] h hc
      (List.append_nil us).symm hA rfl
  exact ⟨i, fs1, h1, h2, h3, h4, h5⟩

/-- The effect of `elst_nlock_prepend` on a list with room. -/
theorem elst_nlock_prepend_ok {α : Type} (l : elst α) (us fs : List Nat) (x : Option α)
    (h : elst_wf l us fs) (hc : l.count < l.capacity) :
    ∃ (i : Nat) (fs1 : List Nat),
      (elst_nlock_prepend l x).1 = ((l.count + 1 : Nat) : Int) ∧
      elst_wf (elst_nlock_prepend l x).2 (i :: us) fs1 ∧
      elst_items (elst_nlock_prepend l x).2 (i :: us) = (0, x) :: elst_items l us ∧
      (elst_nlock_prepend l x).2.capacity = l.capacity ∧
      (elst_nlock_prepend l x).2.count = l.count + 1 := by
  obtain ⟨post, hB⟩ := elst_ring_head _ ELST_USED us h.1
  obtain ⟨i, fs1, h1, h2, h3, h4, h5⟩ :=
    elst_put_ok l us fs x 0 ELST_USED (l.data ELST_USED).n [] us [] post h hc
      (List.nil_append us).symm rfl hB
  exact ⟨i, fs1, h1, h2, h3, h4, h5⟩

theorem elst_ring_succ {α : Type} (d : Nat → elst_item α) (s u : Nat) (a b : List Nat)
    (h : elst_ring d s (a ++ u :: b)) : ∃ post, b ++ [s] = (d u).n :: post := by
  unfold elst_ring at h
  have e : s :: (a ++ u :: b ++ [s]) = (s :: a) ++ u :: (b ++ [s]) := by simp
  rw [e] at h
  have h2 := (List.chain'_split.mp h).2
  cases b with
  | nil =>
    have h3 : elst_adj d u s := by simpa using h2
    exact ⟨[], by rw [h3.1]; rfl⟩
  | cons v t =>
    rw [List.cons_append, List.chain'_cons] at h2
    exact ⟨t ++ [s], by rw [h2.1.1]; rfl⟩

/-- The loop of `elst_nlock_insert`, started between `a` and `b`, stops
within `b.length + 1` tests, right after the longest prefix of `b` whose
priorities are at least `prio`. -/
theorem elst_scan_ok {α : Type} (d : Nat → elst_item α) (prio : Int) (us : List Nat)
    (h : elst_ring d ELST_USED us) (h0 : ELST_USED ∉ us) :
    ∀ (b a : List Nat) (fuel p n : Nat) (pre post : List Nat),
      us = a ++ b → ELST_USED :: a = pre ++ [p] → b ++ [ELST_USED] = n :: post →
      b.length < fuel →
      ∃ p1 n1 pre1 post1,
        elst_scan d prio fuel p n = some (p1, n1) ∧
        ELST_USED :: (a ++ b.takeWhile (fun i => decide ((d i).prio ≥ prio))) =
          pre1 ++ [p1] ∧
        b.dropWhile (fun i => decide ((d i).prio ≥ prio)) ++ [ELST_USED] = n1 :: post1 := by
  intro b
  induction b with
  | nil =>
    intro a fuel p n pre post _ hA hB hfuel
    obtain ⟨f, rfl⟩ : ∃ f, fuel = f + 1 := ⟨fuel - 1, by simp at hfuel; omega⟩
    have hn : n = ELST_USED := by
      simp only [List.nil_append, List.cons.injEq] at hB
      exact hB.1.symm
    refine ⟨p, n, pre, post, ?_, ?_, ?_⟩
    · have c : ¬ (n ≠ ELST_USED ∧ (d n).prio ≥ prio) := fun c => c.1 hn
      simp only [elst_scan, if_neg c]
    · simpa using hA
    · simpa using hB
  | cons u t ih =>
    intro a fuel p n pre post hus hA hB hfuel
    obtain ⟨f, rfl⟩ : ∃ f, fuel = f + 1 :=
      ⟨fuel - 1, by simp only [List.length_cons] at hfuel; omega⟩
    have hn : n = u := by
      simp only [List.cons_append, List.cons.injEq] at hB
      exact hB.1.symm
    subst hn
    have hn0 : n ≠ ELST_USED := by
      intro e
      apply h0
      rw [hus, ← e]
      simp
    by_cases hp : (d n).prio ≥ prio
    · obtain ⟨post2, hB2⟩ := elst_ring_succ d ELST_USED n a t (hus ▸ h)
      obtain ⟨p1, n1, pre1, post1, e1, e2, e3⟩ :=
        ih (a ++ [n]) f n (d n).n (pre ++ [p]) post2 (by rw [hus]; simp)
          (by rw [← hA]; simp) hB2 (by simp only [List.length_cons] at hfuel; omega)
      refine ⟨p1, n1, pre1, post1, ?_, ?_, ?_⟩
      · have c : n ≠ ELST_USED ∧ (d n).prio ≥ prio := ⟨hn0, hp⟩
        simp only [elst_scan, if_pos c]
        exact e1
      · rw [List.takeWhile_cons, if_pos (by simpa using hp)]
        rw [← e2]; simp
      · rw [List.dropWhile_cons, if_pos (by simpa using hp)]
        exact e3
    · refine ⟨p, n, pre, post, ?_, ?_, ?_⟩
      · have c : ¬ (n ≠ ELST_USED ∧ (d n).prio ≥ prio) := fun c => hp c.2
        simp only [elst_scan, if_neg c]
      · rw [List.takeWhile_cons, if_neg (by simpa using hp)]
        simpa using hA
      · rw [List.dropWhile_cons, if_neg (by simpa using hp)]
        exact hB

theorem elst_wf_used_not_mem {α : Type} (l : elst α) (us fs : List Nat)
    (h : elst_wf l us fs) : ELST_USED ∉ us := by
  intro hx
  have := (h.2.2.2.1 0 (List.mem_append_left _ hx)).1
  omega

theorem elst_nlock_insert_full {α : Type} (fuel : Nat) (l : elst α) (us fs : List Nat)
    (x : Option α) (prio : Int) (h : elst_wf l us fs) (hfuel : l.count < fuel)
    (hc : l.count ≥ l.capacity) : elst_nlock_insert fuel l x prio = some (-2, l) := by
  obtain ⟨post, hB⟩ := elst_ring_head _ ELST_USED us h.1
  obtain ⟨p1, n1, pre1, post1, e1, _, _⟩ :=
    elst_scan_ok l.data prio us h.1 (elst_wf_used_not_mem l us fs h) us [] fuel ELST_USED
      (l.data ELST_USED).n [] post rfl rfl hB (by rw [← h.2.2.2.2.2.1]; exact hfuel)
  simp only [elst_nlock_insert, e1, elst_put_full l x prio p1 n1 hc]

/-- The effect of `elst_nlock_insert` on a list with room, in terms of the
nodes. -/
theorem elst_nlock_insert_nodes {α : Type} (fuel : Nat) (l : elst α) (us fs : List Nat)
    (x : Option α) (prio : Int) (h : elst_wf l us fs) (hfuel : l.count < fuel)
    (hc : l.count < l.capacity) :
    ∃ (r : Int × elst α) (i : Nat) (fs1 : List Nat),
      elst_nlock_insert fuel l x prio = some r ∧
      r.1 = ((l.count + 1 : Nat) : Int) ∧
      elst_wf r.2
        (us.takeWhile (fun j => decide ((l.data j).prio ≥ prio)) ++
          i :: us.dropWhile (fun j => decide ((l.data j).prio ≥ prio))) fs1 ∧
      elst_items r.2
        (us.takeWhile (fun j => decide ((l.data j).prio ≥ prio)) ++
          i :: us.dropWhile (fun j => decide ((l.data j).prio ≥ prio))) =
        elst_items l (us.takeWhile (fun j => decide ((l.data j).prio ≥ prio))) ++
          (prio, x) ::
            elst_items l (us.dropWhile (fun j => decide ((l.data j).prio ≥ prio))) ∧
      r.2.capacity = l.capacity ∧ r.2.count = l.count + 1 := by
  obtain ⟨post, hB⟩ := elst_ring_head _ ELST_USED us h.1
  obtain ⟨p1, n1, pre1, post1, e1, e2, e3⟩ :=
    elst_scan_ok l.data prio us h.1 (elst_wf_used_not_mem l us fs h) us [] fuel ELST_USED
      (l.data ELST_USED).n [] post rfl rfl hB (by rw [← h.2.2.2.2.2.1]; exact hfuel)
  rw [List.nil_append] at e2
  obtain ⟨i, fs1, h1, h2, h3, h4, h5⟩ :=
    elst_put_ok l us fs x prio p1 n1 _ _ pre1 post1 h hc
      (List.takeWhile_append_dropWhile _ us).symm e2 e3
  refine ⟨elst_put l x prio p1 n1, i, fs1, ?_, h1, h2, h3, h4, h5⟩
  simp only [elst_nlock_insert, e1]

theorem elst_items_takeWhile {α : Type} (l : elst α) (us : List Nat) (prio : Int) :
    elst_items l (us.takeWhile (fun j => decide ((l.data j).prio ≥ prio))) =
      (elst_items l us).takeWhile (fun it => decide (it.1 ≥ prio)) := by
  unfold elst_items
  rw [List.takeWhile_map]
  rfl

theorem elst_items_dropWhile {α : Type} (l : elst α) (us : List Nat) (prio : Int) :
    elst_items l (us.dropWhile (fun j => decide ((l.data j).prio ≥ prio))) =
      (elst_items l us).dropWhile (fun it => decide (it.1 ≥ prio)) := by
  unfold elst_items
  rw [List.dropWhile_map]
  rfl

/-- The effect of `elst_nlock_insert` on a list with room, in terms of the
elements. -/
theorem elst_nlock_insert_ok {α : Type} (fuel : Nat) (l : elst α) (us fs : List Nat)
    (x : Option α) (prio : Int) (h : elst_wf l us fs) (hfuel : l.count < fuel)
    (hc : l.count < l.capacity) :
    ∃ (r : Int × elst α) (us1 fs1 : List Nat),
      elst_nlock_insert fuel l x prio = some r ∧
      r.1 = ((l.count + 1 : Nat) : Int) ∧
      elst_wf r.2 us1 fs1 ∧
      elst_items r.2 us1 =
        (elst_items l us).takeWhile (fun it => decide (it.1 ≥ prio)) ++
          (prio, x) :: (elst_items l us).dropWhile (fun it => decide (it.1 ≥ prio)) ∧
      r.2.capacity = l.capacity ∧ r.2.count = l.count + 1 := by
  obtain ⟨r, i, fs1, h1, h2, h3, h4, h5, h6⟩ :=
    elst_nlock_insert_nodes fuel l us fs x prio h hfuel hc
  refine ⟨r, _, fs1, h1, h2, h3, ?_, h5, h6⟩
  rw [h4, elst_items_takeWhile, elst_items_dropWhile]

theorem elst_wf_count_le {α : Type} (l : elst α) (us fs : List Nat)
    (h : elst_wf l us fs) : l.count ≤ l.capacity := by
  obtain ⟨_, _, _, _, hlen, hcnt, hhwm, _, _⟩ := h
  omega

/-! ### Order of the elements -/

theorem dropWhile_prio_lt {α : Type} (its : List (Int × Option α)) (q : Int)
    (hs : its.Pairwise (fun a b => a.1 ≥ b.1)) :
    ∀ b ∈ its.dropWhile (fun it => decide (it.1 ≥ q)), b.1 < q := by
  induction its with
  | nil => intro b hb; simp at hb
  | cons a t ih =>
    rw [List.pairwise_cons] at hs
    by_cases ha : a.1 ≥ q
    · rw [List.dropWhile_cons, if_pos (by simpa using ha)]
      exact ih hs.2
    · rw [List.dropWhile_cons, if_neg (by simpa using ha)]
      intro b hb
      rcases List.mem_cons.mp hb with e | e
      · rw [e]; omega
      · have := hs.1 b e
        omega

theorem spec_insert_sorted {α : Type} (its : List (Int × Option α)) (q : Int)
    (x : Option α) (hs : its.Pairwise (fun a b => a.1 ≥ b.1)) :
    (spec_insert its q x).Pairwise (fun a b => a.1 ≥ b.1) := by
  unfold spec_insert
  have hlt := dropWhile_prio_lt its q hs
  rw [List.pairwise_append, List.pairwise_cons]
  refine ⟨hs.sublist (List.takeWhile_sublist _), ⟨?_, hs.sublist (List.dropWhile_sublist _)⟩,
    ?_⟩
  · intro b hb
    have := hlt b hb
    show q ≥ b.1
    omega
  · intro a ha b hb
    have h1 : a.1 ≥ q := by simpa using List.mem_takeWhile_imp ha
    rcases List.mem_cons.mp hb with e | e
    · rw [e]; exact h1
    · have := hlt b e
      omega

theorem spec_insert_filter {α : Type} (its : List (Int × Option α)) (q r : Int)
    (x : Option α) (hs : its.Pairwise (fun a b => a.1 ≥ b.1)) :
    (spec_insert its q x).filter (fun it => decide (it.1 = r)) =
      its.filter (fun it => decide (it.1 = r)) ++
        [(q, x)].filter (fun it => decide (it.1 = r)) := by
  have hlt := dropWhile_prio_lt its q hs
  have e : its.filter (fun it => decide (it.1 = r)) =
      (its.takeWhile (fun it => decide (it.1 ≥ q))).filter (fun it => decide (it.1 = r)) ++
        (its.dropWhile (fun it => decide (it.1 ≥ q))).filter (fun it => decide (it.1 = r)) := by
    rw [← List.filter_append, List.takeWhile_append_dropWhile]
  unfold spec_insert
  rw [e, List.filter_append, List.filter_cons]
  by_cases hq : q = r
  · subst hq
    have hnil : (its.dropWhile (fun it => decide (it.1 ≥ q))).filter
        (fun it => decide (it.1 = q)) = [] := by
      rw [List.filter_eq_nil_iff]
      intro b hb
      have := hlt b hb
      simp only [decide_eq_true_eq]
      omega
    simp [hnil]
  · simp [hq]

theorem spec_insert_foldl {α : Type} (xs : List (Int × Option α)) :
    ∀ acc : List (Int × Option α), acc.Pairwise (fun a b => a.1 ≥ b.1) →
      (xs.foldl (fun its it => spec_insert its it.1 it.2) acc).Pairwise
        (fun a b => a.1 ≥ b.1) ∧
      ∀ r : Int,
        (xs.foldl (fun its it => spec_insert its it.1 it.2) acc).filter
            (fun it => decide (it.1 = r)) =
          acc.filter (fun it => decide (it.1 = r)) ++
            xs.filter (fun it => decide (it.1 = r)) := by
  induction xs with
  | nil => intro acc hs; exact ⟨hs, fun r => by simp⟩
  | cons y t ih =>
    intro acc hs
    obtain ⟨h1, h2⟩ := ih (spec_insert acc y.1 y.2) (spec_insert_sorted acc y.1 y.2 hs)
    refine ⟨h1, fun r => ?_⟩
    have e : (y :: t) = [(y.1, y.2)] ++ t := rfl
    rw [List.foldl_cons, h2 r, spec_insert_filter acc y.1 r y.2 hs, List.append_assoc, e,
      List.filter_append]

/-- A run of inserts on a list with enough room and loop bound: all of them
succeed and the elements follow the position rule. -/
theorem elst_insert_all_ok {α : Type} (fuel : Nat) (xs : List (Int × Option α)) :
    ∀ (l : elst α) (us fs : List Nat), elst_wf l us fs →
      l.count + xs.length ≤ l.capacity → l.capacity < fuel →
      ∃ (k : elst α) (us1 fs1 : List Nat),
        elst_insert_all fuel l xs = some k ∧ elst_wf k us1 fs1 ∧
        elst_items k us1 =
          xs.foldl (fun its it => spec_insert its it.1 it.2) (elst_items l us) ∧
        k.count = l.count + xs.length := by
  induction xs with
  | nil =>
    intro l us fs h _ _
    exact ⟨l, us, fs, rfl, h, rfl, rfl⟩
  | cons y t ih =>
    intro l us fs h hc hfuel
    simp only [List.length_cons] at hc
    obtain ⟨r, us1, fs1, h1, _, h3, h4, h5, h6⟩ :=
      elst_nlock_insert_ok fuel l us fs y.2 y.1 h (by omega) (by omega)
    obtain ⟨k, us2, fs2, e1, e2, e3, e4⟩ :=
      ih r.2 us1 fs1 h3 (by rw [h5, h6]; omega) (by rw [h5]; exact hfuel)
    refine ⟨k, us2, fs2, ?_, e2, ?_, ?_⟩
    · simp only [elst_insert_all, h1]
      exact e1
    · rw [e3, h4]; rfl
    · rw [e4, h6]; simp only [List.length_cons]; omega

/-- Popping as many times as the list has elements returns the payloads
from head to tail and empties the list. -/
theorem elst_pop_n_all {α : Type} (us : List Nat) :
    ∀ (l : elst α) (fs : List Nat), elst_wf l us fs →
      (elst_pop_n us.length l).1 = (elst_items l us).map (fun it => it.2) ∧
      (elst_pop_n us.length l).2.count = 0 ∧
      elst_wf (elst_pop_n us.length l).2 [] (fs ++ us) := by
  induction us with
  | nil =>
    intro l fs h
    refine ⟨rfl, h.2.2.2.2.2.1, ?_⟩
    rw [List.append_nil]
    exact h
  | cons i t ih =>
    intro l fs h
    obtain ⟨h1, h2, h3, _, _⟩ := elst_nlock_pop_cons l i t fs h
    obtain ⟨e1, e2, e3⟩ := ih (elst_nlock_pop l).2 (fs ++ [i]) h2
    refine ⟨?_, e2, ?_⟩
    · show (elst_nlock_pop l).1 :: (elst_pop_n t.length (elst_nlock_pop l).2).1 = _
      rw [e1, h1, elst_items_congr l (elst_nlock_pop l).2 t h3]
      rfl
    · have : fs ++ i :: t = fs ++ [i] ++ t := by simp
      rw [this]
      exact e3

/-! ### Capacity -/

/-- C13: on a well-formed list (one made by `elst_create` with capacity `c`
and the list operations) the count never exceeds the capacity; when the list
holds `c` elements, append, prepend and insert return the negative code -2
and leave the whole list (contents, order, count) as it was; when it holds
fewer, they succeed: they return the old count + 1, which is the new count,
the capacity stays, and the new element is at the tail (append), at the head
(prepend) or at its priority position (insert). For insert the loop bound
`fuel` only has to exceed the count. -/
theorem elst_capacity_bound {α : Type} (l : elst α) (us fs : List Nat) (x : Option α)
    (prio : Int) (fuel : Nat) (h : elst_wf l us fs) (hfuel : l.count < fuel) :
    l.count ≤ l.capacity ∧
    (l.count = l.capacity →
      elst_nlock_append l x = (-2, l) ∧ elst_nlock_prepend l x = (-2, l) ∧
      elst_nlock_insert fuel l x prio = some (-2, l)) ∧
    (l.count < l.capacity →
      ((elst_nlock_append l x).1 = ((l.count + 1 : Nat) : Int) ∧
        (elst_nlock_append l x).2.count = l.count + 1 ∧
        (elst_nlock_append l x).2.capacity = l.capacity ∧
        ∃ us1 fs1, elst_wf (elst_nlock_append l x).2 us1 fs1 ∧
          elst_items (elst_nlock_append l x).2 us1 = elst_items l us ++ [(0, x)]) ∧
      ((elst_nlock_prepend l x).1 = ((l.count + 1 : Nat) : Int) ∧
        (elst_nlock_prepend l x).2.count = l.count + 1 ∧
        (elst_nlock_prepend l x).2.capacity = l.capacity ∧
        ∃ us1 fs1, elst_wf (elst_nlock_prepend l x).2 us1 fs1 ∧
          elst_items (elst_nlock_prepend l x).2 us1 = (0, x) :: elst_items l us) ∧
      (∃ r : Int × elst α, elst_nlock_insert fuel l x prio = some r ∧
        r.1 = ((l.count + 1 : Nat) : Int) ∧ r.2.count = l.count + 1 ∧
        r.2.capacity = l.capacity ∧
        ∃ us1 fs1, elst_wf r.2 us1 fs1 ∧
          elst_items r.2 us1 =
            (elst_items l us).takeWhile (fun it => decide (it.1 ≥ prio)) ++
              (prio, x) :: (elst_items l us).dropWhile (fun it => decide (it.1 ≥ prio)))) := by
  refine ⟨elst_wf_count_le l us fs h, fun hc => ?_, fun hc => ⟨?_, ?_, ?_⟩⟩
  · exact ⟨elst_put_full l x 0 _ _ (by omega), elst_put_full l x 0 _ _ (by omega),
      elst_nlock_insert_full fuel l us fs x prio h hfuel (by omega)⟩
  · obtain ⟨i, fs1, h1, h2, h3, h4, h5⟩ := elst_nlock_append_ok l us fs x h hc
    exact ⟨h1, h5, h4, _, fs1, h2, h3⟩
  · obtain ⟨i, fs1, h1, h2, h3, h4, h5⟩ := elst_nlock_prepend_ok l us fs x h hc
    exact ⟨h1, h5, h4, _, fs1, h2, h3⟩
  · obtain ⟨r, us1, fs1, h1, h2, h3, h4, h5, h6⟩ :=
      elst_nlock_insert_ok fuel l us fs x prio h hfuel hc
    exact ⟨r, h1, h2, h6, h5, us1, fs1, h3, h4⟩

/-- Witness of C13: a list of capacity 1 takes one element (append returns 1)
and then refuses a prepend and an insert with -2, unchanged. -/
theorem elst_capacity_bound_witness :
    (elst_nlock_append (elst_create 1 elst_raw0) (some 7)).1 = 1 ∧
    elst_nlock_prepend (elst_nlock_append (elst_create 1 elst_raw0) (some 7)).2 (some 8) =
      (-2, (elst_nlock_append (elst_create 1 elst_raw0) (some 7)).2) ∧
    elst_nlock_insert 2 (elst_nlock_append (elst_create 1 elst_raw0) (some 7)).2 (some 8) 3 =
      some (-2, (elst_nlock_append (elst_create 1 elst_raw0) (some 7)).2) :=
  ⟨((elst_capacity_bound (elst_create 1 elst_raw0) [] [] (some 7) 0 1 (by decide)
      (by decide)).2.2 (by decide)).1.1,
   ((elst_capacity_bound (elst_nlock_append (elst_create 1 elst_raw0) (some 7)).2 [2] []
      (some 8) 3 2 (by decide) (by decide)).2.1 (by decide)).2.1,
   ((elst_capacity_bound (elst_nlock_append (elst_create 1 elst_raw0) (some 7)).2 [2] []
      (some 8) 3 2 (by decide) (by decide)).2.1 (by decide)).2.2⟩

/-! ### Priority order -/

theorem dropWhile_head_not {α : Type} (p : α → Bool) (its : List α) (it : α)
    (h : (its.dropWhile p).head? = some it) : p it = false := by
  induction its with
  | nil => simp at h
  | cons a t ih =>
    by_cases ha : p a = true
    · rw [List.dropWhile_cons, if_pos ha] at h
      exact ih h
    · rw [List.dropWhile_cons, if_neg ha] at h
      simp only [List.head?_cons, Option.some.injEq] at h
      rw [← h]
      simpa using ha

/-- Counterexample to C14 as stated: a list built with insert (priority 5)
and prepend holds (0, 20), (5, 10); inserting 30 with priority 3 puts it at
the head, before the element of priority 5 >= 3. -/
theorem elst_insert_order_counterexample :
    ∃ r1 r3 : Int × elst Nat,
      elst_nlock_insert 9 (elst_create 4 elst_raw0) (some 10) 5 = some r1 ∧
      elst_wf (elst_nlock_prepend r1.2 (some 20)).2 [3, 2] [] ∧
      elst_items (elst_nlock_prepend r1.2 (some 20)).2 [3, 2] =
        [(0, some 20), (5, some 10)] ∧
      elst_nlock_insert 9 (elst_nlock_prepend r1.2 (some 20)).2 (some 30) 3 = some r3 ∧
      elst_wf r3.2 [4, 3, 2] [] ∧
      elst_items r3.2 [4, 3, 2] = [(3, some 30), (0, some 20), (5, some 10)] :=
  ⟨elst_put (elst_create 4 elst_raw0) (some 10) 5 0 0,
    elst_put (elst_nlock_prepend (elst_put (elst_create 4 elst_raw0) (some 10) 5 0 0).2
      (some 20)).2 (some 30) 3 0 3,
    rfl, by decide, by decide, rfl, by decide, by decide⟩

/-- C14, amended: on a well-formed list with room, `elst_nlock_insert(l, x,
prio)` places x right before the first element whose priority is < prio (at
the tail when there is none): the elements are `a ++ b` before and
`a ++ (prio, x) :: b` after, every element of `a` has priority >= prio and the
first element of `b` has priority < prio. When the list is sorted by
non-increasing priority, every element of `b` has priority < prio, so x is
after every element of priority >= prio, and the list stays sorted.
Consequently, for a list built only with insert (from `elst_create`, within
its capacity), as many pops as there were inserts return the payloads of a
sequence `ys` that is sorted by non-increasing priority and in which the
elements of each priority are those inserted with it, in insertion order. -/
theorem elst_insert_order {α : Type} :
    (∀ (fuel : Nat) (l : elst α) (us fs : List Nat) (x : Option α) (prio : Int),
      elst_wf l us fs → l.count < fuel → l.count < l.capacity →
      ∃ (r : Int × elst α) (us1 fs1 : List Nat) (a b : List (Int × Option α)),
        elst_nlock_insert fuel l x prio = some r ∧ elst_wf r.2 us1 fs1 ∧
        elst_items l us = a ++ b ∧ elst_items r.2 us1 = a ++ (prio, x) :: b ∧
        (∀ it ∈ a, it.1 ≥ prio) ∧ (∀ it, b.head? = some it → it.1 < prio) ∧
        ((elst_items l us).Pairwise (fun u v => u.1 ≥ v.1) →
          (∀ it ∈ b, it.1 < prio) ∧
          (elst_items r.2 us1).Pairwise (fun u v => u.1 ≥ v.1))) ∧
    (∀ (c : Nat) (raw : Nat → elst_item α) (xs : List (Int × Option α)),
      c < 2147483648 → xs.length ≤ c →
      ∃ (k : elst α) (ys : List (Int × Option α)),
        elst_insert_all (c + 1) (elst_create c raw) xs = some k ∧
        (elst_pop_n xs.length k).1 = ys.map (fun it => it.2) ∧
        ys.Pairwise (fun u v => u.1 ≥ v.1) ∧
        (∀ q : Int, ys.filter (fun it => decide (it.1 = q)) =
          xs.filter (fun it => decide (it.1 = q)))) := by
  constructor
  · intro fuel l us fs x prio h hfuel hc
    obtain ⟨r, us1, fs1, h1, _, h3, h4, _, _⟩ :=
      elst_nlock_insert_ok fuel l us fs x prio h hfuel hc
    refine ⟨r, us1, fs1, _, _, h1, h3, (List.takeWhile_append_dropWhile _ _).symm, h4,
      ?_, ?_, fun hs => ⟨dropWhile_prio_lt _ prio hs, ?_⟩⟩
    · intro it hit
      simpa using List.mem_takeWhile_imp hit
    · intro it hit
      have := dropWhile_head_not _ _ it hit
      simpa using this
    · rw [h4]
      exact spec_insert_sorted _ prio x hs
  · intro c raw xs hc hlen
    have hwf := elst_create_wf c raw hc
    obtain ⟨k, us1, fs1, e1, e2, e3, e4⟩ :=
      elst_insert_all_ok (c + 1) xs (elst_create c raw) [] [] hwf
        (by show 0 + xs.length ≤ c; omega) (by show c < c + 1; omega)
    have hcount : us1.length = xs.length := by
      rw [← e2.2.2.2.2.2.1, e4]
      show 0 + xs.length = xs.length
      omega
    obtain ⟨p1, _, _⟩ := elst_pop_n_all us1 k fs1 e2
    obtain ⟨s1, s2⟩ := spec_insert_foldl xs [] List.Pairwise.nil
    refine ⟨k, elst_items k us1, e1, ?_, ?_, ?_⟩
    · rw [← hcount]; exact p1
    · rw [e3]; exact s1
    · intro q
      rw [e3]
      have := s2 q
      simpa using this

/-- Witness of C14: three inserts with priorities 1, 2, 1 into a fresh list
of capacity 4. -/
theorem elst_insert_order_witness :
    ∃ (k : elst Nat) (ys : List (Int × Option Nat)),
      elst_insert_all (4 + 1) (elst_create 4 elst_raw0)
        [(1, some 10), (2, some 20), (1, some 30)] = some k ∧
      (elst_pop_n [((1 : Int), some 10), (2, some 20), (1, some 30)].length k).1 =
        ys.map (fun it => it.2) ∧
      ys.Pairwise (fun u v => u.1 ≥ v.1) ∧
      (∀ q : Int, ys.filter (fun it => decide (it.1 = q)) =
        [((1 : Int), some 10), (2, some 20), (1, some 30)].filter
          (fun it => decide (it.1 = q))) :=
  elst_insert_order.2 4 elst_raw0 [(1, some 10), (2, some 20), (1, some 30)]
    (by decide) (by decide)

/-! ### Clearing a list -/

theorem elst_nlock_clear_ok {α : Type} (us : List Nat) :
    ∀ (l : elst α) (fs : List Nat) (fuel : Nat), elst_wf l us fs →
      (∀ i ∈ us, (l.data i).ptr ≠ none) → us.length < fuel →
      ∃ r : List α × elst α, elst_nlock_clear fuel l = some r ∧
        r.1.map some = us.map (fun i => (l.data i).ptr) ∧
        r.2.count = 0 ∧ elst_wf r.2 [] (fs ++ us) := by
  induction us with
  | nil =>
    intro l fs fuel h _ hfuel
    obtain ⟨f, rfl⟩ : ∃ f, fuel = f + 1 := ⟨fuel - 1, by simp at hfuel; omega⟩
    refine ⟨([], l), ?_, rfl, h.2.2.2.2.2.1, by rw [List.append_nil]; exact h⟩
    simp only [elst_nlock_clear, elst_nlock_pop_nil l fs h]
  | cons i t ih =>
    intro l fs fuel h hnn hfuel
    obtain ⟨f, rfl⟩ : ∃ f, fuel = f + 1 :=
      ⟨fuel - 1, by simp only [List.length_cons] at hfuel; omega⟩
    obtain ⟨h1, h2, h3, _, _⟩ := elst_nlock_pop_cons l i t fs h
    obtain ⟨x, hx⟩ : ∃ x, (l.data i).ptr = some x :=
      Option.ne_none_iff_exists'.mp (hnn i (by simp))
    obtain ⟨r, e1, e2, e3, e4⟩ := ih (elst_nlock_pop l).2 (fs ++ [i]) f h2
      (fun j hj => by rw [(h3 j).2]; exact hnn j (List.mem_cons_of_mem _ hj))
      (by simp only [List.length_cons] at hfuel; omega)
    have hpop : elst_nlock_pop l = (some x, (elst_nlock_pop l).2) := by
      rw [← hx, ← h1]
    refine ⟨(x :: r.1, r.2), ?_, ?_, e3, ?_⟩
    · rw [elst_nlock_clear, hpop]
      simp only [e1]
    · rw [List.map_cons, List.map_cons, e2, hx]
      congr 1
      exact List.map_congr_left (fun j _ => (h3 j).2)
    · have : fs ++ i :: t = fs ++ [i] ++ t := by simp
      rw [this]
      exact e4

theorem elst_nlock_clear_null {α : Type} (pre : List Nat) :
    ∀ (l : elst α) (i : Nat) (post fs : List Nat) (fuel : Nat),
      elst_wf l (pre ++ i :: post) fs →
      (∀ j ∈ pre, (l.data j).ptr ≠ none) → (l.data i).ptr = none → pre.length < fuel →
      ∃ r : List α × elst α, elst_nlock_clear fuel l = some r ∧
        r.1.map some = pre.map (fun j => (l.data j).ptr) ∧
        r.2.count = post.length ∧ elst_wf r.2 post (fs ++ (pre ++ [i])) ∧
        elst_items r.2 post = elst_items l post := by
  induction pre with
  | nil =>
    intro l i post fs fuel h _ hi hfuel
    obtain ⟨f, rfl⟩ : ∃ f, fuel = f + 1 := ⟨fuel - 1, by simp at hfuel; omega⟩
    obtain ⟨h1, h2, h3, _, h5⟩ := elst_nlock_pop_cons l i post fs h
    have hpop : elst_nlock_pop l = (none, (elst_nlock_pop l).2) := by
      rw [← hi, ← h1]
    refine ⟨([], (elst_nlock_pop l).2), ?_, rfl, ?_, h2, ?_⟩
    · rw [elst_nlock_clear, hpop]
    · exact h2.2.2.2.2.2.1
    · unfold elst_items
      exact List.map_congr_left (fun j _ => by rw [(h3 j).1, (h3 j).2])
  | cons j t ih =>
    intro l i post fs fuel h hnn hi hfuel
    obtain ⟨f, rfl⟩ : ∃ f, fuel = f + 1 :=
      ⟨fuel - 1, by simp only [List.length_cons] at hfuel; omega⟩
    obtain ⟨h1, h2, h3, _, _⟩ := elst_nlock_pop_cons l j (t ++ i :: post) fs h
    obtain ⟨x, hx⟩ : ∃ x, (l.data j).ptr = some x :=
      Option.ne_none_iff_exists'.mp (hnn j (by simp))
    obtain ⟨r, e1, e2, e3, e4, e5⟩ := ih (elst_nlock_pop l).2 i post (fs ++ [j]) f h2
      (fun k hk => by rw [(h3 k).2]; exact hnn k (List.mem_cons_of_mem _ hk))
      (by rw [(h3 i).2]; exact hi)
      (by simp only [List.length_cons] at hfuel; omega)
    have hpop : elst_nlock_pop l = (some x, (elst_nlock_pop l).2) := by
      rw [← hx, ← h1]
    refine ⟨(x :: r.1, r.2), ?_, ?_, e3, ?_, ?_⟩
    · rw [elst_nlock_clear, hpop]
      simp only [e1]
    · rw [List.map_cons, List.map_cons, e2, hx]
      congr 1
      exact List.map_congr_left (fun k _ => (h3 k).2)
    · have : fs ++ (j :: t ++ [i]) = fs ++ [j] ++ (t ++ [i]) := by simp
      rw [this]
      exact e4
    · rw [e5]
      unfold elst_items
      exact List.map_congr_left (fun k _ => by rw [(h3 k).1, (h3 k).2])

/-- Counterexample to C15 as stated: a list holding a `NULL` payload and
then 7; clear pops the `NULL` element, takes it for the end of the list and
stops: the destructor is called on nothing, and the element 7 stays
(count == 1). -/
theorem elst_clear_counterexample :
    elst_wf (elst_nlock_append (elst_nlock_append (elst_create 4 elst_raw0) none).2
      (some 7)).2 [2, 3] [] ∧
    elst_items (elst_nlock_append (elst_nlock_append (elst_create 4 elst_raw0) none).2
      (some 7)).2 [2, 3] = [(0, none), (0, some 7)] ∧
    ∃ r : List Nat × elst Nat,
      elst_nlock_clear 9 (elst_nlock_append (elst_nlock_append (elst_create 4 elst_raw0)
        none).2 (some 7)).2 = some r ∧
      r.1 = [] ∧ r.2.count = 1 ∧ elst_wf r.2 [3] [2] ∧
      elst_items r.2 [3] = [(0, some 7)] :=
  ⟨by decide, by decide,
    ([], (elst_nlock_pop (elst_nlock_append (elst_nlock_append (elst_create 4 elst_raw0)
      none).2 (some 7)).2).2),
    rfl, rfl, by decide, by decide, by decide⟩

/-- C15, amended: `l` is a well-formed list with the nodes `us` from head to
tail and clear runs with a loop bound above the count. If every element has a
non-`NULL` payload, clear calls the destructor exactly once on each element,
in head-to-tail order, and leaves the list empty: count == 0, no used node,
every node in the free ring. If `i` is the first element whose payload is
`NULL` (`us` is `pre`, then `i`, then `post`), clear stops at `i`: the
destructor is called exactly on the payloads of `pre`, in order, and not on
`i` or on any element of `post`; `pre` and `i` are removed (they join the
free ring) and the elements of `post` stay in the list, in their order, with
their priorities and payloads (count == length of `post`). -/
theorem elst_clear_destructs_all {α : Type} (l : elst α) (us fs : List Nat) (fuel : Nat)
    (h : elst_wf l us fs) (hfuel : l.count < fuel) :
    ((∀ i ∈ us, (l.data i).ptr ≠ none) →
      ∃ r : List α × elst α, elst_nlock_clear fuel l = some r ∧
        r.1.map some = (elst_items l us).map (fun it => it.2) ∧
        r.2.count = 0 ∧ elst_wf r.2 [] (fs ++ us)) ∧
    (∀ (pre : List Nat) (i : Nat) (post : List Nat), us = pre ++ i :: post →
      (∀ j ∈ pre, (l.data j).ptr ≠ none) → (l.data i).ptr = none →
      ∃ r : List α × elst α, elst_nlock_clear fuel l = some r ∧
        r.1.map some = (elst_items l pre).map (fun it => it.2) ∧
        r.2.count = post.length ∧ elst_wf r.2 post (fs ++ (pre ++ [i])) ∧
        elst_items r.2 post = elst_items l post) := by
  have hlen : us.length < fuel := by rw [← h.2.2.2.2.2.1]; exact hfuel
  constructor
  · intro hnn
    obtain ⟨r, e1, e2, e3, e4⟩ := elst_nlock_clear_ok us l fs fuel h hnn hlen
    refine ⟨r, e1, ?_, e3, e4⟩
    rw [e2]
    unfold elst_items
    rw [List.map_map]
    rfl
  · intro pre i post hus hnn hi
    subst hus
    obtain ⟨r, e1, e2, e3, e4, e5⟩ := elst_nlock_clear_null pre l i post fs fuel h hnn hi
      (by simp only [List.length_append, List.length_cons] at hlen; omega)
    refine ⟨r, e1, ?_, e3, e4, e5⟩
    rw [e2]
    unfold elst_items
    rw [List.map_map]
    rfl

/-- Witness of C15: a list holding 5 and then 7 is cleared with the
destructor called on 5, then on 7; on a list holding 5, `NULL`, 7 the
destructor is called on 5 only and 7 stays in the list. -/
theorem elst_clear_destructs_all_witness :
    (∃ r : List Nat × elst Nat,
      elst_nlock_clear 3 (elst_nlock_append (elst_nlock_append (elst_create 4 elst_raw0)
        (some 5)).2 (some 7)).2 = some r ∧
      r.1.map some =
        (elst_items (elst_nlock_append (elst_nlock_append (elst_create 4 elst_raw0)
          (some 5)).2 (some 7)).2 [2, 3]).map (fun it => it.2) ∧
      r.2.count = 0 ∧ elst_wf r.2 [] ([] ++ [2, 3])) ∧
    (∃ r : List Nat × elst Nat,
      elst_nlock_clear 4 (elst_nlock_append (elst_nlock_append (elst_nlock_append
        (elst_create 4 elst_raw0) (some 5)).2 none).2 (some 7)).2 = some r ∧
      r.1.map some =
        (elst_items (elst_nlock_append (elst_nlock_append (elst_nlock_append
          (elst_create 4 elst_raw0) (some 5)).2 none).2 (some 7)).2 [2]).map
            (fun it => it.2) ∧
      r.2.count = [4].length ∧ elst_wf r.2 [4] ([] ++ ([2] ++ [3])) ∧
      elst_items r.2 [4] =
        elst_items (elst_nlock_append (elst_nlock_append (elst_nlock_append
          (elst_create 4 elst_raw0) (some 5)).2 none).2 (some 7)).2 [4]) :=
  ⟨(elst_clear_destructs_all
      (elst_nlock_append (elst_nlock_append (elst_create 4 elst_raw0) (some 5)).2
        (some 7)).2
      [2, 3] [] 3 (by decide) (by decide)).1 (by decide),
   (elst_clear_destructs_all
      (elst_nlock_append (elst_nlock_append (elst_nlock_append
        (elst_create 4 elst_raw0) (some 5)).2 none).2 (some 7)).2
      [2, 3, 4] [] 4 (by decide) (by decide)).2 [2] 3 [4] rfl (by decide) (by decide)⟩

/-! ### The structural invariant -/

theorem elst_wf_covers {α : Type} (l : elst α) (us fs : List Nat) (h : elst_wf l us fs) :
    ∀ i, 2 ≤ i → i < l.hwm → i ∈ us ++ fs := by
  obtain ⟨_, _, hnd, hrng, hlen, _, _, _, _⟩ := h
  have hsub : (us ++ fs).toFinset ⊆ Finset.Ico 2 l.hwm := by
    intro i hi
    rw [List.mem_toFinset] at hi
    rw [Finset.mem_Ico]
    exact hrng i hi
  have hcard : (Finset.Ico 2 l.hwm).card ≤ (us ++ fs).toFinset.card := by
    rw [List.toFinset_card_of_nodup hnd, Nat.card_Ico, List.length_append]
    omega
  have heq := Finset.eq_of_subset_of_card_le hsub hcard
  intro i h2 hi
  have : i ∈ Finset.Ico 2 l.hwm := Finset.mem_Ico.mpr ⟨h2, hi⟩
  rw [← heq, List.mem_toFinset] at this
  exact this

theorem elst_apply_wf {α : Type} (fuel : Nat) (l : elst α) (us fs : List Nat)
    (op : elst_op α) (h : elst_wf l us fs) (hfuel : l.capacity < fuel) :
    ∃ (k : elst α) (us1 fs1 : List Nat),
      elst_apply fuel l op = some k ∧ elst_wf k us1 fs1 ∧ k.capacity = l.capacity := by
  have hle := elst_wf_count_le l us fs h
  cases op with
  | append x =>
    by_cases hc : l.count < l.capacity
    · obtain ⟨i, fs1, _, h2, _, h4, _⟩ := elst_nlock_append_ok l us fs x h hc
      exact ⟨_, _, fs1, rfl, h2, h4⟩
    · refine ⟨l, us, fs, ?_, h, rfl⟩
      show some (elst_put l x 0 _ _).2 = some l
      rw [elst_put_full l x 0 _ _ (by omega)]
  | prepend x =>
    by_cases hc : l.count < l.capacity
    · obtain ⟨i, fs1, _, h2, _, h4, _⟩ := elst_nlock_prepend_ok l us fs x h hc
      exact ⟨_, _, fs1, rfl, h2, h4⟩
    · refine ⟨l, us, fs, ?_, h, rfl⟩
      show some (elst_put l x 0 _ _).2 = some l
      rw [elst_put_full l x 0 _ _ (by omega)]
  | insert x prio =>
    by_cases hc : l.count < l.capacity
    · obtain ⟨r, us1, fs1, h1, _, h3, _, h5, _⟩ :=
        elst_nlock_insert_ok fuel l us fs x prio h (by omega) hc
      refine ⟨r.2, us1, fs1, ?_, h3, h5⟩
      simp only [elst_apply, h1]
    · refine ⟨l, us, fs, ?_, h, rfl⟩
      simp only [elst_apply,
        elst_nlock_insert_full fuel l us fs x prio h (by omega) (by omega)]
  | pop =>
    cases us with
    | nil =>
      refine ⟨l, [], fs, ?_, h, rfl⟩
      show some (elst_nlock_pop l).2 = some l
      rw [elst_nlock_pop_nil l fs h]
    | cons i t =>
      obtain ⟨_, h2, _, h4, _⟩ := elst_nlock_pop_cons l i t fs h
      exact ⟨_, t, fs ++ [i], rfl, h2, h4⟩

theorem elst_run_wf {α : Type} (fuel : Nat) (ops : List (elst_op α)) :
    ∀ (l : elst α) (us fs : List Nat), elst_wf l us fs → l.capacity < fuel →
      ∃ (k : elst α) (us1 fs1 : List Nat),
        elst_run fuel l ops = some k ∧ elst_wf k us1 fs1 ∧ k.capacity = l.capacity := by
  induction ops with
  | nil => intro l us fs h _; exact ⟨l, us, fs, rfl, h, rfl⟩
  | cons op ops ih =>
    intro l us fs h hfuel
    obtain ⟨k, us1, fs1, e1, e2, e3⟩ := elst_apply_wf fuel l us fs op h hfuel
    obtain ⟨m, us2, fs2, f1, f2, f3⟩ := ih k us1 fs1 e2 (by rw [e3]; exact hfuel)
    refine ⟨m, us2, fs2, ?_, f2, by rw [f3, e3]⟩
    simp only [elst_run, e1]
    exact f1

/-- C35: every sequence of append, prepend, insert and pop applied to a
freshly created list of capacity `c` (an `int`) ends (the loop of insert
within `c + 1` tests) in a list that satisfies the structural invariant
`elst_wf`: the used ring `us` and the free ring `fs` are doubly linked cycles
through the sentinels 0 and 1, they are disjoint and without repetition, and
together with the sentinels they are exactly the indices 0 .. hwm-1; count is
the length of the used ring; count <= c and hwm <= c + 2, and every node of
the rings is an index below c + 2. -/
theorem elst_invariant {α : Type} (c : Nat) (raw : Nat → elst_item α)
    (ops : List (elst_op α)) (hc : c < 2147483648) :
    ∃ (k : elst α) (us fs : List Nat),
      elst_run (c + 1) (elst_create c raw) ops = some k ∧
      elst_wf k us fs ∧
      (∀ i, i < k.hwm ↔ i = ELST_USED ∨ i = ELST_FREE ∨ i ∈ us ++ fs) ∧
      k.count = us.length ∧ k.count ≤ c ∧ k.hwm ≤ c + 2 ∧
      (∀ i, i ∈ us ++ fs → i < c + 2) := by
  obtain ⟨k, us, fs, e1, e2, e3⟩ :=
    elst_run_wf (c + 1) ops (elst_create c raw) [] [] (elst_create_wf c raw hc)
      (by show c < c + 1; omega)
  have hcap : k.capacity = c := e3
  have hle := elst_wf_count_le k us fs e2
  have hcov := elst_wf_covers k us fs e2
  have e9 := e2
  obtain ⟨_, _, _, hrng, hlen, hcnt, hhwm, _, _⟩ := e9
  refine ⟨k, us, fs, e1, e2, ?_, hcnt, by omega, by omega, ?_⟩
  · intro i
    constructor
    · intro hi
      by_cases h0 : i = ELST_USED
      · exact Or.inl h0
      · by_cases h1 : i = ELST_FREE
        · exact Or.inr (Or.inl h1)
        · refine Or.inr (Or.inr (hcov i ?_ hi))
          unfold ELST_USED at h0
          unfold ELST_FREE at h1
          omega
    · intro hi
      rcases hi with rfl | rfl | hi
      · unfold ELST_USED; omega
      · unfold ELST_FREE; omega
      · exact (hrng i hi).2
  · intro i hi
    have := (hrng i hi).2
    omega

/-- Witness of C35: append, insert, pop, prepend on a fresh list of
capacity 2. -/
theorem elst_invariant_witness :
    ∃ (k : elst Nat) (us fs : List Nat),
      elst_run (2 + 1) (elst_create 2 elst_raw0)
        [elst_op.append (some 1), elst_op.insert (some 2) 5, elst_op.pop,
          elst_op.prepend (some 3)] = some k ∧
      elst_wf k us fs ∧
      (∀ i, i < k.hwm ↔ i = ELST_USED ∨ i = ELST_FREE ∨ i ∈ us ++ fs) ∧
      k.count = us.length ∧ k.count ≤ 2 ∧ k.hwm ≤ 2 + 2 ∧
      (∀ i, i ∈ us ++ fs → i < 2 + 2) :=
  elst_invariant 2 elst_raw0
    [elst_op.append (some 1), elst_op.insert (some 2) 5, elst_op.pop,
      elst_op.prepend (some 3)] (by decide)

/-! ### FIFO use -/

theorem elst_append_all_ok {α : Type} (xs : List α) :
    ∀ (l : elst α) (us fs : List Nat), elst_wf l us fs →
      l.count + xs.length ≤ l.capacity →
      ∃ (us1 fs1 : List Nat), elst_wf (elst_append_all l xs) us1 fs1 ∧
        elst_items (elst_append_all l xs) us1 =
          elst_items l us ++ xs.map (fun x => (0, some x)) ∧
        (elst_append_all l xs).count = l.count + xs.length := by
  induction xs with
  | nil =>
    intro l us fs h _
    exact ⟨us, fs, h, by simp [elst_append_all], rfl⟩
  | cons x t ih =>
    intro l us fs h hc
    simp only [List.length_cons] at hc
    obtain ⟨i, fs1, _, h2, h3, h4, h5⟩ := elst_nlock_append_ok l us fs (some x) h (by omega)
    obtain ⟨us2, fs2, e1, e2, e3⟩ :=
      ih (elst_nlock_append l (some x)).2 _ fs1 h2 (by rw [h4, h5]; omega)
    refine ⟨us2, fs2, e1, ?_, ?_⟩
    · show elst_items (elst_append_all (elst_nlock_append l (some x)).2 t) us2 = _
      rw [e2, h3]
      simp
    · show (elst_append_all (elst_nlock_append l (some x)).2 t).count = _
      rw [e3, h5]
      simp only [List.length_cons]
      omega

/-- C36: for every sequence `xs` of non-null pointers, no longer than the
capacity, appended to an empty (well-formed) list, the next `xs.length` pops
return them in append order and empty the list; every further pop returns
`NULL` and leaves the list as it is. -/
theorem elst_fifo {α : Type} (l : elst α) (fs : List Nat) (xs : List α)
    (h : elst_wf l [] fs) (hn : xs.length ≤ l.capacity) :
    (elst_pop_n xs.length (elst_append_all l xs)).1 = xs.map some ∧
    (elst_pop_n xs.length (elst_append_all l xs)).2.count = 0 ∧
    ∀ m : Nat,
      elst_pop_n m (elst_pop_n xs.length (elst_append_all l xs)).2 =
        (List.replicate m none, (elst_pop_n xs.length (elst_append_all l xs)).2) := by
  have hcnt : l.count = 0 := h.2.2.2.2.2.1
  obtain ⟨us1, fs1, e1, e2, e3⟩ := elst_append_all_ok xs l [] fs h (by omega)
  have hlen : us1.length = xs.length := by
    rw [← e1.2.2.2.2.2.1, e3, hcnt]; omega
  obtain ⟨p1, p2, p3⟩ := elst_pop_n_all us1 (elst_append_all l xs) fs1 e1
  rw [hlen] at p1 p2 p3
  refine ⟨?_, p2, ?_⟩
  · rw [p1, e2]
    simp [elst_items, Function.comp_def]
  · intro m
    induction m with
    | zero => rfl
    | succ m ih =>
      have hp := elst_nlock_pop_nil _ _ p3
      show ((elst_nlock_pop _).1 :: (elst_pop_n m (elst_nlock_pop _).2).1,
        (elst_pop_n m (elst_nlock_pop _).2).2) = _
      rw [hp]
      show (none :: (elst_pop_n m _).1, (elst_pop_n m _).2) = _
      rw [ih]
      rfl

/-- Witness of C36: 5 and 7 appended to a fresh list of capacity 2 are
popped as 5, 7, and two more pops return `NULL`. -/
theorem elst_fifo_witness :
    (elst_pop_n [5, 7].length (elst_append_all (elst_create 2 elst_raw0) [5, 7])).1 =
      [5, 7].map some ∧
    (elst_pop_n [5, 7].length (elst_append_all (elst_create 2 elst_raw0) [5, 7])).2.count = 0 ∧
    ∀ m : Nat,
      elst_pop_n m (elst_pop_n [5, 7].length
          (elst_append_all (elst_create 2 elst_raw0) [5, 7])).2 =
        (List.replicate m none,
          (elst_pop_n [5, 7].length (elst_append_all (elst_create 2 elst_raw0) [5, 7])).2) :=
  elst_fifo (elst_create 2 elst_raw0) [] [5, 7] (by decide) (by decide)

/-! ### Faults in the context switch -/

theorem cpu_mem_write_1_block0_fail (E : Env) (a d : Nat) (s : Cpu)
    (h : mem_ptr s.mem 0 (a % 65536) = none) :
    cpu_mem_write_1 E false a d s = (false, cpu_mem_fail E false s) := by
  apply cpu_mem_write_1_fail
  simp [mem_write_1, barnb_nb_false, h]

theorem cpu_mem_read_1_block0_fail (E : Env) (a : Nat) (s : Cpu)
    (h : mem_ptr s.mem 0 (a % 65536) = none) :
    cpu_mem_read_1 E false a s = (none, cpu_mem_fail E false s) := by
  apply cpu_mem_read_1_fail
  simp [mem_read_1, barnb_nb_false, h]

theorem cpu_mem_fail_kept (E : Env) (b : Bool) (s : Cpu) :
    (cpu_mem_fail E b s).ic = s.ic ∧ (cpu_mem_fail E b s).r = s.r ∧
    (cpu_mem_fail E b s).q = s.q ∧ (cpu_mem_fail E b s).rm = s.rm ∧
    (cpu_mem_fail E b s).bs = s.bs ∧ (cpu_mem_fail E b s).nb = s.nb ∧
    (cpu_mem_fail E b s).xmask = s.xmask ∧ (cpu_mem_fail E b s).mem = s.mem ∧
    (cpu_mem_fail E b s).p = s.p ∧ (cpu_mem_fail E b s).mc = s.mc ∧
    (cpu_mem_fail E b s).ar = s.ar := by
  cases b
  · rw [cpu_mem_fail_false]
    exact ⟨rfl, rfl, rfl, rfl, rfl, rfl, rfl, rfl, rfl, rfl, rfl⟩
  · rw [cpu_mem_fail_true]
    exact ⟨rfl, rfl, rfl, rfl, rfl, rfl, rfl, rfl, rfl, rfl, rfl⟩

/-- When an access of `cpu_ctx_switch` faults, the function returns from
`cpu_mem_fail`, called in a state that differs from the initial one in AR and
the memory only. -/
theorem cpu_ctx_switch_fault_state (E : Env) (arg new_ic int_mask : Nat) (s : Cpu)
    (h : mem_ptr s.mem 0 (E.STACK_POINTER % 65536) = none ∨
      ∃ c, mem_ptr s.mem 0 (E.STACK_POINTER % 65536) = some c ∧
        ∃ i, i < 4 ∧ mem_ptr s.mem 0 ((mem_get s.mem c + i) % 65536) = none) :
    ∃ t, cpu_ctx_switch E arg new_ic int_mask s = cpu_mem_fail E false t ∧
      t.ic = s.ic ∧ t.r = s.r ∧ t.q = s.q ∧ t.rm = s.rm ∧ t.bs = s.bs ∧ t.nb = s.nb ∧
      t.xmask = s.xmask := by
  rcases h with h | ⟨c, hc, i, hi, hn⟩
  · refine ⟨s, ?_, rfl, rfl, rfl, rfl, rfl, rfl, rfl⟩
    unfold cpu_ctx_switch
    rw [cpu_mem_read_1_block0_fail E _ s h]
  · unfold cpu_ctx_switch
    rw [cpu_mem_read_1_block0 E _ s c hc]
    simp only []
    have a1 : ((mem_get s.mem c + 1) % 65536) % 65536 = (mem_get s.mem c + 1) % 65536 := by
      omega
    have a2 : (((mem_get s.mem c + 1) % 65536 + 1) % 65536) % 65536 =
        (mem_get s.mem c + 2) % 65536 := by omega
    have a3 : ((((mem_get s.mem c + 1) % 65536 + 1) % 65536 + 1) % 65536) % 65536 =
        (mem_get s.mem c + 3) % 65536 := by omega
    cases h0 : mem_ptr s.mem 0 (mem_get s.mem c % 65536) with
    | none =>
      rw [cpu_mem_write_1_block0_fail E _ _ _]
      · exact ⟨_, rfl, rfl, rfl, rfl, rfl, rfl, rfl, rfl⟩
      · exact h0
    | some c0 =>
      rw [cpu_mem_write_1_block0 E _ _ _ c0]
      · simp only []
        cases h1 : mem_ptr s.mem 0 ((mem_get s.mem c + 1) % 65536) with
        | none =>
          rw [cpu_mem_write_1_block0_fail E _ _ _]
          · exact ⟨_, rfl, rfl, rfl, rfl, rfl, rfl, rfl, rfl⟩
          · exact (congrArg (mem_ptr s.mem 0) a1).trans h1
        | some c1 =>
          rw [cpu_mem_write_1_block0 E _ _ _ c1]
          · simp only []
            cases h2 : mem_ptr s.mem 0 ((mem_get s.mem c + 2) % 65536) with
            | none =>
              rw [cpu_mem_write_1_block0_fail E _ _ _]
              · exact ⟨_, rfl, rfl, rfl, rfl, rfl, rfl, rfl, rfl⟩
              · exact (congrArg (mem_ptr s.mem 0) a2).trans h2
            | some c2 =>
              rw [cpu_mem_write_1_block0 E _ _ _ c2]
              · simp only []
                cases h3 : mem_ptr s.mem 0 ((mem_get s.mem c + 3) % 65536) with
                | none =>
                  rw [cpu_mem_write_1_block0_fail E _ _ _]
                  · exact ⟨_, rfl, rfl, rfl, rfl, rfl, rfl, rfl, rfl⟩
                  · exact (congrArg (mem_ptr s.mem 0) a3).trans h3
                | some c3 =>
                  exfalso
                  have hi4 : i = 0 ∨ i = 1 ∨ i = 2 ∨ i = 3 := by omega
                  rcases hi4 with rfl | rfl | rfl | rfl
                  · rw [Nat.add_zero, h0] at hn; exact absurd hn (by simp)
                  · rw [h1] at hn; exact absurd hn (by simp)
                  · rw [h2] at hn; exact absurd hn (by simp)
                  · rw [h3] at hn; exact absurd hn (by simp)
              · exact (congrArg (mem_ptr s.mem 0) a2).trans h2
          · exact (congrArg (mem_ptr s.mem 0) a1).trans h1
      · exact h0

/-- C39: if an access of `cpu_ctx_switch` faults, that is, if the
stack-pointer word [0:STACK_POINTER] or one of the four frame words
[0:sp .. sp+3] is not mapped (the write of the stack pointer goes to the word
that was read), then IC, R0 (all registers), Q and RM are exactly as before
the call; when none faults, the frame and the advanced stack pointer are in
memory and only then is IC the new IC. -/
theorem cpu_ctx_switch_fault_keeps (E : Env) (arg new_ic int_mask : Nat) (s : Cpu) :
    ((mem_ptr s.mem 0 (E.STACK_POINTER % 65536) = none ∨
      ∃ c, mem_ptr s.mem 0 (E.STACK_POINTER % 65536) = some c ∧
        ∃ i, i < 4 ∧ mem_ptr s.mem 0 ((mem_get s.mem c + i) % 65536) = none) →
      (cpu_ctx_switch E arg new_ic int_mask s).ic = s.ic ∧
      (cpu_ctx_switch E arg new_ic int_mask s).r = s.r ∧
      (cpu_ctx_switch E arg new_ic int_mask s).q = s.q ∧
      (cpu_ctx_switch E arg new_ic int_mask s).rm = s.rm) ∧
    (∀ csp c0 c1 c2 c3,
      mem_ptr s.mem 0 (E.STACK_POINTER % 65536) = some csp →
      mem_ptr s.mem 0 (mem_get s.mem csp % 65536) = some c0 →
      mem_ptr s.mem 0 ((mem_get s.mem csp + 1) % 65536) = some c1 →
      mem_ptr s.mem 0 ((mem_get s.mem csp + 2) % 65536) = some c2 →
      mem_ptr s.mem 0 ((mem_get s.mem csp + 3) % 65536) = some c3 →
      (cpu_ctx_switch E arg new_ic int_mask s).ic = new_ic % 65536 ∧
      (cpu_ctx_switch E arg new_ic int_mask s).mem =
        mem_set (mem_set (mem_set (mem_set (mem_set s.mem c0 s.ic) c1 (s.r 0)) c2
          (SR_READ s)) c3 (arg % 65536)) csp ((mem_get s.mem csp + 4) % 65536)) := by
  constructor
  · intro h
    obtain ⟨t, e, h1, h2, h3, h4, _, _, _⟩ :=
      cpu_ctx_switch_fault_state E arg new_ic int_mask s h
    obtain ⟨k1, k2, k3, k4, _⟩ := cpu_mem_fail_kept E false t
    rw [e]
    exact ⟨k1.trans h1, k2.trans h2, k3.trans h3, k4.trans h4⟩
  · intro csp c0 c1 c2 c3 hsp h0 h1 h2 h3
    rw [cpu_ctx_switch_ok E arg new_ic int_mask s csp c0 c1 c2 c3 _ hsp rfl h0 h1 h2 h3]
    exact ⟨rfl, rfl⟩

/-- Witness of C39: on `cpu_stack` with the stack pointer moved to the end of
the mapped page (4095), the second frame word is unmapped: IC = 5, R0 = 7, Q
and RM = 3 stay. -/
theorem cpu_ctx_switch_fault_keeps_witness :
    (cpu_ctx_switch mera400 9 0x100 0xffff
      { cpu_stack with mem := mem_of (List.replicate 97 0 ++ [4095]) }).ic = 5 ∧
    (cpu_ctx_switch mera400 9 0x100 0xffff
      { cpu_stack with mem := mem_of (List.replicate 97 0 ++ [4095]) }).r =
        cpu_stack.r ∧
    (cpu_ctx_switch mera400 9 0x100 0xffff
      { cpu_stack with mem := mem_of (List.replicate 97 0 ++ [4095]) }).q = true ∧
    (cpu_ctx_switch mera400 9 0x100 0xffff
      { cpu_stack with mem := mem_of (List.replicate 97 0 ++ [4095]) }).rm = 3 :=
  (cpu_ctx_switch_fault_keeps mera400 9 0x100 0xffff
    { cpu_stack with mem := mem_of (List.replicate 97 0 ++ [4095]) }).1
    (Or.inr ⟨(0, 0, 97), by decide, 1, by decide, by decide⟩)

/-! ### Switch, rewind, restore -/

/-- C40: for every CPU state in which the stack-pointer word
[0:STACK_POINTER] (holding `sp`) and the 4-word frame [0:sp .. sp+3] are
mapped in block 0 and no frame word shares its storage cell with the
stack-pointer word, `cpu_ctx_switch(a, new_ic, mask)` followed by
`cpu_sp_rewind()` and `cpu_ctx_restore(false)` restores IC, R0 and SR (RM, Q,
BS, NB) to their values before the switch, and the stack-pointer word is `sp`
again. IC, R0 and memory words are `uint16_t` values, RM has 10 bits and NB
4 bits. -/
theorem cpu_ctx_roundtrip (E : Env) (arg new_ic int_mask : Nat) (s : Cpu) (sp : Nat)
    (hsp : mem_read_1 s.mem 0 (E.STACK_POINTER % 65536) = some sp)
    (hsp16 : sp < 65536)
    (hmap : ∀ i, i < 4 → mem_ptr s.mem 0 ((sp + i) % 65536) ≠ none)
    (hcell : ∀ i, i < 4 →
      mem_ptr s.mem 0 ((sp + i) % 65536) ≠ mem_ptr s.mem 0 (E.STACK_POINTER % 65536))
    (hic : s.ic < 65536) (hr0 : s.r 0 < 65536) (hrm : s.rm < 1024) (hnb : s.nb < 16) :
    (cpu_ctx_restore E false
      (cpu_sp_rewind E (cpu_ctx_switch E arg new_ic int_mask s))).ic = s.ic ∧
    (cpu_ctx_restore E false
      (cpu_sp_rewind E (cpu_ctx_switch E arg new_ic int_mask s))).r 0 = s.r 0 ∧
    SR_READ (cpu_ctx_restore E false
      (cpu_sp_rewind E (cpu_ctx_switch E arg new_ic int_mask s))) = SR_READ s ∧
    (cpu_ctx_restore E false
      (cpu_sp_rewind E (cpu_ctx_switch E arg new_ic int_mask s))).rm = s.rm ∧
    (cpu_ctx_restore E false
      (cpu_sp_rewind E (cpu_ctx_switch E arg new_ic int_mask s))).q = s.q ∧
    (cpu_ctx_restore E false
      (cpu_sp_rewind E (cpu_ctx_switch E arg new_ic int_mask s))).bs = s.bs ∧
    (cpu_ctx_restore E false
      (cpu_sp_rewind E (cpu_ctx_switch E arg new_ic int_mask s))).nb = s.nb ∧
    mem_read_1 (cpu_ctx_restore E false
      (cpu_sp_rewind E (cpu_ctx_switch E arg new_ic int_mask s))).mem 0
        (E.STACK_POINTER % 65536) = some sp := by
  obtain ⟨csp, hcsp, hv⟩ := mem_ptr_of_read _ _ _ _ hsp
  obtain ⟨c0, h0⟩ := mem_ptr_of_ne_none _ _ _ (hmap 0 (by omega))
  obtain ⟨c1, h1⟩ := mem_ptr_of_ne_none _ _ _ (hmap 1 (by omega))
  obtain ⟨c2, h2⟩ := mem_ptr_of_ne_none _ _ _ (hmap 2 (by omega))
  obtain ⟨c3, h3⟩ := mem_ptr_of_ne_none _ _ _ (hmap 3 (by omega))
  have l0 := mem_ptr_low _ _ _ _ h0
  have l1 := mem_ptr_low _ _ _ _ h1
  have l2 := mem_ptr_low _ _ _ _ h2
  have l3 := mem_ptr_low _ _ _ _ h3
  have n01 : c0 ≠ c1 := fun e => by rw [e] at l0; omega
  have n02 : c0 ≠ c2 := fun e => by rw [e] at l0; omega
  have n03 : c0 ≠ c3 := fun e => by rw [e] at l0; omega
  have n12 : c1 ≠ c2 := fun e => by rw [e] at l1; omega
  have n13 : c1 ≠ c3 := fun e => by rw [e] at l1; omega
  have n23 : c2 ≠ c3 := fun e => by rw [e] at l2; omega
  have k0 : c0 ≠ csp := fun e => hcell 0 (by omega) (by rw [h0, hcsp, e])
  have k1 : c1 ≠ csp := fun e => hcell 1 (by omega) (by rw [h1, hcsp, e])
  have k2 : c2 ≠ csp := fun e => hcell 2 (by omega) (by rw [h2, hcsp, e])
  have hsr : SR_READ s < 65536 := Nat.mod_lt _ (by decide)
  rw [cpu_ctx_switch_ok E arg new_ic int_mask s csp c0 c1 c2 c3 sp hcsp hv
    (by simpa using h0) h1 h2 h3]
  rw [cpu_sp_rewind_ok E _ csp]
  · simp only [mem_get_mem_set_same, Nat.mod_mod]
    have har : ((sp + 4) % 65536 + 65536 - 4) % 65536 = sp % 65536 := by omega
    rw [har]
    rw [cpu_ctx_restore_ok E false _ c0 c1 c2]
    · simp only [mem_get_mem_set_other _ _ _ _ k0, mem_get_mem_set_other _ _ _ _ k1,
        mem_get_mem_set_other _ _ _ _ k2, mem_get_mem_set_other _ _ _ _ n03,
        mem_get_mem_set_other _ _ _ _ n13, mem_get_mem_set_other _ _ _ _ n23,
        mem_get_mem_set_other _ _ _ _ n02, mem_get_mem_set_other _ _ _ _ n12,
        mem_get_mem_set_other _ _ _ _ n01, mem_get_mem_set_same,
        Nat.mod_eq_of_lt hic, Nat.mod_eq_of_lt hr0, Nat.mod_eq_of_lt hsr]
      obtain ⟨u1, u2, u3, u4⟩ := SR_WRITE_SR_READ s s hrm hnb
      refine ⟨rfl, rfl, ?_, u1, u2, u3, u4, ?_⟩
      · show SR_READ (SR_WRITE (SR_READ s) s) = SR_READ s
        unfold SR_READ at u1 u2 u3 u4 ⊢
        rw [u1, u2, u3, u4]
      · show mem_read_1 (mem_set _ csp (sp % 65536)) 0 (E.STACK_POINTER % 65536) = some sp
        rw [mem_read_1_of_ptr _ _ _ csp (by rw [mem_ptr_mem_set]; exact hcsp),
          mem_get_mem_set_same, Nat.mod_mod, Nat.mod_eq_of_lt hsp16]
    · simp only [barnb_nb_false]
      exact (congrArg (mem_ptr s.mem 0) (by omega)).trans h0
    · simp only [barnb_nb_false]
      exact (congrArg (mem_ptr s.mem 0) (by omega)).trans h1
    · simp only [barnb_nb_false]
      exact (congrArg (mem_ptr s.mem 0) (by omega)).trans h2
  · exact hcsp

/-- Witness of C40: on `cpu_stack`, switch, rewind and restore give back
IC = 5, R0 = 7, NB = 1, and the stack-pointer word is 200 again. -/
theorem cpu_ctx_roundtrip_witness :
    (cpu_ctx_restore mera400 false
      (cpu_sp_rewind mera400 (cpu_ctx_switch mera400 9 0x100 0xffff cpu_stack))).ic = 5 ∧
    (cpu_ctx_restore mera400 false
      (cpu_sp_rewind mera400 (cpu_ctx_switch mera400 9 0x100 0xffff cpu_stack))).r 0 = 7 ∧
    (cpu_ctx_restore mera400 false
      (cpu_sp_rewind mera400 (cpu_ctx_switch mera400 9 0x100 0xffff cpu_stack))).nb = 1 ∧
    mem_read_1 (cpu_ctx_restore mera400 false
      (cpu_sp_rewind mera400 (cpu_ctx_switch mera400 9 0x100 0xffff cpu_stack))).mem 0
        (mera400.STACK_POINTER % 65536) = some 200 :=
  have h := cpu_ctx_roundtrip mera400 9 0x100 0xffff cpu_stack 200
    (by decide) (by decide) (by decide) (by decide) (by decide) (by decide) (by decide)
    (by decide)
  ⟨h.1, h.2.1, h.2.2.2.2.2.2.1, h.2.2.2.2.2.2.2⟩

/-! ### Faults in the context restore -/

theorem cpu_mem_read_1_ptr_fail (E : Env) (b : Bool) (a : Nat) (s : Cpu)
    (h : mem_ptr s.mem (barnb_nb b s) (a % 65536) = none) :
    cpu_mem_read_1 E b a s = (none, cpu_mem_fail E b s) := by
  apply cpu_mem_read_1_fail
  simp [mem_read_1, h]

/-- C34: `cpu_ctx_restore(barnb)` is not atomic. With `blk = barnb * nb`: if
the read of word 0 (at AR) faults, IC, R0, SR and the interrupt mask are
unchanged; if word 0 is read and word 1 (at AR+1) faults, IC is word 0 and R0,
SR and the mask are unchanged; if words 0 and 1 are read and word 2 (at AR+2)
faults, IC is word 0, R0 is word 1 and SR and the mask are unchanged; when all
three are read, IC, R0 and SR (RM, Q, BS, NB, decoded by `SR_WRITE`) are the
three words, the mask is updated from the new RM and AR has advanced by 3.
In every case R1..R7 keep their values. -/
theorem cpu_ctx_restore_not_atomic (E : Env) (b : Bool) (s : Cpu) :
    (mem_ptr s.mem (barnb_nb b s) (s.ar % 65536) = none →
      (cpu_ctx_restore E b s).ic = s.ic ∧ (cpu_ctx_restore E b s).r = s.r ∧
      (cpu_ctx_restore E b s).rm = s.rm ∧ (cpu_ctx_restore E b s).q = s.q ∧
      (cpu_ctx_restore E b s).bs = s.bs ∧ (cpu_ctx_restore E b s).nb = s.nb ∧
      (cpu_ctx_restore E b s).xmask = s.xmask) ∧
    (∀ c0, mem_ptr s.mem (barnb_nb b s) (s.ar % 65536) = some c0 →
      mem_ptr s.mem (barnb_nb b s) ((s.ar + 1) % 65536) = none →
      (cpu_ctx_restore E b s).ic = mem_get s.mem c0 ∧ (cpu_ctx_restore E b s).r = s.r ∧
      (cpu_ctx_restore E b s).rm = s.rm ∧ (cpu_ctx_restore E b s).q = s.q ∧
      (cpu_ctx_restore E b s).bs = s.bs ∧ (cpu_ctx_restore E b s).nb = s.nb ∧
      (cpu_ctx_restore E b s).xmask = s.xmask) ∧
    (∀ c0 c1, mem_ptr s.mem (barnb_nb b s) (s.ar % 65536) = some c0 →
      mem_ptr s.mem (barnb_nb b s) ((s.ar + 1) % 65536) = some c1 →
      mem_ptr s.mem (barnb_nb b s) ((s.ar + 2) % 65536) = none →
      (cpu_ctx_restore E b s).ic = mem_get s.mem c0 ∧
      (cpu_ctx_restore E b s).r = (fun n => if n = 0 then mem_get s.mem c1 else s.r n) ∧
      (cpu_ctx_restore E b s).rm = s.rm ∧ (cpu_ctx_restore E b s).q = s.q ∧
      (cpu_ctx_restore E b s).bs = s.bs ∧ (cpu_ctx_restore E b s).nb = s.nb ∧
      (cpu_ctx_restore E b s).xmask = s.xmask) ∧
    (∀ c0 c1 c2, mem_ptr s.mem (barnb_nb b s) (s.ar % 65536) = some c0 →
      mem_ptr s.mem (barnb_nb b s) ((s.ar + 1) % 65536) = some c1 →
      mem_ptr s.mem (barnb_nb b s) ((s.ar + 2) % 65536) = some c2 →
      (cpu_ctx_restore E b s).ic = mem_get s.mem c0 ∧
      (cpu_ctx_restore E b s).r = (fun n => if n = 0 then mem_get s.mem c1 else s.r n) ∧
      (cpu_ctx_restore E b s).rm = (SR_WRITE (mem_get s.mem c2) s).rm ∧
      (cpu_ctx_restore E b s).q = (SR_WRITE (mem_get s.mem c2) s).q ∧
      (cpu_ctx_restore E b s).bs = (SR_WRITE (mem_get s.mem c2) s).bs ∧
      (cpu_ctx_restore E b s).nb = (SR_WRITE (mem_get s.mem c2) s).nb ∧
      (cpu_ctx_restore E b s).xmask =
        E.int_rm2xmask (SR_WRITE (mem_get s.mem c2) s).rm ∧
      (cpu_ctx_restore E b s).ar = (s.ar + 3) % 65536) := by
  have a1 : ((s.ar + 1) % 65536) % 65536 = (s.ar + 1) % 65536 := by omega
  have a2 : (((s.ar + 1) % 65536 + 1) % 65536) % 65536 = (s.ar + 2) % 65536 := by omega
  refine ⟨fun h0 => ?_, fun c0 h0 h1 => ?_, fun c0 c1 h0 h1 h2 => ?_,
    fun c0 c1 c2 h0 h1 h2 => ?_⟩
  · unfold cpu_ctx_restore
    rw [cpu_mem_read_1_ptr_fail E b _ s h0]
    obtain ⟨k1, k2, k3, k4, k5, k6, k7, _⟩ := cpu_mem_fail_kept E b s
    exact ⟨k1, k2, k4, k3, k5, k6, k7⟩
  · unfold cpu_ctx_restore
    rw [cpu_mem_read_1_ptr E b _ s c0 h0]
    simp only []
    rw [cpu_mem_read_1_ptr_fail E b _ _]
    · simp only []
      obtain ⟨k1, k2, k3, k4, k5, k6, k7, _⟩ := cpu_mem_fail_kept E b
        { s with ic := mem_get s.mem c0, ar := (s.ar + 1) % 65536 }
      exact ⟨k1, k2, k4, k3, k5, k6, k7⟩
    · exact (congrArg (mem_ptr s.mem (barnb_nb b s)) a1).trans h1
  · unfold cpu_ctx_restore
    rw [cpu_mem_read_1_ptr E b _ s c0 h0]
    simp only []
    rw [cpu_mem_read_1_ptr E b _ _ c1]
    · simp only []
      rw [cpu_mem_read_1_ptr_fail E b _ _]
      · simp only []
        obtain ⟨k1, k2, k3, k4, k5, k6, k7, _⟩ := cpu_mem_fail_kept E b
          { s with
            ic := mem_get s.mem c0
            r := fun n => if n = 0 then mem_get s.mem c1 else s.r n
            ar := ((s.ar + 1) % 65536 + 1) % 65536 }
        exact ⟨k1, k2, k4, k3, k5, k6, k7⟩
      · exact (congrArg (mem_ptr s.mem (barnb_nb b s)) a2).trans h2
    · exact (congrArg (mem_ptr s.mem (barnb_nb b s)) a1).trans h1
  · rw [cpu_ctx_restore_ok E b s c0 c1 c2 h0 h1 h2]
    exact ⟨rfl, rfl, rfl, rfl, rfl, rfl, rfl, rfl⟩

/-- Witness of C34: on a machine whose only mapped page is page 0, a restore
from AR = 4095 reads word 0 and faults on word 1: IC is loaded (0), R0 = 7 and
RM = 3 stay. -/
theorem cpu_ctx_restore_not_atomic_witness :
    (cpu_ctx_restore mera400 false { cpu_stack with ar := 4095 }).ic = 0 ∧
    (cpu_ctx_restore mera400 false { cpu_stack with ar := 4095 }).r 0 = 7 ∧
    (cpu_ctx_restore mera400 false { cpu_stack with ar := 4095 }).rm = 3 :=
  have h := (cpu_ctx_restore_not_atomic mera400 false { cpu_stack with ar := 4095 }).2.1
    (0, 0, 4095) (by decide) (by decide)
  ⟨h.1, congrFun h.2.1 0, h.2.2.1⟩

/-! ### The modification counter -/

theorem cycle_dmod_mc (E : Env) (op : iset_opcode) (t : Int) (s : Cpu) :
    (cycle_dmod E op t s).exit = Exit.executed ∨ (cycle_dmod E op t s).cpu.mc = 0 := by
  unfold cycle_dmod
  simp only []
  split
  · split
    · exact Or.inr rfl
    · exact Or.inl rfl
  · exact Or.inl rfl

theorem cycle_argument_mc (E : Env) (op : iset_opcode) (s : Cpu) :
    (cycle_argument E op s).exit = Exit.executed ∨ (cycle_argument E op s).cpu.mc = 0 := by
  unfold cycle_argument cycle_modify
  split
  · split
    · exact cycle_dmod_mc E op _ _
    · split
      · exact Or.inr rfl
      · exact cycle_dmod_mc E op _ _
  · split
    · exact cycle_dmod_mc E op _ _
    · split
      · exact cycle_dmod_mc E op _ _
      · exact cycle_dmod_mc E op _ _

theorem cycle_decoded_mc (E : Env) (op : iset_opcode) (s : Cpu) :
    (cycle_decoded E op s).exit = Exit.executed ∨ (cycle_decoded E op s).cpu.mc = 0 := by
  unfold cycle_decoded
  split
  · split
    · exact Or.inr rfl
    · exact Or.inr rfl
  · split
    · exact Or.inr rfl
    · split
      · exact Or.inr rfl
      · split
        · exact Or.inr rfl
        · exact cycle_argument_mc E op s

theorem cpu_do_cycle_fetch_fail (E : Env) (s : Cpu)
    (hf : mem_read_1 s.mem (barnb_nb s.q s) (s.ic % 65536) = none) :
    (cpu_do_cycle E s).exit = Exit.ineffective_memfail ∧ (cpu_do_cycle E s).cpu.mc = 0 ∧
    (cpu_do_cycle E s).instruction_time = 0 + E.TIME_NOANS_IF + E.TIME_P := by
  unfold cpu_do_cycle
  simp only []
  rw [cpu_mem_read_1_fail E _ _ _]
  · exact ⟨rfl, rfl, rfl⟩
  · exact hf

theorem op_77_md_mc (E : Env) (s : Cpu) (hmc : s.mc ≤ 3) : (op_77_md E s).mc ≤ 3 := by
  unfold op_77_md
  split
  · show 0 ≤ 3
    omega
  · show s.mc + 1 ≤ 3
    omega

theorem cpu_do_clear_mc (E : Env) (scope : Int) (s : Cpu) :
    (cpu_do_clear E scope s).mc = if scope = E.ECTL_STATE_CLO then 0 else s.mc := by
  unfold cpu_do_clear
  simp only []
  split <;> rfl

/-- The outcome of one cycle for the modification counter. -/
theorem cpu_do_cycle_mc (E : Env) (s : Cpu) (hmc : s.mc ≤ 3) :
    (cpu_do_cycle E s).cpu.mc ≤ 3 ∧
    ((cpu_do_cycle E s).cpu.mc ≠ 0 →
      (cpu_do_cycle E s).exit = Exit.executed ∧
      ∃ w, mem_read_1 s.mem (barnb_nb s.q s) (s.ic % 65536) = some w ∧
        (E.cpu_op_tab w).fun_ = Fn.op_77_md) := by
  cases hf : mem_read_1 s.mem (barnb_nb s.q s) (s.ic % 65536) with
  | none =>
    obtain ⟨_, h2, _⟩ := cpu_do_cycle_fetch_fail E s hf
    rw [h2]
    exact ⟨by omega, fun c => absurd rfl c⟩
  | some w =>
    rw [cpu_do_cycle_fetch E s w hf]
    rcases cycle_decoded_mc E (E.cpu_op_tab w) (fetched s w) with hex | h0
    · obtain ⟨_, t1, s1, e, hm, _⟩ := cycle_decoded_executed E _ _ hex
      have hs1 : s1.mc ≤ 3 := by rw [hm]; exact hmc
      by_cases hmd : (E.cpu_op_tab w).fun_ = Fn.op_77_md
      · have hcpu : (cycle_execute E (E.cpu_op_tab w) t1 s1).cpu = op_77_md E s1 := by
          simp [cycle_execute, hmd, op_fun]
        rw [e, hcpu]
        exact ⟨op_77_md_mc E s1 hs1, fun _ => ⟨rfl, w, rfl, hmd⟩⟩
      · have hcpu : (cycle_execute E (E.cpu_op_tab w) t1 s1).cpu.mc = 0 := by
          simp [cycle_execute, hmd]
        rw [e, hcpu]
        exact ⟨by omega, fun c => absurd rfl c⟩
    · rw [h0]
      exact ⟨by omega, fun c => absurd rfl c⟩

/-- C33: the modification counter stays in 0..3. From a state with MC <= 3,
every `cpu_do_cycle` (on its effective, skipped, illegal and faulting paths),
every number of consecutive cycles, the MD handler and a clear of either scope
leave MC <= 3; and a cycle leaves MC != 0 only if it executed an MD
instruction (it took the normal exit and the fetched word decodes to MD),
so after any cycle whose executed instruction is not MD, MC == 0. -/
theorem mc_in_range (E : Env) (s : Cpu) (hmc : s.mc ≤ 3) :
    (cpu_do_cycle E s).cpu.mc ≤ 3 ∧
    (∀ n, (cpu_run E n s).mc ≤ 3) ∧
    (op_77_md E s).mc ≤ 3 ∧
    (∀ scope, (cpu_do_clear E scope s).mc ≤ 3) ∧
    ((cpu_do_cycle E s).cpu.mc ≠ 0 →
      (cpu_do_cycle E s).exit = Exit.executed ∧
      ∃ w, mem_read_1 s.mem (barnb_nb s.q s) (s.ic % 65536) = some w ∧
        (E.cpu_op_tab w).fun_ = Fn.op_77_md) := by
  refine ⟨(cpu_do_cycle_mc E s hmc).1, ?_, op_77_md_mc E s hmc, ?_,
    (cpu_do_cycle_mc E s hmc).2⟩
  · intro n
    induction n generalizing s with
    | zero => exact hmc
    | succ n ih => exact ih (cpu_do_cycle E s).cpu (cpu_do_cycle_mc E s hmc).1
  · intro scope
    rw [cpu_do_clear_mc]
    split
    · omega
    · exact hmc

/-- Witness of C33: on a machine whose program is MD, MD, LW, the counter is
1, 2 and then 0. -/
theorem mc_in_range_witness :
    (cpu_do_cycle mera400 (cpu_of [0xfd40, 0, 0xfd40, 0, 0x4040, 0])).cpu.mc ≤ 3 ∧
    (cpu_run mera400 3 (cpu_of [0xfd40, 0, 0xfd40, 0, 0x4040, 0])).mc ≤ 3 :=
  have h := mc_in_range mera400 (cpu_of [0xfd40, 0, 0xfd40, 0, 0x4040, 0]) (by decide)
  ⟨h.1, h.2.1 3⟩

/-! ### SP -/

theorem mem_mget_three (m : Mem) (nb a : Nat) :
    (∀ d0 d1 d2, mem_read_1 m nb (a % 65536) = some d0 →
      mem_read_1 m nb ((a + 1) % 65536) = some d1 →
      mem_read_1 m nb ((a + 2) % 65536) = some d2 →
      mem_mget m nb a 3 = [d0, d1, d2]) ∧
    ((mem_read_1 m nb (a % 65536) = none ∨ mem_read_1 m nb ((a + 1) % 65536) = none ∨
        mem_read_1 m nb ((a + 2) % 65536) = none) →
      (mem_mget m nb a 3).length ≠ 3) := by
  constructor
  · intro d0 d1 d2 h0 h1 h2
    simp only [mem_mget, h0, h1, Nat.add_assoc, Nat.reduceAdd, h2]
  · intro h
    cases h0 : mem_read_1 m nb (a % 65536) with
    | none => simp [mem_mget, h0]
    | some d0 =>
      cases h1 : mem_read_1 m nb ((a + 1) % 65536) with
      | none => simp [mem_mget, h0, h1]
      | some d1 =>
        cases h2 : mem_read_1 m nb ((a + 2) % 65536) with
        | none => simp [mem_mget, h0, h1, Nat.add_assoc, h2]
        | some d2 =>
          rw [h0, h1, h2] at h
          simp at h

/-- C31: SP is all-or-nothing. When the three words `d0`, `d1`, `d2` at
[NB:AC], [NB:AC+1], [NB:AC+2] (addresses mod 2^16) are all readable, SP sets
IC = `d0`, R0 = `d1`, SR (RM, Q, BS, NB) from `d2` and the interrupt mask from
the new RM, and changes nothing else; when one of them cannot be read, IC,
every register, SR and the interrupt mask are unchanged. -/
theorem op_77_sp_all_or_nothing (E : Env) (s : Cpu) :
    (∀ d0 d1 d2, mem_read_1 s.mem s.nb (s.ac % 65536) = some d0 →
      mem_read_1 s.mem s.nb ((s.ac + 1) % 65536) = some d1 →
      mem_read_1 s.mem s.nb ((s.ac + 2) % 65536) = some d2 →
      op_77_sp E s =
        { s with
          ic := d0
          r := fun n => if n = 0 then d1 else s.r n
          rm := (SR_WRITE d2 s).rm
          q := (SR_WRITE d2 s).q
          bs := (SR_WRITE d2 s).bs
          nb := (SR_WRITE d2 s).nb
          xmask := E.int_rm2xmask (SR_WRITE d2 s).rm }) ∧
    ((mem_read_1 s.mem s.nb (s.ac % 65536) = none ∨
        mem_read_1 s.mem s.nb ((s.ac + 1) % 65536) = none ∨
        mem_read_1 s.mem s.nb ((s.ac + 2) % 65536) = none) →
      (op_77_sp E s).ic = s.ic ∧ (op_77_sp E s).r = s.r ∧
      (op_77_sp E s).rm = s.rm ∧ (op_77_sp E s).q = s.q ∧
      (op_77_sp E s).bs = s.bs ∧ (op_77_sp E s).nb = s.nb ∧
      (op_77_sp E s).xmask = s.xmask) := by
  constructor
  · intro d0 d1 d2 h0 h1 h2
    have hm := (mem_mget_three s.mem s.nb s.ac).1 d0 d1 d2 h0 h1 h2
    simp only [op_77_sp, cpu_mem_mget, hm]
    rfl
  · intro h
    have hm := (mem_mget_three s.mem s.nb s.ac).2 h
    have e : op_77_sp E s = cpu_mem_fail E false s := by
      simp only [op_77_sp, cpu_mem_mget, if_neg hm]
      simp [hm]
    rw [e]
    obtain ⟨k1, k2, k3, k4, k5, k6, k7, _⟩ := cpu_mem_fail_kept E false s
    exact ⟨k1, k2, k4, k3, k5, k6, k7⟩

/-- Witness of C31: with AC = 4094 on a machine whose only mapped page is
page 0, the third word is unmapped and SP leaves IC = 5 and RM = 3; with
AC = 0 it loads IC, R0 and SR from the words 9, 8, 0x47. -/
theorem op_77_sp_all_or_nothing_witness :
    ((op_77_sp mera400 { cpu_of [] with ic := 5, rm := 3, ac := 4094 }).ic = 5 ∧
      (op_77_sp mera400 { cpu_of [] with ic := 5, rm := 3, ac := 4094 }).rm = 3) ∧
    op_77_sp mera400 (cpu_of [9, 8, 0x47]) =
      { cpu_of [9, 8, 0x47] with
        ic := 9
        r := fun n => if n = 0 then 8 else (cpu_of [9, 8, 0x47]).r n
        rm := (SR_WRITE 0x47 (cpu_of [9, 8, 0x47])).rm
        q := (SR_WRITE 0x47 (cpu_of [9, 8, 0x47])).q
        bs := (SR_WRITE 0x47 (cpu_of [9, 8, 0x47])).bs
        nb := (SR_WRITE 0x47 (cpu_of [9, 8, 0x47])).nb
        xmask := mera400.int_rm2xmask (SR_WRITE 0x47 (cpu_of [9, 8, 0x47])).rm } :=
  have h := (op_77_sp_all_or_nothing mera400
    { cpu_of [] with ic := 5, rm := 3, ac := 4094 }).2 (Or.inr (Or.inr (by decide)))
  ⟨⟨h.1, h.2.2.1⟩,
   (op_77_sp_all_or_nothing mera400 (cpu_of [9, 8, 0x47])).1 9 8 0x47
    (by decide) (by decide) (by decide)⟩

/-! ### IS -/

theorem or_and_self (d m : Nat) : (d ||| m) &&& m = m := by
  apply Nat.eq_of_testBit_eq
  intro i
  rw [Nat.testBit_and, Nat.testBit_or]
  cases d.testBit i <;> cases m.testBit i <;> rfl

/-- C32: IS with the word `d` at [NB:AC], stored in the cell `c`, and
m = r[IR_A] (16-bit values): if (d & m) == m the handler sets P and leaves
everything else, memory included, unchanged; otherwise it leaves P unchanged
and stores d | m into the cell; in both cases the word at [NB:AC] afterwards
contains every bit of m. If [NB:AC] is not mapped, P and the memory are
unchanged. -/
theorem op_is_sets_bits (E : Env) (s : Cpu) :
    (∀ c, mem_ptr s.mem s.nb (s.ac % 65536) = some c →
      mem_get s.mem c < 65536 → s.r (E.IR_A s.ir) < 65536 →
      (mem_get s.mem c &&& s.r (E.IR_A s.ir) = s.r (E.IR_A s.ir) →
        op_is E s = { s with p := true }) ∧
      (mem_get s.mem c &&& s.r (E.IR_A s.ir) ≠ s.r (E.IR_A s.ir) →
        op_is E s =
          { s with mem := mem_set s.mem c (mem_get s.mem c ||| s.r (E.IR_A s.ir)) }) ∧
      ∃ w, mem_read_1 (op_is E s).mem s.nb (s.ac % 65536) = some w ∧
        w &&& s.r (E.IR_A s.ir) = s.r (E.IR_A s.ir)) ∧
    (mem_ptr s.mem s.nb (s.ac % 65536) = none →
      (op_is E s).p = s.p ∧ (op_is E s).mem = s.mem) := by
  constructor
  · intro c hc hd hm
    have hget : cpu_mem_get E s.nb s.ac s = (some (mem_get s.mem c), s) := by
      simp only [cpu_mem_get, mem_read_1, hc]
    have hput : ∀ v, cpu_mem_put E s.nb s.ac v s = (true, { s with mem := mem_set s.mem c v }) := by
      intro v
      simp only [cpu_mem_put, mem_write_1, hc]
    have h1 : mem_get s.mem c &&& s.r (E.IR_A s.ir) = s.r (E.IR_A s.ir) →
        op_is E s = { s with p := true } := by
      intro h
      simp only [op_is, hget, h, if_true]
    have h2 : mem_get s.mem c &&& s.r (E.IR_A s.ir) ≠ s.r (E.IR_A s.ir) →
        op_is E s =
          { s with mem := mem_set s.mem c (mem_get s.mem c ||| s.r (E.IR_A s.ir)) } := by
      intro h
      simp only [op_is, hget, if_neg h, hput]
    refine ⟨h1, h2, ?_⟩
    by_cases h : mem_get s.mem c &&& s.r (E.IR_A s.ir) = s.r (E.IR_A s.ir)
    · rw [h1 h]
      exact ⟨mem_get s.mem c, mem_read_1_of_ptr _ _ _ c hc, h⟩
    · rw [h2 h]
      refine ⟨(mem_get s.mem c ||| s.r (E.IR_A s.ir)) % 65536, ?_, ?_⟩
      · show mem_read_1 (mem_set s.mem c _) s.nb (s.ac % 65536) = _
        rw [mem_read_1_of_ptr _ _ _ c (by rw [mem_ptr_mem_set]; exact hc),
          mem_get_mem_set_same]
      · rw [Nat.mod_eq_of_lt (Nat.or_lt_two_pow (n := 16) hd hm)]
        exact or_and_self _ _
  · intro hn
    have hget : cpu_mem_get E s.nb s.ac s = (none, cpu_mem_fail E false s) := by
      simp only [cpu_mem_get, mem_read_1, hn]
    have e : op_is E s = cpu_mem_fail E false s := by
      simp only [op_is, hget]
    rw [e]
    obtain ⟨_, _, _, _, _, _, _, k8, k9, _⟩ := cpu_mem_fail_kept E false s
    exact ⟨k9, k8⟩

/-- Witness of C32: with [0:0] = 0b0101 and R1 = 0b0011 (IR = 0x40 selects
R1), IS stores 0b0111; the word then contains every bit of R1. -/
theorem op_is_sets_bits_witness :
    ∃ w, mem_read_1
        (op_is mera400
          { cpu_of [5] with ir := 0x40, r := fun n => if n = 1 then 3 else 0 }).mem 0
        (0 % 65536) = some w ∧
      w &&& 3 = 3 :=
  ((op_is_sets_bits mera400
    { cpu_of [5] with ir := 0x40, r := fun n => if n = 1 then 3 else 0 }).1 (0, 0, 0)
    (by decide) (by decide) (by decide)).2.2

/-! ### SHC -/

theorem shc_value (x t : Nat) (hx : x < 65536) (h1 : 1 ≤ t) (h2 : t ≤ 15) :
    (x >>> t) ||| (((x &&& ((1 <<< t) - 1)) <<< (16 - t)) % 65536) =
      x / 2 ^ t + (x % 2 ^ t) * 2 ^ (16 - t) := by
  have hlt : x / 2 ^ t < 2 ^ (16 - t) := by
    apply Nat.div_lt_of_lt_mul
    rw [← Nat.pow_add]
    have : t + (16 - t) = 16 := by omega
    rw [this]
    exact hx
  have hf : (x % 2 ^ t) * 2 ^ (16 - t) < 65536 := by
    have : x % 2 ^ t < 2 ^ t := Nat.mod_lt _ (Nat.pos_pow_of_pos t (by decide))
    calc (x % 2 ^ t) * 2 ^ (16 - t) < 2 ^ t * 2 ^ (16 - t) :=
          Nat.mul_lt_mul_of_pos_right this (Nat.pos_pow_of_pos _ (by decide))
      _ = 65536 := by
          rw [← Nat.pow_add]
          have : t + (16 - t) = 16 := by omega
          rw [this]
  rw [Nat.one_shiftLeft, Nat.and_pow_two_sub_one_eq_mod, Nat.shiftLeft_eq,
    Nat.shiftRight_eq_div_pow, Nat.mod_eq_of_lt hf, Nat.or_comm,
    Nat.mul_comm (x % 2 ^ t), ← Nat.mul_add_lt_is_or hlt, Nat.add_comm]

theorem rot_value (x t : Nat) (hx : x < 65536) (h1 : 1 ≤ t) (h2 : t ≤ 15) :
    ((x >>> t) ||| (x <<< (16 - t))) % 65536 =
      x / 2 ^ t + (x % 2 ^ t) * 2 ^ (16 - t) := by
  have hlt : x / 2 ^ t < 2 ^ (16 - t) := by
    apply Nat.div_lt_of_lt_mul
    rw [← Nat.pow_add]
    have : t + (16 - t) = 16 := by omega
    rw [this]
    exact hx
  rw [Nat.shiftLeft_eq, Nat.shiftRight_eq_div_pow, Nat.or_comm, Nat.mul_comm x,
    ← Nat.mul_add_lt_is_or hlt]
  interval_cases t <;> omega

theorem rot_inverse (x t : Nat) (hx : x < 65536) (h1 : 1 ≤ t) (h2 : t ≤ 15) :
    x / 2 ^ t + (x % 2 ^ t) * 2 ^ (16 - t) < 65536 ∧
    (x / 2 ^ t + (x % 2 ^ t) * 2 ^ (16 - t)) / 2 ^ (16 - t) +
      ((x / 2 ^ t + (x % 2 ^ t) * 2 ^ (16 - t)) % 2 ^ (16 - t)) * 2 ^ (16 - (16 - t)) =
        x := by
  interval_cases t <;> omega

theorem op_72_shc_ne (E : Env) (s : Cpu) (h : E.IR_t s.ir ≠ 0) :
    op_72_shc E s =
      { s with
        r := E.REG_RESTRICT_WRITE (E.IR_A s.ir)
          ((s.r (E.IR_A s.ir) >>> E.IR_t s.ir) |||
            (((s.r (E.IR_A s.ir) &&& ((1 <<< E.IR_t s.ir) - 1)) <<< (16 - E.IR_t s.ir)) %
              65536)) s.r } := by
  unfold op_72_shc
  rw [if_neg h]

/-- C30: SHC on the register A = `IR_A` (one that the write macro stores
into, as R1..R7 are) holding the 16-bit value `x`, with shift amount
t = `IR_t`: for t in 1..15 it leaves r[A] equal to `x` rotated right by t bits
within 16 bits, ((x >> t) | (x << (16 - t))) mod 2^16; for t == 0 it changes
nothing; and SHC by t followed by SHC by 16 - t on the same register restores
`x`. -/
theorem op_72_shc_rotates (E : Env) (s : Cpu) (A t x : Nat)
    (hA : E.IR_A s.ir = A) (hA1 : 1 ≤ A ∧ A ≤ 7) (ht : E.IR_t s.ir = t)
    (hx : s.r A = x) (hx16 : x < 65536)
    (hw : ∀ a, 1 ≤ a ∧ a ≤ 7 → ∀ y r, E.REG_RESTRICT_WRITE a y r a = y) :
    (1 ≤ t ∧ t ≤ 15 →
      (op_72_shc E s).r A = ((x >>> t) ||| (x <<< (16 - t))) % 65536) ∧
    (t = 0 → op_72_shc E s = s) ∧
    (1 ≤ t ∧ t ≤ 15 → ∀ w2, E.IR_A w2 = A → E.IR_t w2 = 16 - t →
      (op_72_shc E { op_72_shc E s with ir := w2 }).r A = x) := by
  have hval : 1 ≤ t ∧ t ≤ 15 →
      (op_72_shc E s).r A = x / 2 ^ t + (x % 2 ^ t) * 2 ^ (16 - t) := by
    intro h
    have hne : E.IR_t s.ir ≠ 0 := by rw [ht]; omega
    rw [op_72_shc_ne E s hne, hA, ht, hx]
    show E.REG_RESTRICT_WRITE A _ s.r A = _
    rw [hw A hA1]
    exact shc_value x t hx16 h.1 h.2
  refine ⟨fun h => ?_, fun h => ?_, fun h w2 hA2 ht2 => ?_⟩
  · rw [hval h, rot_value x t hx16 h.1 h.2]
  · have h0 : E.IR_t s.ir = 0 := by rw [ht]; exact h
    simp only [op_72_shc, if_pos h0]
  · obtain ⟨r1, r2⟩ := rot_inverse x t hx16 h.1 h.2
    have hne : E.IR_t ({ op_72_shc E s with ir := w2 } : Cpu).ir ≠ 0 := by
      show E.IR_t w2 ≠ 0
      rw [ht2]; omega
    rw [op_72_shc_ne E _ hne]
    show E.REG_RESTRICT_WRITE (E.IR_A w2)
      (((op_72_shc E s).r (E.IR_A w2) >>> E.IR_t w2) |||
        ((((op_72_shc E s).r (E.IR_A w2) &&& ((1 <<< E.IR_t w2) - 1)) <<<
          (16 - E.IR_t w2)) % 65536)) (op_72_shc E s).r A = x
    rw [hA2, ht2, hw A hA1, hval h, shc_value _ (16 - t) r1 (by omega) (by omega)]
    exact r2

/-- Witness of C30: R1 = 0x8001 rotated right by 4 is 0x1800 (the word 0x44
has A = 1 and t = 4 in the layout of `mera400`). -/
theorem op_72_shc_rotates_witness :
    (op_72_shc mera400
      { cpu_of [] with ir := 0x44, r := fun n => if n = 1 then 0x8001 else 0 }).r 1 =
      ((0x8001 >>> 4) ||| (0x8001 <<< (16 - 4))) % 65536 :=
  (op_72_shc_rotates mera400
    { cpu_of [] with ir := 0x44, r := fun n => if n = 1 then 0x8001 else 0 } 1 4 0x8001
    (by decide) (by decide) (by decide) (by decide) (by decide)
    (fun _ _ _ _ => by simp [mera400])).1 (by decide)

/-! ### Clear -/

theorem cpu_do_clear_eq (E : Env) (scope : Int) (s : Cpu) :
    cpu_do_clear E scope s =
      { s with
        rz := fun _ => false
        mem := E.mem_reset (E.io_reset s).2
        cpu_mod_active := false
        r := fun n => if n = 0 then 0 else s.r n
        rm := 0
        q := false
        bs := false
        nb := 0
        xmask := E.int_rm2xmask 0
        rALARM := if scope = E.ECTL_STATE_CLO then false else s.rALARM
        mc := if scope = E.ECTL_STATE_CLO then 0 else s.mc } := by
  unfold cpu_do_clear
  by_cases h : scope = E.ECTL_STATE_CLO
  · simp [h, SR_WRITE, int_update_mask, int_clear_all, cpu_mod_off]
  · simp [h, SR_WRITE, int_update_mask, int_clear_all, cpu_mod_off]

theorem cpu_state_change_from (E : Env) (to_ from_ : Int) (s : Cpu)
    (h : s.cpu_state = from_) :
    (cpu_state_change E to_ from_ s).2 = { s with cpu_state := to_ } := by
  unfold cpu_state_change
  rw [if_pos (Or.inr h)]

/-- C28: a clear tick. In state CLM or CLO (two distinct constants) the loop
runs `cpu_do_clear` and leaves R0 == 0, SR == 0 (RM, Q, BS, NB all zero, and
the mask expanded from RM == 0), modifications inactive, no interrupt pending,
and R1..R7 and IC unchanged; under CLO RALARM and MC are cleared and the state
becomes STOP; under CLM RALARM and MC keep their values and the state becomes
RUN. -/
theorem cpu_loop_clear_effect (E : Env) (s : Cpu)
    (hne : E.ECTL_STATE_CLM ≠ E.ECTL_STATE_CLO)
    (hst : s.cpu_state = E.ECTL_STATE_CLM ∨ s.cpu_state = E.ECTL_STATE_CLO) :
    ∃ t, cpu_loop_clear E s = some t ∧
      t.r 0 = 0 ∧ t.rm = 0 ∧ t.q = false ∧ t.bs = false ∧ t.nb = 0 ∧ SR_READ t = 0 ∧
      t.xmask = E.int_rm2xmask 0 ∧ t.cpu_mod_active = false ∧
      (∀ n, t.rz n = false) ∧ rp t = false ∧
      (∀ n, n ≠ 0 → t.r n = s.r n) ∧ t.ic = s.ic ∧
      (s.cpu_state = E.ECTL_STATE_CLO →
        t.rALARM = false ∧ t.mc = 0 ∧ t.cpu_state = E.ECTL_STATE_STOP) ∧
      (s.cpu_state = E.ECTL_STATE_CLM →
        t.rALARM = s.rALARM ∧ t.mc = s.mc ∧ t.cpu_state = E.ECTL_STATE_RUN) := by
  have hrp : ∀ t : Cpu, (∀ n, t.rz n = false) → rp t = false := by
    intro t h
    simp [rp, h]
  rcases hst with h | h
  · have hno2 : ¬ (E.ECTL_STATE_CLM = E.ECTL_STATE_CLO) := hne
    refine ⟨(cpu_state_change E E.ECTL_STATE_RUN E.ECTL_STATE_CLM
      (cpu_do_clear E E.ECTL_STATE_CLM s)).2, by simp only [cpu_loop_clear, if_pos h], ?_⟩
    rw [cpu_state_change_from E _ _ _ (by rw [cpu_do_clear_eq]; exact h), cpu_do_clear_eq]
    refine ⟨rfl, rfl, rfl, rfl, rfl, by simp [SR_READ], rfl, rfl, fun _ => rfl, hrp _ (fun _ => rfl),
      fun n hn => ?_, rfl, fun c => absurd (h.symm.trans c) hne, fun _ => ⟨?_, ?_, rfl⟩⟩
    · show (if n = 0 then 0 else s.r n) = s.r n
      rw [if_neg hn]
    · show (if E.ECTL_STATE_CLM = E.ECTL_STATE_CLO then false else s.rALARM) = s.rALARM
      rw [if_neg hno2]
    · show (if E.ECTL_STATE_CLM = E.ECTL_STATE_CLO then 0 else s.mc) = s.mc
      rw [if_neg hno2]
  · have hno : ¬ (s.cpu_state = E.ECTL_STATE_CLM) := by rw [h]; exact fun c => hne c.symm
    refine ⟨(cpu_state_change E E.ECTL_STATE_STOP E.ECTL_STATE_CLO
      (cpu_do_clear E E.ECTL_STATE_CLO s)).2,
      by simp only [cpu_loop_clear, if_neg hno, if_pos h], ?_⟩
    rw [cpu_state_change_from E _ _ _ (by rw [cpu_do_clear_eq]; exact h), cpu_do_clear_eq]
    refine ⟨rfl, rfl, rfl, rfl, rfl, by simp [SR_READ], rfl, rfl, fun _ => rfl, hrp _ (fun _ => rfl),
      fun n hn => ?_, rfl, fun _ => ⟨?_, ?_, rfl⟩, fun c => absurd c hno⟩
    · show (if n = 0 then 0 else s.r n) = s.r n
      rw [if_neg hn]
    · show (if E.ECTL_STATE_CLO = E.ECTL_STATE_CLO then false else s.rALARM) = false
      rw [if_pos rfl]
    · show (if E.ECTL_STATE_CLO = E.ECTL_STATE_CLO then 0 else s.mc) = 0
      rw [if_pos rfl]

/-- Witness of C28: a CLM tick on `cpu_stack` (R0 = 7, RM = 3, Q set,
NB = 1, IC = 5). -/
theorem cpu_loop_clear_effect_witness :
    ∃ t, cpu_loop_clear mera400 { cpu_stack with cpu_state := 4 } = some t ∧
      t.r 0 = 0 ∧ t.rm = 0 ∧ t.q = false ∧ t.bs = false ∧ t.nb = 0 ∧ SR_READ t = 0 ∧
      t.xmask = mera400.int_rm2xmask 0 ∧ t.cpu_mod_active = false ∧
      (∀ n, t.rz n = false) ∧ rp t = false ∧
      (∀ n, n ≠ 0 → t.r n = ({ cpu_stack with cpu_state := 4 } : Cpu).r n) ∧
      t.ic = ({ cpu_stack with cpu_state := 4 } : Cpu).ic ∧
      (({ cpu_stack with cpu_state := 4 } : Cpu).cpu_state = mera400.ECTL_STATE_CLO →
        t.rALARM = false ∧ t.mc = 0 ∧ t.cpu_state = mera400.ECTL_STATE_STOP) ∧
      (({ cpu_stack with cpu_state := 4 } : Cpu).cpu_state = mera400.ECTL_STATE_CLM →
        t.rALARM = ({ cpu_stack with cpu_state := 4 } : Cpu).rALARM ∧
        t.mc = ({ cpu_stack with cpu_state := 4 } : Cpu).mc ∧
        t.cpu_state = mera400.ECTL_STATE_RUN) :=
  cpu_loop_clear_effect mera400 { cpu_stack with cpu_state := 4 } (by decide)
    (Or.inl (by decide))

/-! ### Instruction time -/

theorem cycle_execute_time (E : Env) (op : iset_opcode) (t : Int) (s : Cpu)
    (ht : 0 ≤ t) (hop : 0 < op.time) (hsh : 0 < E.TIME_SHIFT) :
    (cycle_execute E op t s).exit = Exit.executed ∧
    (op.fun_ = Fn.op_ou → (cycle_execute E op t s).instruction_time = -(t + op.time) ∧
      (cycle_execute E op t s).instruction_time < 0) ∧
    (op.fun_ ≠ Fn.op_ou → 0 < (cycle_execute E op t s).instruction_time) := by
  refine ⟨rfl, fun h => ?_, fun h => ?_⟩
  · have hne : ¬ (op.fun_ = Fn.op_72_shc) := by rw [h]; decide
    have e : (cycle_execute E op t s).instruction_time = (t + op.time) * -1 := by
      simp only [cycle_execute, if_neg hne, if_pos h]
    rw [e]
    constructor <;> omega
  · by_cases h2 : op.fun_ = Fn.op_72_shc
    · have e : (cycle_execute E op t s).instruction_time =
          t + op.time + (E.IR_t (cycle_execute E op t s).cpu.ir : Int) * E.TIME_SHIFT := by
        simp only [cycle_execute, if_pos h2]
      rw [e]
      have : 0 ≤ (E.IR_t (cycle_execute E op t s).cpu.ir : Int) * E.TIME_SHIFT :=
        Int.mul_nonneg (Int.natCast_nonneg _) (le_of_lt hsh)
      omega
    · have e : (cycle_execute E op t s).instruction_time = t + op.time := by
        simp only [cycle_execute, if_neg h2, if_neg h]
      rw [e]
      omega

/-- What a part of `cpu_do_cycle` that starts with the accumulated time `t`
returns: through the normal exit, the time of `cycle_execute` for some
accumulated time that is not negative; through a label, a positive time. -/
theorem cycle_dmod_time (E : Env) (op : iset_opcode) (t : Int) (s : Cpu) (ht : 0 ≤ t)
    (hd : 0 < E.TIME_DMOD) (hn : 0 < E.TIME_NOANS_IF) (hp : 0 < E.TIME_P) :
    (∃ t1 s1, 0 ≤ t1 ∧ cycle_dmod E op t s = cycle_execute E op t1 s1) ∨
    ((cycle_dmod E op t s).exit ≠ Exit.executed ∧
      0 < (cycle_dmod E op t s).instruction_time) := by
  unfold cycle_dmod
  simp only []
  split
  · split
    · refine Or.inr ⟨by simp [cycle_ineffective_memfail], ?_⟩
      show 0 < t + E.TIME_NOANS_IF + E.TIME_P
      omega
    · exact Or.inl ⟨t + E.TIME_DMOD, _, by omega, rfl⟩
  · exact Or.inl ⟨t, _, ht, rfl⟩

theorem cycle_modify_time (E : Env) (op : iset_opcode) (t : Int) (s : Cpu) (ht : 0 ≤ t)
    (hpm : 0 < E.TIME_PREMOD) (hb : 0 < E.TIME_BMOD)
    (hd : 0 < E.TIME_DMOD) (hn : 0 < E.TIME_NOANS_IF) (hp : 0 < E.TIME_P) :
    (∃ t1 s1, 0 ≤ t1 ∧ cycle_modify E op t s = cycle_execute E op t1 s1) ∨
    ((cycle_modify E op t s).exit ≠ Exit.executed ∧
      0 < (cycle_modify E op t s).instruction_time) := by
  unfold cycle_modify
  apply cycle_dmod_time E op _ _ _ hd hn hp
  have h1 : 0 ≤ cycle_premod_time E t s := by
    unfold cycle_premod_time
    split <;> omega
  unfold cycle_bmod_time
  split <;> omega

theorem cycle_argument_time (E : Env) (op : iset_opcode) (s : Cpu)
    (hm : 0 < E.TIME_MEM_ARG) (hpm : 0 < E.TIME_PREMOD) (hb : 0 < E.TIME_BMOD)
    (hd : 0 < E.TIME_DMOD) (hn : 0 < E.TIME_NOANS_IF) (hp : 0 < E.TIME_P) :
    (∃ t1 s1, 0 ≤ t1 ∧ cycle_argument E op s = cycle_execute E op t1 s1) ∨
    ((cycle_argument E op s).exit ≠ Exit.executed ∧
      0 < (cycle_argument E op s).instruction_time) := by
  unfold cycle_argument
  split
  · split
    · exact cycle_modify_time E op 0 _ (by omega) hpm hb hd hn hp
    · split
      · refine Or.inr ⟨by simp [cycle_ineffective_memfail], ?_⟩
        show 0 < 0 + E.TIME_NOANS_IF + E.TIME_P
        omega
      · exact cycle_modify_time E op _ _ (by omega) hpm hb hd hn hp
  · split
    · exact cycle_modify_time E op 0 _ (by omega) hpm hb hd hn hp
    · split
      · exact cycle_modify_time E op 0 _ (by omega) hpm hb hd hn hp
      · exact cycle_modify_time E op 0 _ (by omega) hpm hb hd hn hp

theorem cycle_decoded_time (E : Env) (op : iset_opcode) (s : Cpu)
    (hm : 0 < E.TIME_MEM_ARG) (hpm : 0 < E.TIME_PREMOD) (hb : 0 < E.TIME_BMOD)
    (hd : 0 < E.TIME_DMOD) (hn : 0 < E.TIME_NOANS_IF) (hp : 0 < E.TIME_P) :
    (∃ t1 s1, 0 ≤ t1 ∧ cycle_decoded E op s = cycle_execute E op t1 s1) ∨
    ((cycle_decoded E op s).exit ≠ Exit.executed ∧
      0 < (cycle_decoded E op s).instruction_time) := by
  have hin : ∀ x : Cpu, (cycle_ineffective E 0 x).exit ≠ Exit.executed ∧
      0 < (cycle_ineffective E 0 x).instruction_time := by
    intro x
    refine ⟨by simp [cycle_ineffective], ?_⟩
    show 0 < 0 + E.TIME_P
    omega
  unfold cycle_decoded
  split
  · split
    · exact Or.inr (hin _)
    · exact Or.inr (hin _)
  · split
    · exact Or.inr (hin _)
    · split
      · exact Or.inr (hin _)
      · split
        · exact Or.inr (hin _)
        · exact cycle_argument_time E op s hm hpm hb hd hn hp

theorem nat_bits_le : ∀ (fuel n k : Nat), n < 2 ^ k → nat_bits fuel n ≤ k := by
  intro fuel
  induction fuel with
  | zero => intro n k _; exact Nat.zero_le _
  | succ f ih =>
    intro n k h
    unfold nat_bits
    by_cases hn : n = 0
    · rw [if_pos hn]; exact Nat.zero_le _
    · rw [if_neg hn]
      obtain ⟨j, rfl⟩ : ∃ j, k = j + 1 := by
        cases k with
        | zero => simp at h; exact absurd h hn
        | succ j => exact ⟨j, rfl⟩
      have h2 : n / 2 < 2 ^ j := by
        rw [Nat.div_lt_iff_lt_mul (by decide)]
        rw [Nat.pow_succ] at h
        exact h
      have := ih (n / 2) j h2
      omega

/-- A number of at most 24 bits whose last bit is not below 2^-149 is a
`float`: the rounding leaves it as it is. -/
theorem float32_round_exact (m e : Int) (hm : m.natAbs < 16777216) (he : -149 ≤ e) :
    float32_round m e = { m := m, e := e } := by
  have hb : nat_bits m.natAbs m.natAbs ≤ 24 := nat_bits_le _ _ 24 (by simpa using hm)
  unfold float32_round
  simp only []
  have hk : (if ((nat_bits m.natAbs m.natAbs : Nat) : Int) - 24 ≤ -149 - e then -149 - e
      else ((nat_bits m.natAbs m.natAbs : Nat) : Int) - 24) ≤ 0 := by
    split_ifs <;> omega
  rw [if_pos hk]

/-- With `cpu_delay_factor` 1.0, a time from 0 to 2^24 - 1 is scaled to
itself. -/
theorem float32_scale_one (n : Int) (h0 : 0 ≤ n) (h : n < 16777216) :
    float32_to_int (float32_mul (float32_of_int n) float32_one) = some n := by
  have hn : n.natAbs < 16777216 := by omega
  have e1 : float32_of_int n = { m := n, e := 0 } :=
    float32_round_exact n 0 hn (by decide)
  have e2 : float32_mul { m := n, e := 0 } float32_one = { m := n, e := 0 } := by
    unfold float32_mul float32_one
    simp only [mul_one, add_zero]
    exact float32_round_exact n 0 hn (by decide)
  rw [e1, e2]
  unfold float32_to_int c_int
  simp only [le_refl, if_true, Int.toNat_zero, pow_zero, mul_one]
  rw [if_pos ⟨by omega, by omega⟩]

/-- What `cpu_timekeeping` does with a negative time: when it returns, the
timer and the sleeps are as before and `cpu_time_cumulative` has grown by the
`int` value of the `float` product of the magnitude and `cpu_delay_factor`. -/
theorem cpu_timekeeping_negative (f : Option float32) (g : Int) (fuel : Nat) (t : Int)
    (k k2 : Timekeeper) (ht : t < 0) (h : cpu_timekeeping f g fuel t k = some k2) :
    k2.sleeps = k.sleeps ∧ k2.tv_sec = k.tv_sec ∧ k2.tv_nsec = k.tv_nsec ∧
    -2147483648 < t ∧
    ∃ fac d, f = some fac ∧
      float32_to_int (float32_mul (float32_of_int (-t)) fac) = some d ∧
      k2.cpu_time_cumulative = k.cpu_time_cumulative + d := by
  have hd1 : decide (t < 0) = true := decide_eq_true ht
  have e : t * -1 = -t := by omega
  unfold cpu_timekeeping at h
  simp only [hd1, if_pos ht, e] at h
  cases h1 : c_int (-t) with
  | none => rw [h1] at h; simp at h
  | some t1 =>
    rw [h1] at h
    simp only [] at h
    have ht1 : t1 = -t ∧ -2147483648 < t := by
      unfold c_int at h1
      split_ifs at h1 with hc
      exact ⟨(Option.some.inj h1).symm, by omega⟩
    obtain ⟨ht1, hmin⟩ := ht1
    subst ht1
    cases f with
    | none => simp at h
    | some fac =>
      simp only [] at h
      cases h2 : float32_to_int (float32_mul (float32_of_int (-t)) fac) with
      | none => rw [h2] at h; simp at h
      | some d =>
        rw [h2] at h
        simp only [] at h
        cases h3 : c_int (k.cpu_time_cumulative + d) with
        | none => rw [h3] at h; simp at h
        | some c =>
          rw [h3] at h
          simp only [] at h
          have hc : c = k.cpu_time_cumulative + d := by
            unfold c_int at h3
            split_ifs at h3
            exact (Option.some.inj h3).symm
          have h4 : ({ k with cpu_time_cumulative := c } : Timekeeper) = k2 := by
            simpa using h
          subst h4
          exact ⟨rfl, rfl, rfl, hmin, fac, d, rfl, h2, hc⟩

/-- A negative time above `INT_MIN` whose scaled magnitude `d` is an `int`
and fits the accumulator: `cpu_timekeeping` returns, with the accumulator
grown by `d` and nothing else changed. -/
theorem cpu_timekeeping_returns (fac : float32) (g : Int) (fuel : Nat) (t d : Int)
    (k : Timekeeper) (ht : t < 0) (hmin : -2147483648 < t)
    (hd : float32_to_int (float32_mul (float32_of_int (-t)) fac) = some d)
    (hlo : -2147483648 ≤ k.cpu_time_cumulative + d)
    (hhi : k.cpu_time_cumulative + d ≤ 2147483647) :
    cpu_timekeeping (some fac) g fuel t k =
      some { k with cpu_time_cumulative := k.cpu_time_cumulative + d } := by
  have hd1 : decide (t < 0) = true := decide_eq_true ht
  have e : t * -1 = -t := by omega
  have h1 : c_int (-t) = some (-t) := by
    unfold c_int
    rw [if_pos ⟨by omega, by omega⟩]
  have h3 : c_int (k.cpu_time_cumulative + d) = some (k.cpu_time_cumulative + d) := by
    unfold c_int
    rw [if_pos ⟨hlo, hhi⟩]
  unfold cpu_timekeeping
  simp only [hd1, if_pos ht, e, h1, hd, h3]
  simp

theorem cycle_dmod_exact (E : Env) (op : iset_opcode) (t : Int) (s : Cpu)
    (hex : (cycle_dmod E op t s).exit = Exit.executed) :
    ∃ s1, cycle_dmod E op t s = cycle_execute E op
      (t + (if op.flags &&& E.OP_FL_ARG_NORM ≠ 0 ∧ E.IR_D s.ir ≠ 0 then E.TIME_DMOD else 0))
      s1 := by
  by_cases hc : op.flags &&& E.OP_FL_ARG_NORM ≠ 0 ∧ E.IR_D s.ir ≠ 0
  · rw [if_pos hc]
    have hc2 : op.flags &&& E.OP_FL_ARG_NORM ≠ 0 ∧
        E.IR_D ({ s with ar := s.ac } : Cpu).ir ≠ 0 := hc
    unfold cycle_dmod at hex ⊢
    simp only [] at hex ⊢
    rw [if_pos hc2] at hex ⊢
    rcases cpu_mem_read_1_cases E ({ s with ar := s.ac } : Cpu).q
        ({ s with ar := s.ac } : Cpu).ac { s with ar := s.ac } with ⟨w, hw⟩ | hw
    · rw [hw]
      exact ⟨_, rfl⟩
    · rw [hw] at hex
      simp [cycle_ineffective_memfail] at hex
  · rw [if_neg hc, add_zero]
    have hc2 : ¬ (op.flags &&& E.OP_FL_ARG_NORM ≠ 0 ∧
        E.IR_D ({ s with ar := s.ac } : Cpu).ir ≠ 0) := hc
    unfold cycle_dmod
    simp only []
    rw [if_neg hc2]
    exact ⟨_, rfl⟩

theorem cycle_premod_ir (s : Cpu) : (cycle_premod s).ir = s.ir := by
  unfold cycle_premod
  split <;> rfl

theorem cycle_bmod_ir (E : Env) (op : iset_opcode) (s : Cpu) :
    (cycle_bmod E op s).ir = s.ir := by
  unfold cycle_bmod
  split <;> rfl

theorem cycle_modify_exact (E : Env) (op : iset_opcode) (t : Int) (s : Cpu)
    (hex : (cycle_modify E op t s).exit = Exit.executed) :
    ∃ s1, cycle_modify E op t s =
      cycle_execute E op (t + spec_modification_time E op s.mc s.ir) s1 := by
  unfold cycle_modify at hex ⊢
  obtain ⟨s1, h⟩ := cycle_dmod_exact E op _ _ hex
  refine ⟨s1, ?_⟩
  rw [h, cycle_bmod_ir, cycle_premod_ir]
  have e : cycle_bmod_time E op (cycle_premod_time E t s) (cycle_premod s) +
      (if op.flags &&& E.OP_FL_ARG_NORM ≠ 0 ∧ E.IR_D s.ir ≠ 0 then E.TIME_DMOD else 0) =
      t + spec_modification_time E op s.mc s.ir := by
    unfold cycle_bmod_time cycle_premod_time spec_modification_time
    rw [cycle_premod_ir]
    split_ifs <;> omega
  rw [e]

theorem cycle_argument_exact (E : Env) (op : iset_opcode) (s : Cpu)
    (hex : (cycle_argument E op s).exit = Exit.executed) :
    ∃ s1, cycle_argument E op s = cycle_execute E op
      (spec_argument_time E op s.ir + spec_modification_time E op s.mc s.ir) s1 := by
  unfold cycle_argument at hex ⊢
  unfold spec_argument_time
  by_cases hn : op.flags &&& E.OP_FL_ARG_NORM ≠ 0
  · rw [if_pos hn] at hex ⊢
    by_cases hc : E.IR_C s.ir ≠ 0
    · rw [if_pos hc] at hex ⊢
      rw [if_neg (show ¬ (op.flags &&& E.OP_FL_ARG_NORM ≠ 0 ∧ E.IR_C s.ir = 0) from
        fun h => hc h.2)]
      obtain ⟨s1, h⟩ := cycle_modify_exact E op 0 _ hex
      exact ⟨s1, h⟩
    · rw [if_neg hc] at hex ⊢
      rw [if_pos ⟨hn, not_not.mp hc⟩]
      rcases cpu_mem_read_1_cases E s.q s.ic s with ⟨w, hw⟩ | hw
      · rw [hw] at hex ⊢
        simp only [] at hex ⊢
        obtain ⟨s1, h⟩ := cycle_modify_exact E op _ _ hex
        refine ⟨s1, ?_⟩
        rw [h, zero_add]
      · rw [hw] at hex
        simp [cycle_ineffective_memfail] at hex
  · rw [if_neg hn] at hex ⊢
    rw [if_neg (show ¬ (op.flags &&& E.OP_FL_ARG_NORM ≠ 0 ∧ E.IR_C s.ir = 0) from
      fun h => hn h.1), zero_add]
    have hz : ∀ x : Cpu, x.mc = s.mc → x.ir = s.ir →
        (cycle_modify E op 0 x).exit = Exit.executed →
        ∃ s1, cycle_modify E op 0 x =
          cycle_execute E op (spec_modification_time E op s.mc s.ir) s1 := by
      intro x h1 h2 h3
      obtain ⟨s1, h⟩ := cycle_modify_exact E op 0 x h3
      refine ⟨s1, ?_⟩
      rw [h, zero_add, h1, h2]
    split_ifs at hex ⊢
    · exact hz _ rfl rfl hex
    · exact hz _ rfl rfl hex
    · exact hz _ rfl rfl hex

theorem cycle_decoded_exact (E : Env) (op : iset_opcode) (s : Cpu)
    (hex : (cycle_decoded E op s).exit = Exit.executed) :
    ∃ s1, cycle_decoded E op s = cycle_execute E op
      (spec_argument_time E op s.ir + spec_modification_time E op s.mc s.ir) s1 := by
  have hin : ∀ x : Cpu, (cycle_ineffective E 0 x).exit ≠ Exit.executed := by
    intro x
    simp [cycle_ineffective]
  unfold cycle_decoded at hex ⊢
  split_ifs at hex ⊢
  · exact absurd hex (hin _)
  · exact absurd hex (hin _)
  · exact absurd hex (hin _)
  · exact absurd hex (hin _)
  · exact absurd hex (hin _)
  · exact cycle_argument_exact E op s hex

/-- The time of an executed cycle up to the call of the handler: argument
time and modification time of the fetched word. -/
theorem cpu_do_cycle_exact (E : Env) (s : Cpu) (w : Nat)
    (hf : mem_read_1 s.mem (barnb_nb s.q s) (s.ic % 65536) = some w)
    (hex : (cpu_do_cycle E s).exit = Exit.executed) :
    ∃ s1, cpu_do_cycle E s = cycle_execute E (E.cpu_op_tab w)
      (spec_argument_time E (E.cpu_op_tab w) w +
        spec_modification_time E (E.cpu_op_tab w) s.mc w) s1 := by
  rw [cpu_do_cycle_fetch E s w hf] at hex ⊢
  exact cycle_decoded_exact E (E.cpu_op_tab w) (fetched s w) hex

theorem spec_times_nonneg (E : Env) (op : iset_opcode) (mc ir : Nat)
    (hm : 0 < E.TIME_MEM_ARG) (hpm : 0 < E.TIME_PREMOD) (hb : 0 < E.TIME_BMOD)
    (hd : 0 < E.TIME_DMOD) :
    0 ≤ spec_argument_time E op ir + spec_modification_time E op mc ir := by
  unfold spec_argument_time spec_modification_time
  split_ifs <;> omega

/-- Counterexample to C29 as stated: with the speed factor 2.0
(`cpu_delay_factor` = 1.0f / 2.0 = 0.5) `cpu_timekeeping(-100)` adds 50 to
`cpu_time_cumulative`, not the magnitude 100; with the speed factor 1.0 the
time -16777217 adds 16777216, the `float` nearest to 2^24 + 1; and for the
time `INT_MIN` the negation `cpu_time *= -1` overflows, so that nothing is
defined. -/
theorem cpu_timekeeping_counterexample :
    cpu_timekeeping (some float32_half) 1000000 5 (-100) timekeeper_start =
      some { timekeeper_start with cpu_time_cumulative := 50 } ∧
    timekeeper_start.cpu_time_cumulative + 100 ≠ 50 ∧
    cpu_timekeeping (some float32_one) 1000000 5 (-16777217) timekeeper_start =
      some { timekeeper_start with cpu_time_cumulative := 16777216 } ∧
    timekeeper_start.cpu_time_cumulative + 16777217 ≠ 16777216 ∧
    cpu_timekeeping (some float32_one) 1000000 5 (-2147483648) timekeeper_start = none :=
  ⟨rfl, by decide, rfl, by decide, rfl⟩

/-- C29, amended: with positive times (the time of every opcode and the
constants `TIME_*`), `cpu_do_cycle` returns a negative time exactly when it
executed an OU instruction (normal exit, and the fetched word decodes to OU);
that time is the negated sum of the argument time, the modification time and
the base time `op->time` of the fetched word; every cycle that leaves through
a label (skipped, illegal, faulting) and every other executed instruction
return a positive time. And `cpu_timekeeping`, given a negative time: when it
returns, it has neither slept nor changed `cpu_timer`, the time is above
`INT_MIN`, and `cpu_time_cumulative` has grown by the `int` value of the
`float` product magnitude * `cpu_delay_factor`; it does return when the time
is above `INT_MIN`, that product has an `int` value and the sum is an `int`;
and with `cpu_delay_factor` 1.0 and a magnitude below 2^24 what it adds is
the magnitude. -/
theorem cycle_time_sign (E : Env) (s : Cpu)
    (hm : 0 < E.TIME_MEM_ARG) (hpm : 0 < E.TIME_PREMOD) (hb : 0 < E.TIME_BMOD)
    (hd : 0 < E.TIME_DMOD) (hsh : 0 < E.TIME_SHIFT) (hn : 0 < E.TIME_NOANS_IF)
    (hp : 0 < E.TIME_P) (hop : ∀ w, 0 < (E.cpu_op_tab w).time) :
    ((cpu_do_cycle E s).instruction_time < 0 ↔
      ((cpu_do_cycle E s).exit = Exit.executed ∧
        ∃ w, mem_read_1 s.mem (barnb_nb s.q s) (s.ic % 65536) = some w ∧
          (E.cpu_op_tab w).fun_ = Fn.op_ou)) ∧
    (∀ w, mem_read_1 s.mem (barnb_nb s.q s) (s.ic % 65536) = some w →
      (E.cpu_op_tab w).fun_ = Fn.op_ou → (cpu_do_cycle E s).exit = Exit.executed →
      (cpu_do_cycle E s).instruction_time =
        -(spec_argument_time E (E.cpu_op_tab w) w +
          spec_modification_time E (E.cpu_op_tab w) s.mc w + (E.cpu_op_tab w).time)) ∧
    (¬ (cpu_do_cycle E s).instruction_time < 0 → 0 < (cpu_do_cycle E s).instruction_time) ∧
    ((cpu_do_cycle E s).exit ≠ Exit.executed → 0 < (cpu_do_cycle E s).instruction_time) ∧
    (∀ (f : Option float32) (granularity : Int) (fuel : Nat) (t : Int) (k k2 : Timekeeper),
      t < 0 → cpu_timekeeping f granularity fuel t k = some k2 →
      k2.sleeps = k.sleeps ∧ k2.tv_sec = k.tv_sec ∧ k2.tv_nsec = k.tv_nsec ∧
      -2147483648 < t ∧
      ∃ fac d, f = some fac ∧
        float32_to_int (float32_mul (float32_of_int (-t)) fac) = some d ∧
        k2.cpu_time_cumulative = k.cpu_time_cumulative + d) ∧
    (∀ (fac : float32) (granularity : Int) (fuel : Nat) (t d : Int) (k : Timekeeper),
      t < 0 → -2147483648 < t →
      float32_to_int (float32_mul (float32_of_int (-t)) fac) = some d →
      -2147483648 ≤ k.cpu_time_cumulative + d → k.cpu_time_cumulative + d ≤ 2147483647 →
      cpu_timekeeping (some fac) granularity fuel t k =
        some { k with cpu_time_cumulative := k.cpu_time_cumulative + d }) ∧
    (∀ (granularity : Int) (fuel : Nat) (t : Int) (k : Timekeeper),
      t < 0 → -16777216 < t →
      -2147483648 ≤ k.cpu_time_cumulative + -t → k.cpu_time_cumulative + -t ≤ 2147483647 →
      cpu_timekeeping (some float32_one) granularity fuel t k =
        some { k with cpu_time_cumulative := k.cpu_time_cumulative + -t }) := by
  have key : (∃ w, mem_read_1 s.mem (barnb_nb s.q s) (s.ic % 65536) = some w ∧
        ∃ t1 s1, 0 ≤ t1 ∧ cpu_do_cycle E s = cycle_execute E (E.cpu_op_tab w) t1 s1) ∨
      ((cpu_do_cycle E s).exit ≠ Exit.executed ∧ 0 < (cpu_do_cycle E s).instruction_time) := by
    cases hf : mem_read_1 s.mem (barnb_nb s.q s) (s.ic % 65536) with
    | none =>
      obtain ⟨h1, _, h3⟩ := cpu_do_cycle_fetch_fail E s hf
      refine Or.inr ⟨by rw [h1]; decide, ?_⟩
      rw [h3]
      omega
    | some w =>
      rw [cpu_do_cycle_fetch E s w hf]
      rcases cycle_decoded_time E (E.cpu_op_tab w) (fetched s w) hm hpm hb hd hn hp with
        ⟨t1, s1, h1, h2⟩ | h
      · exact Or.inl ⟨w, rfl, t1, s1, h1, h2⟩
      · exact Or.inr h
  refine ⟨⟨fun hneg => ?_, fun ⟨hex, w, hw, hou⟩ => ?_⟩, fun w hw hou hex => ?_, fun hnn => ?_,
    fun hex => ?_, fun f granularity fuel t k k2 ht h => ?_,
    fun fac granularity fuel t d k ht hmin hd0 hlo hhi => ?_,
    fun granularity fuel t k ht hsmall hlo hhi => ?_⟩
  · rcases key with ⟨w, hw, t1, s1, h1, h2⟩ | ⟨_, h2⟩
    · obtain ⟨e1, e2, e3⟩ := cycle_execute_time E (E.cpu_op_tab w) t1 s1 h1 (hop w) hsh
      by_cases hou : (E.cpu_op_tab w).fun_ = Fn.op_ou
      · exact ⟨by rw [h2]; exact e1, w, hw, hou⟩
      · have := e3 hou
        rw [h2] at hneg
        omega
    · omega
  · rcases key with ⟨w1, hw1, t1, s1, h1, h2⟩ | ⟨h1, _⟩
    · have hww : w1 = w := Option.some.inj (hw1.symm.trans hw)
      subst hww
      obtain ⟨_, e2, _⟩ := cycle_execute_time E (E.cpu_op_tab w1) t1 s1 h1 (hop w1) hsh
      rw [h2]
      exact (e2 hou).2
    · exact absurd hex h1
  · obtain ⟨s1, h⟩ := cpu_do_cycle_exact E s w hw hex
    obtain ⟨_, e2, _⟩ := cycle_execute_time E (E.cpu_op_tab w) _ s1
      (spec_times_nonneg E (E.cpu_op_tab w) s.mc w hm hpm hb hd) (hop w) hsh
    rw [h]
    exact (e2 hou).1
  · rcases key with ⟨w, hw, t1, s1, h1, h2⟩ | ⟨_, h2⟩
    · obtain ⟨e1, e2, e3⟩ := cycle_execute_time E (E.cpu_op_tab w) t1 s1 h1 (hop w) hsh
      by_cases hou : (E.cpu_op_tab w).fun_ = Fn.op_ou
      · have := (e2 hou).2
        rw [h2] at hnn
        exact absurd this hnn
      · rw [h2]
        exact e3 hou
    · exact h2
  · rcases key with ⟨w, hw, t1, s1, h1, h2⟩ | ⟨_, h2⟩
    · rw [h2] at hex
      exact absurd rfl hex
    · exact h2
  · exact cpu_timekeeping_negative f granularity fuel t k k2 ht h
  · exact cpu_timekeeping_returns fac granularity fuel t d k ht hmin hd0 hlo hhi
  · exact cpu_timekeeping_returns float32_one granularity fuel t (-t) k ht (by omega)
      (float32_scale_one (-t) (by omega) (by omega)) hlo hhi

/-- Witness of C29: `OU R0, 0` on `mera400_ou` takes 10 (the argument word),
no modification and the base time 100, and returns -110; `cpu_timekeeping`
at the speed factor 1.0 then adds 110 to the accumulator and leaves the timer
and the sleeps alone. -/
theorem cycle_time_sign_witness :
    (cpu_do_cycle mera400_ou (cpu_of [0x7400, 0, 0, 0])).instruction_time < 0 ∧
    (cpu_do_cycle mera400_ou (cpu_of [0x7400, 0, 0, 0])).instruction_time =
      -(spec_argument_time mera400_ou (mera400_ou.cpu_op_tab 0x7400) 0x7400 +
        spec_modification_time mera400_ou (mera400_ou.cpu_op_tab 0x7400)
          (cpu_of [0x7400, 0, 0, 0]).mc 0x7400 +
        (mera400_ou.cpu_op_tab 0x7400).time) ∧
    spec_argument_time mera400_ou (mera400_ou.cpu_op_tab 0x7400) 0x7400 = 10 ∧
    spec_modification_time mera400_ou (mera400_ou.cpu_op_tab 0x7400)
      (cpu_of [0x7400, 0, 0, 0]).mc 0x7400 = 0 ∧
    (mera400_ou.cpu_op_tab 0x7400).time = 100 ∧
    cpu_timekeeping (some float32_one) 1000000 5 (-110) timekeeper_start =
      some { timekeeper_start with
        cpu_time_cumulative := timekeeper_start.cpu_time_cumulative + - -110 } :=
  have h := cycle_time_sign mera400_ou (cpu_of [0x7400, 0, 0, 0])
    (by decide) (by decide) (by decide) (by decide) (by decide) (by decide) (by decide)
    (fun w => by
      simp only [mera400_ou, mera400_ou_op_tab, mera400_op_tab]
      split_ifs <;> decide)
  ⟨h.1.mpr ⟨by decide, 0x7400, by decide, by decide⟩,
   h.2.1 0x7400 (by decide) (by decide) (by decide),
   by decide, by decide, by decide,
   h.2.2.2.2.2.2 1000000 5 (-110) timekeeper_start (by decide) (by decide) (by decide)
    (by decide)⟩

/-! ### Binary load -/

theorem cpu_do_bin_end (E : Env) (io : Int × Nat) (b : Bin) (s : Cpu)
    (hok : io.1 = E.IO_OK) (hc : b.cnt = 0)
    (he : E.bin_is_end ((io.2 &&& 0xff) % 256) = true) :
    (cpu_do_bin E false io b s).1 = true ∧ (cpu_do_bin E false io b s).2.2 = s := by
  simp [cpu_do_bin, hok, hc, he]

theorem cpu_do_bin_not_first (E : Env) (io : Int × Nat) (b : Bin) (s : Cpu)
    (hc : b.cnt ≠ 0) : (cpu_do_bin E false io b s).1 = false := by
  unfold cpu_do_bin
  simp only [Bool.false_eq_true, if_false, hc, false_and]
  split_ifs
  all_goals first | rfl | (split <;> rfl)

theorem cpu_do_bin_valid (E : Env) (io : Int × Nat) (b : Bin) (s : Cpu)
    (hok : io.1 = E.IO_OK) (hc : b.cnt < 2)
    (he : ¬ (b.cnt = 0 ∧ E.bin_is_end ((io.2 &&& 0xff) % 256) = true))
    (hv : E.bin_is_valid ((io.2 &&& 0xff) % 256) = true) :
    cpu_do_bin E false io b s =
      (false,
        { b with
          data := io.2
          bdata := fun i => if i = b.cnt then (io.2 &&& 0xff) % 256 else b.bdata i
          cnt := b.cnt + 1 }, s) := by
  have h3 : ¬ (b.cnt + 1 ≥ 3) := by omega
  simp only [cpu_do_bin, Bool.false_eq_true, if_false, hok, if_true, if_pos rfl, if_neg he, hv,
    if_neg h3]

theorem cpu_do_bin_third (E : Env) (io : Int × Nat) (b : Bin) (s : Cpu)
    (c : Nat × Nat × Nat)
    (hok : io.1 = E.IO_OK) (hc : b.cnt = 2)
    (hv : E.bin_is_valid ((io.2 &&& 0xff) % 256) = true)
    (hm : mem_ptr s.mem (barnb_nb s.q s) (s.ar % 65536) = some c) :
    cpu_do_bin E false io b s =
      (false,
        { b with
          data := io.2
          bdata := fun i => if i = b.cnt then (io.2 &&& 0xff) % 256 else b.bdata i
          cnt := 0
          words := b.words + 1 },
        { s with
          mem := mem_set s.mem c
            (E.bin2word (fun i => if i = b.cnt then (io.2 &&& 0xff) % 256 else b.bdata i))
          ar := (s.ar + 1) % 65536 }) := by
  have he : ¬ (b.cnt = 0 ∧ E.bin_is_end ((io.2 &&& 0xff) % 256) = true) := by
    rw [hc]; exact fun c => absurd c.1 (by decide)
  have h3 : b.cnt + 1 ≥ 3 := by omega
  have hw : ∀ d, cpu_mem_write_1 E s.q s.ar d s = (true, { s with mem := mem_set s.mem c d }) := by
    intro d
    apply cpu_mem_write_1_ok
    simp [mem_write_1, hm]
  simp only [cpu_do_bin, Bool.false_eq_true, if_false, hok, if_true, if_pos rfl, if_neg he, hv,
    if_pos h3, hw]

/-- Three passes of the loop in state BIN over a triplet of valid bytes that
starts at position 0 and is not an end marker. -/
theorem cpu_bin_run_triplet (E : Env) (x0 x1 x2 : Nat) (rest : List (Int × Nat))
    (b : Bin) (s : Cpu) (c : Nat × Nat × Nat)
    (hst : s.cpu_state = E.ECTL_STATE_BIN) (hc : b.cnt = 0)
    (he : E.bin_is_end ((x0 &&& 0xff) % 256) = false)
    (hv0 : E.bin_is_valid ((x0 &&& 0xff) % 256) = true)
    (hv1 : E.bin_is_valid ((x1 &&& 0xff) % 256) = true)
    (hv2 : E.bin_is_valid ((x2 &&& 0xff) % 256) = true)
    (hm : mem_ptr s.mem (barnb_nb s.q s) (s.ar % 65536) = some c) :
    cpu_bin_run E ((E.IO_OK, x0) :: (E.IO_OK, x1) :: (E.IO_OK, x2) :: rest) b s =
      cpu_bin_run E rest
        { words := b.words + 1, data := x2, bdata := bin_triplet b.bdata x0 x1 x2, cnt := 0 }
        { s with
          mem := mem_set s.mem c (E.bin2word (bin_triplet b.bdata x0 x1 x2))
          ar := (s.ar + 1) % 65536 } := by
  obtain ⟨words, data, bdata, cnt⟩ := b
  simp only at hc
  subst hc
  have l0 : cpu_loop_bin E (E.IO_OK, x0) ⟨words, data, bdata, 0⟩ s =
      (⟨words, x0, fun i => if i = 0 then (x0 &&& 0xff) % 256 else bdata i, 1⟩, s) := by
    have s0 := cpu_do_bin_valid E (E.IO_OK, x0) ⟨words, data, bdata, 0⟩ s rfl
      (by show 0 < 2; omega)
      (fun c => by rw [he] at c; exact absurd c.2 (by decide)) hv0
    simp only [cpu_loop_bin, s0, Bool.false_eq_true, if_false]
  have l1 : cpu_loop_bin E (E.IO_OK, x1)
      ⟨words, x0, fun i => if i = 0 then (x0 &&& 0xff) % 256 else bdata i, 1⟩ s =
      (⟨words, x1, fun i => if i = 1 then (x1 &&& 0xff) % 256
          else if i = 0 then (x0 &&& 0xff) % 256 else bdata i, 2⟩, s) := by
    have s1 := cpu_do_bin_valid E (E.IO_OK, x1)
      ⟨words, x0, fun i => if i = 0 then (x0 &&& 0xff) % 256 else bdata i, 1⟩ s rfl
      (by show 1 < 2; omega) (fun c => absurd c.1 (by show ¬ (1 = 0); omega)) hv1
    simp only [cpu_loop_bin, s1, Bool.false_eq_true, if_false]
  have l2 : cpu_loop_bin E (E.IO_OK, x2)
      ⟨words, x1, fun i => if i = 1 then (x1 &&& 0xff) % 256
          else if i = 0 then (x0 &&& 0xff) % 256 else bdata i, 2⟩ s =
      (⟨words + 1, x2, fun i => if i = 2 then (x2 &&& 0xff) % 256
          else if i = 1 then (x1 &&& 0xff) % 256
          else if i = 0 then (x0 &&& 0xff) % 256 else bdata i, 0⟩,
        { s with
          mem := mem_set s.mem c
            (E.bin2word (fun i =>
              if i = 2 then (x2 &&& 0xff) % 256
              else if i = 1 then (x1 &&& 0xff) % 256
              else if i = 0 then (x0 &&& 0xff) % 256
              else bdata i))
          ar := (s.ar + 1) % 65536 }) := by
    have s2 := cpu_do_bin_third E (E.IO_OK, x2)
      ⟨words, x1, fun i => if i = 1 then (x1 &&& 0xff) % 256
          else if i = 0 then (x0 &&& 0xff) % 256 else bdata i, 2⟩ s c rfl rfl hv2 hm
    simp only [cpu_loop_bin, s2, Bool.false_eq_true, if_false]
  rw [cpu_bin_run, if_pos hst, l0]
  simp only []
  rw [cpu_bin_run, if_pos hst, l1]
  simp only []
  rw [cpu_bin_run, if_pos hst, l2]
  rfl

/-- C27: binary load. A freshly initiated load has `cnt == 0`, and whenever
the loader is at position 0 of a triplet (`cnt == 0`) in state BIN:
(1) three bytes delivered with status OK that are valid, the first not an
end marker, are packed by `bin2word` into one word stored at [Q*NB:AR], AR is
incremented (mod 2^16), the word count goes up by one and the loader is at
position 0 again, the state still BIN; (2) an end-marker byte delivered with
status OK makes the step return true and the loop move BIN to STOP, after
which no further byte is consumed; (3) at the positions 1 and 2 no byte makes
the step return true; (4) so two such triplets followed by an end marker
store two words at the initial AR and at AR+1, leave AR advanced by 2 and the
state STOP. -/
theorem cpu_bin_load (E : Env) (b : Bin) (s : Cpu)
    (hne : E.ECTL_STATE_STOP ≠ E.ECTL_STATE_BIN)
    (hst : s.cpu_state = E.ECTL_STATE_BIN) (hc : b.cnt = 0) :
    (∀ io b0, (cpu_do_bin E true io b0 s).1 = false ∧
      (cpu_do_bin E true io b0 s).2.1.cnt = 0 ∧ (cpu_do_bin E true io b0 s).2.1.words = 0 ∧
      (cpu_do_bin E true io b0 s).2.2 = s) ∧
    (∀ x0 x1 x2 rest c,
      E.bin_is_end ((x0 &&& 0xff) % 256) = false →
      E.bin_is_valid ((x0 &&& 0xff) % 256) = true →
      E.bin_is_valid ((x1 &&& 0xff) % 256) = true →
      E.bin_is_valid ((x2 &&& 0xff) % 256) = true →
      mem_ptr s.mem (barnb_nb s.q s) (s.ar % 65536) = some c →
      cpu_bin_run E ((E.IO_OK, x0) :: (E.IO_OK, x1) :: (E.IO_OK, x2) :: rest) b s =
        cpu_bin_run E rest
          { words := b.words + 1, data := x2, bdata := bin_triplet b.bdata x0 x1 x2, cnt := 0 }
          { s with
            mem := mem_set s.mem c (E.bin2word (bin_triplet b.bdata x0 x1 x2))
            ar := (s.ar + 1) % 65536 }) ∧
    (∀ x rest, E.bin_is_end ((x &&& 0xff) % 256) = true →
      (cpu_do_bin E false (E.IO_OK, x) b s).1 = true ∧
      (cpu_bin_run E ((E.IO_OK, x) :: rest) b s).2 =
        { s with cpu_state := E.ECTL_STATE_STOP }) ∧
    (∀ io (b1 : Bin), b1.cnt ≠ 0 → (cpu_do_bin E false io b1 s).1 = false) ∧
    (∀ x0 x1 x2 x3 x4 x5 xe c0 c1,
      E.bin_is_end ((x0 &&& 0xff) % 256) = false →
      E.bin_is_valid ((x0 &&& 0xff) % 256) = true →
      E.bin_is_valid ((x1 &&& 0xff) % 256) = true →
      E.bin_is_valid ((x2 &&& 0xff) % 256) = true →
      E.bin_is_end ((x3 &&& 0xff) % 256) = false →
      E.bin_is_valid ((x3 &&& 0xff) % 256) = true →
      E.bin_is_valid ((x4 &&& 0xff) % 256) = true →
      E.bin_is_valid ((x5 &&& 0xff) % 256) = true →
      E.bin_is_end ((xe &&& 0xff) % 256) = true →
      mem_ptr s.mem (barnb_nb s.q s) (s.ar % 65536) = some c0 →
      mem_ptr s.mem (barnb_nb s.q s) ((s.ar + 1) % 65536) = some c1 →
      (cpu_bin_run E
        [(E.IO_OK, x0), (E.IO_OK, x1), (E.IO_OK, x2), (E.IO_OK, x3), (E.IO_OK, x4),
          (E.IO_OK, x5), (E.IO_OK, xe)] b s).2 =
        { s with
          mem := mem_set
            (mem_set s.mem c0 (E.bin2word (bin_triplet b.bdata x0 x1 x2))) c1
            (E.bin2word (bin_triplet (bin_triplet b.bdata x0 x1 x2) x3 x4 x5))
          ar := (s.ar + 2) % 65536
          cpu_state := E.ECTL_STATE_STOP }) := by
  have hend : ∀ (x : Nat) (rest : List (Int × Nat)) (b1 : Bin) (s1 : Cpu),
      s1.cpu_state = E.ECTL_STATE_BIN → b1.cnt = 0 →
      E.bin_is_end ((x &&& 0xff) % 256) = true →
      (cpu_bin_run E ((E.IO_OK, x) :: rest) b1 s1).2 =
        { s1 with cpu_state := E.ECTL_STATE_STOP } := by
    intro x rest b1 s1 h1 h2 h3
    obtain ⟨e1, e2⟩ := cpu_do_bin_end E (E.IO_OK, x) b1 s1 rfl h2 h3
    have hl : (cpu_loop_bin E (E.IO_OK, x) b1 s1).2 =
        { s1 with cpu_state := E.ECTL_STATE_STOP } := by
      simp only [cpu_loop_bin, e1, if_true, e2]
      exact cpu_state_change_from E _ _ _ h1
    rw [cpu_bin_run, if_pos h1]
    cases rest with
    | nil => rw [cpu_bin_run]; exact hl
    | cons io rest =>
      have hns : ¬ ((cpu_loop_bin E (E.IO_OK, x) b1 s1).2.cpu_state = E.ECTL_STATE_BIN) := by
        rw [hl]; exact hne
      rw [cpu_bin_run, if_neg hns]
      exact hl
  refine ⟨fun io b0 => ⟨rfl, rfl, rfl, rfl⟩, ?_, ?_, ?_, ?_⟩
  · intro x0 x1 x2 rest c he hv0 hv1 hv2 hm
    exact cpu_bin_run_triplet E x0 x1 x2 rest b s c hst hc he hv0 hv1 hv2 hm
  · intro x rest he
    exact ⟨(cpu_do_bin_end E (E.IO_OK, x) b s rfl hc he).1, hend x rest b s hst hc he⟩
  · intro io b1 h
    exact cpu_do_bin_not_first E io b1 s h
  · intro x0 x1 x2 x3 x4 x5 xe c0 c1 he0 hv0 hv1 hv2 he3 hv3 hv4 hv5 hee hm0 hm1
    rw [cpu_bin_run_triplet E x0 x1 x2 _ b s c0 hst hc he0 hv0 hv1 hv2 hm0]
    have h2 := cpu_bin_run_triplet E x3 x4 x5 [(E.IO_OK, xe)]
      { words := b.words + 1, data := x2, bdata := bin_triplet b.bdata x0 x1 x2, cnt := 0 }
      { s with
        mem := mem_set s.mem c0 (E.bin2word (bin_triplet b.bdata x0 x1 x2))
        ar := (s.ar + 1) % 65536 } c1 hst rfl he3 hv3 hv4 hv5
      (by
        show mem_ptr (mem_set s.mem c0 _) (barnb_nb s.q _) ((s.ar + 1) % 65536 % 65536) = some c1
        rw [mem_ptr_mem_set, Nat.mod_mod]
        exact hm1)
    rw [h2]
    have h3 := hend xe []
      { words := b.words + 1 + 1, data := x5
        bdata := bin_triplet (bin_triplet b.bdata x0 x1 x2) x3 x4 x5, cnt := 0 }
      { s with
        mem := mem_set (mem_set s.mem c0 (E.bin2word (bin_triplet b.bdata x0 x1 x2))) c1
          (E.bin2word (bin_triplet (bin_triplet b.bdata x0 x1 x2) x3 x4 x5))
        ar := ((s.ar + 1) % 65536 + 1) % 65536 } hst rfl hee
    have e : ((s.ar + 1) % 65536 + 1) % 65536 = (s.ar + 2) % 65536 := by omega
    rw [h3, e]

/-- Witness of C27: the bytes 0x81, 0x82, 0x83, 0x84, 0x85, 0x86 and the end
marker 0xc0 load two words at [0:16] and [0:17] and stop the machine. -/
theorem cpu_bin_load_witness :
    (cpu_bin_run mera400
      [(mera400.IO_OK, 0x81), (mera400.IO_OK, 0x82), (mera400.IO_OK, 0x83),
        (mera400.IO_OK, 0x84), (mera400.IO_OK, 0x85), (mera400.IO_OK, 0x86),
        (mera400.IO_OK, 0xc0)]
      { words := 0, data := 0, bdata := fun _ => 0, cnt := 0 }
      { cpu_of [] with cpu_state := 64, ar := 16 }).2 =
      { ({ cpu_of [] with cpu_state := 64, ar := 16 } : Cpu) with
        mem := mem_set
          (mem_set ({ cpu_of [] with cpu_state := 64, ar := 16 } : Cpu).mem (0, 0, 16)
            (mera400.bin2word (bin_triplet (fun _ => 0) 0x81 0x82 0x83))) (0, 0, 17)
          (mera400.bin2word
            (bin_triplet (bin_triplet (fun _ => 0) 0x81 0x82 0x83) 0x84 0x85 0x86))
        ar := (({ cpu_of [] with cpu_state := 64, ar := 16 } : Cpu).ar + 2) % 65536
        cpu_state := mera400.ECTL_STATE_STOP } :=
  (cpu_bin_load mera400 { words := 0, data := 0, bdata := fun _ => 0, cnt := 0 }
    { cpu_of [] with cpu_state := 64, ar := 16 } (by decide) (by decide) rfl).2.2.2.2
    0x81 0x82 0x83 0x84 0x85 0x86 0xc0 (0, 0, 16) (0, 0, 17)
    (by decide) (by decide) (by decide) (by decide) (by decide) (by decide) (by decide)
    (by decide) (by decide) (by decide) (by decide)

/-! ### Operand of a channel command -/

theorem and_shiftRight_mask (n mask k : Nat) :
    (n &&& mask) >>> k = (n >>> k) &&& (mask >>> k) := by
  apply Nat.eq_of_testBit_eq
  intro i
  simp [Nat.testBit_shiftRight, Nat.testBit_and]

/-- C16 (counterexample): for the operand 0x1000 the code's `log_n` is 128,
while (operand >> 5) & 0x7F is 0. -/
theorem mx_cmd_log_n_counterexample :
    mx_cmd_log_n 0x1000 = 128 ∧ (0x1000 >>> 5) &&& 0x7F = 0 ∧
      mx_cmd_log_n 0x1000 ≠ (0x1000 >>> 5) &&& 0x7F := by
  decide

/-- C16 (amended): for every 16-bit operand and every direction, `mx_cmd`
decomposes the operand as cmd = (operand >> 13) | ((direction & 1) << 3), a
4-bit value that is (operand >> 13) | (direction << 3) for the directions 0
and 1, chan_cmd = (operand >> 11) & 0b11, and log_n = (operand >> 5) & 0xFF,
an 8-bit value. -/
theorem mx_cmd_decompose (dir n_arg : Nat) (h : n_arg < 65536) :
    mx_cmd_cmd dir n_arg = (n_arg >>> 13) ||| ((dir &&& 1) <<< 3) ∧
    mx_cmd_cmd dir n_arg < 16 ∧
    (dir ≤ 1 → mx_cmd_cmd dir n_arg = (n_arg >>> 13) ||| (dir <<< 3)) ∧
    mx_cmd_chan_cmd n_arg = (n_arg >>> 11) &&& 0b11 ∧
    mx_cmd_log_n n_arg = (n_arg >>> 5) &&& 0xFF ∧
    mx_cmd_log_n n_arg < 256 := by
  have h13 : (n_arg &&& 0b1110000000000000) >>> 13 = n_arg >>> 13 := by
    rw [and_shiftRight_mask]
    have e : (0b1110000000000000 : Nat) >>> 13 = 2 ^ 3 - 1 := by decide
    rw [e, Nat.and_pow_two_sub_one_eq_mod, Nat.shiftRight_eq_div_pow]
    omega
  have hd : dir &&& 1 = dir % 2 := by
    have e : (1 : Nat) = 2 ^ 1 - 1 := by decide
    rw [e, Nat.and_pow_two_sub_one_eq_mod]
  have hlt : (n_arg >>> 13) ||| ((dir &&& 1) <<< 3) < 16 := by
    have e : (16 : Nat) = 2 ^ 4 := by decide
    rw [e]
    apply Nat.or_lt_two_pow
    · rw [Nat.shiftRight_eq_div_pow]; omega
    · rw [hd, Nat.shiftLeft_eq]; omega
  refine ⟨?_, ?_, ?_, ?_, ?_, ?_⟩
  · unfold mx_cmd_cmd
    rw [h13]
  · unfold mx_cmd_cmd
    rw [h13]
    exact hlt
  · intro hdir
    unfold mx_cmd_cmd
    rw [h13, hd, Nat.mod_eq_of_lt (by omega)]
  · unfold mx_cmd_chan_cmd
    rw [and_shiftRight_mask]
    rfl
  · unfold mx_cmd_log_n
    rw [and_shiftRight_mask]
    rfl
  · unfold mx_cmd_log_n
    rw [and_shiftRight_mask]
    have e : (0b0001111111100000 : Nat) >>> 5 = 2 ^ 8 - 1 := by decide
    rw [e, Nat.and_pow_two_sub_one_eq_mod]
    omega

/-- Witness of C16: the operand 0x1000 with direction 1. -/
theorem mx_cmd_decompose_witness :
    mx_cmd_cmd 1 0x1000 = (0x1000 >>> 13) ||| ((1 &&& 1) <<< 3) ∧
    mx_cmd_cmd 1 0x1000 < 16 ∧
    (1 ≤ 1 → mx_cmd_cmd 1 0x1000 = (0x1000 >>> 13) ||| (1 <<< 3)) ∧
    mx_cmd_chan_cmd 0x1000 = (0x1000 >>> 11) &&& 0b11 ∧
    mx_cmd_log_n 0x1000 = (0x1000 >>> 5) &&& 0xFF ∧
    mx_cmd_log_n 0x1000 < 256 :=
  mx_cmd_decompose 1 0x1000 (by decide)

/-! ### Commands from the CPU -/

theorem mx_event_en {W : Type} (E : MxEnv W) (fuel : Nat) (malloc_ok : Bool) (type : Int)
    (cmd log_n r_arg : Nat) (m : Mx) (us fs : List Nat) (hq : elst_wf m.eventq us fs)
    (hfuel : m.eventq.count < fuel)
    (h : m.state = MX5_QUIT ∨ malloc_ok = false ∨ m.eventq.count ≥ m.eventq.capacity) :
    mx_event E fuel malloc_ok type cmd log_n r_arg m = some (E.IO_EN, m) := by
  unfold mx_event
  by_cases h1 : m.state = MX5_QUIT
  · rw [if_pos h1]
  · rw [if_neg h1]
    by_cases h2 : malloc_ok = false
    · rw [if_pos h2]
    · rw [if_neg h2]
      have h3 : m.eventq.count ≥ m.eventq.capacity := by
        rcases h with h | h | h
        · exact absurd h h1
        · exact absurd h h2
        · exact h
      rw [elst_nlock_insert_full fuel m.eventq us fs _ type hq hfuel h3]
      simp

theorem mx_event_ok {W : Type} (E : MxEnv W) (fuel : Nat) (type : Int)
    (cmd log_n r_arg : Nat) (m : Mx) (us fs : List Nat) (hq : elst_wf m.eventq us fs)
    (hfuel : m.eventq.count < fuel) (h1 : m.state ≠ MX5_QUIT)
    (h3 : m.eventq.count < m.eventq.capacity) :
    ∃ (q : elst mx_event_d) (us1 fs1 : List Nat),
      mx_event E fuel true type cmd log_n r_arg m = some (E.IO_OK, { m with eventq := q }) ∧
      elst_wf q us1 fs1 ∧
      elst_items q us1 =
        (elst_items m.eventq us).takeWhile (fun it => decide (it.1 ≥ type)) ++
          (type, some { type := type, cmd := cmd, log_n := log_n, arg := r_arg }) ::
            (elst_items m.eventq us).dropWhile (fun it => decide (it.1 ≥ type)) ∧
      q.capacity = m.eventq.capacity ∧ q.count = m.eventq.count + 1 := by
  obtain ⟨r, us1, fs1, e1, e2, e3, e4, e5, e6⟩ :=
    elst_nlock_insert_ok fuel m.eventq us fs
      (some { type := type, cmd := cmd, log_n := log_n, arg := r_arg }) type hq hfuel h3
  refine ⟨r.2, us1, fs1, ?_, e3, e4, e5, e6⟩
  unfold mx_event
  rw [if_neg h1, if_neg (by simp), e1]
  have hn : ¬ (r.1 < 0) := by rw [e2]; omega
  simp only [hn, if_false]

/-- C38 (failing input): the operand 0x6400 sent to an initialised channel is
accepted, and the CMD event that `mx_cmd` puts on the event queue carries the
logical-line number 32, which is not below `MX_LINE_CNT`. -/
theorem mx_cmd_log_n_out_of_range :
    mx_cmd_log_n 0x6400 = 32 ∧ ¬ (mx_cmd_log_n 0x6400 < MX_LINE_CNT) ∧
    (mx_cmd multix 2 true 0 0x6400 7 { mx_fresh 0 with state := MX5_INITIALIZED }).map
        (fun r => (r.1, (elst_nlock_pop r.2.2.eventq).1)) =
      some (multix.IO_OK, some { type := multix.MX_EV_CMD, cmd := 3, log_n := 32, arg := 7 }) := by
  decide

/-- C17: the result of `mx_cmd`, on a channel whose event queue is well
formed. For the channel commands INTSPEC, EXISTS and RESET it is OK in every
state. For every other command: in state UNINITIALIZED it is EN and the
channel is unchanged, no event enqueued; in the other states it is OK or EN,
it is OK exactly when the event queue now holds, at its place by priority,
one more event, the CMD event carrying (cmd, log_n, `*r_arg`), and with EN
the channel is unchanged, which happens exactly when the channel is shutting
down, no event could be allocated, or the queue is full. -/
theorem mx_cmd_result {W : Type} (E : MxEnv W) (fuel : Nat) (malloc_ok : Bool)
    (dir n_arg r_arg : Nat) (m : Mx) (us fs : List Nat) (hq : elst_wf m.eventq us fs)
    (hfuel : m.eventq.count < fuel) (hne : E.IO_OK ≠ E.IO_EN) :
    ∃ r, mx_cmd E fuel malloc_ok dir n_arg r_arg m = some r ∧
      ((mx_cmd_cmd dir n_arg = E.MX_CMD_CHAN ∧
          (mx_cmd_chan_cmd n_arg = E.MX_CHAN_CMD_INTSPEC ∨
            mx_cmd_chan_cmd n_arg = E.MX_CHAN_CMD_EXISTS ∨
            mx_cmd_chan_cmd n_arg = E.MX_CHAN_CMD_RESET)) → r.1 = E.IO_OK) ∧
      (¬ (mx_cmd_cmd dir n_arg = E.MX_CMD_CHAN ∧
          (mx_cmd_chan_cmd n_arg = E.MX_CHAN_CMD_INTSPEC ∨
            mx_cmd_chan_cmd n_arg = E.MX_CHAN_CMD_EXISTS ∨
            mx_cmd_chan_cmd n_arg = E.MX_CHAN_CMD_RESET)) →
        (m.state = MX5_UNINITIALIZED → r = (E.IO_EN, r_arg, m)) ∧
        (m.state ≠ MX5_UNINITIALIZED →
          (r.1 = E.IO_OK ∨ r.1 = E.IO_EN) ∧ r.2.1 = r_arg ∧
          (r.1 = E.IO_OK ↔
            ∃ us1 fs1, elst_wf r.2.2.eventq us1 fs1 ∧
              elst_items r.2.2.eventq us1 =
                (elst_items m.eventq us).takeWhile (fun it => decide (it.1 ≥ E.MX_EV_CMD)) ++
                  (E.MX_EV_CMD,
                    some { type := E.MX_EV_CMD, cmd := mx_cmd_cmd dir n_arg,
                           log_n := mx_cmd_log_n n_arg, arg := r_arg }) ::
                    (elst_items m.eventq us).dropWhile
                      (fun it => decide (it.1 ≥ E.MX_EV_CMD))) ∧
          (r.1 = E.IO_OK → r.2.2 = { m with eventq := r.2.2.eventq }) ∧
          (r.1 = E.IO_EN → r.2.2 = m) ∧
          (r.1 = E.IO_EN ↔
            (m.state = MX5_QUIT ∨ malloc_ok = false ∨
              m.eventq.count ≥ m.eventq.capacity)))) := by
  have hlen : us.length = m.eventq.count := hq.2.2.2.2.2.1.symm
  -- every call of mx_event gives a result
  have hev : ∀ (type : Int) (c l a : Nat) (m1 : Mx), m1.eventq = m.eventq →
      ∃ r, mx_event E fuel malloc_ok type c l a m1 = some r := by
    intro type c l a m1 hm
    by_cases h : m1.state = MX5_QUIT ∨ malloc_ok = false ∨ m1.eventq.count ≥ m1.eventq.capacity
    · exact ⟨_, mx_event_en E fuel malloc_ok type c l a m1 us fs (by rw [hm]; exact hq)
        (by rw [hm]; exact hfuel) h⟩
    · have h1 : m1.state ≠ MX5_QUIT := fun c => h (Or.inl c)
      have h2 : malloc_ok = true := by
        cases malloc_ok
        · exact absurd (Or.inr (Or.inl rfl)) h
        · rfl
      have h3 : m1.eventq.count < m1.eventq.capacity := by
        by_contra c
        exact h (Or.inr (Or.inr (by omega)))
      obtain ⟨q, us1, fs1, e, _⟩ := mx_event_ok E fuel type c l a m1 us fs
        (by rw [hm]; exact hq) (by rw [hm]; exact hfuel) h1 h3
      exact ⟨_, by rw [h2]; exact e⟩
  unfold mx_cmd
  by_cases c1 : mx_cmd_cmd dir n_arg = E.MX_CMD_CHAN ∧
      mx_cmd_chan_cmd n_arg = E.MX_CHAN_CMD_INTSPEC
  · rw [if_pos c1]
    obtain ⟨r, hr⟩ := hev E.MX_EV_INT_PUSH 0 0 0 (mx_int_get_spec E m).2 rfl
    rw [hr]
    exact ⟨_, rfl, fun _ => rfl, fun c => absurd ⟨c1.1, Or.inl c1.2⟩ c⟩
  rw [if_neg c1]
  by_cases c2 : mx_cmd_cmd dir n_arg = E.MX_CMD_CHAN ∧
      mx_cmd_chan_cmd n_arg = E.MX_CHAN_CMD_EXISTS
  · rw [if_pos c2]
    exact ⟨_, rfl, fun _ => rfl, fun c => absurd ⟨c2.1, Or.inr (Or.inl c2.2)⟩ c⟩
  rw [if_neg c2]
  by_cases c3 : mx_cmd_cmd dir n_arg = E.MX_CMD_CHAN ∧
      mx_cmd_chan_cmd n_arg = E.MX_CHAN_CMD_RESET
  · rw [if_pos c3]
    have hres : ∃ m1, mx_reset E fuel malloc_ok m = some m1 := by
      unfold mx_reset
      by_cases hs : m.state = MX5_QUIT
      · rw [if_pos hs]; exact ⟨_, rfl⟩
      · rw [if_neg hs]
        obtain ⟨r, hr⟩ := hev E.MX_EV_RESET 0 0 0 { m with state := MX5_UNINITIALIZED } rfl
        rw [hr]
        exact ⟨_, rfl⟩
    obtain ⟨m1, hm1⟩ := hres
    rw [hm1]
    exact ⟨_, rfl, fun _ => rfl, fun c => absurd ⟨c3.1, Or.inr (Or.inr c3.2)⟩ c⟩
  rw [if_neg c3]
  have hnot : ¬ (mx_cmd_cmd dir n_arg = E.MX_CMD_CHAN ∧
      (mx_cmd_chan_cmd n_arg = E.MX_CHAN_CMD_INTSPEC ∨
        mx_cmd_chan_cmd n_arg = E.MX_CHAN_CMD_EXISTS ∨
        mx_cmd_chan_cmd n_arg = E.MX_CHAN_CMD_RESET)) := by
    rintro ⟨a, b | b | b⟩
    · exact c1 ⟨a, b⟩
    · exact c2 ⟨a, b⟩
    · exact c3 ⟨a, b⟩
  by_cases hu : m.state = MX5_UNINITIALIZED
  · rw [if_pos hu]
    exact ⟨_, rfl, fun c => absurd c hnot, fun _ => ⟨fun _ => rfl, fun c => absurd hu c⟩⟩
  rw [if_neg hu]
  by_cases h : m.state = MX5_QUIT ∨ malloc_ok = false ∨ m.eventq.count ≥ m.eventq.capacity
  · rw [mx_event_en E fuel malloc_ok _ _ _ _ m us fs hq hfuel h]
    refine ⟨_, rfl, fun c => absurd c hnot, fun _ => ⟨fun c => absurd c hu, fun _ =>
      ⟨Or.inr rfl, rfl, ⟨fun c => absurd c.symm hne, ?_⟩, fun c => absurd c.symm hne,
        fun _ => rfl, ⟨fun _ => h, fun _ => rfl⟩⟩⟩⟩
    rintro ⟨us1, fs1, w1, w2⟩
    exfalso
    have l1 : us1.length = m.eventq.count := w1.2.2.2.2.2.1.symm
    have l2 := congrArg List.length w2
    unfold elst_items at l2
    simp only [List.length_map, List.length_append, List.length_cons] at l2
    have l3 := congrArg List.length
      (List.takeWhile_append_dropWhile (fun it => decide (it.1 ≥ E.MX_EV_CMD))
        (List.map (fun i => ((m.eventq.data i).prio, (m.eventq.data i).ptr)) us))
    simp only [List.length_map, List.length_append] at l3
    omega
  · have h1 : m.state ≠ MX5_QUIT := fun c => h (Or.inl c)
    have h2 : malloc_ok = true := by
      cases malloc_ok
      · exact absurd (Or.inr (Or.inl rfl)) h
      · rfl
    have h3 : m.eventq.count < m.eventq.capacity := by
      by_contra c
      exact h (Or.inr (Or.inr (by omega)))
    obtain ⟨q, us1, fs1, e, w1, w2, _, _⟩ := mx_event_ok E fuel E.MX_EV_CMD
      (mx_cmd_cmd dir n_arg) (mx_cmd_log_n n_arg) r_arg m us fs hq hfuel h1 h3
    subst h2
    rw [e]
    exact ⟨_, rfl, fun c => absurd c hnot, fun _ => ⟨fun c => absurd c hu, fun _ =>
      ⟨Or.inl rfl, rfl, ⟨fun _ => ⟨us1, fs1, w1, w2⟩, fun _ => rfl⟩, fun _ => rfl,
        fun c => absurd c hne, ⟨fun c => absurd c hne, fun c => absurd c h⟩⟩⟩⟩

/-- Witness of C17: the operand 0x6020 (command 3, line 1) with the word 7,
sent to a fresh channel that has finished its initialisation. -/
theorem mx_cmd_result_witness :
    ∃ r, mx_cmd multix 1 true 0 0x6020 7 { mx_fresh 0 with state := MX5_INITIALIZED } = some r ∧
      ((mx_cmd_cmd 0 0x6020 = multix.MX_CMD_CHAN ∧
          (mx_cmd_chan_cmd 0x6020 = multix.MX_CHAN_CMD_INTSPEC ∨
            mx_cmd_chan_cmd 0x6020 = multix.MX_CHAN_CMD_EXISTS ∨
            mx_cmd_chan_cmd 0x6020 = multix.MX_CHAN_CMD_RESET)) → r.1 = multix.IO_OK) ∧
      (¬ (mx_cmd_cmd 0 0x6020 = multix.MX_CMD_CHAN ∧
          (mx_cmd_chan_cmd 0x6020 = multix.MX_CHAN_CMD_INTSPEC ∨
            mx_cmd_chan_cmd 0x6020 = multix.MX_CHAN_CMD_EXISTS ∨
            mx_cmd_chan_cmd 0x6020 = multix.MX_CHAN_CMD_RESET)) →
        (({ mx_fresh 0 with state := MX5_INITIALIZED } : Mx).state = MX5_UNINITIALIZED →
          r = (multix.IO_EN, 7, { mx_fresh 0 with state := MX5_INITIALIZED })) ∧
        (({ mx_fresh 0 with state := MX5_INITIALIZED } : Mx).state ≠ MX5_UNINITIALIZED →
          (r.1 = multix.IO_OK ∨ r.1 = multix.IO_EN) ∧ r.2.1 = 7 ∧
          (r.1 = multix.IO_OK ↔
            ∃ us1 fs1, elst_wf r.2.2.eventq us1 fs1 ∧
              elst_items r.2.2.eventq us1 =
                (elst_items ({ mx_fresh 0 with state := MX5_INITIALIZED } : Mx).eventq
                    []).takeWhile (fun it => decide (it.1 ≥ multix.MX_EV_CMD)) ++
                  (multix.MX_EV_CMD,
                    some { type := multix.MX_EV_CMD, cmd := mx_cmd_cmd 0 0x6020,
                           log_n := mx_cmd_log_n 0x6020, arg := 7 }) ::
                    (elst_items ({ mx_fresh 0 with state := MX5_INITIALIZED } : Mx).eventq
                        []).dropWhile
                      (fun it => decide (it.1 ≥ multix.MX_EV_CMD))) ∧
          (r.1 = multix.IO_OK →
            r.2.2 = { ({ mx_fresh 0 with state := MX5_INITIALIZED } : Mx) with
                      eventq := r.2.2.eventq }) ∧
          (r.1 = multix.IO_EN → r.2.2 = { mx_fresh 0 with state := MX5_INITIALIZED }) ∧
          (r.1 = multix.IO_EN ↔
            (({ mx_fresh 0 with state := MX5_INITIALIZED } : Mx).state = MX5_QUIT ∨
              true = false ∨
              ({ mx_fresh 0 with state := MX5_INITIALIZED } : Mx).eventq.count ≥
                ({ mx_fresh 0 with state := MX5_INITIALIZED } : Mx).eventq.capacity)))) :=
  mx_cmd_result multix 1 true 0 0x6020 7 { mx_fresh 0 with state := MX5_INITIALIZED } [] []
    (by decide) (by decide) (by decide)

/-! ### The interrupt queue of the channel -/

theorem elst_put_capacity {α : Type} (l : elst α) (x : Option α) (prio : Int) (p n : Nat) :
    (elst_put l x prio p n).2.capacity = l.capacity := by
  have hg : (elst_get_free l).2.capacity = l.capacity := by
    unfold elst_get_free
    by_cases h1 : l.count ≥ l.capacity
    · simp only [h1, if_true]
    · by_cases h2 : (l.data ELST_FREE).n = ELST_FREE
      · simp only [h1, h2, if_true, if_false]
      · simp only [h1, h2, if_false]
  unfold elst_put
  by_cases h : (elst_get_free l).1 < 0
  · simp only [h, if_true]
    exact hg
  · simp only [h, if_false]
    exact hg

theorem elst_append_all_capacity {α : Type} (xs : List α) :
    ∀ l : elst α, (elst_append_all l xs).capacity = l.capacity := by
  induction xs with
  | nil => intro l; rfl
  | cons x xs ih =>
    intro l
    rw [elst_append_all, ih]
    exact elst_put_capacity l _ _ _ _

theorem mx_intq_holds_count (q : elst Nat) (vals : List Nat) (h : mx_intq_holds q vals) :
    q.count = vals.length := by
  obtain ⟨us, fs, h1, h2⟩ := h
  have e := congrArg List.length h2
  unfold elst_items at e
  simp only [List.length_map] at e
  rw [← e]
  exact h1.2.2.2.2.2.1

theorem mx_intq_holds_append (q : elst Nat) (vals : List Nat) (x : Nat)
    (h : mx_intq_holds q vals) (hc : q.count < q.capacity) :
    (elst_nlock_append q (some x)).1 = ((q.count + 1 : Nat) : Int) ∧
    mx_intq_holds (elst_nlock_append q (some x)).2 (vals ++ [x]) ∧
    (elst_nlock_append q (some x)).2.capacity = q.capacity := by
  obtain ⟨us, fs, h1, h2⟩ := h
  obtain ⟨i, fs1, e1, e2, e3, e4, _⟩ := elst_nlock_append_ok q us fs (some x) h1 hc
  refine ⟨e1, ⟨us ++ [i], fs1, e2, ?_⟩, e4⟩
  rw [e3, h2]
  simp

theorem mx_intq_holds_prepend (q : elst Nat) (vals : List Nat) (x : Nat)
    (h : mx_intq_holds q vals) (hc : q.count < q.capacity) :
    (elst_nlock_prepend q (some x)).1 = ((q.count + 1 : Nat) : Int) ∧
    mx_intq_holds (elst_nlock_prepend q (some x)).2 (x :: vals) ∧
    (elst_nlock_prepend q (some x)).2.capacity = q.capacity := by
  obtain ⟨us, fs, h1, h2⟩ := h
  obtain ⟨i, fs1, e1, e2, e3, e4, _⟩ := elst_nlock_prepend_ok q us fs (some x) h1 hc
  refine ⟨e1, ⟨i :: us, fs1, e2, ?_⟩, e4⟩
  rw [e3, h2]
  simp

theorem mx_intq_holds_full (q : elst Nat) (x : Option Nat) (hc : q.count ≥ q.capacity) :
    elst_nlock_append q x = (-2, q) ∧ elst_nlock_prepend q x = (-2, q) :=
  ⟨elst_put_full q x 0 _ _ hc, elst_put_full q x 0 _ _ hc⟩

theorem mx_intq_holds_pop_nil (q : elst Nat) (h : mx_intq_holds q []) :
    elst_nlock_pop q = (none, q) := by
  obtain ⟨us, fs, h1, h2⟩ := h
  have e := congrArg List.length h2
  unfold elst_items at e
  simp only [List.length_map, List.length_nil] at e
  have hus : us = [] := List.eq_nil_of_length_eq_zero e
  subst hus
  exact elst_nlock_pop_nil q fs h1

theorem mx_intq_holds_pop_cons (q : elst Nat) (v : Nat) (t : List Nat)
    (h : mx_intq_holds q (v :: t)) :
    (elst_nlock_pop q).1 = some v ∧ mx_intq_holds (elst_nlock_pop q).2 t ∧
    (elst_nlock_pop q).2.capacity = q.capacity ∧ (elst_nlock_pop q).2.count + 1 = q.count := by
  obtain ⟨us, fs, h1, h2⟩ := h
  cases us with
  | nil =>
    have e := congrArg List.length h2
    simp [elst_items] at e
  | cons i us =>
    obtain ⟨e1, e2, e3, e4, e5⟩ := elst_nlock_pop_cons q i us fs h1
    have h3 : ((q.data i).prio, (q.data i).ptr) = ((0 : Int), some v) ∧
        elst_items q us = t.map (fun v => ((0 : Int), some v)) := by
      unfold elst_items at h2 ⊢
      simp only [List.map_cons, List.cons.injEq] at h2
      exact h2
    refine ⟨?_, ⟨us, fs ++ [i], e2, ?_⟩, e4, e5⟩
    · rw [e1]
      exact (Prod.mk.inj h3.1).2
    · rw [elst_items_congr q (elst_nlock_pop q).2 us e3]
      exact h3.2

theorem mx_int_push_latched {W : Type} (E : MxEnv W) (m : Mx) (w : W)
    (h : m.intspec ≠ E.MX_IRQ_INIEA) : mx_int_push E m w = (m, w) := by
  unfold mx_int_push
  rw [if_neg h]

theorem mx_int_push_nil {W : Type} (E : MxEnv W) (m : Mx) (w : W)
    (h : mx_intq_holds m.intq []) : mx_int_push E m w = (m, w) := by
  unfold mx_int_push
  split_ifs
  · rw [mx_intq_holds_pop_nil m.intq h]
  · rfl

theorem mx_int_push_load {W : Type} (E : MxEnv W) (m : Mx) (w : W) (v : Nat) (t : List Nat)
    (hl : m.intspec = E.MX_IRQ_INIEA) (h : mx_intq_holds m.intq (v :: t)) :
    mx_int_push E m w =
      ({ m with intq := (elst_nlock_pop m.intq).2, intspec := v }, mx_int_set E m w) ∧
    mx_intq_holds (elst_nlock_pop m.intq).2 t ∧
    (elst_nlock_pop m.intq).2.capacity = m.intq.capacity ∧
    (elst_nlock_pop m.intq).2.count + 1 = m.intq.count := by
  obtain ⟨e1, e2, e3, e4⟩ := mx_intq_holds_pop_cons m.intq v t h
  refine ⟨?_, e2, e3, e4⟩
  unfold mx_int_push
  rw [if_pos hl]
  generalize elst_nlock_pop m.intq = r at e1
  obtain ⟨a, b⟩ := r
  simp only at e1
  subst e1
  rfl

theorem mx_int_set_eq {W : Type} (E : MxEnv W) (m : Mx) (w : W) :
    (m.state ≠ MX5_UNINITIALIZED → mx_int_set E m w = E.io_int_set m.chnum w) ∧
    (m.state = MX5_UNINITIALIZED → mx_int_set E m w = w) := by
  unfold mx_int_set
  exact ⟨fun h => by rw [if_pos h], fun h => by rw [if_neg (fun c => c h)]⟩

theorem mx_int_enqueue_full {W : Type} (E : MxEnv W) (irq line : Nat) (m : Mx) (w : W)
    (hl : m.intspec ≠ E.MX_IRQ_INIEA) (hc : m.intq.count ≥ m.intq.capacity) :
    mx_int_enqueue E irq line m w = (-2, m, w) := by
  unfold mx_int_enqueue
  rw [(mx_intq_holds_full m.intq _ hc).1]
  exact congrArg (fun r => ((-2 : Int), r)) (mx_int_push_latched E m w hl)

theorem mx_full_specs_length : mx_full_specs.length = 1024 :=
  List.length_replicate 1024 0x0500

theorem mx_full_holds :
    mx_intq_holds mx_full.intq mx_full_specs ∧
    mx_full.intq.count = 1024 ∧ mx_full.intq.capacity = 1024 := by
  have hw : elst_wf (elst_create 1024 elst_raw0) [] [] := elst_create_wf 1024 elst_raw0 (by omega)
  have hc : (elst_create 1024 elst_raw0).count + mx_full_specs.length ≤
      (elst_create 1024 elst_raw0).capacity := by
    rw [mx_full_specs_length]
    exact Nat.le_refl 1024
  obtain ⟨us1, fs1, e1, e2, e3⟩ :=
    elst_append_all_ok mx_full_specs (elst_create 1024 elst_raw0) [] [] hw hc
  have hq : mx_full.intq = elst_append_all (elst_create 1024 elst_raw0) mx_full_specs := by
    simp only [mx_full]
  rw [hq]
  refine ⟨⟨us1, fs1, e1, ?_⟩, ?_, ?_⟩
  · rw [e2]
    exact List.nil_append _
  · rw [e3, mx_full_specs_length]
    exact Nat.zero_add 1024
  · rw [elst_append_all_capacity]
    rfl

/-- C18 (counterexample): on a channel whose latch is occupied and whose
interrupt queue holds 1024 specifications, `mx_int_enqueue(5, 0)` appends
nothing: it returns -2 and leaves the queue, which does not hold 0x0500
at a new tail, the latch and the machine as they were. -/
theorem mx_int_enqueue_full_counterexample :
    mx_full.intspec ≠ multix.MX_IRQ_INIEA ∧
    mx_int_enqueue multix 5 0 mx_full (bus_of []) = (-2, mx_full, bus_of []) ∧
    mx_intq_holds mx_full.intq mx_full_specs ∧
    ¬ mx_intq_holds mx_full.intq (mx_full_specs ++ [0x0500]) := by
  obtain ⟨h1, h2, h3⟩ := mx_full_holds
  have hl : mx_full.intspec ≠ multix.MX_IRQ_INIEA := by
    show (0x0200 : Nat) ≠ 0
    omega
  have hf : mx_full.intq.count ≥ mx_full.intq.capacity := by
    rw [h2, h3]
  refine ⟨hl, ?_, h1, fun c => ?_⟩
  · exact mx_int_enqueue_full multix 5 0 mx_full (bus_of []) hl hf
  · have e := mx_intq_holds_count _ _ c
    rw [h2, List.length_append, mx_full_specs_length, List.length_singleton] at e
    omega

/-- C18 (amended): `mx_int_enqueue(irq, line)` with the specification
s = ((irq << 8) | line) mod 2^16. On a channel whose latch is empty and whose
interrupt queue is empty (and has room) it leaves the latch equal to s, the
queue empty and everything else in the channel as it was, returns 1, and
raises the CPU interrupt of the channel through `mx_int_set`: `io_int_set`
with the channel number unless the state is UNINITIALIZED. On a channel whose
latch is occupied and whose queue is not full it leaves the latch unchanged,
appends s at the tail of the queue, returns the new count and raises no
interrupt. When the latch is occupied and the queue is full it returns -2 and
changes nothing. -/
theorem mx_int_enqueue_latch {W : Type} (E : MxEnv W) (irq line : Nat) (m : Mx) (w : W) :
    (m.intspec = E.MX_IRQ_INIEA → mx_intq_holds m.intq [] → 0 < m.intq.capacity →
      ∃ q, mx_int_enqueue E irq line m w =
          (1, { m with intq := q, intspec := ((irq <<< 8) ||| line) % 65536 },
            mx_int_set E m w) ∧
        mx_intq_holds q [] ∧
        (m.state ≠ MX5_UNINITIALIZED → mx_int_set E m w = E.io_int_set m.chnum w) ∧
        (m.state = MX5_UNINITIALIZED → mx_int_set E m w = w)) ∧
    (m.intspec ≠ E.MX_IRQ_INIEA → ∀ vals, mx_intq_holds m.intq vals →
      (m.intq.count < m.intq.capacity →
        ∃ q, mx_int_enqueue E irq line m w =
            (((vals.length + 1 : Nat) : Int), { m with intq := q }, w) ∧
          mx_intq_holds q (vals ++ [((irq <<< 8) ||| line) % 65536])) ∧
      (m.intq.count ≥ m.intq.capacity → mx_int_enqueue E irq line m w = (-2, m, w))) := by
  constructor
  · intro hl hq hcap
    have hc : m.intq.count < m.intq.capacity := by
      rw [mx_intq_holds_count _ _ hq]
      exact hcap
    obtain ⟨a1, a2, a3⟩ := mx_intq_holds_append m.intq [] (((irq <<< 8) ||| line) % 65536) hq hc
    obtain ⟨b1, b2, _, _⟩ := mx_int_push_load E
      { m with intq := (elst_nlock_append m.intq (some (((irq <<< 8) ||| line) % 65536))).2 } w
      _ [] hl a2
    refine ⟨_, ?_, b2, (mx_int_set_eq E m w).1, (mx_int_set_eq E m w).2⟩
    unfold mx_int_enqueue
    rw [b1, a1, mx_intq_holds_count _ _ hq]
    rfl
  · intro hl vals hq
    constructor
    · intro hc
      obtain ⟨a1, a2, a3⟩ :=
        mx_intq_holds_append m.intq vals (((irq <<< 8) ||| line) % 65536) hq hc
      have hp := mx_int_push_latched E
        { m with intq := (elst_nlock_append m.intq (some (((irq <<< 8) ||| line) % 65536))).2 }
        w hl
      refine ⟨_, ?_, a2⟩
      unfold mx_int_enqueue
      rw [hp, a1, mx_intq_holds_count _ _ hq]
    · intro hc
      exact mx_int_enqueue_full E irq line m w hl hc

/-- Witness of C18: the interrupt 2 for line 0 on a fresh channel that has
finished its initialisation. -/
theorem mx_int_enqueue_latch_witness :
    ∃ q, mx_int_enqueue multix 2 0 { mx_fresh 3 with state := MX5_INITIALIZED } (bus_of []) =
        (1, { ({ mx_fresh 3 with state := MX5_INITIALIZED } : Mx) with
              intq := q, intspec := ((2 <<< 8) ||| 0) % 65536 },
          mx_int_set multix { mx_fresh 3 with state := MX5_INITIALIZED } (bus_of [])) ∧
      mx_intq_holds q [] ∧
      (({ mx_fresh 3 with state := MX5_INITIALIZED } : Mx).state ≠ MX5_UNINITIALIZED →
        mx_int_set multix { mx_fresh 3 with state := MX5_INITIALIZED } (bus_of []) =
          multix.io_int_set ({ mx_fresh 3 with state := MX5_INITIALIZED } : Mx).chnum
            (bus_of [])) ∧
      (({ mx_fresh 3 with state := MX5_INITIALIZED } : Mx).state = MX5_UNINITIALIZED →
        mx_int_set multix { mx_fresh 3 with state := MX5_INITIALIZED } (bus_of []) =
          bus_of []) :=
  (mx_int_enqueue_latch multix 2 0 { mx_fresh 3 with state := MX5_INITIALIZED } (bus_of [])).1
    (by decide) ⟨[], [], by decide, rfl⟩ (by decide)

/-! ### Order of the interrupts -/

theorem mx_int_run_pending {W : Type} (E : MxEnv W) (hI : E.MX_IRQ_INIEA < 65536)
    (ops : List mx_int_op) :
    ∀ (m : Mx) (w : W) (vals : List Nat), mx_intq_holds m.intq vals →
      (∀ v ∈ vals, v ≠ E.MX_IRQ_INIEA) →
      (∀ r ∈ (mx_int_run E ops m w).2.1, 0 ≤ r) →
      (∀ s ∈ mx_int_specs ops, s ≠ E.MX_IRQ_INIEA) →
      ∃ vals1, mx_intq_holds (mx_int_run E ops m w).2.2.1.intq vals1 ∧
        (mx_int_run E ops m w).1.filter (fun r => decide (r ≠ E.MX_IRQ_INIEA)) ++
            (mx_latch E.MX_IRQ_INIEA (mx_int_run E ops m w).2.2.1 ++ vals1) =
          (mx_latch E.MX_IRQ_INIEA m ++ vals) ++ mx_int_specs ops := by
  induction ops with
  | nil =>
    intro m w vals hq _ _ _
    exact ⟨vals, hq, by simp [mx_int_run, mx_int_specs]⟩
  | cons op ops ih =>
    intro m w vals hq hv hno hsp
    cases op with
    | enqueue intr line =>
      have hs : ((intr <<< 8) ||| line) % 65536 ≠ E.MX_IRQ_INIEA :=
        hsp _ (by simp [mx_int_specs])
      have hsp1 : ∀ s ∈ mx_int_specs ops, s ≠ E.MX_IRQ_INIEA :=
        fun s h => hsp s (by simp [mx_int_specs, h])
      have hr : 0 ≤ (mx_int_enqueue E intr line m w).1 :=
        hno _ (by simp [mx_int_run])
      have hno1 : ∀ r ∈ (mx_int_run E ops (mx_int_enqueue E intr line m w).2.1
          (mx_int_enqueue E intr line m w).2.2).2.1, 0 ≤ r :=
        fun r h => hno r (by simp [mx_int_run, h])
      have hc : m.intq.count < m.intq.capacity := by
        by_contra c
        have e : (mx_int_enqueue E intr line m w).1 = -2 := by
          unfold mx_int_enqueue
          rw [(mx_intq_holds_full m.intq _ (by omega)).1]
        rw [e] at hr
        omega
      obtain ⟨a1, a2, a3⟩ :=
        mx_intq_holds_append m.intq vals (((intr <<< 8) ||| line) % 65536) hq hc
      have hv1 : ∀ v ∈ vals ++ [((intr <<< 8) ||| line) % 65536], v ≠ E.MX_IRQ_INIEA := by
        intro v h
        rcases List.mem_append.1 h with h | h
        · exact hv v h
        · rw [List.mem_singleton.1 h]; exact hs
      -- the channel after the enqueue
      have key : ∃ vals2, mx_intq_holds (mx_int_enqueue E intr line m w).2.1.intq vals2 ∧
          (∀ v ∈ vals2, v ≠ E.MX_IRQ_INIEA) ∧
          mx_latch E.MX_IRQ_INIEA (mx_int_enqueue E intr line m w).2.1 ++ vals2 =
            (mx_latch E.MX_IRQ_INIEA m ++ vals) ++ [((intr <<< 8) ||| line) % 65536] := by
        by_cases hl : m.intspec = E.MX_IRQ_INIEA
        · cases hvs : vals ++ [((intr <<< 8) ||| line) % 65536] with
          | nil => simp at hvs
          | cons v t =>
            rw [hvs] at a2 hv1
            obtain ⟨b1, b2, _, _⟩ := mx_int_push_load E
              { m with
                intq := (elst_nlock_append m.intq (some (((intr <<< 8) ||| line) % 65536))).2 }
              w v t hl a2
            have e : (mx_int_enqueue E intr line m w).2 = _ := b1
            refine ⟨t, by rw [e]; exact b2, fun x hx => hv1 x (List.mem_cons_of_mem _ hx), ?_⟩
            rw [e]
            have hvn : v ≠ E.MX_IRQ_INIEA := hv1 v (List.mem_cons_self _ _)
            simp only [mx_latch, if_neg hvn, if_pos hl, List.nil_append, List.singleton_append]
            exact hvs.symm
        · have hp := mx_int_push_latched E
            { m with
              intq := (elst_nlock_append m.intq (some (((intr <<< 8) ||| line) % 65536))).2 }
            w hl
          have e : (mx_int_enqueue E intr line m w).2 = _ := hp
          refine ⟨vals ++ [((intr <<< 8) ||| line) % 65536], by rw [e]; exact a2, hv1, ?_⟩
          rw [e]
          simp only [mx_latch, if_neg hl, List.append_assoc]
      obtain ⟨vals2, k1, k2, k3⟩ := key
      obtain ⟨vals1, i1, i2⟩ := ih (mx_int_enqueue E intr line m w).2.1
        (mx_int_enqueue E intr line m w).2.2 vals2 k1 k2 hno1 hsp1
      refine ⟨vals1, i1, i2.trans ?_⟩
      rw [k3]
      simp [mx_int_specs]
    | intspec =>
      have hsp1 : ∀ s ∈ mx_int_specs ops, s ≠ E.MX_IRQ_INIEA := fun s h => hsp s h
      have hno1 : ∀ r ∈ (mx_int_run E ops (mx_int_push E (mx_int_get_spec E m).2 w).1
          (mx_int_push E (mx_int_get_spec E m).2 w).2).2.1, 0 ≤ r := fun r h => hno r h
      have hg : (mx_int_get_spec E m).2 = { m with intspec := E.MX_IRQ_INIEA } := by
        unfold mx_int_get_spec
        rw [Nat.mod_eq_of_lt hI]
      have key : ∃ vals2, mx_intq_holds (mx_int_push E (mx_int_get_spec E m).2 w).1.intq vals2 ∧
          (∀ v ∈ vals2, v ≠ E.MX_IRQ_INIEA) ∧
          mx_latch E.MX_IRQ_INIEA (mx_int_push E (mx_int_get_spec E m).2 w).1 ++ vals2 =
            vals := by
        rw [hg]
        cases vals with
        | nil =>
          rw [mx_int_push_nil E { m with intspec := E.MX_IRQ_INIEA } w hq]
          exact ⟨[], hq, hv, by simp [mx_latch]⟩
        | cons v t =>
          obtain ⟨b1, b2, _, _⟩ :=
            mx_int_push_load E { m with intspec := E.MX_IRQ_INIEA } w v t rfl hq
          rw [b1]
          have hvn : v ≠ E.MX_IRQ_INIEA := hv v (List.mem_cons_self _ _)
          exact ⟨t, b2, fun x hx => hv x (List.mem_cons_of_mem _ hx),
            by simp [mx_latch, hvn]⟩
      obtain ⟨vals2, k1, k2, k3⟩ := key
      obtain ⟨vals1, i1, i2⟩ := ih (mx_int_push E (mx_int_get_spec E m).2 w).1
        (mx_int_push E (mx_int_get_spec E m).2 w).2 vals2 k1 k2 hno1 hsp1
      refine ⟨vals1, i1, ?_⟩
      rw [k3] at i2
      by_cases hl : m.intspec = E.MX_IRQ_INIEA
      · refine Eq.trans ?_ (i2.trans ?_)
        · show List.filter _ (m.intspec :: _) ++ _ = _
          rw [List.filter_cons_of_neg (by simp [hl])]
          rfl
        · simp [mx_latch, hl, mx_int_specs]
      · refine Eq.trans ?_ ((congrArg (fun t => m.intspec :: t) i2).trans ?_)
        · show List.filter _ (m.intspec :: _) ++ _ = _
          rw [List.filter_cons_of_pos (by simp [hl])]
          rfl
        · simp [mx_latch, hl, mx_int_specs]

/-- C19 (counterexample): on an initialised channel with an empty latch and an
empty queue, the run enqueue(0, 0), INTSPEC, enqueue(5, 0), INTSPEC
overflows nothing, enqueues the specifications 0x0000 and 0x0500, and the CPU
reads 0x0000, which is the value `none`, and 0x0500: the non-empty
specifications read are not a prefix of the enqueued ones. -/
theorem mx_int_order_counterexample :
    (mx_int_run multix
        [mx_int_op.enqueue 0 0, mx_int_op.intspec, mx_int_op.enqueue 5 0, mx_int_op.intspec]
        { mx_fresh 0 with state := MX5_INITIALIZED } (bus_of [])).1 = [0, 0x0500] ∧
    (mx_int_run multix
        [mx_int_op.enqueue 0 0, mx_int_op.intspec, mx_int_op.enqueue 5 0, mx_int_op.intspec]
        { mx_fresh 0 with state := MX5_INITIALIZED } (bus_of [])).2.1 = [1, 1] ∧
    mx_int_specs
        [mx_int_op.enqueue 0 0, mx_int_op.intspec, mx_int_op.enqueue 5 0, mx_int_op.intspec] =
      [0, 0x0500] ∧
    multix.MX_IRQ_INIEA = 0 ∧
    ¬ ([0x0500] <+: [0, 0x0500]) := by
  refine ⟨by decide, by decide, by decide, rfl, ?_⟩
  rintro ⟨t, ht⟩
  simp at ht

/-- C19 (amended): within one channel, from an empty latch and an empty
queue, for every sequential run made of interrupt enqueues and CPU INTSPEC
reads each followed by a push, in which no call of `mx_int_enqueue` is
refused (no queue overflow) and no enqueued specification equals the value
`none` (INIEA), the sequence of non-empty specifications the CPU reads is a
prefix of the sequence of enqueued specifications in enqueue order. An
INTSPEC read returns the latch and sets it to `none`, so a second read with
no push in between returns `none`. -/
theorem mx_int_order {W : Type} (E : MxEnv W) (ops : List mx_int_op) (m : Mx) (w : W)
    (hI : E.MX_IRQ_INIEA < 65536) (hl : m.intspec = E.MX_IRQ_INIEA)
    (hq : mx_intq_holds m.intq [])
    (hno : ∀ r ∈ (mx_int_run E ops m w).2.1, 0 ≤ r)
    (hsp : ∀ s ∈ mx_int_specs ops, s ≠ E.MX_IRQ_INIEA) :
    (mx_int_run E ops m w).1.filter (fun r => decide (r ≠ E.MX_IRQ_INIEA)) <+:
      mx_int_specs ops ∧
    (∀ m1 : Mx, (mx_int_get_spec E m1).1 = m1.intspec ∧
      (mx_int_get_spec E m1).2 = { m1 with intspec := E.MX_IRQ_INIEA } ∧
      (mx_int_get_spec E (mx_int_get_spec E m1).2).1 = E.MX_IRQ_INIEA) := by
  constructor
  · obtain ⟨vals1, _, h⟩ := mx_int_run_pending E hI ops m w [] hq (by simp) hno hsp
    simp only [mx_latch, if_pos hl, List.nil_append, List.append_nil] at h
    exact ⟨_, h⟩
  · intro m1
    refine ⟨rfl, ?_, ?_⟩
    · unfold mx_int_get_spec
      rw [Nat.mod_eq_of_lt hI]
    · unfold mx_int_get_spec
      exact Nat.mod_eq_of_lt hI

/-- Witness of C19: three interrupts and two reads on a fresh channel. -/
theorem mx_int_order_witness :
    (mx_int_run multix
        [mx_int_op.enqueue 2 0, mx_int_op.enqueue 7 1, mx_int_op.intspec,
          mx_int_op.enqueue 5 0, mx_int_op.intspec]
        (mx_fresh 0) (bus_of [])).1.filter (fun r => decide (r ≠ multix.MX_IRQ_INIEA)) <+:
      mx_int_specs
        [mx_int_op.enqueue 2 0, mx_int_op.enqueue 7 1, mx_int_op.intspec,
          mx_int_op.enqueue 5 0, mx_int_op.intspec] ∧
    (∀ m1 : Mx, (mx_int_get_spec multix m1).1 = m1.intspec ∧
      (mx_int_get_spec multix m1).2 = { m1 with intspec := multix.MX_IRQ_INIEA } ∧
      (mx_int_get_spec multix (mx_int_get_spec multix m1).2).1 = multix.MX_IRQ_INIEA) :=
  mx_int_order multix
    [mx_int_op.enqueue 2 0, mx_int_op.enqueue 7 1, mx_int_op.intspec,
      mx_int_op.enqueue 5 0, mx_int_op.intspec]
    (mx_fresh 0) (bus_of []) (by decide) (by decide) ⟨[], [], by decide, rfl⟩
    (by decide) (by decide)

/-! ### REQUEUE -/

/-- C20 (counterexample): on a channel in state UNINITIALIZED whose latch
holds 0x0200, REQUEUE latches 0x0200 again but no CPU interrupt is raised:
`io_int_set` is not called. -/
theorem mx_cmd_requeue_counterexample :
    (mx_fresh 3).state = MX5_UNINITIALIZED ∧
    ({ mx_fresh 3 with intspec := 0x0200 } : Mx).intspec ≠ multix.MX_IRQ_INIEA ∧
    (mx_cmd_requeue multix { mx_fresh 3 with intspec := 0x0200 } (bus_of [])).1.intspec =
      0x0200 ∧
    (mx_cmd_requeue multix { mx_fresh 3 with intspec := 0x0200 } (bus_of [])).2.ints = [] := by
  decide

/-- C20 (amended): when the latch holds L (not `none`) and the queue is not
full, `mx_cmd_requeue` puts L in front of every queued specification and the
push that follows latches L again, so the latch and the queue contents are
the same as before the command, and the interrupt of the channel goes through
`mx_int_set` once more: it is raised with `io_int_set` unless the channel is
UNINITIALIZED, in which case nothing is raised. When the latch is `none`,
REQUEUE is `mx_int_push`. -/
theorem mx_cmd_requeue_latch {W : Type} (E : MxEnv W) (m : Mx) (w : W)
    (hI : E.MX_IRQ_INIEA < 65536) :
    (m.intspec ≠ E.MX_IRQ_INIEA → ∀ vals, mx_intq_holds m.intq vals →
      m.intq.count < m.intq.capacity →
      mx_intq_holds (elst_nlock_prepend m.intq (some m.intspec)).2 (m.intspec :: vals) ∧
      ∃ q, mx_cmd_requeue E m w = ({ m with intq := q }, mx_int_set E m w) ∧
        mx_intq_holds q vals ∧
        (m.state ≠ MX5_UNINITIALIZED → mx_int_set E m w = E.io_int_set m.chnum w) ∧
        (m.state = MX5_UNINITIALIZED → mx_int_set E m w = w)) ∧
    (m.intspec = E.MX_IRQ_INIEA → mx_cmd_requeue E m w = mx_int_push E m w) := by
  constructor
  · intro hl vals hq hc
    obtain ⟨_, a2, _⟩ := mx_intq_holds_prepend m.intq vals m.intspec hq hc
    obtain ⟨b1, b2, _, _⟩ := mx_int_push_load E
      { m with
        intq := (elst_nlock_prepend m.intq (some m.intspec)).2
        intspec := E.MX_IRQ_INIEA } w m.intspec vals rfl a2
    refine ⟨a2, _, ?_, b2, (mx_int_set_eq E m w).1, (mx_int_set_eq E m w).2⟩
    unfold mx_cmd_requeue
    rw [if_pos hl, Nat.mod_eq_of_lt hI, b1]
    rfl
  · intro hl
    unfold mx_cmd_requeue
    rw [if_neg (fun c => c hl)]

/-- Witness of C20: the latch 0x0200 on an initialised channel with an empty
queue. -/
theorem mx_cmd_requeue_latch_witness :
    mx_intq_holds
        (elst_nlock_prepend
          ({ mx_fresh 3 with state := MX5_INITIALIZED, intspec := 0x0200 } : Mx).intq
          (some ({ mx_fresh 3 with state := MX5_INITIALIZED, intspec := 0x0200 } : Mx).intspec)).2
        (({ mx_fresh 3 with state := MX5_INITIALIZED, intspec := 0x0200 } : Mx).intspec :: []) ∧
      ∃ q, mx_cmd_requeue multix
            { mx_fresh 3 with state := MX5_INITIALIZED, intspec := 0x0200 } (bus_of []) =
          ({ ({ mx_fresh 3 with state := MX5_INITIALIZED, intspec := 0x0200 } : Mx) with
             intq := q },
            mx_int_set multix { mx_fresh 3 with state := MX5_INITIALIZED, intspec := 0x0200 }
              (bus_of [])) ∧
        mx_intq_holds q [] ∧
        (({ mx_fresh 3 with state := MX5_INITIALIZED, intspec := 0x0200 } : Mx).state ≠
            MX5_UNINITIALIZED →
          mx_int_set multix { mx_fresh 3 with state := MX5_INITIALIZED, intspec := 0x0200 }
              (bus_of []) =
            multix.io_int_set
              ({ mx_fresh 3 with state := MX5_INITIALIZED, intspec := 0x0200 } : Mx).chnum
              (bus_of [])) ∧
        (({ mx_fresh 3 with state := MX5_INITIALIZED, intspec := 0x0200 } : Mx).state =
            MX5_UNINITIALIZED →
          mx_int_set multix { mx_fresh 3 with state := MX5_INITIALIZED, intspec := 0x0200 }
              (bus_of []) = bus_of []) :=
  (mx_cmd_requeue_latch multix { mx_fresh 3 with state := MX5_INITIALIZED, intspec := 0x0200 }
    (bus_of []) (by decide)).1 (by decide) [] ⟨[], [], by decide, rfl⟩ (by decide)

/-! ### The doors to the machine and the STATUS command -/

theorem mx_int_push_frame {W : Type} (E : MxEnv W) (m : Mx) (w : W) :
    (mx_int_push E m w).1.state = m.state ∧ (mx_int_push E m w).1.chnum = m.chnum ∧
    (mx_int_push E m w).1.eventq = m.eventq ∧ (mx_int_push E m w).1.plines = m.plines ∧
    (mx_int_push E m w).1.llines = m.llines ∧
    ((mx_int_push E m w).2 = w ∨ (mx_int_push E m w).2 = mx_int_set E m w) := by
  unfold mx_int_push
  by_cases h : m.intspec = E.MX_IRQ_INIEA
  · rw [if_pos h]
    generalize elst_nlock_pop m.intq = r
    obtain ⟨a, q⟩ := r
    cases a with
    | none => exact ⟨rfl, rfl, rfl, rfl, rfl, Or.inl rfl⟩
    | some i => exact ⟨rfl, rfl, rfl, rfl, rfl, Or.inr rfl⟩
  · rw [if_neg h]
    exact ⟨rfl, rfl, rfl, rfl, rfl, Or.inl rfl⟩

theorem mx_int_enqueue_frame {W : Type} (E : MxEnv W) (intr line : Nat) (m : Mx) (w : W) :
    (mx_int_enqueue E intr line m w).2.1.state = m.state ∧
    (mx_int_enqueue E intr line m w).2.1.chnum = m.chnum ∧
    (mx_int_enqueue E intr line m w).2.1.eventq = m.eventq ∧
    (mx_int_enqueue E intr line m w).2.1.plines = m.plines ∧
    (mx_int_enqueue E intr line m w).2.1.llines = m.llines ∧
    ((mx_int_enqueue E intr line m w).2.2 = w ∨
      (mx_int_enqueue E intr line m w).2.2 = mx_int_set E m w) := by
  unfold mx_int_enqueue
  exact mx_int_push_frame E _ w

/-- C25: while the state of the channel is UNINITIALIZED, `mx_mem_mget` and
`mx_mem_mput` return 0 without calling the memory interface (the array
`data` and the machine are unchanged) and `mx_int_set` leaves the machine
unchanged. In every other state they forward: `mx_mem_mget` stores the words
that `io_mem_mget` transfers, `mx_mem_mput` leaves the machine that
`io_mem_mput` leaves, `mx_int_set` is `io_int_set` for the number of the
channel; the memory helpers return -1 or 0, and -1 exactly when fewer than
`len` words were transferred. The interface transfers at most `len` words,
and the array `data` has room for `len` words. -/
theorem mx_doors {W : Type} (E : MxEnv W) (m : Mx) (w : W) (nb addr size len : Nat)
    (data : Nat → Nat) (ws : List Nat)
    (hget : (E.io_mem_mget w nb addr len).length ≤ len)
    (hput : (E.io_mem_mput w nb addr ws).1 ≤ ws.length) (hsize : len ≤ size) :
    (m.state = MX5_UNINITIALIZED →
      mx_mem_mget E m w nb addr size data len = some (0, data) ∧
      mx_mem_mput E m w nb addr ws = (0, w) ∧ mx_int_set E m w = w) ∧
    (m.state ≠ MX5_UNINITIALIZED →
      (∃ r, mx_mem_mget E m w nb addr size data len = some r ∧
        r.2 = mx_data_store data (E.io_mem_mget w nb addr len) ∧ (r.1 = -1 ∨ r.1 = 0) ∧
        (r.1 = -1 ↔ (E.io_mem_mget w nb addr len).length < len)) ∧
      (mx_mem_mput E m w nb addr ws).2 = (E.io_mem_mput w nb addr ws).2 ∧
      ((mx_mem_mput E m w nb addr ws).1 = -1 ∨ (mx_mem_mput E m w nb addr ws).1 = 0) ∧
      ((mx_mem_mput E m w nb addr ws).1 = -1 ↔ (E.io_mem_mput w nb addr ws).1 < ws.length) ∧
      mx_int_set E m w = E.io_int_set m.chnum w) := by
  constructor
  · intro h
    have hn : ¬ (m.state ≠ MX5_UNINITIALIZED) := fun c => c h
    exact ⟨by unfold mx_mem_mget; rw [if_neg hn], by unfold mx_mem_mput; rw [if_neg hn],
      by unfold mx_int_set; rw [if_neg hn]⟩
  · intro h
    refine ⟨?_, ?_, ?_, ?_, by unfold mx_int_set; rw [if_pos h]⟩
    · unfold mx_mem_mget
      rw [if_pos h, if_neg (by omega)]
      by_cases c : (E.io_mem_mget w nb addr len).length ≠ len
      · rw [if_pos c]
        exact ⟨_, rfl, rfl, Or.inl rfl, fun _ => by omega, fun _ => rfl⟩
      · rw [if_neg c]
        refine ⟨_, rfl, rfl, Or.inr rfl, fun e => ?_, fun e => ?_⟩
        · simp at e
        · omega
    · unfold mx_mem_mput
      rw [if_pos h]
      split_ifs <;> rfl
    · unfold mx_mem_mput
      rw [if_pos h]
      split_ifs
      · exact Or.inl rfl
      · exact Or.inr rfl
    · unfold mx_mem_mput
      rw [if_pos h]
      by_cases c : (E.io_mem_mput w nb addr ws).1 ≠ ws.length
      · rw [if_pos c]
        exact ⟨fun _ => by omega, fun _ => rfl⟩
      · rw [if_neg c]
        refine ⟨fun e => ?_, fun e => ?_⟩
        · simp at e
        · omega

/-- Witness of C25: a fresh, uninitialised channel, a transfer of three words
at address 16 where only the first word is in the written block. -/
theorem mx_doors_witness :
    ((mx_fresh 0).state = MX5_UNINITIALIZED →
      mx_mem_mget multix (mx_fresh 0) (bus_of []) 0 16 3 (fun _ => 0) 3 = some (0, fun _ => 0) ∧
      mx_mem_mput multix (mx_fresh 0) (bus_of []) 0 16 [1, 2, 3] = (0, bus_of []) ∧
      mx_int_set multix (mx_fresh 0) (bus_of []) = bus_of []) ∧
    ((mx_fresh 0).state ≠ MX5_UNINITIALIZED →
      (∃ r, mx_mem_mget multix (mx_fresh 0) (bus_of []) 0 16 3 (fun _ => 0) 3 = some r ∧
        r.2 = mx_data_store (fun _ => 0) (multix.io_mem_mget (bus_of []) 0 16 3) ∧
        (r.1 = -1 ∨ r.1 = 0) ∧
        (r.1 = -1 ↔ (multix.io_mem_mget (bus_of []) 0 16 3).length < 3)) ∧
      (mx_mem_mput multix (mx_fresh 0) (bus_of []) 0 16 [1, 2, 3]).2 =
        (multix.io_mem_mput (bus_of []) 0 16 [1, 2, 3]).2 ∧
      ((mx_mem_mput multix (mx_fresh 0) (bus_of []) 0 16 [1, 2, 3]).1 = -1 ∨
        (mx_mem_mput multix (mx_fresh 0) (bus_of []) 0 16 [1, 2, 3]).1 = 0) ∧
      ((mx_mem_mput multix (mx_fresh 0) (bus_of []) 0 16 [1, 2, 3]).1 = -1 ↔
        (multix.io_mem_mput (bus_of []) 0 16 [1, 2, 3]).1 < [1, 2, 3].length) ∧
      mx_int_set multix (mx_fresh 0) (bus_of []) =
        multix.io_int_set (mx_fresh 0).chnum (bus_of [])) :=
  mx_doors multix (mx_fresh 0) (bus_of []) 0 16 3 3 (fun _ => 0) [1, 2, 3]
    (by decide) (by decide) (by decide)

theorem mx_same_core_refl (a : Mx) : mx_same_core a a := ⟨rfl, rfl, rfl, rfl, rfl⟩

theorem mx_same_core_trans {a b c : Mx} (h1 : mx_same_core a b) (h2 : mx_same_core b c) :
    mx_same_core a c :=
  ⟨h1.1.trans h2.1, h1.2.1.trans h2.2.1, h1.2.2.1.trans h2.2.2.1, h1.2.2.2.1.trans h2.2.2.2.1,
    h1.2.2.2.2.trans h2.2.2.2.2⟩

theorem mx_line_conf_phy_none {W : Type} (E : MxEnv W) (n d : Nat) (m : Mx)
    (h : mx_line_conf_phy_check E d = none) :
    mx_line_conf_phy E n d m = (E.MX_SC_E_OK, mx_line_set_phy n d m) := by
  unfold mx_line_conf_phy
  rw [h]

theorem mx_line_conf_phy_some {W : Type} (E : MxEnv W) (n d e : Nat) (m : Mx)
    (h : mx_line_conf_phy_check E d = some e) : mx_line_conf_phy E n d m = (e, m) := by
  unfold mx_line_conf_phy
  rw [h]

theorem mx_line_conf_phy_frame {W : Type} (E : MxEnv W) (n d : Nat) (m : Mx) :
    mx_same_core (mx_line_conf_phy E n d m).2 m ∧
    (mx_line_conf_phy E n d m).2.llines = m.llines ∧
    ∀ L, L ≠ n → (mx_line_conf_phy E n d m).2.plines L = m.plines L := by
  cases h : mx_line_conf_phy_check E d with
  | none =>
    rw [mx_line_conf_phy_none E n d m h]
    refine ⟨mx_same_core_refl _, rfl, fun L hL => ?_⟩
    show (if L = n then _ else m.plines L) = m.plines L
    rw [if_neg hL]
  | some e =>
    rw [mx_line_conf_phy_some E n d e m h]
    exact ⟨mx_same_core_refl _, rfl, fun L _ => rfl⟩

theorem mx_setcfg_phy_lines_frame {W : Type} (E : MxEnv W) (d : Nat) :
    ∀ (j cur : Nat) (m : Mx),
      (∀ e, mx_setcfg_phy_lines E d j cur m = Except.error e →
        mx_same_core e.2 m ∧ e.2.llines = m.llines ∧
        ∀ L, (L < cur ∨ MX_LINE_CNT ≤ L) → e.2.plines L = m.plines L) ∧
      (∀ r, mx_setcfg_phy_lines E d j cur m = Except.ok r →
        mx_same_core r.2 m ∧ r.2.llines = m.llines ∧
        ∀ L, (L < cur ∨ MX_LINE_CNT ≤ L) → r.2.plines L = m.plines L) := by
  intro j
  induction j with
  | zero =>
    intro cur m
    constructor
    · intro e h
      simp [mx_setcfg_phy_lines] at h
    · intro r h
      simp only [mx_setcfg_phy_lines, Except.ok.injEq] at h
      subst h
      exact ⟨mx_same_core_refl _, rfl, fun L _ => rfl⟩
  | succ j ih =>
    intro cur m
    obtain ⟨f1, f2, f3⟩ := mx_line_conf_phy_frame E cur d m
    unfold mx_setcfg_phy_lines
    by_cases c1 : cur ≥ MX_LINE_CNT
    · rw [if_pos c1]
      constructor
      · intro e h
        simp only [Except.error.injEq] at h
        subst h
        exact ⟨mx_same_core_refl _, rfl, fun L _ => rfl⟩
      · intro r h
        simp at h
    · rw [if_neg c1]
      by_cases c2 : (mx_line_conf_phy E cur d m).1 ≠ E.MX_SC_E_OK
      · rw [if_pos c2]
        constructor
        · intro e h
          simp only [Except.error.injEq] at h
          subst h
          exact ⟨f1, f2, fun L hL => f3 L (by omega)⟩
        · intro r h
          simp at h
      · rw [if_neg c2]
        obtain ⟨i1, i2⟩ := ih (cur + 1) (mx_line_conf_phy E cur d m).2
        constructor
        · intro e h
          obtain ⟨a1, a2, a3⟩ := i1 e h
          exact ⟨mx_same_core_trans a1 f1, a2.trans f2,
            fun L hL => (a3 L (by omega)).trans (f3 L (by omega))⟩
        · intro r h
          obtain ⟨a1, a2, a3⟩ := i2 r h
          exact ⟨mx_same_core_trans a1 f1, a2.trans f2,
            fun L hL => (a3 L (by omega)).trans (f3 L (by omega))⟩

theorem mx_setcfg_phy_frame {W : Type} (E : MxEnv W) (data : Nat → Nat) :
    ∀ (n i cur : Nat) (m : Mx),
      (∀ e, mx_setcfg_phy E data n i cur m = Except.error e →
        mx_same_core e.2 m ∧ e.2.llines = m.llines ∧
        ∀ L, MX_LINE_CNT ≤ L → e.2.plines L = m.plines L) ∧
      (∀ r, mx_setcfg_phy E data n i cur m = Except.ok r →
        mx_same_core r.2 m ∧ r.2.llines = m.llines ∧
        ∀ L, MX_LINE_CNT ≤ L → r.2.plines L = m.plines L) := by
  intro n
  induction n with
  | zero =>
    intro i cur m
    constructor
    · intro e h
      simp [mx_setcfg_phy] at h
    · intro r h
      simp only [mx_setcfg_phy, Except.ok.injEq] at h
      subst h
      exact ⟨mx_same_core_refl _, rfl, fun L _ => rfl⟩
  | succ n ih =>
    intro i cur m
    obtain ⟨l1, l2⟩ := mx_setcfg_phy_lines_frame E (data i) ((data i &&& 0b11111) + 1) cur m
    unfold mx_setcfg_phy
    cases hl : mx_setcfg_phy_lines E (data i) ((data i &&& 0b11111) + 1) cur m with
    | error e0 =>
      obtain ⟨a1, a2, a3⟩ := l1 e0 hl
      constructor
      · intro e h
        simp only [Except.error.injEq] at h
        subst h
        exact ⟨a1, a2, fun L hL => a3 L (Or.inr hL)⟩
      · intro r h
        simp at h
    | ok r0 =>
      obtain ⟨a1, a2, a3⟩ := l2 r0 hl
      obtain ⟨i1, i2⟩ := ih (i + 1) r0.1 r0.2
      constructor
      · intro e h
        obtain ⟨b1, b2, b3⟩ := i1 e h
        exact ⟨mx_same_core_trans b1 a1, b2.trans a2,
          fun L hL => (b3 L hL).trans (a3 L (Or.inr hL))⟩
      · intro r h
        obtain ⟨b1, b2, b3⟩ := i2 r h
        exact ⟨mx_same_core_trans b1 a1, b2.trans a2,
          fun L hL => (b3 L hL).trans (a3 L (Or.inr hL))⟩

theorem mx_line_conf_log_frame {W : Type} (E : MxEnv W) (t : Bool) (phy_n log_n : Nat)
    (data : Nat → Nat) (m : Mx) :
    mx_same_core (mx_line_conf_log E t phy_n log_n data m).2 m := by
  unfold mx_line_conf_log
  by_cases h1 : (m.plines phy_n).used = 0
  · rw [if_pos h1]
    exact mx_same_core_refl _
  rw [if_neg h1]
  by_cases h2 : ((List.range MX_LINE_CNT).any fun i => decide (m.llines i = some phy_n)) = true
  · rw [if_pos h2]
    exact mx_same_core_refl _
  rw [if_neg h2]
  cases E.mx_proto_get ((data 0 &&& 0b1111111100000000) >>> 8) with
  | none => exact mx_same_core_refl _
  | some proto =>
    simp only []
    split_ifs <;> exact ⟨rfl, rfl, rfl, rfl, rfl⟩

theorem mx_setcfg_log_frame {W : Type} (E : MxEnv W) (threads : Nat → Bool) (data : Nat → Nat)
    (pc : Nat) :
    ∀ (n i : Nat) (m : Mx),
      (∀ e, mx_setcfg_log E threads data pc n i m = Except.error e → mx_same_core e.2 m) ∧
      (∀ r, mx_setcfg_log E threads data pc n i m = Except.ok r → mx_same_core r m) := by
  intro n
  induction n with
  | zero =>
    intro i m
    constructor
    · intro e h
      simp [mx_setcfg_log] at h
    · intro r h
      simp only [mx_setcfg_log, Except.ok.injEq] at h
      subst h
      exact mx_same_core_refl _
  | succ n ih =>
    intro i m
    have f := mx_line_conf_log_frame E (threads i) (data (pc + i * 4) &&& 0b11111) i
      (fun k => data (pc + i * 4 + k)) m
    unfold mx_setcfg_log
    split_ifs
    · constructor
      · intro e h
        simp only [Except.error.injEq] at h
        subst h
        exact f
      · intro r h
        simp at h
    · obtain ⟨i1, i2⟩ := ih (i + 1) (mx_line_conf_log E (threads i)
        (data (pc + i * 4) &&& 0b11111) i (fun k => data (pc + i * 4 + k)) m).2
      exact ⟨fun e h => mx_same_core_trans (i1 e h) f, fun r h => mx_same_core_trans (i2 r h) f⟩

theorem mx_lines_deinit_frame {W : Type} (E : MxEnv W) (m : Mx) :
    mx_same_core (mx_lines_deinit E m) m := by
  have h1 : ∀ (l : List Nat) (a : Mx),
      mx_same_core (l.foldl (mx_lines_deinit_log E) a) a := by
    intro l
    induction l with
    | nil => intro a; exact mx_same_core_refl _
    | cons x l ih =>
      intro a
      refine mx_same_core_trans (ih _) ?_
      unfold mx_lines_deinit_log
      split <;> exact mx_same_core_refl _
  have h2 : ∀ (l : List Nat) (a : Mx),
      mx_same_core (l.foldl (mx_lines_deinit_phy E) a) a := by
    intro l
    induction l with
    | nil => intro a; exact mx_same_core_refl _
    | cons x l ih =>
      intro a
      exact mx_same_core_trans (ih _) (mx_same_core_refl _)
  exact mx_same_core_trans (h2 _ _) (h1 _ _)

/-- The outcomes of the part of `mx_cmd_setcfg` that configures: IUKON with
the state CONFIGURED exactly when the three loops end, INKON with the state
as it was when one of them goes to `fail`. -/
theorem mx_setcfg_configure_cases {W : Type} (E : MxEnv W) (threads : Nat → Bool)
    (data : Nat → Nat) (pc lc : Nat) (m : Mx) :
    ((∃ r m2, mx_setcfg_phy E data pc 0 0 m = Except.ok r ∧
        mx_setcfg_groups E r.2 (MX_LINE_CNT / 4) 0 0 = none ∧
        mx_setcfg_log E threads data pc lc 0 r.2 = Except.ok m2 ∧
        mx_setcfg_configure E threads data pc lc m =
          (E.MX_IRQ_IUKON, 0, { m2 with state := MX5_CONFIGURED })) ∨
     ((¬ ∃ r m2, mx_setcfg_phy E data pc 0 0 m = Except.ok r ∧
          mx_setcfg_groups E r.2 (MX_LINE_CNT / 4) 0 0 = none ∧
          mx_setcfg_log E threads data pc lc 0 r.2 = Except.ok m2) ∧
      ∃ e m1, mx_setcfg_configure E threads data pc lc m = (E.MX_IRQ_INKON, e, m1) ∧
        mx_same_core m1 m)) := by
  cases h1 : mx_setcfg_phy E data pc 0 0 m with
  | error e =>
    refine Or.inr ⟨?_, e.1, e.2, ?_, ((mx_setcfg_phy_frame E data pc 0 0 m).1 e h1).1⟩
    · rintro ⟨r, m2, c, _⟩
      simp at c
    · unfold mx_setcfg_configure
      rw [h1]
  | ok r =>
    have fr := ((mx_setcfg_phy_frame E data pc 0 0 m).2 r h1).1
    cases h2 : mx_setcfg_groups E r.2 (MX_LINE_CNT / 4) 0 0 with
    | some e =>
      refine Or.inr ⟨?_, e, r.2, ?_, fr⟩
      · rintro ⟨r1, m2, c1, c2, _⟩
        simp only [Except.ok.injEq] at c1
        subst c1
        rw [h2] at c2
        simp at c2
      · unfold mx_setcfg_configure
        rw [h1]
        simp only [h2]
    | none =>
      cases h3 : mx_setcfg_log E threads data pc lc 0 r.2 with
      | error e =>
        refine Or.inr ⟨?_, e.1, e.2, ?_,
          mx_same_core_trans ((mx_setcfg_log_frame E threads data pc lc 0 r.2).1 e h3) fr⟩
        · rintro ⟨r1, m2, c1, _, c3⟩
          simp only [Except.ok.injEq] at c1
          subst c1
          rw [h3] at c3
          simp at c3
        · unfold mx_setcfg_configure
          rw [h1]
          simp only [h2, h3]
      | ok m2 =>
        refine Or.inl ⟨r, m2, rfl, h2, h3, ?_⟩
        unfold mx_setcfg_configure
        rw [h1]
        simp only [h2, h3]

/-! ### `mx_cmd_setcfg` -/

theorem mx_mem_mget_on {W : Type} (E : MxEnv W) (m : Mx) (w : W) (nb addr size len : Nat)
    (data : Nat → Nat) (hs : m.state ≠ MX5_UNINITIALIZED) :
    ((E.io_mem_mget w nb addr len).length > size →
      mx_mem_mget E m w nb addr size data len = none) ∧
    ((E.io_mem_mget w nb addr len).length ≤ size →
      (E.io_mem_mget w nb addr len).length ≠ len →
      mx_mem_mget E m w nb addr size data len =
        some (-1, mx_data_store data (E.io_mem_mget w nb addr len))) ∧
    ((E.io_mem_mget w nb addr len).length ≤ size →
      (E.io_mem_mget w nb addr len).length = len →
      mx_mem_mget E m w nb addr size data len =
        some (0, mx_data_store data (E.io_mem_mget w nb addr len))) := by
  unfold mx_mem_mget
  rw [if_pos hs]
  refine ⟨fun h => by rw [if_pos h], fun h1 h2 => ?_, fun h1 h2 => ?_⟩
  · rw [if_neg (by omega), if_pos h2]
  · rw [if_neg (by omega), if_neg (fun c => c h2)]

/-- The part of `mx_cmd_setcfg` before `fail` on a channel that is neither
CONFIGURED nor UNINITIALIZED. -/
theorem mx_cmd_setcfg_body_cases {W : Type} (E : MxEnv W) (threads : Nat → Bool)
    (data0 : Nat → Nat) (addr : Nat) (m : Mx) (w : W)
    (hs : m.state ≠ MX5_CONFIGURED) (hu : m.state ≠ MX5_UNINITIALIZED)
    (hget : (E.io_mem_mget w 0 addr 1).length ≤ 1) :
    ((E.io_mem_mget w 0 addr 1).length ≠ 1 →
      mx_cmd_setcfg_body E threads data0 addr m w = some (E.MX_IRQ_INKOT, 0, m)) ∧
    ((E.io_mem_mget w 0 addr 1).length = 1 →
      ((mx_setcfg_descr E data0 addr w).length > MX_LINE_CNT + 4 * MX_LINE_CNT →
        mx_cmd_setcfg_body E threads data0 addr m w = none) ∧
      ((mx_setcfg_descr E data0 addr w).length ≤ MX_LINE_CNT + 4 * MX_LINE_CNT →
        ((mx_setcfg_descr E data0 addr w).length ≠
            mx_phy_desc_count (mx_setcfg_header E data0 addr w) +
              4 * mx_log_count (mx_setcfg_header E data0 addr w) →
          mx_cmd_setcfg_body E threads data0 addr m w = some (E.MX_IRQ_INKOT, 0, m)) ∧
        ((mx_setcfg_descr E data0 addr w).length =
            mx_phy_desc_count (mx_setcfg_header E data0 addr w) +
              4 * mx_log_count (mx_setcfg_header E data0 addr w) →
          (¬ (1 ≤ mx_phy_desc_count (mx_setcfg_header E data0 addr w) ∧
              mx_phy_desc_count (mx_setcfg_header E data0 addr w) ≤ MX_LINE_CNT ∧
              1 ≤ mx_log_count (mx_setcfg_header E data0 addr w) ∧
              mx_log_count (mx_setcfg_header E data0 addr w) ≤ MX_LINE_CNT) →
            mx_cmd_setcfg_body E threads data0 addr m w =
              some (E.MX_IRQ_INKON, mx_cfgerr E.MX_SC_E_NUMLINES 0, m)) ∧
          ((1 ≤ mx_phy_desc_count (mx_setcfg_header E data0 addr w) ∧
              mx_phy_desc_count (mx_setcfg_header E data0 addr w) ≤ MX_LINE_CNT ∧
              1 ≤ mx_log_count (mx_setcfg_header E data0 addr w) ∧
              mx_log_count (mx_setcfg_header E data0 addr w) ≤ MX_LINE_CNT) →
            mx_cmd_setcfg_body E threads data0 addr m w =
              some (mx_setcfg_configure E threads (mx_setcfg_data E data0 addr w)
                (mx_phy_desc_count (mx_setcfg_header E data0 addr w))
                (mx_log_count (mx_setcfg_header E data0 addr w)) m))))) := by
  obtain ⟨_, g2, g3⟩ := mx_mem_mget_on E m w 0 addr (MX_LINE_CNT + 4 * MX_LINE_CNT) 1 data0 hu
  have hsz : (E.io_mem_mget w 0 addr 1).length ≤ MX_LINE_CNT + 4 * MX_LINE_CNT := by
    unfold MX_LINE_CNT
    omega
  constructor
  · intro h1
    unfold mx_cmd_setcfg_body
    rw [if_neg hs, g2 hsz h1]
    simp
  · intro h1
    have e1 := g3 hsz h1
    obtain ⟨k1, k2, k3⟩ := mx_mem_mget_on E m w 0 ((addr + 2) % 65536)
      (MX_LINE_CNT + 4 * MX_LINE_CNT)
      (mx_phy_desc_count (mx_setcfg_header E data0 addr w) +
        4 * mx_log_count (mx_setcfg_header E data0 addr w))
      (mx_data_store data0 (E.io_mem_mget w 0 addr 1)) hu
    refine ⟨fun h2 => ?_, fun h2 => ⟨fun h3 => ?_, fun h3 => ⟨fun h4 => ?_, fun h4 => ?_⟩⟩⟩
    · unfold mx_cmd_setcfg_body
      rw [if_neg hs, e1]
      simp only [ne_eq, not_true_eq_false, if_false]
      have := k1 h2
      unfold mx_setcfg_header at this
      rw [this]
    · unfold mx_cmd_setcfg_body
      rw [if_neg hs, e1]
      simp only [ne_eq, not_true_eq_false, if_false]
      have := k2 h2 h3
      unfold mx_setcfg_header at this
      rw [this]
      simp
    · unfold mx_cmd_setcfg_body
      rw [if_neg hs, e1]
      simp only [ne_eq, not_true_eq_false, if_false]
      have := k3 h2 h3
      unfold mx_setcfg_header at this
      rw [this]
      simp only [ne_eq, not_true_eq_false, if_false]
      have hc : mx_phy_desc_count (mx_data_store data0 (E.io_mem_mget w 0 addr 1) 0) ≤ 0 ∨
          mx_phy_desc_count (mx_data_store data0 (E.io_mem_mget w 0 addr 1) 0) > MX_LINE_CNT ∨
          mx_log_count (mx_data_store data0 (E.io_mem_mget w 0 addr 1) 0) ≤ 0 ∨
          mx_log_count (mx_data_store data0 (E.io_mem_mget w 0 addr 1) 0) > MX_LINE_CNT := by
        unfold mx_setcfg_header at h4
        omega
      rw [if_pos hc]
    · unfold mx_cmd_setcfg_body
      rw [if_neg hs, e1]
      simp only [ne_eq, not_true_eq_false, if_false]
      have := k3 h2 h3
      unfold mx_setcfg_header at this
      rw [this]
      simp only [ne_eq, not_true_eq_false, if_false]
      have hc : ¬ (mx_phy_desc_count (mx_data_store data0 (E.io_mem_mget w 0 addr 1) 0) ≤ 0 ∨
          mx_phy_desc_count (mx_data_store data0 (E.io_mem_mget w 0 addr 1) 0) > MX_LINE_CNT ∨
          mx_log_count (mx_data_store data0 (E.io_mem_mget w 0 addr 1) 0) ≤ 0 ∨
          mx_log_count (mx_data_store data0 (E.io_mem_mget w 0 addr 1) 0) > MX_LINE_CNT) := by
        unfold mx_setcfg_header at h4
        omega
      rw [if_neg hc]
      rfl

/-- The statements of `mx_cmd_setcfg` after `fail` when `ret_int` is INKON. -/
theorem mx_cmd_setcfg_fail {W : Type} (E : MxEnv W) (threads : Nat → Bool) (data0 : Nat → Nat)
    (addr : Nat) (m : Mx) (w : W) (e : Nat) (m1 : Mx)
    (hb : mx_cmd_setcfg_body E threads data0 addr m w = some (E.MX_IRQ_INKON, e, m1))
    (hu : m1.state ≠ MX5_UNINITIALIZED) :
    ((E.io_mem_mput w 0 ((addr + 1) % 65536) [e]).1 = 1 →
      mx_cmd_setcfg E threads data0 addr m w =
        some (0, (mx_int_enqueue E E.MX_IRQ_INKON 0
          (if e ≠ E.MX_SC_E_CONFSET then mx_lines_deinit E m1 else m1)
          (E.io_mem_mput w 0 ((addr + 1) % 65536) [e]).2).2)) ∧
    ((E.io_mem_mput w 0 ((addr + 1) % 65536) [e]).1 ≠ 1 →
      mx_cmd_setcfg E threads data0 addr m w =
        some (0, (mx_int_enqueue E E.MX_IRQ_INKOT 0
          (if e ≠ E.MX_SC_E_CONFSET then mx_lines_deinit E m1 else m1)
          (E.io_mem_mput w 0 ((addr + 1) % 65536) [e]).2).2)) := by
  have hu2 : (if e ≠ E.MX_SC_E_CONFSET then mx_lines_deinit E m1 else m1).state ≠
      MX5_UNINITIALIZED := by
    split_ifs
    · rw [(mx_lines_deinit_frame E m1).1]
      exact hu
    · exact hu
  have hp : mx_mem_mput E (if e ≠ E.MX_SC_E_CONFSET then mx_lines_deinit E m1 else m1) w 0
      ((addr + 1) % 65536) [e] =
      (if (E.io_mem_mput w 0 ((addr + 1) % 65536) [e]).1 ≠ 1 then (-1 : Int) else 0,
        (E.io_mem_mput w 0 ((addr + 1) % 65536) [e]).2) := by
    unfold mx_mem_mput
    rw [if_pos hu2]
    show (if (E.io_mem_mput w 0 ((addr + 1) % 65536) [e]).1 ≠ 1 then
        ((-1 : Int), (E.io_mem_mput w 0 ((addr + 1) % 65536) [e]).2)
      else (0, (E.io_mem_mput w 0 ((addr + 1) % 65536) [e]).2)) = _
    split_ifs <;> rfl
  constructor
  · intro h
    unfold mx_cmd_setcfg
    rw [hb]
    simp only [if_true, hp, h, ne_eq, not_true_eq_false, if_false]
  · intro h
    unfold mx_cmd_setcfg
    rw [hb]
    simp only [if_true, hp, h, ne_eq, not_false_eq_true]
    rfl

/-- The statements of `mx_cmd_setcfg` after `fail` when `ret_int` is not
INKON. -/
theorem mx_cmd_setcfg_pass {W : Type} (E : MxEnv W) (threads : Nat → Bool) (data0 : Nat → Nat)
    (addr : Nat) (m : Mx) (w : W) (ri e : Nat) (m1 : Mx)
    (hb : mx_cmd_setcfg_body E threads data0 addr m w = some (ri, e, m1))
    (hne : ri ≠ E.MX_IRQ_INKON) :
    mx_cmd_setcfg E threads data0 addr m w = some (0, (mx_int_enqueue E ri 0 m1 w).2) := by
  unfold mx_cmd_setcfg
  rw [hb]
  simp only [if_neg hne]

/-- SETCFG on an INITIALIZED channel, when the words of the descriptions
that are transferred fit the local array. `mx_cmd_setcfg` calls
`mx_int_enqueue` exactly once, for line 0, with IUKON, INKON or INKOT. IUKON
exactly when the whole configuration validates; the state is then CONFIGURED
and the machine is passed on as it was, nothing written. INKON when a
validation error, which left `ret_err` = (error code << 8) | line, was found
and that word was stored at `addr + 1`; the state is INITIALIZED. INKOT
only when a transfer was short: that of the header, of the descriptions, or
of the error word; the state is INITIALIZED. -/
theorem mx_cmd_setcfg_interrupt {W : Type} (E : MxEnv W) (threads : Nat → Bool)
    (data0 : Nat → Nat) (addr : Nat) (m : Mx) (w : W) (hs : m.state = MX5_INITIALIZED)
    (hd1 : E.MX_IRQ_IUKON ≠ E.MX_IRQ_INKON) (hd2 : E.MX_IRQ_IUKON ≠ E.MX_IRQ_INKOT)
    (hd3 : E.MX_IRQ_INKON ≠ E.MX_IRQ_INKOT)
    (hget : (E.io_mem_mget w 0 addr 1).length ≤ 1)
    (hfit : (mx_setcfg_descr E data0 addr w).length ≤ MX_LINE_CNT + 4 * MX_LINE_CNT) :
    ∃ (irq : Nat) (m2 : Mx) (w2 : W),
      mx_cmd_setcfg E threads data0 addr m w = some (0, (mx_int_enqueue E irq 0 m2 w2).2) ∧
      (irq = E.MX_IRQ_IUKON ∨ irq = E.MX_IRQ_INKON ∨ irq = E.MX_IRQ_INKOT) ∧
      (irq = E.MX_IRQ_IUKON ↔ mx_setcfg_valid E threads data0 addr m w) ∧
      (irq = E.MX_IRQ_IUKON →
        m2.state = MX5_CONFIGURED ∧ w2 = w ∧
        (mx_int_enqueue E irq 0 m2 w2).2.1.state = MX5_CONFIGURED) ∧
      (irq = E.MX_IRQ_INKON →
        m2.state = MX5_INITIALIZED ∧
        (mx_int_enqueue E irq 0 m2 w2).2.1.state = MX5_INITIALIZED ∧
        ∃ e m1, mx_cmd_setcfg_body E threads data0 addr m w = some (E.MX_IRQ_INKON, e, m1) ∧
          (E.io_mem_mput w 0 ((addr + 1) % 65536) [e]).1 = 1 ∧
          (E.io_mem_mput w 0 ((addr + 1) % 65536) [e]).2 = w2) ∧
      (irq = E.MX_IRQ_INKOT →
        m2.state = MX5_INITIALIZED ∧
        (mx_int_enqueue E irq 0 m2 w2).2.1.state = MX5_INITIALIZED ∧
        ((E.io_mem_mget w 0 addr 1).length ≠ 1 ∨
          (mx_setcfg_descr E data0 addr w).length ≠
            mx_phy_desc_count (mx_setcfg_header E data0 addr w) +
              4 * mx_log_count (mx_setcfg_header E data0 addr w) ∨
          ∃ e m1, mx_cmd_setcfg_body E threads data0 addr m w =
              some (E.MX_IRQ_INKON, e, m1) ∧
            (E.io_mem_mput w 0 ((addr + 1) % 65536) [e]).1 ≠ 1)) := by
  have hc : m.state ≠ MX5_CONFIGURED := by rw [hs]; decide
  have hu : m.state ≠ MX5_UNINITIALIZED := by rw [hs]; decide
  obtain ⟨b1, b2⟩ := mx_cmd_setcfg_body_cases E threads data0 addr m w hc hu hget
  have cases3 :
      (mx_cmd_setcfg_body E threads data0 addr m w = some (E.MX_IRQ_INKOT, 0, m) ∧
        ((E.io_mem_mget w 0 addr 1).length ≠ 1 ∨
          (mx_setcfg_descr E data0 addr w).length ≠
            mx_phy_desc_count (mx_setcfg_header E data0 addr w) +
              4 * mx_log_count (mx_setcfg_header E data0 addr w))) ∨
      (∃ e m1, mx_cmd_setcfg_body E threads data0 addr m w = some (E.MX_IRQ_INKON, e, m1) ∧
        mx_same_core m1 m ∧ ¬ mx_setcfg_valid E threads data0 addr m w) ∨
      (∃ m2 : Mx, mx_cmd_setcfg_body E threads data0 addr m w =
          some (E.MX_IRQ_IUKON, 0, { m2 with state := MX5_CONFIGURED }) ∧
        mx_setcfg_valid E threads data0 addr m w) := by
    by_cases h1 : (E.io_mem_mget w 0 addr 1).length = 1
    · obtain ⟨_, b3⟩ := b2 h1
      obtain ⟨b4, b5⟩ := b3 hfit
      by_cases h2 : (mx_setcfg_descr E data0 addr w).length =
          mx_phy_desc_count (mx_setcfg_header E data0 addr w) +
            4 * mx_log_count (mx_setcfg_header E data0 addr w)
      · obtain ⟨b6, b7⟩ := b5 h2
        by_cases h3 : (1 ≤ mx_phy_desc_count (mx_setcfg_header E data0 addr w) ∧
            mx_phy_desc_count (mx_setcfg_header E data0 addr w) ≤ MX_LINE_CNT ∧
            1 ≤ mx_log_count (mx_setcfg_header E data0 addr w) ∧
            mx_log_count (mx_setcfg_header E data0 addr w) ≤ MX_LINE_CNT)
        · have hb := b7 h3
          rcases mx_setcfg_configure_cases E threads (mx_setcfg_data E data0 addr w)
              (mx_phy_desc_count (mx_setcfg_header E data0 addr w))
              (mx_log_count (mx_setcfg_header E data0 addr w)) m with
            ⟨r, m2, c1, c2, c3, c4⟩ | ⟨cn, e, m1, c4, c5⟩
          · rw [c4] at hb
            exact Or.inr (Or.inr ⟨m2, hb, h1, h2, h3, r, m2, c1, c2, c3⟩)
          · rw [c4] at hb
            exact Or.inr (Or.inl ⟨e, m1, hb, c5, fun v => cn (by obtain ⟨_, _, _, h⟩ := v; exact h)⟩)
        · exact Or.inr (Or.inl ⟨_, m, b6 h3, mx_same_core_refl m, fun v => h3 (by obtain ⟨_, _, h, _⟩ := v; exact h)⟩)
      · exact Or.inl ⟨b4 h2, Or.inr h2⟩
    · exact Or.inl ⟨b1 h1, Or.inl h1⟩
  rcases cases3 with ⟨hb, hsh⟩ | ⟨e, m1, hb, hcore, hnv⟩ | ⟨m2, hb, hv⟩
  · exact ⟨E.MX_IRQ_INKOT, m, w,
      mx_cmd_setcfg_pass E threads data0 addr m w _ _ _ hb (fun c => hd3 c.symm),
      Or.inr (Or.inr rfl),
      ⟨fun c => absurd c.symm hd2, fun v => by
        obtain ⟨v1, v2, _⟩ := v
        rcases hsh with h | h
        · exact absurd v1 h
        · exact absurd v2 h⟩,
      fun c => absurd c.symm hd2, fun c => absurd c.symm hd3,
      fun _ => ⟨hs, (mx_int_enqueue_frame E _ 0 m w).1.trans hs,
        hsh.elim Or.inl (fun h => Or.inr (Or.inl h))⟩⟩
  · have hm1 : m1.state = MX5_INITIALIZED := hcore.1.trans hs
    have hm2 : (if e ≠ E.MX_SC_E_CONFSET then mx_lines_deinit E m1 else m1).state =
        MX5_INITIALIZED := by
      split_ifs
      · exact (mx_lines_deinit_frame E m1).1.trans hm1
      · exact hm1
    obtain ⟨f1, f2⟩ := mx_cmd_setcfg_fail E threads data0 addr m w e m1 hb
      (by rw [hm1]; decide)
    by_cases hw : (E.io_mem_mput w 0 ((addr + 1) % 65536) [e]).1 = 1
    · exact ⟨E.MX_IRQ_INKON, _, _, f1 hw, Or.inr (Or.inl rfl),
        ⟨fun c => absurd c.symm hd1, fun v => absurd v hnv⟩,
        fun c => absurd c.symm hd1,
        fun _ => ⟨hm2, (mx_int_enqueue_frame E _ 0 _ _).1.trans hm2, e, m1, hb, hw, rfl⟩,
        fun c => absurd c hd3⟩
    · exact ⟨E.MX_IRQ_INKOT, _, _, f2 hw, Or.inr (Or.inr rfl),
        ⟨fun c => absurd c.symm hd2, fun v => absurd v hnv⟩,
        fun c => absurd c.symm hd2, fun c => absurd c.symm hd3,
        fun _ => ⟨hm2, (mx_int_enqueue_frame E _ 0 _ _).1.trans hm2,
          Or.inr (Or.inr ⟨e, m1, hb, hw⟩)⟩⟩
  · exact ⟨E.MX_IRQ_IUKON, _, w,
      mx_cmd_setcfg_pass E threads data0 addr m w _ _ _ hb hd1, Or.inl rfl,
      ⟨fun _ => hv, fun _ => rfl⟩,
      fun _ => ⟨rfl, rfl, (mx_int_enqueue_frame E _ 0 _ w).1⟩,
      fun c => absurd c hd1, fun c => absurd c hd2⟩

/-- An instance of `mx_cmd_setcfg_interrupt`: the configuration of `bus_cfg`
sent to a fresh channel that has finished its initialisation validates: IUKON
is latched and the state is CONFIGURED. -/
theorem mx_cmd_setcfg_interrupt_witness :
    (∃ (irq : Nat) (m2 : Mx) (w2 : Bus),
      mx_cmd_setcfg multix (fun _ => true) (fun _ => 0) 16
          { mx_fresh 0 with state := MX5_INITIALIZED } bus_cfg =
        some (0, (mx_int_enqueue multix irq 0 m2 w2).2) ∧
      (irq = multix.MX_IRQ_IUKON ∨ irq = multix.MX_IRQ_INKON ∨ irq = multix.MX_IRQ_INKOT)) ∧
    (mx_cmd_setcfg multix (fun _ => true) (fun _ => 0) 16
        { mx_fresh 0 with state := MX5_INITIALIZED } bus_cfg).map
        (fun r => (r.2.1.intspec, r.2.1.state)) =
      some ((multix.MX_IRQ_IUKON <<< 8) ||| 0, MX5_CONFIGURED) :=
  ⟨match mx_cmd_setcfg_interrupt multix (fun _ => true) (fun _ => 0) 16
      { mx_fresh 0 with state := MX5_INITIALIZED } bus_cfg (by decide) (by decide) (by decide)
      (by decide) (by decide) (by decide) with
    | ⟨irq, m2, w2, h1, h2, _⟩ => ⟨irq, m2, w2, h1, h2⟩,
    by decide⟩

/-! ### SETCFG with more description words than the local array holds -/

set_option maxRecDepth 20000 in
/-- C22 (failing input): SETCFG on an INITIALIZED channel with the header
0x0129 at `addr`: one physical description and 41 logical lines, more than
the `MX_LINE_CNT` = 32 lines there are, which is the validation error
NUMLINES, answered with INKON and the error word at `addr + 1`. But
`mx_cmd_setcfg` first reads the 1 + 4 * 41 = 165 description words into the
160 words of the local array `data`, and all of them are readable here: it
writes past the array before it looks at the counts, and no interrupt is
defined (`none`). -/
theorem mx_cmd_setcfg_no_interrupt :
    ({ mx_fresh 0 with state := MX5_INITIALIZED } : Mx).state = MX5_INITIALIZED ∧
    mx_setcfg_header multix (fun _ => 0) 16 bus_logs = 0x0129 ∧
    mx_phy_desc_count 0x0129 = 1 ∧ mx_log_count 0x0129 = 41 ∧ MX_LINE_CNT < 41 ∧
    (mx_setcfg_descr multix (fun _ => 0) 16 bus_logs).length = 165 ∧
    MX_LINE_CNT + 4 * MX_LINE_CNT < 165 ∧
    (mx_cmd_setcfg multix (fun _ => true) (fun _ => 0) 16
      { mx_fresh 0 with state := MX5_INITIALIZED } bus_logs).isNone = true := by
  decide

/-! ### Groups of four physical lines -/

theorem mx_setcfg_groups_none {W : Type} (E : MxEnv W) (m : Mx) :
    ∀ (g i t : Nat), t ≤ 1 →
      (mx_setcfg_groups E m g i t = none ↔
        (∀ k, k < g → ∀ j, j < 4 →
          (m.plines (i + 4 * k + j)).type = (m.plines (i + 4 * k)).type) ∧
        t + mx_tape_groups E m i g ≤ 1) := by
  intro g
  induction g with
  | zero =>
    intro i t ht
    simp only [mx_setcfg_groups, mx_tape_groups, true_iff]
    exact ⟨fun k hk => absurd hk (Nat.not_lt_zero k), by omega⟩
  | succ g ih =>
    intro i t ht
    unfold mx_setcfg_groups mx_tape_groups
    by_cases c0 : (m.plines i).type = E.MX_PHY_MTAPE ∧ t + 1 > 1
    · rw [if_pos c0, if_pos c0.1]
      constructor
      · intro h
        simp at h
      · intro h
        omega
    rw [if_neg c0]
    have hu0 : ∀ j, j < 4 → (j = 0 ∨ j = 1 ∨ j = 2 ∨ j = 3) := fun j hj => by omega
    by_cases c1 : (m.plines (i + 1)).type ≠ (m.plines i).type
    · rw [if_pos c1]
      constructor
      · intro h
        simp at h
      · intro h
        exact absurd (h.1 0 (by omega) 1 (by omega)) c1
    rw [if_neg c1]
    by_cases c2 : (m.plines (i + 2)).type ≠ (m.plines i).type
    · rw [if_pos c2]
      constructor
      · intro h
        simp at h
      · intro h
        exact absurd (h.1 0 (by omega) 2 (by omega)) c2
    rw [if_neg c2]
    by_cases c3 : (m.plines (i + 3)).type ≠ (m.plines i).type
    · rw [if_pos c3]
      constructor
      · intro h
        simp at h
      · intro h
        exact absurd (h.1 0 (by omega) 3 (by omega)) c3
    rw [if_neg c3]
    have ht1 : (if (m.plines i).type = E.MX_PHY_MTAPE then t + 1 else t) ≤ 1 := by
      split_ifs with hx
      · have : ¬ (t + 1 > 1) := fun c => c0 ⟨hx, c⟩
        omega
      · exact ht
    rw [ih (i + 4) _ ht1]
    have hidx : ∀ k j, i + 4 + 4 * k + j = i + 4 * (k + 1) + j := fun k j => by omega
    have hidx0 : ∀ k, i + 4 + 4 * k = i + 4 * (k + 1) := fun k => by omega
    constructor
    · rintro ⟨h1, h2⟩
      constructor
      · intro k hk j hj
        cases k with
        | zero =>
          rcases hu0 j hj with e | e | e | e
          · subst e; rfl
          · subst e; exact not_not.1 c1
          · subst e; exact not_not.1 c2
          · subst e; exact not_not.1 c3
        | succ k =>
          have := h1 k (by omega) j hj
          rw [hidx, hidx0] at this
          exact this
      · split_ifs at h2 ⊢ <;> omega
    · rintro ⟨h1, h2⟩
      constructor
      · intro k hk j hj
        have := h1 (k + 1) (by omega) j hj
        rw [← hidx, ← hidx0] at this
        exact this
      · split_ifs at h2 ⊢ <;> omega

theorem mx_setcfg_groups_some {W : Type} (E : MxEnv W) (m : Mx) :
    ∀ (g i t : Nat), t ≤ 1 → ∀ e, mx_setcfg_groups E m g i t = some e →
      ∃ k j, k < g ∧ j < 4 ∧ e = mx_cfgerr E.MX_SC_E_PHY_INCOMPLETE (i + 4 * k + j) ∧
        (∀ k1, k1 < k → ∀ j1, j1 < 4 →
          (m.plines (i + 4 * k1 + j1)).type = (m.plines (i + 4 * k1)).type) ∧
        t + mx_tape_groups E m i k ≤ 1 ∧
        ((j = 0 ∧ (m.plines (i + 4 * k)).type = E.MX_PHY_MTAPE ∧
            t + mx_tape_groups E m i k = 1) ∨
          (0 < j ∧ (m.plines (i + 4 * k + j)).type ≠ (m.plines (i + 4 * k)).type ∧
            (∀ j1, 0 < j1 → j1 < j →
              (m.plines (i + 4 * k + j1)).type = (m.plines (i + 4 * k)).type) ∧
            ¬ ((m.plines (i + 4 * k)).type = E.MX_PHY_MTAPE ∧
              t + mx_tape_groups E m i k = 1))) := by
  intro g
  induction g with
  | zero =>
    intro i t ht e h
    simp [mx_setcfg_groups] at h
  | succ g ih =>
    intro i t ht e h
    unfold mx_setcfg_groups at h
    have hz : mx_tape_groups E m i 0 = 0 := rfl
    by_cases c0 : (m.plines i).type = E.MX_PHY_MTAPE ∧ t + 1 > 1
    · rw [if_pos c0] at h
      refine ⟨0, 0, by omega, by omega, (Option.some.inj h).symm, fun k1 hk => ?_, ?_, ?_⟩
      · exact absurd hk (Nat.not_lt_zero k1)
      · rw [hz]; omega
      · exact Or.inl ⟨rfl, c0.1, by rw [hz]; omega⟩
    rw [if_neg c0] at h
    have hnt : ¬ ((m.plines (i + 4 * 0)).type = E.MX_PHY_MTAPE ∧
        t + mx_tape_groups E m i 0 = 1) := by
      rintro ⟨a, b⟩
      rw [hz] at b
      exact c0 ⟨a, by omega⟩
    by_cases c1 : (m.plines (i + 1)).type ≠ (m.plines i).type
    · rw [if_pos c1] at h
      refine ⟨0, 1, by omega, by omega, (Option.some.inj h).symm, fun k1 hk => ?_, ?_, ?_⟩
      · exact absurd hk (Nat.not_lt_zero k1)
      · rw [hz]; omega
      · exact Or.inr ⟨by omega, c1, fun j1 h1 h2 => by omega, hnt⟩
    rw [if_neg c1] at h
    by_cases c2 : (m.plines (i + 2)).type ≠ (m.plines i).type
    · rw [if_pos c2] at h
      refine ⟨0, 2, by omega, by omega, (Option.some.inj h).symm, fun k1 hk => ?_, ?_, ?_⟩
      · exact absurd hk (Nat.not_lt_zero k1)
      · rw [hz]; omega
      · refine Or.inr ⟨by omega, c2, fun j1 h1 h2 => ?_, hnt⟩
        have : j1 = 1 := by omega
        subst this
        exact not_not.1 c1
    rw [if_neg c2] at h
    by_cases c3 : (m.plines (i + 3)).type ≠ (m.plines i).type
    · rw [if_pos c3] at h
      refine ⟨0, 3, by omega, by omega, (Option.some.inj h).symm, fun k1 hk => ?_, ?_, ?_⟩
      · exact absurd hk (Nat.not_lt_zero k1)
      · rw [hz]; omega
      · refine Or.inr ⟨by omega, c3, fun j1 h1 h2 => ?_, hnt⟩
        have : j1 = 1 ∨ j1 = 2 := by omega
        rcases this with e1 | e1
        · subst e1; exact not_not.1 c1
        · subst e1; exact not_not.1 c2
    rw [if_neg c3] at h
    have ht1 : (if (m.plines i).type = E.MX_PHY_MTAPE then t + 1 else t) ≤ 1 := by
      split_ifs with hx
      · have : ¬ (t + 1 > 1) := fun c => c0 ⟨hx, c⟩
        omega
      · exact ht
    obtain ⟨k, j, a1, a2, a3, a4, a5, a6⟩ := ih (i + 4) _ ht1 e h
    have hidx : ∀ k j, i + 4 + 4 * k + j = i + 4 * (k + 1) + j := fun k j => by omega
    have hidx0 : ∀ k, i + 4 + 4 * k = i + 4 * (k + 1) := fun k => by omega
    have htape : (if (m.plines i).type = E.MX_PHY_MTAPE then t + 1 else t) +
        mx_tape_groups E m (i + 4) k = t + mx_tape_groups E m i (k + 1) := by
      show _ = t + ((if (m.plines i).type = E.MX_PHY_MTAPE then 1 else 0) +
        mx_tape_groups E m (i + 4) k)
      split_ifs <;> omega
    rw [htape] at a5 a6
    simp only [hidx, hidx0] at a3 a4 a6
    refine ⟨k + 1, j, by omega, a2, a3, fun k1 hk1 j1 hj1 => ?_, a5, a6⟩
    cases k1 with
    | zero =>
      have hu0 : j1 = 0 ∨ j1 = 1 ∨ j1 = 2 ∨ j1 = 3 := by omega
      rcases hu0 with e1 | e1 | e1 | e1
      · subst e1; rfl
      · subst e1; exact not_not.1 c1
      · subst e1; exact not_not.1 c2
      · subst e1; exact not_not.1 c3
    | succ k1 =>
      have := a4 k1 (by omega) j1 hj1
      exact this

theorem mx_setcfg_configure_groups {W : Type} (E : MxEnv W) (threads : Nat → Bool)
    (data : Nat → Nat) (pc lc : Nat) (m : Mx) (r : Nat × Mx) (e : Nat)
    (h1 : mx_setcfg_phy E data pc 0 0 m = Except.ok r)
    (h2 : mx_setcfg_groups E r.2 (MX_LINE_CNT / 4) 0 0 = some e) :
    mx_setcfg_configure E threads data pc lc m = (E.MX_IRQ_INKON, e, r.2) := by
  unfold mx_setcfg_configure
  rw [h1]
  simp only [h2]

/-- C23: the check of the groups of four in `mx_cmd_setcfg`. It passes
exactly when in each of the 8 groups (lines 4k .. 4k+3) all four lines have
the type of the first one and at most one group has the tape type. When it
fails, `ret_err` is PHY_INCOMPLETE with the first offending line in the order
of the scan: every earlier group is uniform and at most one of them is a tape
group, and the line is either the first line of a tape group that has one
tape group before it, or the first line of its group whose type differs from
that of the group's first line. If the configuration validates (SETCFG
succeeds), the loop over the physical descriptions ended and the lines it
left pass the check; if that loop ended and the lines it left do not pass,
`mx_cmd_setcfg` goes to `fail` with INKON and that `ret_err`. -/
theorem mx_setcfg_groups_check {W : Type} (E : MxEnv W) (threads : Nat → Bool)
    (data0 : Nat → Nat) (addr : Nat) (m : Mx) (w : W)
    (hs : m.state ≠ MX5_CONFIGURED) (hu : m.state ≠ MX5_UNINITIALIZED)
    (hget : (E.io_mem_mget w 0 addr 1).length ≤ 1) :
    (∀ m1 : Mx, mx_setcfg_groups E m1 (MX_LINE_CNT / 4) 0 0 = none ↔
      (∀ k, k < 8 → ∀ j, j < 4 →
        (m1.plines (4 * k + j)).type = (m1.plines (4 * k)).type) ∧
      mx_tape_groups E m1 0 8 ≤ 1) ∧
    (∀ (m1 : Mx) (e : Nat), mx_setcfg_groups E m1 (MX_LINE_CNT / 4) 0 0 = some e →
      ∃ k j, k < 8 ∧ j < 4 ∧ e = mx_cfgerr E.MX_SC_E_PHY_INCOMPLETE (4 * k + j) ∧
        (∀ k1, k1 < k → ∀ j1, j1 < 4 →
          (m1.plines (4 * k1 + j1)).type = (m1.plines (4 * k1)).type) ∧
        mx_tape_groups E m1 0 k ≤ 1 ∧
        ((j = 0 ∧ (m1.plines (4 * k)).type = E.MX_PHY_MTAPE ∧ mx_tape_groups E m1 0 k = 1) ∨
          (0 < j ∧ (m1.plines (4 * k + j)).type ≠ (m1.plines (4 * k)).type ∧
            (∀ j1, 0 < j1 → j1 < j →
              (m1.plines (4 * k + j1)).type = (m1.plines (4 * k)).type) ∧
            ¬ ((m1.plines (4 * k)).type = E.MX_PHY_MTAPE ∧ mx_tape_groups E m1 0 k = 1)))) ∧
    (mx_setcfg_valid E threads data0 addr m w →
      ∃ r, mx_setcfg_phy E (mx_setcfg_data E data0 addr w)
          (mx_phy_desc_count (mx_setcfg_header E data0 addr w)) 0 0 m = Except.ok r ∧
        (∀ k, k < 8 → ∀ j, j < 4 →
          (r.2.plines (4 * k + j)).type = (r.2.plines (4 * k)).type) ∧
        mx_tape_groups E r.2 0 8 ≤ 1) ∧
    ((E.io_mem_mget w 0 addr 1).length = 1 →
      (mx_setcfg_descr E data0 addr w).length =
        mx_phy_desc_count (mx_setcfg_header E data0 addr w) +
          4 * mx_log_count (mx_setcfg_header E data0 addr w) →
      (1 ≤ mx_phy_desc_count (mx_setcfg_header E data0 addr w) ∧
        mx_phy_desc_count (mx_setcfg_header E data0 addr w) ≤ MX_LINE_CNT ∧
        1 ≤ mx_log_count (mx_setcfg_header E data0 addr w) ∧
        mx_log_count (mx_setcfg_header E data0 addr w) ≤ MX_LINE_CNT) →
      ∀ r, mx_setcfg_phy E (mx_setcfg_data E data0 addr w)
          (mx_phy_desc_count (mx_setcfg_header E data0 addr w)) 0 0 m = Except.ok r →
        ¬ ((∀ k, k < 8 → ∀ j, j < 4 →
            (r.2.plines (4 * k + j)).type = (r.2.plines (4 * k)).type) ∧
          mx_tape_groups E r.2 0 8 ≤ 1) →
        ∃ e L, L < MX_LINE_CNT ∧ e = mx_cfgerr E.MX_SC_E_PHY_INCOMPLETE L ∧
          mx_setcfg_groups E r.2 (MX_LINE_CNT / 4) 0 0 = some e ∧
          mx_cmd_setcfg_body E threads data0 addr m w = some (E.MX_IRQ_INKON, e, r.2)) := by
  have hg : MX_LINE_CNT / 4 = 8 := rfl
  have ha : ∀ m1 : Mx, mx_setcfg_groups E m1 (MX_LINE_CNT / 4) 0 0 = none ↔
      (∀ k, k < 8 → ∀ j, j < 4 →
        (m1.plines (4 * k + j)).type = (m1.plines (4 * k)).type) ∧
      mx_tape_groups E m1 0 8 ≤ 1 := by
    intro m1
    have := mx_setcfg_groups_none E m1 8 0 0 (by omega)
    simp only [Nat.zero_add] at this
    rw [hg]
    exact this
  have hb : ∀ (m1 : Mx) (e : Nat), mx_setcfg_groups E m1 (MX_LINE_CNT / 4) 0 0 = some e →
      ∃ k j, k < 8 ∧ j < 4 ∧ e = mx_cfgerr E.MX_SC_E_PHY_INCOMPLETE (4 * k + j) ∧
        (∀ k1, k1 < k → ∀ j1, j1 < 4 →
          (m1.plines (4 * k1 + j1)).type = (m1.plines (4 * k1)).type) ∧
        mx_tape_groups E m1 0 k ≤ 1 ∧
        ((j = 0 ∧ (m1.plines (4 * k)).type = E.MX_PHY_MTAPE ∧ mx_tape_groups E m1 0 k = 1) ∨
          (0 < j ∧ (m1.plines (4 * k + j)).type ≠ (m1.plines (4 * k)).type ∧
            (∀ j1, 0 < j1 → j1 < j →
              (m1.plines (4 * k + j1)).type = (m1.plines (4 * k)).type) ∧
            ¬ ((m1.plines (4 * k)).type = E.MX_PHY_MTAPE ∧
              mx_tape_groups E m1 0 k = 1))) := by
    intro m1 e h
    rw [hg] at h
    have := mx_setcfg_groups_some E m1 8 0 0 (by omega) e h
    simp only [Nat.zero_add] at this
    exact this
  refine ⟨ha, hb, fun hv => ?_, fun h1 h2 h3 r hr hn => ?_⟩
  · obtain ⟨_, _, _, r, m2, c1, c2, _⟩ := hv
    exact ⟨r, c1, ((ha r.2).1 c2).1, ((ha r.2).1 c2).2⟩
  · cases hgr : mx_setcfg_groups E r.2 (MX_LINE_CNT / 4) 0 0 with
    | none => exact absurd ((ha r.2).1 hgr) hn
    | some e =>
      obtain ⟨k, j, k1, k2, k3, _⟩ := hb r.2 e hgr
      refine ⟨e, 4 * k + j, by unfold MX_LINE_CNT; omega, k3, rfl, ?_⟩
      have hbody := ((((mx_cmd_setcfg_body_cases E threads data0 addr m w hs hu hget).2 h1).2
        (by rw [h2]; unfold MX_LINE_CNT at h3 ⊢; omega)).2 h2).2 h3
      rw [hbody, mx_setcfg_configure_groups E threads _ _ _ m r e hr hgr]

/-- Witness of C23: the lines of the configured channel `mx_one_line`, one
tape group and seven groups of type 0, pass the check. -/
theorem mx_setcfg_groups_check_witness :
    (∀ k, k < 8 → ∀ j, j < 4 →
      (mx_one_line.plines (4 * k + j)).type = (mx_one_line.plines (4 * k)).type) ∧
    mx_tape_groups multix mx_one_line 0 8 ≤ 1 :=
  ((mx_setcfg_groups_check multix (fun _ => true) (fun _ => 0) 16
    { mx_fresh 0 with state := MX5_INITIALIZED } bus_cfg (by decide) (by decide)
    (by decide)).1 mx_one_line).1 (by decide)

/-! ### Physical descriptions -/

set_option maxRecDepth 20000 in
/-- C37 (failing input): the header 0x2120 announces 33 physical descriptions
and 32 logical lines, so that `mx_cmd_setcfg` asks for 161 words, and where
that many words can be read it gets them, before it looks at the counts: one
word more than the 160 words of the local array `data`. The header 0xFFFF
asks for 1275 words. -/
theorem mx_cmd_setcfg_overflow :
    MX_LINE_CNT + 4 * MX_LINE_CNT = 160 ∧
    mx_phy_desc_count 0x2120 + 4 * mx_log_count 0x2120 = 161 ∧
    mx_phy_desc_count 0xFFFF + 4 * mx_log_count 0xFFFF = 1275 ∧
    mx_setcfg_header multix (fun _ => 0) 16 bus_big = 0x2120 ∧
    (mx_setcfg_descr multix (fun _ => 0) 16 bus_big).length = 161 ∧
    (mx_cmd_setcfg_body multix (fun _ => true) (fun _ => 0) 16
      { mx_fresh 0 with state := MX5_INITIALIZED } bus_big).isNone = true ∧
    (mx_cmd_setcfg multix (fun _ => true) (fun _ => 0) 16
      { mx_fresh 0 with state := MX5_INITIALIZED } bus_big).isNone = true := by
  decide

end Em400
